import Mathlib

/-!
FINS driver (FINSApp/src/FINS.c, FINS.h): shallow embedding.

The driver state `drvPvt`, the request builders `BuildReadMessage` and
`BuildWriteMessage`, the reply validator `CheckData` and the exchange
functions `finsRead` and `finsWrite` are transcribed from the C source.

Conventions of the embedding.

* A byte is a natural number below 256.  The scratch buffer
  `epicsUInt8 message[FINS_MAX_MSG]` is a `List Nat`; every store and every
  load reduces the value modulo 256, as the type `epicsUInt8` does.
* Pointer casts such as `(epicsUInt16 *) &message[RESP]` read and write the
  buffer in the byte order of the host, which is a parameter (`Host`), as is
  the width of `size_t`.
* The macros of FINS.h are functions on natural numbers built from the same
  masks and shifts.
* The asyn transport (`pasynOctetSyncIO->writeRead`,
  `pasynCommonSyncIO->disconnectDevice`) is an oracle together with a log of
  the calls made.  The response timers (`tMax`, `tMin`, `tLast`) are left out.
-/

namespace FINS

/-! ## FINS.h -/

def DM : Nat := 0x82
def IO_ : Nat := 0xB0
def WR : Nat := 0xB1
def HR : Nat := 0xB2
def AR : Nat := 0xB3

def ICF : Nat := 0
def RSV : Nat := 1
def GCT : Nat := 2
def DNA : Nat := 3
def DA1 : Nat := 4
def DA2 : Nat := 5
def SNA : Nat := 6
def SA1 : Nat := 7
def SA2 : Nat := 8
def SID : Nat := 9
def MRC : Nat := 10
def SRC : Nat := 11
def COM : Nat := 12
def MRES : Nat := 12
def SRES : Nat := 13
def RESP : Nat := 14

def COMMAND_DATA_OFFSET : Nat := 6

def FINS_MAX_UDP_WORDS : Nat := 950
def FINS_MAX_TCP_WORDS : Nat := FINS_MAX_UDP_WORDS
def FINS_MAX_HOST_WORDS : Nat := 268
def FINS_MAX_MSG : Nat := FINS_MAX_UDP_WORDS * 2 + 100
def FINS_GATEWAY : Nat := 0x02

def FINS_MODEL_LEN : Nat := 20
def FINS_CYCLE_TIME_LEN : Nat := 3
def FINS_CLOCK_READ_LEN : Nat := 7
def FINS_CPU_STATE_LEN : Nat := 26
def FINS_MM_MAX_ADDRS : Nat := 10

def FINS_TCP_HEADER : Nat := 0x46494E53
def FINS_MODE_HEADER : Nat := 0
def FINS_MODE_LENGTH : Nat := 1
def FINS_MODE_COMMAND : Nat := 2
def FINS_MODE_ERROR : Nat := 3
def FINS_MODE_CLIENT : Nat := 4

def FINS_SEND_FRAME_SIZE : Nat := 16
def FINS_MODE_SEND_SIZE : Nat := 20
def FINS_MODE_RECV_SIZE : Nat := 24

def FINS_NODE_CLIENT_COMMAND : Nat := 0
def FINS_NODE_SERVER_COMMAND : Nat := 1
def FINS_FRAME_SEND_COMMAND : Nat := 2

def FINS_ERROR_NORMAL : Nat := 0x00

/-- The value `asynSuccess` of the asyn status enumeration; every other
status makes the exchange fail. -/
def asynSuccess : Nat := 0

/-- Connection kinds: `enum { FINS_UDP_type, FINS_TCP_type, HOSTLINK_type }`. -/
inductive ConnType
  | FINS_UDP_type
  | FINS_TCP_type
  | HOSTLINK_type
  deriving DecidableEq, Repr

/-- Command identifiers: `enum FINS_COMMANDS`, in the order of FINS.h. -/
inductive FINS_COMMANDS
  | FINS_NULL
  | FINS_DM_READ | FINS_DM_WRITE | FINS_DM_WRITE_NOREAD
  | FINS_IO_READ | FINS_IO_WRITE | FINS_IO_WRITE_NOREAD
  | FINS_AR_READ | FINS_AR_WRITE | FINS_AR_WRITE_NOREAD
  | FINS_CT_READ | FINS_CT_WRITE | FINS_CT_WRITE_NOREAD
  | FINS_WR_READ
  | FINS_HR_READ
  | FINS_DM_READ_32 | FINS_DM_WRITE_32 | FINS_DM_WRITE_32_NOREAD
  | FINS_IO_READ_32 | FINS_IO_WRITE_32 | FINS_IO_WRITE_32_NOREAD
  | FINS_AR_READ_32 | FINS_AR_WRITE_32 | FINS_AR_WRITE_32_NOREAD
  | FINS_CT_READ_32 | FINS_CT_WRITE_32 | FINS_CT_WRITE_32_NOREAD
  | FINS_READ_MULTI
  | FINS_WRITE_MULTI
  | FINS_SET_MULTI_TYPE
  | FINS_SET_MULTI_ADDR
  | FINS_CLR_MULTI
  | FINS_MODEL
  | FINS_CPU_STATUS
  | FINS_CPU_MODE
  | FINS_CYCLE_TIME_RESET
  | FINS_CYCLE_TIME
  | FINS_CYCLE_TIME_MEAN
  | FINS_CYCLE_TIME_MAX
  | FINS_CYCLE_TIME_MIN
  | FINS_MONITOR
  | FINS_CLOCK_READ
  | FINS_SET_RESET_CANCEL
  | FINS_MM_READ
  | FINS_EXPLICIT
  deriving DecidableEq, Repr

open FINS_COMMANDS ConnType

/-- Byte order of the host, the two values `EPICS_BYTE_ORDER` can take. -/
inductive Endian
  | EPICS_ENDIAN_LITTLE
  | EPICS_ENDIAN_BIG
  deriving DecidableEq, Repr

open Endian

/-- The compilation target: its byte order (which selects the definitions of
`BSWAP16`, `BSWAP32` and `WSWAP32` in FINS.h) and the width of `size_t`. -/
structure Host where
  EPICS_BYTE_ORDER : Endian
  sizeBits : Nat
  deriving DecidableEq, Repr

/-- Reduction of an arithmetic result to the range of `size_t`. -/
def sizeT (h : Host) (x : Nat) : Nat := x % 2 ^ h.sizeBits

/-- `BESWAP32(a)`: `(((a) & 0x0000ffff) << 16) | (((a) & 0xffff0000) >> 16)`. -/
def BESWAP32 (a : Nat) : Nat :=
  ((a &&& 0x0000ffff) <<< 16) ||| ((a &&& 0xffff0000) >>> 16)

/-- `LESWAP32(a)`: `(((a) & 0x00ff00ff) << 8) | (((a) & 0xff00ff00) >> 8)`. -/
def LESWAP32 (a : Nat) : Nat :=
  ((a &&& 0x00ff00ff) <<< 8) ||| ((a &&& 0xff00ff00) >>> 8)

/-- `BSWAP16(a)`: a byte swap on a little-endian host, `(a)` otherwise. -/
def BSWAP16 (h : Host) (a : Nat) : Nat :=
  match h.EPICS_BYTE_ORDER with
  | EPICS_ENDIAN_LITTLE => ((a &&& 0x00ff) <<< 8) ||| ((a &&& 0xff00) >>> 8)
  | EPICS_ENDIAN_BIG => a

/-- The expression `(T) BSWAP16(a)` for an unsigned type `T` of `bits` bits.
The macro body has no outer parentheses, so on a little-endian host the cast
binds to the left operand of `|` only. -/
def castBSWAP16 (h : Host) (bits : Nat) (a : Nat) : Nat :=
  match h.EPICS_BYTE_ORDER with
  | EPICS_ENDIAN_LITTLE => (((a &&& 0x00ff) <<< 8) % 2 ^ bits) ||| ((a &&& 0xff00) >>> 8)
  | EPICS_ENDIAN_BIG => a % 2 ^ bits

/-- `BSWAP32(a)`: a byte reversal on a little-endian host, `(a)` otherwise. -/
def BSWAP32 (h : Host) (a : Nat) : Nat :=
  match h.EPICS_BYTE_ORDER with
  | EPICS_ENDIAN_LITTLE =>
      ((a &&& 0x000000ff) <<< 24) ||| ((a &&& 0x0000ff00) <<< 8)
        ||| ((a &&& 0x00ff0000) >>> 8) ||| ((a &&& 0xff000000) >>> 24)
  | EPICS_ENDIAN_BIG => a

/-- `WSWAP32`: `LESWAP32` on a little-endian host, `BESWAP32` otherwise. -/
def WSWAP32 (h : Host) (a : Nat) : Nat :=
  match h.EPICS_BYTE_ORDER with
  | EPICS_ENDIAN_LITTLE => LESWAP32 a
  | EPICS_ENDIAN_BIG => BESWAP32 a

/-! ## Byte buffers -/

/-- The byte `m[i]`, read as an `epicsUInt8`. -/
def getByte (m : List Nat) (i : Nat) : Nat := m.getD i 0 % 256

/-- The assignment `m[i] = v` to an `epicsUInt8` element. -/
def setByte (m : List Nat) (i v : Nat) : List Nat := m.set i (v % 256)

/-- The value of `((epicsUInt16 *) &m[off])[0]`. -/
def load16 (h : Host) (m : List Nat) (off : Nat) : Nat :=
  match h.EPICS_BYTE_ORDER with
  | EPICS_ENDIAN_LITTLE => getByte m off + 256 * getByte m (off + 1)
  | EPICS_ENDIAN_BIG => 256 * getByte m off + getByte m (off + 1)

/-- The assignment `((epicsUInt16 *) &m[off])[0] = v`. -/
def store16 (h : Host) (m : List Nat) (off v : Nat) : List Nat :=
  match h.EPICS_BYTE_ORDER with
  | EPICS_ENDIAN_LITTLE => setByte (setByte m off v) (off + 1) (v / 256)
  | EPICS_ENDIAN_BIG => setByte (setByte m off (v / 256)) (off + 1) v

/-- The value of `((epicsUInt32 *) &m[off])[0]`. -/
def load32 (h : Host) (m : List Nat) (off : Nat) : Nat :=
  match h.EPICS_BYTE_ORDER with
  | EPICS_ENDIAN_LITTLE =>
      getByte m off + 256 * getByte m (off + 1) + 65536 * getByte m (off + 2)
        + 16777216 * getByte m (off + 3)
  | EPICS_ENDIAN_BIG =>
      16777216 * getByte m off + 65536 * getByte m (off + 1) + 256 * getByte m (off + 2)
        + getByte m (off + 3)

/-- The assignment `((epicsUInt32 *) &m[off])[0] = v`. -/
def store32 (h : Host) (m : List Nat) (off v : Nat) : List Nat :=
  match h.EPICS_BYTE_ORDER with
  | EPICS_ENDIAN_LITTLE =>
      setByte (setByte (setByte (setByte m off v) (off + 1) (v / 256)) (off + 2) (v / 65536))
        (off + 3) (v / 16777216)
  | EPICS_ENDIAN_BIG =>
      setByte (setByte (setByte (setByte m off (v / 16777216)) (off + 1) (v / 65536))
        (off + 2) (v / 256)) (off + 3) v

/-! ## Driver state -/

/-- One entry of the multiple-memory list: `struct MultiMemArea`, the arrays
`area[10]` and `address[10]`. -/
structure MultiMemArea where
  area : List Nat
  address : List Nat
  deriving DecidableEq, Repr

/-- The fields of `struct drvPvt` the protocol engine uses. -/
structure drvPvt where
  type : ConnType
  nodevalid : Int
  dnode : Nat
  snode : Nat
  sid : Nat
  mrc : Nat
  src : Nat
  message : List Nat
  deriving DecidableEq, Repr

/-- A driver state whose fields are in the range of their C types and whose
scratch buffer has its declared size. -/
def drvPvt.wf (p : drvPvt) : Prop :=
  p.dnode < 256 ∧ p.snode < 256 ∧ p.sid < 256 ∧ p.mrc < 256 ∧ p.src < 256 ∧
    p.message.length = FINS_MAX_MSG ∧ ∀ b ∈ p.message, b < 256

/-- The scratch buffer replaced by `m`. -/
def drvPvt.setMessage (p : drvPvt) (m : List Nat) : drvPvt :=
  { p with message := m }

/-- The assignments `pdrvPvt->mrc = mrc` and `pdrvPvt->src = src`. -/
def drvPvt.setCodes (p : drvPvt) (mrc src : Nat) : drvPvt :=
  { p with mrc := mrc, src := src }

/-- The assignment of `sid` to `pdrvPvt->sid`. -/
def drvPvt.setSid (p : drvPvt) (sid : Nat) : drvPvt :=
  { p with sid := sid }

/-- The assignments `pdrvPvt->nodevalid = 1` and `pdrvPvt->snode = snode`. -/
def drvPvt.setNode (p : drvPvt) (snode : Nat) : drvPvt :=
  { p with nodevalid := 1, snode := snode }

/-- The same session on a connection of kind `t`. -/
def drvPvt.setType (p : drvPvt) (t : ConnType) : drvPvt :=
  { p with type := t }

/-- The assignment `pdrvPvt->message[i] = v`. -/
def drvPvt.put (p : drvPvt) (i v : Nat) : drvPvt :=
  p.setMessage (setByte p.message i v)

/-! ## Transport oracle -/

/-- What one call of `pasynOctetSyncIO->writeRead` returns: the status, the
number of bytes sent and received, and the bytes placed in the read buffer. -/
structure WriteReadResult where
  status : Nat
  sentlen : Nat
  recdlen : Nat
  reply : List Nat
  deriving DecidableEq, Repr

/-- The calls made to the asyn layer. -/
inductive IOEvent
  | writeRead (request : List Nat) (sendlen recvlen : Nat)
  | disconnectDevice
  deriving DecidableEq, Repr

/-- The transport: the earlier calls and the current request (bytes to send,
send length, maximal receive length) determine the result. -/
abbrev Transport := List IOEvent → List Nat → Nat → Nat → WriteReadResult

/-- The read buffer of `writeRead` is the scratch buffer itself: the bytes
received overwrite its beginning. -/
def receive (m : List Nat) (reply : List Nat) : List Nat :=
  ((reply.map (· % 256)) ++ m.drop reply.length).take m.length

/-! ## FINS.c: message construction -/

/-- External EPICS list routine `ellNth(list, nodeNum)`: the node at the
1-based position `nodeNum`, or `NULL` (here `none`) when there is none. -/
def ellNth {α : Type} (l : List α) (nodeNum : Nat) : Option α :=
  if nodeNum = 0 then none else l.get? (nodeNum - 1)

/-- `AddCommand`: the FINS/TCP frame header written over the first four
32-bit words of the scratch buffer. -/
def AddCommand (h : Host) (pdrvPvt : drvPvt) (sendlen command : Nat) : drvPvt :=
  let m := pdrvPvt.message
  let m := store32 h m (4 * FINS_MODE_HEADER) (BSWAP32 h FINS_TCP_HEADER)
  let m := store32 h m (4 * FINS_MODE_COMMAND) (BSWAP32 h command)
  let m := store32 h m (4 * FINS_MODE_ERROR) (BSWAP32 h 0x00000000)
  let m :=
    if command = FINS_NODE_CLIENT_COMMAND then
      store32 h m (4 * FINS_MODE_LENGTH) (BSWAP32 h 0x0C)
    else
      store32 h m (4 * FINS_MODE_LENGTH) (BSWAP32 h (sizeT h (sendlen + 8)))
  pdrvPvt.setMessage m

/-- `InitHeader`: the standard FINS header, bytes `ICF` to `SA2`. -/
def InitHeader (pdrvPvt : drvPvt) : drvPvt :=
  let p := pdrvPvt.put ICF 0x80
  let p := p.put RSV 0x00
  let p := p.put GCT FINS_GATEWAY
  let p := p.put DNA 0x00
  let p := p.put DA1 p.dnode
  let p := p.put DA2 0x00
  let p := p.put SNA 0x00
  let p := p.put SA1 p.snode
  let p := p.put SA2 0x00
  p

/-- `InitAddrSize`: address, zero bit offset and number of 16-bit words.
The parameters `address` and `nelements` have type `epicsUInt16`; the product
`nelements * asynSize` is evaluated in `size_t`. -/
def InitAddrSize (h : Host) (pdrvPvt : drvPvt) (address nelements asynSize : Nat) : drvPvt :=
  let address := address % 65536
  let nelements := nelements % 65536
  let p := pdrvPvt.put (COM + 1) (address >>> 8)
  let p := p.put (COM + 2) (address &&& 0xff)
  let p := p.put (COM + 3) 0x00
  let p := p.put (COM + 4) ((sizeT h (nelements * asynSize) / 2) >>> 8)
  let p := p.put (COM + 5) ((sizeT h (nelements * asynSize) / 2) &&& 0xff)
  p

/-- What a builder does: it returns 0 with the two lengths, it returns -1, or
it dereferences an invalid pointer (`fault`), in which case there is no
result. -/
inductive BuildResult
  | ok (p : drvPvt) (sendlen recvlen : Nat)
  | err (p : drvPvt)
  | fault
  deriving DecidableEq, Repr

/-- The loop of the `FINS_MM_READ` case of `BuildReadMessage`,
`for (i = 0; (i < nelements) && (MM->area[i]); i++)`, started at `i` with
`fuel` iterations left to try; it yields the final `i` and the buffer.  An
index outside `area[10]` or `address[10]` is a fault. -/
def mmLoop (MM : MultiMemArea) (nelements : Nat) : Nat → Nat → drvPvt → Option (Nat × drvPvt)
  | 0, i, p => some (i, p)
  | fuel + 1, i, p =>
    if i < nelements then
      match MM.area.get? i, MM.address.get? i with
      | some area, some addr =>
        if area ≠ 0 then
          let p := p.put (COM + 4 * i + 0) area
          let p := p.put (COM + 4 * i + 1) (addr >>> 8)
          let p := p.put (COM + 4 * i + 2) (addr &&& 0xff)
          let p := p.put (COM + 4 * i + 3) 0x00
          mmLoop MM nelements fuel (i + 1) p
        else some (i, p)
      | some area, none => if area ≠ 0 then none else some (i, p)
      | none, _ => none
    else some (i, p)

/-- The common tail of `BuildReadMessage` and `BuildWriteMessage`: command
codes and incremented session id are stored, and on a TCP connection the frame
is moved up by `FINS_SEND_FRAME_SIZE` bytes and the FINS/TCP header is put in
front of it. -/
def finishMessage (h : Host) (pdrvPvt : drvPvt) (sendlen recvlen : Nat) : BuildResult :=
  let p := pdrvPvt.put MRC pdrvPvt.mrc
  let p := p.put SRC p.src
  let p := p.setSid ((p.sid + 1) % 256)
  let p := p.put SID p.sid
  if p.type = FINS_TCP_type then
    let p := p.setMessage (p.message.take FINS_SEND_FRAME_SIZE
      ++ p.message.take (FINS_MAX_MSG - FINS_SEND_FRAME_SIZE))
    let p := AddCommand h p sendlen FINS_FRAME_SEND_COMMAND
    BuildResult.ok p (sizeT h (sendlen + FINS_SEND_FRAME_SIZE)) (sizeT h (recvlen + FINS_SEND_FRAME_SIZE))
  else
    BuildResult.ok p sendlen recvlen

/-- The `switch (pasynUser->reason)` of `BuildReadMessage`: command codes,
command payload and the two lengths, with the global list `mmList` as a
parameter. -/
def readSwitch (h : Host) (mmList : List MultiMemArea) (p : drvPvt)
    (reason : FINS_COMMANDS) (address nelements : Nat) : BuildResult :=
  match reason with
  | FINS_DM_READ | FINS_AR_READ | FINS_IO_READ | FINS_WR_READ | FINS_HR_READ
  | FINS_DM_WRITE | FINS_AR_WRITE | FINS_IO_WRITE =>
    let p := p.setCodes 0x01 0x01
    let area : Option Nat :=
      match reason with
      | FINS_DM_READ | FINS_DM_WRITE => some DM
      | FINS_AR_READ | FINS_AR_WRITE => some AR
      | FINS_IO_READ | FINS_IO_WRITE => some IO_
      | FINS_WR_READ => some WR
      | FINS_HR_READ => some HR
      | _ => none
    match area with
    | none => BuildResult.err p
    | some a =>
      let p := p.put COM a
      let p := InitAddrSize h p address nelements 2
      BuildResult.ok p (COM + COMMAND_DATA_OFFSET) (sizeT h (RESP + sizeT h (2 * nelements)))
  | FINS_DM_READ_32 | FINS_AR_READ_32 | FINS_IO_READ_32
  | FINS_DM_WRITE_32 | FINS_AR_WRITE_32 | FINS_IO_WRITE_32 =>
    let p := p.setCodes 0x01 0x01
    let area : Option Nat :=
      match reason with
      | FINS_DM_READ_32 | FINS_DM_WRITE_32 => some DM
      | FINS_AR_READ_32 | FINS_AR_WRITE_32 => some AR
      | FINS_IO_READ_32 | FINS_IO_WRITE_32 => some IO_
      | _ => none
    match area with
    | none => BuildResult.err p
    | some a =>
      let p := p.put COM a
      let p := InitAddrSize h p address nelements 4
      BuildResult.ok p (COM + COMMAND_DATA_OFFSET) (sizeT h (RESP + sizeT h (4 * nelements)))
  | FINS_MODEL =>
    let p := p.setCodes 0x05 0x02
    let p := p.put (COM + 0) (address &&& 0xff)
    let p := p.put (COM + 1) 1
    BuildResult.ok p (COM + 2) (RESP + 2 + FINS_MODEL_LEN)
  | FINS_CPU_STATUS | FINS_CPU_MODE =>
    let p := p.setCodes 0x06 0x01
    BuildResult.ok p COM (RESP + FINS_CPU_STATE_LEN)
  | FINS_CYCLE_TIME | FINS_CYCLE_TIME_MEAN | FINS_CYCLE_TIME_MAX | FINS_CYCLE_TIME_MIN =>
    let p := p.setCodes 0x06 0x20
    let p := p.put COM 0x01
    BuildResult.ok p (COM + 1) (RESP + FINS_CYCLE_TIME_LEN * 4)
  | FINS_CLOCK_READ =>
    let p := p.setCodes 0x07 0x01
    BuildResult.ok p COM (RESP + FINS_CLOCK_READ_LEN * 1)
  | FINS_MM_READ =>
    let p := p.setCodes 0x01 0x04
    match ellNth mmList (sizeT h (address + 1)) with
    | none => if 0 < nelements then BuildResult.fault else BuildResult.ok p (COM + 4 * 0) (RESP + 3 * 0)
    | some MM =>
      match mmLoop MM nelements nelements 0 p with
      | none => BuildResult.fault
      | some (i, p) => BuildResult.ok p (COM + 4 * i) (RESP + 3 * i)
  | _ => BuildResult.err p

/-- `BuildReadMessage`: header, switch, then the common tail. -/
def BuildReadMessage (h : Host) (mmList : List MultiMemArea) (pdrvPvt : drvPvt)
    (reason : FINS_COMMANDS) (address nelements : Nat) : BuildResult :=
  match readSwitch h mmList (InitHeader pdrvPvt) reason address nelements with
  | BuildResult.ok p sendlen recvlen => finishMessage h p sendlen recvlen
  | BuildResult.err p => BuildResult.err p
  | BuildResult.fault => BuildResult.fault

/-- The loop `for (i = 0; i < nelements; i++) ptrd[i] = BSWAP16(ptrs[i])` of
`BuildWriteMessage`, with `ptrd` the 16-bit words after the address field and
`ptrs` the caller's array of elements of `srcBits` bits (for 32-bit elements
the source is `(epicsUInt16) ptrs[i]`). -/
def writeWords16 (h : Host) (data : List Nat) (srcBits nelements : Nat) (p : drvPvt) : drvPvt :=
  (List.range nelements).foldl (fun q i =>
    q.setMessage (store16 h q.message (COM + COMMAND_DATA_OFFSET + 2 * i)
      (BSWAP16 h ((data.getD i 0 % 2 ^ srcBits) % 2 ^ 16)))) p

/-- The loop `for (i = 0; i < nelements; i++) ptrd[i] = WSWAP32(ptrs[i])` of
`BuildWriteMessage`, with `ptrd` the 32-bit words after the address field.
The loop is rendered as long as its stores lie inside the scratch buffer
(`18 + 4 * nelements` at most `FINS_MAX_MSG`) and its loads inside the
caller's array; beyond that the C loop runs off the arrays, which the lists
here do not show (a store behind the end of a list is dropped, an element
behind the end of `data` reads as 0). -/
def writeWords32 (h : Host) (data : List Nat) (nelements : Nat) (p : drvPvt) : drvPvt :=
  (List.range nelements).foldl (fun q i =>
    q.setMessage (store32 h q.message (COM + COMMAND_DATA_OFFSET + 4 * i)
      (WSWAP32 h (data.getD i 0 % 2 ^ 32)))) p

/-- The `switch (pasynUser->reason)` of `BuildWriteMessage`: command codes,
command payload with the `nelements` values of `data` (elements `asynSize`
bytes wide) and the two lengths. -/
def writeSwitch (h : Host) (p : drvPvt) (reason : FINS_COMMANDS)
    (address nelements asynSize : Nat) (data : List Nat) : BuildResult :=
  match reason with
  | FINS_DM_WRITE | FINS_DM_WRITE_NOREAD | FINS_AR_WRITE | FINS_AR_WRITE_NOREAD
  | FINS_IO_WRITE | FINS_IO_WRITE_NOREAD =>
    let p := p.setCodes 0x01 0x02
    let area : Option Nat :=
      match reason with
      | FINS_DM_WRITE | FINS_DM_WRITE_NOREAD => some DM
      | FINS_AR_WRITE | FINS_AR_WRITE_NOREAD => some AR
      | FINS_IO_WRITE | FINS_IO_WRITE_NOREAD => some IO_
      | _ => none
    match area with
    | none => BuildResult.err p
    | some a =>
      let p := p.put COM a
      let p := InitAddrSize h p address nelements 2
      let p :=
        if asynSize = 2 then
          writeWords16 h data 16 nelements p
        else
          writeWords16 h data 32 nelements p
      BuildResult.ok p (sizeT h (COM + COMMAND_DATA_OFFSET + sizeT h (nelements * 2))) (RESP + 0)
  | FINS_DM_WRITE_32 | FINS_DM_WRITE_32_NOREAD | FINS_AR_WRITE_32 | FINS_AR_WRITE_32_NOREAD
  | FINS_IO_WRITE_32 | FINS_IO_WRITE_32_NOREAD =>
    let p := p.setCodes 0x01 0x02
    let area : Option Nat :=
      match reason with
      | FINS_DM_WRITE_32 | FINS_DM_WRITE_32_NOREAD => some DM
      | FINS_AR_WRITE_32 | FINS_AR_WRITE_32_NOREAD => some AR
      | FINS_IO_WRITE_32 | FINS_IO_WRITE_32_NOREAD => some IO_
      | _ => none
    match area with
    | none => BuildResult.err p
    | some a =>
      let p := p.put COM a
      let p := InitAddrSize h p address nelements 4
      let p :=
        writeWords32 h data nelements p
      BuildResult.ok p (sizeT h (COM + COMMAND_DATA_OFFSET + sizeT h (nelements * 4))) (RESP + 0)
  | FINS_CYCLE_TIME_RESET =>
    let p := p.setCodes 0x06 0x20
    let p := p.put COM 0x00
    BuildResult.ok p (COM + 1) (RESP + 0)
  | FINS_SET_RESET_CANCEL =>
    let p := p.setCodes 0x23 0x02
    BuildResult.ok p (COM + 0) (RESP + 0)
  | _ => BuildResult.err p

/-- `BuildWriteMessage`: header, switch, then the common tail. -/
def BuildWriteMessage (h : Host) (pdrvPvt : drvPvt) (reason : FINS_COMMANDS)
    (address nelements asynSize : Nat) (data : List Nat) : BuildResult :=
  match writeSwitch h (InitHeader pdrvPvt) reason address nelements asynSize data with
  | BuildResult.ok p sendlen recvlen => finishMessage h p sendlen recvlen
  | BuildResult.err p => BuildResult.err p
  | BuildResult.fault => BuildResult.fault

/-! ## FINS.c: reply validation -/

/-- `CheckData`: response codes, session id, command codes and node
addresses of the reply in the scratch buffer; 0 when all match, -1 otherwise. -/
def CheckData (pdrvPvt : drvPvt) : Int :=
  if getByte pdrvPvt.message MRES ≠ 0x00 ∨ getByte pdrvPvt.message SRES ≠ 0x00 then -1
  else if pdrvPvt.sid ≠ getByte pdrvPvt.message SID then -1
  else if getByte pdrvPvt.message MRC ≠ pdrvPvt.mrc ∨ getByte pdrvPvt.message SRC ≠ pdrvPvt.src then -1
  else if getByte pdrvPvt.message DA1 ≠ pdrvPvt.snode ∨ getByte pdrvPvt.message SA1 ≠ pdrvPvt.dnode then -1
  else 0

/-! ## FINS.c: exchanges -/

/-- `FINSnodeRequest`: the FINS/TCP node address handshake.  It yields the
return value, the new driver state and the extended log. -/
def FINSnodeRequest (h : Host) (tr : Transport) (pdrvPvt : drvPvt) (log : List IOEvent) :
    Int × drvPvt × List IOEvent :=
  let p := AddCommand h pdrvPvt 0 FINS_NODE_CLIENT_COMMAND
  let request := p.message.take FINS_MODE_SEND_SIZE
  let r := tr log request FINS_MODE_SEND_SIZE FINS_MODE_RECV_SIZE
  let log := log ++ [IOEvent.writeRead request FINS_MODE_SEND_SIZE FINS_MODE_RECV_SIZE]
  let m := receive p.message (r.reply.take FINS_MODE_RECV_SIZE)
  let m := store32 h m (4 * FINS_MODE_COMMAND) (BSWAP32 h (load32 h m (4 * FINS_MODE_COMMAND)))
  let m := store32 h m (4 * FINS_MODE_ERROR) (BSWAP32 h (load32 h m (4 * FINS_MODE_ERROR)))
  let m := store32 h m (4 * FINS_MODE_CLIENT) (BSWAP32 h (load32 h m (4 * FINS_MODE_CLIENT)))
  let p := p.setMessage m
  if r.status = asynSuccess ∧ load32 h m (4 * FINS_MODE_COMMAND) = FINS_NODE_SERVER_COMMAND
      ∧ load32 h m (4 * FINS_MODE_ERROR) = 0 then
    (0, p.setNode (load32 h m (4 * FINS_MODE_CLIENT) % 256), log)
  else
    (-1, p, log ++ [IOEvent.disconnectDevice])

/-- The result of `finsRead`: return value, driver state, log of transport
calls, the caller's array and the value of `*transferred`. -/
structure ReadResult where
  ret : Int
  pvt : drvPvt
  log : List IOEvent
  data : List Nat
  transferred : Nat
  deriving DecidableEq, Repr

/-- The value an `epicsInt8` byte takes when assigned to an `epicsInt16`
element, as a 16-bit pattern (sign extension; `epicsInt8` is the signed 8-bit
type of EPICS, as on every host where plain `char` is signed). -/
def int8To16 (b : Nat) : Nat := if b % 256 < 128 then b % 256 else 0xFF00 + b % 256

/-- A loop `for (i = 0; i < nelements; i++) ptrd[i] = f(i)` over the caller's
array. -/
def assignLoop (f : Nat → Nat) (nelements : Nat) (data : List Nat) : List Nat :=
  (List.range nelements).foldl (fun d i => d.set i (f i)) data

/-- The `extract data` switch of `finsRead`: the caller's array after the
values of the validated reply in `m` have been stored, or `none` for the
`default` branch.  A load behind the end of `m` reads as 0, where the C code
reads what follows the scratch buffer in memory; for `FINS_MODEL` that
happens when more than 1984 characters are asked for. -/
def extractData (h : Host) (m : List Nat) (reason : FINS_COMMANDS) (data : List Nat)
    (nelements asynSize : Nat) : Option (List Nat) :=
  match reason with
  | FINS_DM_READ | FINS_AR_READ | FINS_IO_READ | FINS_WR_READ | FINS_HR_READ
  | FINS_DM_WRITE | FINS_AR_WRITE | FINS_IO_WRITE =>
    if asynSize = 2 then
      some (assignLoop (fun i => castBSWAP16 h 16 (load16 h m (RESP + 2 * i)) % 2 ^ 16) nelements data)
    else
      some (assignLoop (fun i => castBSWAP16 h 32 (load16 h m (RESP + 2 * i)) % 2 ^ 32) nelements data)
  | FINS_DM_READ_32 | FINS_AR_READ_32 | FINS_IO_READ_32
  | FINS_DM_WRITE_32 | FINS_AR_WRITE_32 | FINS_IO_WRITE_32 =>
    some (assignLoop (fun i => WSWAP32 h (load32 h m (RESP + 4 * i)) % 2 ^ 32) nelements data)
  | FINS_MODEL =>
    some (assignLoop (fun i => getByte m (RESP + 2 + i)) nelements data)
  | FINS_CPU_STATUS => some (data.set 0 (getByte m (RESP + 0)))
  | FINS_CPU_MODE => some (data.set 0 (getByte m (RESP + 1)))
  | FINS_CYCLE_TIME =>
    some (assignLoop (fun i => BSWAP32 h (load32 h m (RESP + 0 + 4 * i)) % 2 ^ 32) nelements data)
  | FINS_CYCLE_TIME_MEAN => some (data.set 0 (BSWAP32 h (load32 h m (RESP + 0)) % 2 ^ 32))
  | FINS_CYCLE_TIME_MAX => some (data.set 0 (BSWAP32 h (load32 h m (RESP + 4)) % 2 ^ 32))
  | FINS_CYCLE_TIME_MIN => some (data.set 0 (BSWAP32 h (load32 h m (RESP + 8)) % 2 ^ 32))
  | FINS_CLOCK_READ =>
    some (assignLoop (fun i => int8To16 (getByte m (RESP + 0 + i))) nelements data)
  | FINS_MM_READ =>
    some (assignLoop (fun i => castBSWAP16 h 16 (load16 h m (RESP + 3 * i + 1)) % 2 ^ 16) nelements data)
  | _ => none

/-- The part of `finsRead` that follows a successful build: one `writeRead`
with the scratch buffer as request and as read buffer, status and length
checks, FINS/TCP header check and removal, `CheckData`, extraction. -/
def readExchange (h : Host) (tr : Transport) (p : drvPvt) (log : List IOEvent)
    (reason : FINS_COMMANDS) (data : List Nat) (nelements transferred asynSize : Nat)
    (sendlen recvlen : Nat) : ReadResult :=
  let request := p.message.take sendlen
  let r := tr log request sendlen recvlen
  let log := log ++ [IOEvent.writeRead request sendlen recvlen]
  let p := p.setMessage (receive p.message (r.reply.take recvlen))
  if r.status ≠ asynSuccess then ⟨-1, p, log, data, transferred⟩
  else if r.sentlen ≠ sendlen then ⟨-1, p, log, data, transferred⟩
  else if r.recdlen ≠ recvlen then ⟨-1, p, log, data, transferred⟩
  else
    let ferror := BSWAP32 h (load32 h p.message (4 * FINS_MODE_ERROR))
    if p.type = FINS_TCP_type ∧ ferror ≠ FINS_ERROR_NORMAL then
      ⟨-1, p, log ++ [IOEvent.disconnectDevice], data, transferred⟩
    else
      let p :=
        if p.type = FINS_TCP_type then
          p.setMessage (p.message.drop FINS_SEND_FRAME_SIZE
            ++ p.message.drop (FINS_MAX_MSG - FINS_SEND_FRAME_SIZE))
        else p
      if CheckData p < 0 then ⟨-1, p, log, data, transferred⟩
      else
        match extractData h p.message reason data nelements asynSize with
        | none => ⟨-1, p, log, data, transferred⟩
        | some d => ⟨0, p, log, d, nelements⟩

/-- `finsRead`: nothing to do for no elements; otherwise handshake if the
TCP node address is not valid, build, then the exchange.  `none` stands for a
fault inside `BuildReadMessage`. -/
def finsRead (h : Host) (tr : Transport) (mmList : List MultiMemArea) (pdrvPvt : drvPvt)
    (log : List IOEvent) (reason : FINS_COMMANDS) (data : List Nat)
    (nelements address transferred asynSize : Nat) : Option ReadResult :=
  let address := address % 65536
  if nelements < 1 then
    some ⟨0, pdrvPvt, log, data, transferred⟩
  else
    let hs : Int × drvPvt × List IOEvent :=
      if pdrvPvt.type = FINS_TCP_type ∧ pdrvPvt.nodevalid ≠ 1 then
        FINSnodeRequest h tr pdrvPvt log
      else (0, pdrvPvt, log)
    if hs.1 < 0 then
      some ⟨-1, hs.2.1, hs.2.2, data, transferred⟩
    else
      match BuildReadMessage h mmList hs.2.1 reason address nelements with
      | BuildResult.fault => none
      | BuildResult.err p => some ⟨-1, p, hs.2.2, data, transferred⟩
      | BuildResult.ok p sendlen recvlen =>
        some (readExchange h tr p hs.2.2 reason data nelements transferred asynSize
          sendlen recvlen)

/-- The result of `finsWrite`: return value, driver state and log. -/
structure WriteResult where
  ret : Int
  pvt : drvPvt
  log : List IOEvent
  deriving DecidableEq, Repr

/-- The part of `finsWrite` that follows the build: one `writeRead`, status
and length checks, FINS/TCP header check and removal, `CheckData`. -/
def writeExchange (h : Host) (tr : Transport) (p : drvPvt) (log : List IOEvent)
    (sendlen recvlen : Nat) : WriteResult :=
  let request := p.message.take sendlen
  let r := tr log request sendlen recvlen
  let log := log ++ [IOEvent.writeRead request sendlen recvlen]
  let p := p.setMessage (receive p.message (r.reply.take recvlen))
  if r.status ≠ asynSuccess then ⟨-1, p, log⟩
  else if r.sentlen ≠ sendlen then ⟨-1, p, log⟩
  else if r.recdlen ≠ recvlen then ⟨-1, p, log⟩
  else
    let ferror := BSWAP32 h (load32 h p.message (4 * FINS_MODE_ERROR))
    if p.type = FINS_TCP_type ∧ ferror ≠ FINS_ERROR_NORMAL then
      ⟨-1, p, log ++ [IOEvent.disconnectDevice]⟩
    else
      let p :=
        if p.type = FINS_TCP_type then
          p.setMessage (p.message.drop FINS_SEND_FRAME_SIZE
            ++ p.message.drop (FINS_MAX_MSG - FINS_SEND_FRAME_SIZE))
        else p
      if CheckData p < 0 then ⟨-1, p, log⟩
      else ⟨0, p, log⟩

/-- `finsWrite`: handshake if the TCP node address is not valid, build, then
the exchange.  The return value of `BuildWriteMessage` is not tested, so
after a failed build the two lengths keep their initial value 0. -/
def finsWrite (h : Host) (tr : Transport) (pdrvPvt : drvPvt) (log : List IOEvent)
    (reason : FINS_COMMANDS) (data : List Nat) (nelements address asynSize : Nat) :
    Option WriteResult :=
  let address := address % 65536
  let hs : Int × drvPvt × List IOEvent :=
    if pdrvPvt.type = FINS_TCP_type ∧ pdrvPvt.nodevalid ≠ 1 then
      FINSnodeRequest h tr pdrvPvt log
    else (0, pdrvPvt, log)
  if hs.1 < 0 then
    some ⟨-1, hs.2.1, hs.2.2⟩
  else
    match BuildWriteMessage h hs.2.1 reason address nelements asynSize data with
    | BuildResult.fault => none
    | BuildResult.err p => some (writeExchange h tr p hs.2.2 0 0)
    | BuildResult.ok p sendlen recvlen => some (writeExchange h tr p hs.2.2 sendlen recvlen)

/-! ## Sequences of requests -/

/-- One call of a builder with its arguments. -/
inductive BuildCall
  | read (mmList : List MultiMemArea) (reason : FINS_COMMANDS) (address nelements : Nat)
  | write (reason : FINS_COMMANDS) (address nelements asynSize : Nat) (data : List Nat)
  deriving DecidableEq, Repr

/-- The builder call `c` made in the state `p`. -/
def BuildCall.run (h : Host) (p : drvPvt) : BuildCall → BuildResult
  | BuildCall.read mmList reason address nelements =>
      BuildReadMessage h mmList p reason address nelements
  | BuildCall.write reason address nelements asynSize data =>
      BuildWriteMessage h p reason address nelements asynSize data

/-- Consecutive exchanges on one session: every call builds in the state the
previous one left, after the reply of that exchange has overwritten the
scratch buffer.  The result lists the state right after each build; it is
`none` as soon as a build does not succeed. -/
def buildSeq (h : Host) (p : drvPvt) : List (BuildCall × List Nat) → Option (List drvPvt)
  | [] => some []
  | (c, reply) :: rest =>
    match c.run h p with
    | BuildResult.ok p' _ _ =>
      (buildSeq h (p'.setMessage (receive p'.message reply)) rest).map (fun ps => p' :: ps)
    | _ => none

/-! ## Sample data -/

/-- A little-endian host with a 64-bit `size_t`. -/
def hostLE : Host := ⟨EPICS_ENDIAN_LITTLE, 64⟩

/-- A big-endian host with a 32-bit `size_t`. -/
def hostBE : Host := ⟨EPICS_ENDIAN_BIG, 32⟩

/-- A transport that answers every request with the bytes `reply` and reports
the lengths it was asked for. -/
def replyTransport (reply : List Nat) : Transport :=
  fun _ _ sendlen recvlen => ⟨asynSuccess, sendlen, recvlen, reply⟩

/-- A transport on which every `writeRead` fails with `asynError`. -/
def deadTransport : Transport :=
  fun _ _ _ _ => ⟨3, 0, 0, []⟩

/-- The header of the reply the PLC at node 108 sends to node 254 for a
memory read with session id 4: response codes 00 00. -/
def replyHeader : List Nat :=
  [0xC0, 0x00, 0x02, 0x00, 254, 0x00, 0x00, 108, 0x00, 4, 0x01, 0x01, 0x00, 0x00]

/-- A session of kind `t` from node 254 to node 108 whose last session id was
3, with a cleared scratch buffer. -/
def session0 (t : ConnType) : drvPvt :=
  ⟨t, 1, 108, 254, 3, 0, 0, List.replicate FINS_MAX_MSG 0⟩

/-! ## asyn constants used by the interface functions -/

/-- The value `asynError` of the asyn status enumeration (`asynSuccess`,
`asynTimeout`, `asynOverflow`, `asynError`, ..., the order of
`asynStatusMessages` in FINS.h). -/
def asynError : Nat := 3

/-- The value `asynExceptionConnect`, the first of the asyn exception
enumeration. -/
def asynExceptionConnect : Nat := 0

/-- The flag `ASYN_EOM_END` of asynOctet. -/
def ASYN_EOM_END : Nat := 0x0004

def ONE_ELEMENT : Nat := 1

/-! ## FINS.c: connection management -/

/-- The assignment of `v` to `pdrvPvt->nodevalid`. -/
def drvPvt.setNodevalid (p : drvPvt) (v : Int) : drvPvt :=
  { p with nodevalid := v }

/-- `exceptCallback`: on a connect exception that reports the port as
disconnected (`isConnected` yields `connected = 0`) the node address is
marked invalid. -/
def exceptCallback (pdrvPvt : drvPvt) (exception : Nat) (connected : Int) : drvPvt :=
  if exception ≠ asynExceptionConnect then pdrvPvt
  else if connected = 0 then pdrvPvt.setNodevalid 0
  else pdrvPvt

/-! ## FINS.c: error reports -/

/-- The conversion `%02x` of a byte. -/
def hex2 (b : Nat) : String :=
  String.mk [Nat.digitChar (b / 16 % 16), Nat.digitChar (b % 16)]

def error01 : String := "Local node error"
def error02 : String := "Destination node error"
def error03 : String := "Communications controller error"
def error04 : String := "Not executable"
def error05 : String := "Routing error"
def error10 : String := "Command format error"
def error11 : String := "Parameter error"
def error20 : String := "Read not possible"
def error21 : String := "Write not possible"
def error22 : String := "Not executable in current mode"
def error23 : String := "No unit"
def error24 : String := "Start/Stop not possible"
def error25 : String := "Unit error"
def error26 : String := "Command error"
def error30 : String := "Access rights error"
def error40 : String := "Abort error"

/-- The message `"%s: port %s, %s 0x%02x\n"` printed for a named error; the
format of case `0x24` reads `"%s: port %s, %se 0x%02x\n"`, which is the
`extra` text. -/
def errorLine (name port text extra : String) (sres : Nat) : String :=
  name ++ ": port " ++ port ++ ", " ++ text ++ extra ++ " 0x" ++ hex2 sres ++ "\n"

/-- The `switch (mres)` of `FINSerror`: the one message it prints. -/
def FINSerrorSwitch (name port : String) (mres sres : Nat) : String :=
  match mres with
  | 0x01 => errorLine name port error01 "" sres
  | 0x02 => errorLine name port error02 "" sres
  | 0x03 => errorLine name port error03 "" sres
  | 0x04 => errorLine name port error04 "" sres
  | 0x05 => errorLine name port error05 "" sres
  | 0x10 => errorLine name port error10 "" sres
  | 0x11 => errorLine name port error11 "" sres
  | 0x20 => errorLine name port error20 "" sres
  | 0x21 => errorLine name port error21 "" sres
  | 0x22 => errorLine name port error22 "" sres
  | 0x23 => errorLine name port error23 "" sres
  | 0x24 => errorLine name port error24 "e" sres
  | 0x25 => errorLine name port error25 "" sres
  | 0x26 => errorLine name port error26 "" sres
  | 0x30 => errorLine name port error30 "" sres
  | 0x40 => errorLine name port error40 "" sres
  | _ => name ++ ": port " ++ port ++ ", Error 0x" ++ hex2 mres ++ "/0x" ++ hex2 sres ++ "\n"

/-- `FINSerror`: the messages printed for the response codes `mres`, `sres`
(both `unsigned char`), in order.  With the relay error flag set the function
first reports the flag and calls itself for `mres ^ 0x80`, then goes on to its
own `switch (mres)`. -/
def FINSerror (name port : String) (mres sres : Nat) : List String :=
  (if h : mres &&& 0x80 ≠ 0 then
    (name ++ ": port " ++ port ++ ", Relay Error Flag\n")
      :: FINSerror name port ((mres ^^^ 0x80) % 256) sres
  else []) ++ [FINSerrorSwitch name port mres sres]
termination_by mres &&& 0x80
decreasing_by
  have e1 : mres &&& 0x80 = (mres.testBit 7).toNat * 2 ^ 7 := Nat.and_two_pow mres 7
  have e2 : ((mres ^^^ 0x80) % 256) &&& 0x80
      = (((mres ^^^ 0x80) % 256).testBit 7).toNat * 2 ^ 7 := Nat.and_two_pow _ 7
  have e3 : ((mres ^^^ 0x80) % 256).testBit 7 = !(mres.testBit 7) := by
    rw [show (256 : Nat) = 2 ^ 8 by norm_num, Nat.testBit_mod_two_pow, Nat.testBit_xor]
    have : (0x80 : Nat).testBit 7 = true := by decide
    simp [this]
  rw [e2, e3]
  rw [e1] at h ⊢
  cases hb : mres.testBit 7
  · simp [hb] at h
  · simp

/-- The error report `CheckData` makes of the response codes of the reply in
the scratch buffer (`__func__` is `CheckData`), before it returns -1. -/
def CheckDataReport (port : String) (pdrvPvt : drvPvt) : List String :=
  if getByte pdrvPvt.message MRES ≠ 0x00 ∨ getByte pdrvPvt.message SRES ≠ 0x00 then
    FINSerror "CheckData" port (getByte pdrvPvt.message MRES) (getByte pdrvPvt.message SRES)
  else []

/-! ## FINS.c: the asyn interface functions

Every function starts with `pasynManager->getAddr`, whose status `st` and
address `addr` are parameters here.  `none` stands for a fault inside a
builder. -/

/-- What an interface function leaves behind: the status it returns, the
driver state, the log of transport calls, the caller's value or array, and
the value of `*nIn` or `*nbytesTransferred` for the functions that have such a
parameter (0 for the others). -/
structure CallResult where
  status : Nat
  pvt : drvPvt
  log : List IOEvent
  data : List Nat
  count : Nat
  deriving DecidableEq, Repr

/-- The conversion of the `int` address to the `epicsUInt16` parameter of
`finsRead` and `finsWrite`. -/
def toAddress (addr : Int) : Nat := (addr % 65536).toNat

/-- The test `((type == FINS_UDP_type) && (words > FINS_MAX_UDP_WORDS)) ||
((type == FINS_TCP_type) && (words > FINS_MAX_TCP_WORDS)) ||
((type == HOSTLINK_type) && (words > FINS_MAX_HOST_WORDS))`. -/
def tooBig (p : drvPvt) (words : Nat) : Bool :=
  decide ((p.type = FINS_UDP_type ∧ words > FINS_MAX_UDP_WORDS)
    ∨ (p.type = FINS_TCP_type ∧ words > FINS_MAX_TCP_WORDS)
    ∨ (p.type = HOSTLINK_type ∧ words > FINS_MAX_HOST_WORDS))

/-- The end of an array read function: `finsRead` failed (`*nIn = 0` and
`asynError`), or it succeeded. -/
def readReturn : Option ReadResult → Option CallResult
  | none => none
  | some res =>
    if res.ret < 0 then some ⟨asynError, res.pvt, res.log, res.data, 0⟩
    else some ⟨asynSuccess, res.pvt, res.log, res.data, res.transferred⟩

/-- The end of a write function: `finsWrite` failed or succeeded; `count` is
the value `*nbytesTransferred` takes after a success. -/
def writeReturn (data : List Nat) (count0 count : Nat) : Option WriteResult → Option CallResult
  | none => none
  | some res =>
    if res.ret < 0 then some ⟨asynError, res.pvt, res.log, data, count0⟩
    else some ⟨asynSuccess, res.pvt, res.log, data, count⟩

/-- The `switch (pasynUser->reason)` of `octetRead`: `true` for `break`. -/
def octetReadSwitch (reason : FINS_COMMANDS) (maxchars : Nat) : Bool :=
  match reason with
  | FINS_MODEL => if maxchars < FINS_MODEL_LEN then false else true
  | _ => false

/-- `octetRead`; the second component is `*eomReason`. -/
def octetRead (h : Host) (tr : Transport) (mmList : List MultiMemArea) (p : drvPvt)
    (log : List IOEvent) (reason : FINS_COMMANDS) (st : Nat) (addr : Int)
    (data : List Nat) (maxchars : Nat) : Option (CallResult × Nat) :=
  if st ≠ asynSuccess then some (⟨st, p, log, data, 0⟩, 0)
  else if !octetReadSwitch reason maxchars then some (⟨asynError, p, log, data, 0⟩, 0)
  else
    match finsRead h tr mmList p log reason data maxchars (toAddress addr) 0 0 with
    | none => none
    | some res =>
      if res.ret < 0 then some (⟨asynError, res.pvt, res.log, res.data, res.transferred⟩, 0)
      else some (⟨asynSuccess, res.pvt, res.log, res.data, res.transferred⟩, 0 ||| ASYN_EOM_END)

/-- The `switch (pasynUser->reason)` of `octetWrite`. -/
def octetWriteSwitch (reason : FINS_COMMANDS) : Bool :=
  match reason with
  | FINS_CYCLE_TIME_RESET => true
  | _ => false

/-- `octetWrite`. -/
def octetWrite (h : Host) (tr : Transport) (p : drvPvt) (log : List IOEvent)
    (reason : FINS_COMMANDS) (st : Nat) (addr : Int) (data : List Nat) (numchars : Nat) :
    Option CallResult :=
  if st ≠ asynSuccess then some ⟨st, p, log, data, 0⟩
  else if !octetWriteSwitch reason then some ⟨asynError, p, log, data, 0⟩
  else writeReturn data 0 numchars (finsWrite h tr p log reason data numchars (toAddress addr) 0)

/-- The `switch (pasynUser->reason)` of `ReadInt32`. -/
def ReadInt32Switch (reason : FINS_COMMANDS) : Bool :=
  match reason with
  | FINS_DM_READ | FINS_AR_READ | FINS_IO_READ | FINS_WR_READ | FINS_HR_READ
  | FINS_DM_READ_32 | FINS_AR_READ_32 | FINS_IO_READ_32
  | FINS_CYCLE_TIME_MEAN | FINS_CYCLE_TIME_MAX | FINS_CYCLE_TIME_MIN
  | FINS_CPU_STATUS | FINS_CPU_MODE => true
  | FINS_DM_WRITE | FINS_IO_WRITE | FINS_AR_WRITE | FINS_CT_WRITE
  | FINS_DM_WRITE_32 | FINS_IO_WRITE_32 | FINS_AR_WRITE_32 | FINS_CT_WRITE_32 => true
  | FINS_DM_WRITE_NOREAD | FINS_IO_WRITE_NOREAD | FINS_AR_WRITE_NOREAD
  | FINS_DM_WRITE_32_NOREAD | FINS_IO_WRITE_32_NOREAD | FINS_AR_WRITE_32_NOREAD => false
  | FINS_SET_RESET_CANCEL => false
  | _ => false

/-- `ReadInt32`: one element of 4 bytes, no count. -/
def ReadInt32 (h : Host) (tr : Transport) (mmList : List MultiMemArea) (p : drvPvt)
    (log : List IOEvent) (reason : FINS_COMMANDS) (st : Nat) (addr : Int) (value : Nat) :
    Option CallResult :=
  if st ≠ asynSuccess then some ⟨st, p, log, [value], 0⟩
  else if !ReadInt32Switch reason then some ⟨asynError, p, log, [value], 0⟩
  else
    match finsRead h tr mmList p log reason [value] ONE_ELEMENT (toAddress addr) 0 4 with
    | none => none
    | some res =>
      if res.ret < 0 then some ⟨asynError, res.pvt, res.log, res.data, 0⟩
      else some ⟨asynSuccess, res.pvt, res.log, res.data, 0⟩

/-- The `switch (pasynUser->reason)` of `WriteInt32`. -/
def WriteInt32Switch (reason : FINS_COMMANDS) : Bool :=
  match reason with
  | FINS_DM_WRITE | FINS_DM_WRITE_NOREAD | FINS_AR_WRITE | FINS_AR_WRITE_NOREAD
  | FINS_IO_WRITE | FINS_IO_WRITE_NOREAD | FINS_CYCLE_TIME_RESET
  | FINS_DM_WRITE_32 | FINS_DM_WRITE_32_NOREAD | FINS_AR_WRITE_32 | FINS_AR_WRITE_32_NOREAD
  | FINS_IO_WRITE_32 | FINS_IO_WRITE_32_NOREAD | FINS_SET_RESET_CANCEL => true
  | _ => false

/-- `WriteInt32`. -/
def WriteInt32 (h : Host) (tr : Transport) (p : drvPvt) (log : List IOEvent)
    (reason : FINS_COMMANDS) (st : Nat) (addr : Int) (value : Nat) : Option CallResult :=
  if st ≠ asynSuccess then some ⟨st, p, log, [value], 0⟩
  else if !WriteInt32Switch reason then some ⟨asynError, p, log, [value], 0⟩
  else writeReturn [value] 0 0 (finsWrite h tr p log reason [value] ONE_ELEMENT (toAddress addr) 4)

/-- The `switch (pasynUser->reason)` of `ReadFloat64`. -/
def ReadFloat64Switch (reason : FINS_COMMANDS) : Bool :=
  match reason with
  | FINS_DM_READ_32 | FINS_AR_READ_32 => true
  | FINS_DM_WRITE_32 | FINS_AR_WRITE_32 => true
  | FINS_DM_WRITE_NOREAD | FINS_AR_WRITE_NOREAD
  | FINS_DM_WRITE_32_NOREAD | FINS_AR_WRITE_32_NOREAD => false
  | _ => false

/-- `ReadFloat64`: the element is read into the local `epicsFloat32 val`
(initial content `val`), and `*value = (epicsFloat64) val` after a success;
the conversion of the bit pattern is the parameter `toFloat64`. -/
def ReadFloat64 (toFloat64 : Nat → Nat) (h : Host) (tr : Transport)
    (mmList : List MultiMemArea) (p : drvPvt) (log : List IOEvent) (reason : FINS_COMMANDS)
    (st : Nat) (addr : Int) (val value : Nat) : Option CallResult :=
  if st ≠ asynSuccess then some ⟨st, p, log, [value], 0⟩
  else if !ReadFloat64Switch reason then some ⟨asynError, p, log, [value], 0⟩
  else
    match finsRead h tr mmList p log reason [val] ONE_ELEMENT (toAddress addr) 0 4 with
    | none => none
    | some res =>
      if res.ret < 0 then some ⟨asynError, res.pvt, res.log, [value], 0⟩
      else some ⟨asynSuccess, res.pvt, res.log, [toFloat64 (res.data.getD 0 0)], 0⟩

/-- The `switch (pasynUser->reason)` of `WriteFloat64`. -/
def WriteFloat64Switch (reason : FINS_COMMANDS) : Bool :=
  match reason with
  | FINS_DM_WRITE_32 | FINS_DM_WRITE_32_NOREAD | FINS_AR_WRITE_32 | FINS_AR_WRITE_32_NOREAD => true
  | _ => false

/-- `WriteFloat64`: the value sent is `val = (epicsFloat32) value`, whose bit
pattern is `toFloat32 value`. -/
def WriteFloat64 (toFloat32 : Nat → Nat) (h : Host) (tr : Transport) (p : drvPvt)
    (log : List IOEvent) (reason : FINS_COMMANDS) (st : Nat) (addr : Int) (value : Nat) :
    Option CallResult :=
  if st ≠ asynSuccess then some ⟨st, p, log, [value], 0⟩
  else if !WriteFloat64Switch reason then some ⟨asynError, p, log, [value], 0⟩
  else writeReturn [value] 0 0
    (finsWrite h tr p log reason [toFloat32 value] ONE_ELEMENT (toAddress addr) 4)

/-- The `switch (pasynUser->reason)` of `ReadInt16Array`, with the number of
entries of the global list `mmList` for `ellCount`. -/
def ReadInt16ArraySwitch (mmList : List MultiMemArea) (p : drvPvt) (reason : FINS_COMMANDS)
    (addr : Int) (nelements : Nat) : Bool :=
  match reason with
  | FINS_DM_READ | FINS_AR_READ | FINS_IO_READ | FINS_WR_READ | FINS_HR_READ =>
    if tooBig p nelements then false else true
  | FINS_CLOCK_READ => if nelements ≠ FINS_CLOCK_READ_LEN then false else true
  | FINS_MM_READ =>
    if nelements > FINS_MM_MAX_ADDRS then false
    else if addr ≥ (mmList.length : Int) then false
    else true
  | _ => false

/-- `ReadInt16Array`. -/
def ReadInt16Array (h : Host) (tr : Transport) (mmList : List MultiMemArea) (p : drvPvt)
    (log : List IOEvent) (reason : FINS_COMMANDS) (st : Nat) (addr : Int)
    (value : List Nat) (nelements nIn : Nat) : Option CallResult :=
  if st ≠ asynSuccess then some ⟨st, p, log, value, nIn⟩
  else if !ReadInt16ArraySwitch mmList p reason addr nelements then
    some ⟨asynError, p, log, value, nIn⟩
  else readReturn
    (finsRead h tr mmList p log reason value nelements (toAddress addr) nIn 2)

/-- The `switch (pasynUser->reason)` of `WriteInt16Array`. -/
def WriteInt16ArraySwitch (p : drvPvt) (reason : FINS_COMMANDS) (nelements : Nat) : Bool :=
  match reason with
  | FINS_DM_WRITE | FINS_AR_WRITE | FINS_IO_WRITE => if tooBig p nelements then false else true
  | _ => false

/-- `WriteInt16Array`. -/
def WriteInt16Array (h : Host) (tr : Transport) (p : drvPvt) (log : List IOEvent)
    (reason : FINS_COMMANDS) (st : Nat) (addr : Int) (value : List Nat) (nelements : Nat) :
    Option CallResult :=
  if st ≠ asynSuccess then some ⟨st, p, log, value, 0⟩
  else if !WriteInt16ArraySwitch p reason nelements then some ⟨asynError, p, log, value, 0⟩
  else writeReturn value 0 0 (finsWrite h tr p log reason value nelements (toAddress addr) 2)

/-- The `switch (pasynUser->reason)` of `ReadInt32Array`; the product
`nelements * 2` is a `size_t`. -/
def ReadInt32ArraySwitch (h : Host) (p : drvPvt) (reason : FINS_COMMANDS) (nelements : Nat) :
    Bool :=
  match reason with
  | FINS_DM_READ_32 | FINS_AR_READ_32 | FINS_IO_READ_32 =>
    if tooBig p (sizeT h (nelements * 2)) then false else true
  | FINS_CYCLE_TIME => if nelements ≠ FINS_CYCLE_TIME_LEN then false else true
  | _ => false

/-- `ReadInt32Array`. -/
def ReadInt32Array (h : Host) (tr : Transport) (mmList : List MultiMemArea) (p : drvPvt)
    (log : List IOEvent) (reason : FINS_COMMANDS) (st : Nat) (addr : Int)
    (value : List Nat) (nelements nIn : Nat) : Option CallResult :=
  if st ≠ asynSuccess then some ⟨st, p, log, value, nIn⟩
  else if !ReadInt32ArraySwitch h p reason nelements then some ⟨asynError, p, log, value, nIn⟩
  else readReturn
    (finsRead h tr mmList p log reason value nelements (toAddress addr) nIn 4)

/-- The `switch (pasynUser->reason)` of `WriteInt32Array`. -/
def WriteInt32ArraySwitch (h : Host) (p : drvPvt) (reason : FINS_COMMANDS) (nelements : Nat) :
    Bool :=
  match reason with
  | FINS_DM_WRITE_32 | FINS_AR_WRITE_32 | FINS_IO_WRITE_32 =>
    if tooBig p (sizeT h (nelements * 2)) then false else true
  | _ => false

/-- `WriteInt32Array`. -/
def WriteInt32Array (h : Host) (tr : Transport) (p : drvPvt) (log : List IOEvent)
    (reason : FINS_COMMANDS) (st : Nat) (addr : Int) (value : List Nat) (nelements : Nat) :
    Option CallResult :=
  if st ≠ asynSuccess then some ⟨st, p, log, value, 0⟩
  else if !WriteInt32ArraySwitch h p reason nelements then some ⟨asynError, p, log, value, 0⟩
  else writeReturn value 0 0 (finsWrite h tr p log reason value nelements (toAddress addr) 4)

/-- The `switch (pasynUser->reason)` of `ReadFloat32Array`. -/
def ReadFloat32ArraySwitch (h : Host) (p : drvPvt) (reason : FINS_COMMANDS) (nelements : Nat) :
    Bool :=
  match reason with
  | FINS_DM_READ_32 | FINS_AR_READ_32 =>
    if tooBig p (sizeT h (nelements * 2)) then false else true
  | _ => false

/-- `ReadFloat32Array`: the elements are the bit patterns of the floats. -/
def ReadFloat32Array (h : Host) (tr : Transport) (mmList : List MultiMemArea) (p : drvPvt)
    (log : List IOEvent) (reason : FINS_COMMANDS) (st : Nat) (addr : Int)
    (value : List Nat) (nelements nIn : Nat) : Option CallResult :=
  if st ≠ asynSuccess then some ⟨st, p, log, value, nIn⟩
  else if !ReadFloat32ArraySwitch h p reason nelements then
    some ⟨asynError, p, log, value, nIn⟩
  else readReturn
    (finsRead h tr mmList p log reason value nelements (toAddress addr) nIn 4)

/-- The `switch (pasynUser->reason)` of `WriteFloat32Array`. -/
def WriteFloat32ArraySwitch (h : Host) (p : drvPvt) (reason : FINS_COMMANDS) (nelements : Nat) :
    Bool :=
  match reason with
  | FINS_DM_WRITE_32 | FINS_AR_WRITE_32 =>
    if tooBig p (sizeT h (nelements * 2)) then false else true
  | _ => false

/-- `WriteFloat32Array`. -/
def WriteFloat32Array (h : Host) (tr : Transport) (p : drvPvt) (log : List IOEvent)
    (reason : FINS_COMMANDS) (st : Nat) (addr : Int) (value : List Nat) (nelements : Nat) :
    Option CallResult :=
  if st ≠ asynSuccess then some ⟨st, p, log, value, 0⟩
  else if !WriteFloat32ArraySwitch h p reason nelements then
    some ⟨asynError, p, log, value, 0⟩
  else writeReturn value 0 0 (finsWrite h tr p log reason value nelements (toAddress addr) 4)

/-! ## Sample data for the interface functions -/

/-- The reply of a PLC at node 108 to the node address request: command 1,
error code 0, client node 3, server node 108. -/
def handshakeReply : List Nat :=
  [0x46, 0x49, 0x4E, 0x53, 0, 0, 0, 0x10, 0, 0, 0, 1, 0, 0, 0, 0, 0, 0, 0, 3, 0, 0, 0, 108]

/-- The sample TCP session after the port has been reported disconnected. -/
def sessionDown : drvPvt :=
  exceptCallback (session0 FINS_TCP_type) asynExceptionConnect 0

/-- The header of the reply the PLC at node 108 sends to node 254 for the
request with session id 4 and command codes `mrc`, `src`: response codes
00 00. -/
def fixedReplyHeader (mrc src : Nat) : List Nat :=
  [0xC0, 0x00, 0x02, 0x00, 254, 0x00, 0x00, 108, 0x00, 4, mrc, src, 0x00, 0x00]

/-- A model name of 20 characters, `CJ2M-CPU31` padded with blanks. -/
def modelName : List Nat :=
  [67, 74, 50, 77, 45, 67, 80, 85, 51, 49, 32, 32, 32, 32, 32, 32, 32, 32, 32, 32]

/-- A reply to the model query: two bytes, then the name. -/
def modelReply : List Nat := fixedReplyHeader 0x05 0x02 ++ [0x00, 0x01] ++ modelName

/-- A reply to a cycle-time read: mean 10, maximum 256, minimum 5. -/
def cycleReply : List Nat :=
  fixedReplyHeader 0x06 0x20 ++ [0, 0, 0, 10, 0, 0, 1, 0, 0, 0, 0, 5]

/-- A reply to the clock read: year `99`, month `12`, day `31`, hour `23`,
minute `59`, second `59`, day of week `06`, in BCD. -/
def clockReply : List Nat :=
  fixedReplyHeader 0x07 0x01 ++ [0x99, 0x12, 0x31, 0x23, 0x59, 0x59, 0x06]

/-- A configured entry of the multiple-memory list with three pairs: DM 100,
IO 0x1234, AR 1; the other seven area codes are zero. -/
def mmSample : MultiMemArea :=
  ⟨[0x82, 0xB0, 0xB3, 0, 0, 0, 0, 0, 0, 0], [0x0064, 0x1234, 0x0001, 0, 0, 0, 0, 0, 0, 0]⟩

/-- A reply to a multiple-area read of three pairs: entries `82 00 2A`,
`B0 BE EF`, `B3 12 34`. -/
def mmReply : List Nat :=
  fixedReplyHeader 0x01 0x04 ++ [0x82, 0x00, 0x2A, 0xB0, 0xBE, 0xEF, 0xB3, 0x12, 0x34]

/-- A FINS/TCP frame whose error word (bytes 12 to 15) is 3. -/
def frameErrorReply : List Nat :=
  [0x46, 0x49, 0x4E, 0x53, 0, 0, 0, 8, 0, 0, 0, 3, 0, 0, 0, 3]

/-! ## C strings, `sprintf` and `sscanf`

The Hostlink driver (finsHostlink.c) and the interpose layer (interpose.c)
keep their frames in `char` arrays.  A character is a natural number below
256 and an array is a `List Nat`; positions behind the end of the list hold
NUL.  Of the C library only the conversions the two files use are modelled:
`%0wu`, `%0wd` (of a non-negative argument), `%0wx`, `%0wX` for `sprintf`,
and `%wx`, `%wd` with their length modifiers for `sscanf`, the latter as
glibc reads them (white space skipped, an optional sign, for `%x` an optional
`0x`, then at most `w` characters in all). -/

/-- The string a `char` array holds: the characters before the first NUL. -/
def cstr (m : List Nat) : List Nat := m.takeWhile (fun c => c != 0)

/-- The characters of a string literal. -/
def str (s : String) : List Nat := s.toList.map Char.toNat

/-- `strncpy(dst, src, n)`: the first `n` characters of the string `src`,
padded with NUL to `n` characters. -/
def strncpy (src : List Nat) (n : Nat) : List Nat :=
  (cstr src).take n ++ List.replicate (n - ((cstr src).take n).length) 0

/-- The character of the digit `d`: `0`-`9`, then `A`-`F` or `a`-`f`. -/
def digitChar (upper : Bool) (d : Nat) : Nat :=
  if d < 10 then 48 + d else if upper then 55 + d else 87 + d

/-- The `k` low digits of `n` in base `b`, most significant first. -/
def lowDigits (b : Nat) (upper : Bool) : Nat → Nat → List Nat
  | 0, _ => []
  | k + 1, n => lowDigits b upper k (n / b) ++ [digitChar upper (n % b)]

/-- The number of digits of `n` in base `b`, for `n < b ^ (fuel + 1)`. -/
def numDigits (b : Nat) : Nat → Nat → Nat
  | 0, _ => 1
  | fuel + 1, n => if n < b then 1 else 1 + numDigits b fuel (n / b)

/-- The conversions `%0<width>u`, `%0<width>x` (`upper = false`) and
`%0<width>X` (`upper = true`) of `sprintf` for an argument `n` below `2^32`:
the digits of `n` in base `b`, with zeros in front up to `width` characters. -/
def fmt (b : Nat) (upper : Bool) (width n : Nat) : List Nat :=
  lowDigits b upper (max width (numDigits b 32 n)) n

/-- `isspace`. -/
def isspace (c : Nat) : Bool := c == 32 || (9 ≤ c && c ≤ 13)

/-- The value of the character `c` as a digit in base 10 or 16. -/
def digitValue (base c : Nat) : Option Nat :=
  if 48 ≤ c ∧ c ≤ 57 then some (c - 48)
  else if base = 16 ∧ 65 ≤ c ∧ c ≤ 70 then some (c - 55)
  else if base = 16 ∧ 97 ≤ c ∧ c ≤ 102 then some (c - 87)
  else none

/-- The digit loop of a numeric conversion of `sscanf`: at most `width`
digits are read; the result is the number of digits read (added to `cnt`),
the value (continuing `acc`) and the rest of the input. -/
def scanDigits (base : Nat) : Nat → List Nat → Nat → Nat → Nat × Nat × List Nat
  | 0, s, cnt, acc => (cnt, acc, s)
  | _ + 1, [], cnt, acc => (cnt, acc, [])
  | w + 1, c :: s, cnt, acc =>
    match digitValue base c with
    | some d => scanDigits base w s (cnt + 1) (base * acc + d)
    | none => (cnt, acc, c :: s)

/-- One numeric conversion of `sscanf` with field width `width` into an
integer of `bits` bits: `none` when no digit could be read (the argument is
then left as it was), otherwise the value stored and the rest of the input.
A leading `0` counts as a digit; for base 16 an `x` or `X` after it is
skipped. -/
def scanNum (base width bits : Nat) (s : List Nat) : Option (Nat × List Nat) :=
  let s := s.dropWhile isspace
  let sign : Bool × List Nat × Nat :=
    match s with
    | 45 :: t => (true, t, width - 1)
    | 43 :: t => (false, t, width - 1)
    | _ => (false, s, width)
  let r : Nat × Nat × List Nat :=
    match sign.2.1, sign.2.2 with
    | 48 :: t, w + 1 =>
      if base = 16 then
        match t, w with
        | 120 :: t', w' + 1 => scanDigits base w' t' 1 0
        | 88 :: t', w' + 1 => scanDigits base w' t' 1 0
        | _, _ => scanDigits base w t 1 0
      else scanDigits base w t 1 0
    | t, w => scanDigits base w t 0 0
  if r.1 = 0 then none
  else if sign.1 then some ((2 ^ bits - r.2.1 % 2 ^ bits) % 2 ^ bits, r.2.2)
  else some (r.2.1 % 2 ^ bits, r.2.2)

namespace Hostlink

/-! ## finsHostlink.c -/

def MRES : Nat := 19
def SRES : Nat := 21
def RESP : Nat := 23

def FINS_MAX_WORDS : Nat := 268
def FINS_MAX_MSG : Nat := FINS_MAX_WORDS * 2 + 100
def FINS_MODEL_LENGTH : Nat := 20

/-- `enum FINS_COMMANDS` of finsHostlink.c. -/
inductive FINS_COMMANDS
  | FINS_NULL
  | FINS_DM_READ | FINS_DM_WRITE | FINS_DM_WRITE_NOREAD
  | FINS_IO_READ | FINS_IO_WRITE | FINS_IO_WRITE_NOREAD
  | FINS_AR_READ | FINS_AR_WRITE | FINS_AR_WRITE_NOREAD
  | FINS_CT_READ | FINS_CT_WRITE
  | FINS_DM_READ_32 | FINS_DM_WRITE_32 | FINS_DM_WRITE_32_NOREAD
  | FINS_IO_READ_32 | FINS_IO_WRITE_32 | FINS_IO_WRITE_32_NOREAD
  | FINS_AR_READ_32 | FINS_AR_WRITE_32 | FINS_AR_WRITE_32_NOREAD
  | FINS_CT_READ_32 | FINS_CT_WRITE_32 | FINS_CT_WRITE_32_NOREAD
  | FINS_READ_MULTI
  | FINS_WRITE_MULTI
  | FINS_SET_MULTI_TYPE
  | FINS_SET_MULTI_ADDR
  | FINS_CLR_MULTI
  | FINS_MODEL
  | FINS_CPU_STATUS
  | FINS_CPU_MODE
  | FINS_CYCLE_TIME_RESET
  | FINS_CYCLE_TIME
  | FINS_CYCLE_TIME_MEAN
  | FINS_CYCLE_TIME_MAX
  | FINS_CYCLE_TIME_MIN
  | FINS_MONITOR
  | FINS_CLOCK_READ
  | FINS_EXPLICIT
  deriving DecidableEq, Repr

/-- The string `header` of `finsHostlinkread` and `finsHostlinkwrite`. -/
def header : List Nat := str "@00FA000000000"

/-- `checksum`: the first character, then the exclusive or with each further
character up to `strlen`, in an `unsigned char`. -/
def checksum (m : List Nat) : Nat :=
  ((cstr m).drop 1).foldl (fun k c => (k ^^^ c) % 256) (m.headD 0 % 256)

/-- `extractAndCompareChecksum` on the array `reply`: 0 when the checksum of
the first `pos` characters is the number read from the two characters at
`pos`, -1 when it is not.  `none` stands for a store outside the array
`buffer` (`pos` not below `FINS_MAX_MSG`) and for the comparison with a
`krecv` that `sscanf` has not assigned. -/
def extractAndCompareChecksum (reply : List Nat) (pos : Nat) : Option Int :=
  if FINS_MAX_MSG ≤ pos then none
  else
    let buffer := strncpy reply pos ++ [0]
    let kcalc := checksum buffer
    match scanNum 16 2 8 (cstr (reply.drop pos)) with
    | none => none
    | some (krecv, _) => if kcalc ≠ krecv then some (-1) else some 0

/-- The message `finsHostlinkread` prints for a memory command: header,
command code 0101, memory type, the address with `%04u`, `00`, the number of
words with `%04x`. -/
def memoryRead (area : String) (address words : Nat) : List Nat :=
  header ++ str "0101" ++ str area ++ fmt 10 false 4 address ++ str "00" ++ fmt 16 false 4 words

/-- The first `switch` of `finsHostlinkread`: the message before the
checksum is added, `none` for `return (-1)`.  The argument of `%04x` is
`(unsigned int) nelements`, for the 32-bit commands times 2.  The case
`FINS_READ_MULTI` prints nothing, so that the array `message` keeps the
string `old` it held before the call. -/
def readMessage (old : List Nat) (reason : FINS_COMMANDS) (address nelements : Nat) :
    Option (List Nat) :=
  match reason with
  | .FINS_DM_READ | .FINS_DM_WRITE => some (memoryRead "82" address (nelements % 2 ^ 32))
  | .FINS_AR_READ | .FINS_AR_WRITE => some (memoryRead "B3" address (nelements % 2 ^ 32))
  | .FINS_IO_READ | .FINS_IO_WRITE => some (memoryRead "B0" address (nelements % 2 ^ 32))
  | .FINS_DM_READ_32 | .FINS_DM_WRITE_32 =>
    some (memoryRead "82" address (nelements % 2 ^ 32 * 2 % 2 ^ 32))
  | .FINS_AR_READ_32 | .FINS_AR_WRITE_32 =>
    some (memoryRead "B3" address (nelements % 2 ^ 32 * 2 % 2 ^ 32))
  | .FINS_IO_READ_32 | .FINS_IO_WRITE_32 =>
    some (memoryRead "B0" address (nelements % 2 ^ 32 * 2 % 2 ^ 32))
  | .FINS_READ_MULTI => some (cstr old)
  | .FINS_MODEL => some (header ++ str "0502" ++ fmt 10 false 2 address ++ str "01")
  | .FINS_CPU_STATUS | .FINS_CPU_MODE => some (header ++ str "0601")
  | .FINS_CYCLE_TIME | .FINS_CYCLE_TIME_MEAN | .FINS_CYCLE_TIME_MAX | .FINS_CYCLE_TIME_MIN =>
    some (header ++ str "062001")
  | .FINS_CLOCK_READ => some (header ++ str "0701")
  | _ => none

/-- The checksum and the terminator are added:
`sprintf(buffer, "%02X*\r", checksum(message)); strcat(message, buffer)`.
`none` stands for a frame that does not fit the array `message`. -/
def addChecksum (message : List Nat) : Option (List Nat) :=
  let frame := message ++ (fmt 16 true 2 (checksum message) ++ [42, 13])
  if FINS_MAX_MSG ≤ frame.length then none else some frame

/-- What the serial line does with one request: the return value of
`write`, and what the driver then finds in the array `reply` together with
the number of characters received (the return value of `ReadUntilTerminator`
in `finsHostlinkread`, of `read` in `finsHostlinkwrite`; negative for a
failure or a timeout). -/
structure PortReply where
  written : Int
  recvlen : Int
  reply : List Nat
  deriving DecidableEq, Repr

/-- The serial line as an oracle. -/
abbrev Port := List Nat → PortReply

/-- The result of `finsHostlinkread`: return value, the requests written,
the caller's array and `*transfered`. -/
structure ReadResult where
  ret : Int
  sent : List (List Nat)
  data : List Nat
  transfered : Nat
  deriving DecidableEq, Repr

/-- `sscanf(&reply[off], ...)` with one numeric conversion: `none` for a
position outside the array, otherwise what the conversion gives. -/
def scanAt (reply : List Nat) (off base width bits : Nat) : Option (Option Nat) :=
  if FINS_MAX_MSG ≤ off then none
  else some ((scanNum base width bits (cstr (reply.drop off))).map Prod.fst)

/-- A loop `for (i = 0; i < nelements; i++) sscanf(&reply[start + stride * i],
..., &ptrd[i])` over the caller's array. -/
def scanLoop (reply : List Nat) (start stride width bits nelements : Nat) (data : List Nat) :
    Option (List Nat) :=
  (List.range nelements).foldlM (fun (d : List Nat) (i : Nat) =>
    match scanAt reply (start + stride * i) 16 width bits with
    | none => none
    | some none => some d
    | some (some v) => some (d.set i v)) data

/-- A `sscanf` with `count` conversions of the same kind in a row, storing
into `dat[i]`, `dat[i + 1]`, ...; it stops at the first that fails. -/
def scanSeq (base width bits : Nat) : Nat → Nat → List Nat → List Nat → List Nat
  | 0, _, _, data => data
  | count + 1, i, s, data =>
    match scanNum base width bits s with
    | none => data
    | some (v, rest) => scanSeq base width bits count (i + 1) rest (data.set i v)

/-- The `extract data` switch of `finsHostlinkread`: the caller's array and
`*transfered`.  `none` stands for a read outside the array `reply` and, in
the `FINS_MODEL` case, for the use of a `short` that `sscanf` has not
assigned. -/
def extractData (reply : List Nat) (reason : FINS_COMMANDS) (data : List Nat)
    (nelements asynSize : Nat) : Option (Option (List Nat × Nat)) :=
  match reason with
  | .FINS_DM_READ | .FINS_AR_READ | .FINS_IO_READ
  | .FINS_DM_WRITE | .FINS_AR_WRITE | .FINS_IO_WRITE =>
    if asynSize = 2 then
      (scanLoop reply RESP 4 4 16 nelements data).map (fun d => some (d, nelements))
    else
      match scanAt reply RESP 16 4 32 with
      | none => none
      | some none => some (some (data, nelements))
      | some (some v) => some (some (data.set 0 v, nelements))
  | .FINS_DM_READ_32 | .FINS_AR_READ_32 | .FINS_IO_READ_32
  | .FINS_DM_WRITE_32 | .FINS_AR_WRITE_32 | .FINS_IO_WRITE_32 =>
    (scanLoop reply RESP 4 8 32 nelements data).map (fun d => some (d, nelements))
  | .FINS_MODEL =>
    ((List.range FINS_MODEL_LENGTH).foldlM (fun (d : List Nat) (i : Nat) =>
      match scanAt reply (RESP + 4 + 2 * i) 16 2 16 with
      | some (some c) => some (d.set i (c % 256))
      | _ => none) data).map (fun d => some (d, FINS_MODEL_LENGTH))
  | .FINS_CPU_STATUS =>
    match scanAt reply (RESP + 0) 16 2 32 with
    | none => none
    | some none => some (some (data, 1))
    | some (some v) => some (some (data.set 0 v, 1))
  | .FINS_CPU_MODE =>
    match scanAt reply (RESP + 2) 16 2 32 with
    | none => none
    | some none => some (some (data, 1))
    | some (some v) => some (some (data.set 0 v, 1))
  | .FINS_CYCLE_TIME =>
    some (some (scanSeq 16 8 32 3 0 (cstr (reply.drop (RESP + 0))) data, 3))
  | .FINS_CYCLE_TIME_MEAN =>
    match scanAt reply (RESP + 0) 16 8 32 with
    | none => none
    | some none => some (some (data, 1))
    | some (some v) => some (some (data.set 0 v, 1))
  | .FINS_CYCLE_TIME_MAX =>
    match scanAt reply (RESP + 4) 16 8 32 with
    | none => none
    | some none => some (some (data, 1))
    | some (some v) => some (some (data.set 0 v, 1))
  | .FINS_CYCLE_TIME_MIN =>
    match scanAt reply (RESP + 8) 16 8 32 with
    | none => none
    | some none => some (some (data, 1))
    | some (some v) => some (some (data.set 0 v, 1))
  | .FINS_CLOCK_READ =>
    some (some (scanSeq 10 2 16 7 0 (cstr (reply.drop (RESP + 0))) data, 7))
  | _ => some none

/-- `strncmp(&reply[MRES], "0000", 4) != 0`. -/
def badResponseCode (reply : List Nat) : Bool :=
  (List.range 4).map (fun i => reply.getD (MRES + i) 0) != str "0000"

/-- `finsHostlinkread`: message, checksum, `write`, the reply, response
code, checksum, extraction; `old` is the string the array `message` holds
before the call.  `none` stands for undefined behaviour (see `addChecksum`,
`extractAndCompareChecksum`, `extractData`).  The position given to
`extractAndCompareChecksum` is `recvlen - 4` as a `size_t`. -/
def finsHostlinkread (h : Host) (port : Port) (old : List Nat) (reason : FINS_COMMANDS)
    (data : List Nat) (nelements address transfered asynSize : Nat) : Option ReadResult :=
  match readMessage old reason address nelements with
  | none => some ⟨-1, [], data, transfered⟩
  | some message =>
    match addChecksum message with
    | none => none
    | some frame =>
      let r := port frame
      if r.written ≠ (frame.length : Int) then some ⟨-1, [frame], data, transfered⟩
      else if r.recvlen < 0 then some ⟨-1, [frame], data, transfered⟩
      else if badResponseCode r.reply then some ⟨-1, [frame], data, transfered⟩
      else
        match extractAndCompareChecksum r.reply
            ((r.recvlen - 4) % (2 ^ h.sizeBits : Int)).toNat with
        | none => none
        | some k =>
          if k < 0 then some ⟨-1, [frame], data, transfered⟩
          else
            match extractData r.reply reason data nelements asynSize with
            | none => none
            | some none => some ⟨-1, [frame], data, transfered⟩
            | some (some (d, t)) => some ⟨0, [frame], d, t⟩

/-- The header of a memory write of `finsHostlinkwrite`: as for a read, with
command code 0102. -/
def memoryWrite (area : String) (address words : Nat) : List Nat :=
  header ++ str "0102" ++ str area ++ fmt 10 false 4 address ++ str "00" ++ fmt 16 false 4 words

/-- The loops of `finsHostlinkwrite` that print the data: `count` elements
of the caller's array with `%0<width>X`. -/
def printWords (width count : Nat) (data : List Nat) : List Nat :=
  ((List.range count).map (fun i => fmt 16 true width (data.getD i 0))).flatten

/-- The `switch` of `finsHostlinkwrite`: the message before the checksum is
added, `none` for `return (-1)`.  For the 16-bit commands the data are
`nwords` 16-bit elements when `asynSize` is 2 and otherwise the one 32-bit
number `*data` printed with `%04X`; for the 32-bit commands `nwords / 2`
32-bit elements. -/
def writeMessage (reason : FINS_COMMANDS) (address nwords asynSize : Nat) (data : List Nat) :
    Option (List Nat) :=
  let data16 : List Nat :=
    if asynSize = 2 then printWords 4 nwords (data.map (fun v => v % 2 ^ 16))
    else fmt 16 true 4 (data.getD 0 0 % 2 ^ 32)
  let data32 : List Nat := printWords 8 (nwords / 2) (data.map (fun v => v % 2 ^ 32))
  match reason with
  | .FINS_DM_WRITE | .FINS_DM_WRITE_NOREAD =>
    some (memoryWrite "82" address (nwords % 2 ^ 32) ++ data16)
  | .FINS_AR_WRITE | .FINS_AR_WRITE_NOREAD =>
    some (memoryWrite "B3" address (nwords % 2 ^ 32) ++ data16)
  | .FINS_IO_WRITE | .FINS_IO_WRITE_NOREAD =>
    some (memoryWrite "B0" address (nwords % 2 ^ 32) ++ data16)
  | .FINS_DM_WRITE_32 | .FINS_DM_WRITE_32_NOREAD =>
    some (memoryWrite "82" address (nwords % 2 ^ 32) ++ data32)
  | .FINS_AR_WRITE_32 | .FINS_AR_WRITE_32_NOREAD =>
    some (memoryWrite "B3" address (nwords % 2 ^ 32) ++ data32)
  | .FINS_IO_WRITE_32 | .FINS_IO_WRITE_32_NOREAD =>
    some (memoryWrite "B0" address (nwords % 2 ^ 32) ++ data32)
  | .FINS_CYCLE_TIME_RESET => some (header ++ str "062000")
  | _ => none

/-- The result of `finsHostlinkwrite`: return value and the requests
written. -/
structure WriteResult where
  ret : Int
  sent : List (List Nat)
  deriving DecidableEq, Repr

/-- `finsHostlinkwrite`: message with data, checksum, `write`, the reply,
response code, checksum. -/
def finsHostlinkwrite (h : Host) (port : Port) (reason : FINS_COMMANDS) (data : List Nat)
    (nwords address asynSize : Nat) : Option WriteResult :=
  match writeMessage reason address nwords asynSize data with
  | none => some ⟨-1, []⟩
  | some message =>
    match addChecksum message with
    | none => none
    | some frame =>
      let r := port frame
      if r.written ≠ (frame.length : Int) then some ⟨-1, [frame]⟩
      else if r.recvlen < 0 then some ⟨-1, [frame]⟩
      else if badResponseCode r.reply then some ⟨-1, [frame]⟩
      else
        match extractAndCompareChecksum r.reply
            ((r.recvlen - 4) % (2 ^ h.sizeBits : Int)).toNat with
        | none => none
        | some k => if k < 0 then some ⟨-1, [frame]⟩ else some ⟨0, [frame]⟩

/-- What an interface function of finsHostlink.c returns and leaves: the
asyn status, the requests written, the caller's array and the count `*nIn`
of the read functions. -/
structure CallResult where
  status : Nat
  sent : List (List Nat)
  data : List Nat
  count : Nat
  deriving DecidableEq, Repr

/-- The end of the array read functions: on a negative return value
`*nIn = 0` and `asynError`. -/
def readReturn (res : Option ReadResult) : Option CallResult :=
  match res with
  | none => none
  | some res =>
    if res.ret < 0 then some ⟨asynError, res.sent, res.data, 0⟩
    else some ⟨asynSuccess, res.sent, res.data, res.transfered⟩

/-- The two `switch` statements of `ReadInt32Array`: `true` when both leave
through `break`. -/
def ReadInt32ArraySwitch (h : Host) (reason : FINS_COMMANDS) (nelements : Nat) : Bool :=
  match reason with
  | .FINS_DM_READ_32 | .FINS_AR_READ_32 | .FINS_IO_READ_32 =>
    if sizeT h (nelements * 2) > FINS_MAX_WORDS then false else true
  | .FINS_CYCLE_TIME => if nelements ≠ 3 then false else true
  | _ => false

/-- `ReadInt32Array` of finsHostlink.c. -/
def ReadInt32Array (h : Host) (port : Port) (old : List Nat) (reason : FINS_COMMANDS)
    (st : Nat) (addr : Int) (value : List Nat) (nelements nIn : Nat) : Option CallResult :=
  if st ≠ asynSuccess then some ⟨st, [], value, nIn⟩
  else if !ReadInt32ArraySwitch h reason nelements then some ⟨asynError, [], value, nIn⟩
  else readReturn (finsHostlinkread h port old reason value nelements (toAddress addr) nIn 4)

/-- The two `switch` statements of `WriteInt32Array`, `WriteFloat32Array`. -/
def Write32ArraySwitch (h : Host) (reason : FINS_COMMANDS) (nelements : Nat) : Bool :=
  match reason with
  | .FINS_DM_WRITE_32 | .FINS_AR_WRITE_32 | .FINS_IO_WRITE_32 =>
    if sizeT h (nelements * 2) > FINS_MAX_WORDS then false else true
  | _ => false

/-- The end of the write functions. -/
def writeReturn (value : List Nat) (res : Option WriteResult) : Option CallResult :=
  match res with
  | none => none
  | some res =>
    if res.ret < 0 then some ⟨asynError, res.sent, value, 0⟩
    else some ⟨asynSuccess, res.sent, value, 0⟩

/-- `WriteInt32Array` of finsHostlink.c; the number of words passed on is
`nelements * sizeof(epicsInt32) / sizeof(epicsInt16)`. -/
def WriteInt32Array (h : Host) (port : Port) (reason : FINS_COMMANDS) (st : Nat) (addr : Int)
    (value : List Nat) (nelements : Nat) : Option CallResult :=
  if st ≠ asynSuccess then some ⟨st, [], value, 0⟩
  else if !Write32ArraySwitch h reason nelements then some ⟨asynError, [], value, 0⟩
  else writeReturn value
    (finsHostlinkwrite h port reason value (sizeT h (nelements * 4) / 2) (toAddress addr) 4)

/-- The two `switch` statements of `ReadFloat32Array`. -/
def ReadFloat32ArraySwitch (h : Host) (reason : FINS_COMMANDS) (nelements : Nat) : Bool :=
  match reason with
  | .FINS_DM_READ_32 | .FINS_AR_READ_32 | .FINS_IO_READ_32 =>
    if sizeT h (nelements * 2) > FINS_MAX_WORDS then false else true
  | _ => false

/-- The loop `for (i = 0; i < nelements; i++) { unsigned int *p = ...
&value[i]; *p = WSWAP32(*p); }` of the float array functions; the macros
`BESWAP32`, `LESWAP32` and `WSWAP32` of finsHostlink.c are those of FINS.h. -/
def swapWords (h : Host) (nelements : Nat) (value : List Nat) : List Nat :=
  (List.range nelements).foldl
    (fun d i => d.set i (WSWAP32 h (d.getD i 0 % 2 ^ 32) % 2 ^ 32)) value

/-- `ReadFloat32Array` of finsHostlink.c: the elements are the bit patterns
of the floats. -/
def ReadFloat32Array (h : Host) (port : Port) (old : List Nat) (reason : FINS_COMMANDS)
    (st : Nat) (addr : Int) (value : List Nat) (nelements nIn : Nat) : Option CallResult :=
  if st ≠ asynSuccess then some ⟨st, [], value, nIn⟩
  else if !ReadFloat32ArraySwitch h reason nelements then some ⟨asynError, [], value, nIn⟩
  else
    match finsHostlinkread h port old reason value nelements (toAddress addr) nIn 4 with
    | none => none
    | some res =>
      if res.ret < 0 then some ⟨asynError, res.sent, res.data, 0⟩
      else some ⟨asynSuccess, res.sent, swapWords h nelements res.data, res.transfered⟩

/-- `WriteFloat32Array` of finsHostlink.c: the caller's array is swapped in
place before the message is formed. -/
def WriteFloat32Array (h : Host) (port : Port) (reason : FINS_COMMANDS) (st : Nat) (addr : Int)
    (value : List Nat) (nelements : Nat) : Option CallResult :=
  if st ≠ asynSuccess then some ⟨st, [], value, 0⟩
  else if !Write32ArraySwitch h reason nelements then some ⟨asynError, [], value, 0⟩
  else writeReturn (swapWords h nelements value)
    (finsHostlinkwrite h port reason (swapWords h nelements value)
      (sizeT h (nelements * 4) / 2) (toAddress addr) 4)

/-- A serial line that takes every request whole and answers with `reply`. -/
def replyPort (reply : List Nat) : Port :=
  fun frame => ⟨frame.length, reply.length, reply⟩

/-- A Hostlink reply to a memory read, as it stands in the array `reply`:
header, command code, response code `0000`, the two words `1234` `1234`,
checksum `43`, terminator. -/
def sampleReply : List Nat :=
  str "@00FA0040000000" ++ str "0101" ++ str "0000" ++ str "12341234" ++ str "43" ++ [42, 13]

/-- A Hostlink reply to a 32-bit memory read of two elements: the payload
digits are `11223344` and `55667788`. -/
def reply32 : List Nat :=
  str "@00FA0040000000" ++ str "0101" ++ str "0000" ++ str "1122334455667788" ++ str "43"
    ++ [42, 13]

/-- A Hostlink reply to a cycle-time read: mean `0000000A`, maximum
`00000100`, minimum `00000005`. -/
def cycleReply : List Nat :=
  str "@00FA0040000000" ++ str "0620" ++ str "0000" ++ str "0000000A0000010000000005"
    ++ str "32" ++ [42, 13]

/-- A Hostlink reply to a memory write. -/
def writeReply : List Nat :=
  str "@00FA0040000000" ++ str "0102" ++ str "0000" ++ str "40" ++ [42, 13]

end Hostlink

namespace Interpose

/-! ## interpose.c -/

/-- `checksum` of interpose.c, the same function as in finsHostlink.c. -/
def checksum (m : List Nat) : Nat :=
  ((cstr m).drop 1).foldl (fun k c => (k ^^^ c) % 256) (m.headD 0 % 256)

/-- `extractAndCompareChecksum` of interpose.c on the array `buffer`: the
number is read from the two characters at `pos` first, then a NUL is stored
at `pos` and the checksum of the string so cut is compared with it.  `none`
as in `Hostlink.extractAndCompareChecksum`, the array here having
`FINS.FINS_MAX_MSG` characters. -/
def extractAndCompareChecksum (buffer : List Nat) (pos : Nat) : Option Int :=
  if FINS.FINS_MAX_MSG ≤ pos then none
  else
    match scanNum 16 2 8 (cstr (buffer.drop pos)) with
    | none => none
    | some (krecv, _) =>
      let buffer := buffer.take pos ++ 0 :: buffer.drop (pos + 1)
      let kcalc := checksum buffer
      if kcalc ≠ krecv then some (-1) else some 0

/-- The reply `Hostlink.sampleReply` as the interpose layer finds it in its
array `buffer`, the carriage return taken off by the end-of-string
processing of the port. -/
def sampleReply : List Nat :=
  str "@00FA0040000000" ++ str "0101" ++ str "0000" ++ str "12341234" ++ str "43" ++ [42]

end Interpose

/-! ## FINS.c: command names -/

/-- The table `FINS_names` of FINS.h. -/
def FINS_names : List String :=
  ["FINS_NULL",
   "FINS_DM_READ", "FINS_DM_WRITE", "FINS_DM_WRITE_NOREAD",
   "FINS_IO_READ", "FINS_IO_WRITE", "FINS_IO_WRITE_NOREAD",
   "FINS_AR_READ", "FINS_AR_WRITE", "FINS_AR_WRITE_NOREAD",
   "FINS_CT_READ", "FINS_CT_WRITE", "FINS_CT_WRITE_NOREAD",
   "FINS_WR_READ",
   "FINS_HR_READ",
   "FINS_DM_READ_32", "FINS_DM_WRITE_32", "FINS_DM_WRITE_32_NOREAD",
   "FINS_IO_READ_32", "FINS_IO_WRITE_32", "FINS_IO_WRITE_32_NOREAD",
   "FINS_AR_READ_32", "FINS_AR_WRITE_32", "FINS_AR_WRITE_32_NOREAD",
   "FINS_CT_READ_32", "FINS_CT_WRITE_32", "FINS_CT_WRITE_32_NOREAD",
   "FINS_READ_MULTI",
   "FINS_WRITE_MULTI",
   "FINS_SET_MULTI_TYPE",
   "FINS_SET_MULTI_ADDR",
   "FINS_CLR_MULTI",
   "FINS_MODEL",
   "FINS_CPU_STATUS",
   "FINS_CPU_MODE",
   "FINS_CYCLE_TIME_RESET",
   "FINS_CYCLE_TIME",
   "FINS_CYCLE_TIME_MEAN",
   "FINS_CYCLE_TIME_MAX",
   "FINS_CYCLE_TIME_MIN",
   "FINS_MONITOR",
   "FINS_CLOCK_READ",
   "FINS_SET_RESET_CANCEL",
   "FINS_MM_READ",
   "FINS_EXPLICIT"]

/-- The value of an enumerator of `enum FINS_COMMANDS`: its position in the
declaration, from 0. -/
def FINS_COMMANDS.value (r : FINS_COMMANDS) : Nat := r.toCtorIdx

/-- The element `FINS_names[r]`. -/
def FINS_COMMANDS.name (r : FINS_COMMANDS) : String := FINS_names.getD r.value ""

/-- The chain of `strcmp` comparisons of `drvUserCreate`, in the order of the
source: the reason stored for the string `drvInfo`. -/
def drvUserReason (drvInfo : String) : FINS_COMMANDS :=
  if "FINS_DM_READ" = drvInfo then FINS_DM_READ
  else if "FINS_DM_READ_32" = drvInfo then FINS_DM_READ_32
  else if "FINS_DM_WRITE" = drvInfo then FINS_DM_WRITE
  else if "FINS_DM_WRITE_NOREAD" = drvInfo then FINS_DM_WRITE_NOREAD
  else if "FINS_DM_WRITE_32" = drvInfo then FINS_DM_WRITE_32
  else if "FINS_DM_WRITE_32_NOREAD" = drvInfo then FINS_DM_WRITE_32_NOREAD
  else if "FINS_IO_READ" = drvInfo then FINS_IO_READ
  else if "FINS_IO_READ_32" = drvInfo then FINS_IO_READ_32
  else if "FINS_IO_WRITE" = drvInfo then FINS_IO_WRITE
  else if "FINS_IO_WRITE_NOREAD" = drvInfo then FINS_IO_WRITE_NOREAD
  else if "FINS_IO_WRITE_32" = drvInfo then FINS_IO_WRITE_32
  else if "FINS_IO_WRITE_32_NOREAD" = drvInfo then FINS_IO_WRITE_32_NOREAD
  else if "FINS_AR_READ" = drvInfo then FINS_AR_READ
  else if "FINS_AR_READ_32" = drvInfo then FINS_AR_READ_32
  else if "FINS_AR_WRITE" = drvInfo then FINS_AR_WRITE
  else if "FINS_AR_WRITE_NOREAD" = drvInfo then FINS_AR_WRITE_NOREAD
  else if "FINS_AR_WRITE_32" = drvInfo then FINS_AR_WRITE_32
  else if "FINS_AR_WRITE_32_NOREAD" = drvInfo then FINS_AR_WRITE_32_NOREAD
  else if "FINS_WR_READ" = drvInfo then FINS_WR_READ
  else if "FINS_HR_READ" = drvInfo then FINS_HR_READ
  else if "FINS_CT_READ" = drvInfo then FINS_CT_READ
  else if "FINS_CT_WRITE" = drvInfo then FINS_CT_WRITE
  else if "FINS_CPU_STATUS" = drvInfo then FINS_CPU_STATUS
  else if "FINS_CPU_MODE" = drvInfo then FINS_CPU_MODE
  else if "FINS_MODEL" = drvInfo then FINS_MODEL
  else if "FINS_CYCLE_TIME_RESET" = drvInfo then FINS_CYCLE_TIME_RESET
  else if "FINS_CYCLE_TIME" = drvInfo then FINS_CYCLE_TIME
  else if "FINS_CYCLE_TIME_MEAN" = drvInfo then FINS_CYCLE_TIME_MEAN
  else if "FINS_CYCLE_TIME_MAX" = drvInfo then FINS_CYCLE_TIME_MAX
  else if "FINS_CYCLE_TIME_MIN" = drvInfo then FINS_CYCLE_TIME_MIN
  else if "FINS_MONITOR" = drvInfo then FINS_MONITOR
  else if "FINS_CLOCK_READ" = drvInfo then FINS_CLOCK_READ
  else if "FINS_SET_RESET_CANCEL" = drvInfo then FINS_SET_RESET_CANCEL
  else if "FINS_MM_READ" = drvInfo then FINS_MM_READ
  else if "FINS_EXPLICIT" = drvInfo then FINS_EXPLICIT
  else FINS_NULL

/-- `drvUserCreate`: the status returned and the value of `pasynUser->reason`
afterwards, `reason` being its value before the call.  `none` is the null
pointer; a string is given by its characters before the terminating NUL. -/
def drvUserCreate (drvInfo : Option String) (reason : FINS_COMMANDS) : Nat × FINS_COMMANDS :=
  match drvInfo with
  | some s => (asynSuccess, drvUserReason s)
  | none => (asynError, reason)

namespace UDP

/-! ## finsUDP.c -/

def RESP : Nat := 14

/-- `BSWAP32(a)` of finsUDP.c: `bswap_32((a))` on Linux, elsewhere the macro
`(((a) & 0x000000ff) << 24) | (((a) & 0x0000ff00) << 8) |
(((a) & 0x00ff0000) >> 8) | (((a) & 0xff000000) >> 24)`; both reverse the four
bytes of a 32-bit number. -/
def BSWAP32 (a : Nat) : Nat :=
  ((a &&& 0x000000ff) <<< 24) ||| ((a &&& 0x0000ff00) <<< 8)
    ||| ((a &&& 0x00ff0000) >>> 8) ||| ((a &&& 0xff000000) >>> 24)

/-- `BSWAP16(a)` of finsUDP.c. -/
def BSWAP16 (a : Nat) : Nat :=
  ((a &&& 0x00ff) <<< 8) ||| ((a &&& 0xff00) >>> 8)

/-- The memory cases of the `extract data` switch of `finsUDPread`, for a
reply of `recvlen` bytes in the array `reply`: the caller's array and
`*transfered`.  On a little-endian host every element is loaded and swapped,
on a big-endian host the bytes are copied with `memcpy`.  The other cases of
the switch are not part of this model (`none`). -/
def extractData (h : Host) (reply : List Nat) (recvlen : Nat) (reason : FINS_COMMANDS)
    (data : List Nat) (nelements : Nat) : Option (List Nat × Nat) :=
  match reason with
  | FINS_DM_READ | FINS_AR_READ | FINS_IO_READ =>
    match h.EPICS_BYTE_ORDER with
    | EPICS_ENDIAN_LITTLE =>
      some (assignLoop (fun i => BSWAP16 (load16 h reply (RESP + 2 * i)) % 2 ^ 16) nelements data,
        (recvlen - RESP) / 2)
    | EPICS_ENDIAN_BIG =>
      some (assignLoop (fun i => load16 h reply (RESP + 2 * i)) nelements data,
        (recvlen - RESP) / 2)
  | FINS_DM_READ_32 | FINS_AR_READ_32 | FINS_IO_READ_32 =>
    match h.EPICS_BYTE_ORDER with
    | EPICS_ENDIAN_LITTLE =>
      some (assignLoop (fun i => BSWAP32 (load32 h reply (RESP + 4 * i)) % 2 ^ 32) nelements data,
        (recvlen - RESP) / 4)
    | EPICS_ENDIAN_BIG =>
      some (assignLoop (fun i => load32 h reply (RESP + 4 * i)) nelements data,
        (recvlen - RESP) / 4)
  | _ => none

end UDP

namespace Hostlink

/-- The two `switch` statements of `WriteInt16Array` of finsHostlink.c. -/
def Write16ArraySwitch (reason : FINS_COMMANDS) (nelements : Nat) : Bool :=
  match reason with
  | .FINS_DM_WRITE | .FINS_AR_WRITE | .FINS_IO_WRITE =>
    if nelements > FINS_MAX_WORDS then false else true
  | _ => false

/-- `WriteInt16Array` of finsHostlink.c; the number of words passed on is
`nelements * sizeof(epicsInt16) / sizeof(epicsInt16)`. -/
def WriteInt16Array (h : Host) (port : Port) (reason : FINS_COMMANDS) (st : Nat) (addr : Int)
    (value : List Nat) (nelements : Nat) : Option CallResult :=
  if st ≠ asynSuccess then some ⟨st, [], value, 0⟩
  else if !Write16ArraySwitch reason nelements then some ⟨asynError, [], value, 0⟩
  else writeReturn value
    (finsHostlinkwrite h port reason value (sizeT h (nelements * 2) / 2) (toAddress addr) 2)

end Hostlink

namespace Interpose

def FINS_HEADER_LEN : Nat := 10
def HOST_HEADER_LEN : Nat := 14

/-- The argument `sprintf` gets for the element `b` of a `const char` array
under `%02X`: the `char` is promoted to `int` and printed as an
`unsigned int`.  Where `char` is a signed type a byte from `0x80` on is a
negative number, whose 32-bit pattern is `0xFFFFFF00 + b`. -/
def charArg (charSigned : Bool) (b : Nat) : Nat :=
  if charSigned ∧ 128 ≤ b % 256 then 0xFFFFFF00 + b % 256 else b % 256

/-- The characters `s` stored in the array from position `off` on. -/
def store (buffer : List Nat) (off : Nat) (s : List Nat) : List Nat :=
  (buffer ++ List.replicate (off - buffer.length) 0).take off ++ s
    ++ buffer.drop (off + s.length)

/-- `sprintf(buffer + off, ...)` printing the characters `s`, which are
followed by a NUL; `none` for a store beyond the `FINS.FINS_MAX_MSG`
characters of the array. -/
def sprintfAt (buffer : List Nat) (off : Nat) (s : List Nat) : Option (List Nat) :=
  if FINS.FINS_MAX_MSG < off + s.length + 1 then none
  else some (store buffer off (s ++ [0]))

/-- The loop `for (i = 0; i < numchars - FINS_HEADER_LEN; i++)
sprintf(buffer + HOST_HEADER_LEN + 2 * i, "%02X", data[FINS_HEADER_LEN + i])`
of `interposeWrite`, for `count` bytes. -/
def hexLoop (charSigned : Bool) (data : List Nat) (count : Nat) (buffer : List Nat) :
    Option (List Nat) :=
  (List.range count).foldlM (fun (b : List Nat) (i : Nat) =>
    sprintfAt b (HOST_HEADER_LEN + 2 * i)
      (fmt 16 true 2 (charArg charSigned (data.getD (FINS_HEADER_LEN + i) 0)))) buffer

/-- What `interposeWrite` leaves: the status it returns, the saved header
`fins_header`, the characters passed to the `write` of the port below and the
value of `*nbytesTransfered`. -/
structure WriteResult where
  status : Nat
  fins_header : List Nat
  written : List Nat
  count : Nat
  deriving DecidableEq, Repr

/-- `interposeWrite` for the `numchars` bytes `data`, on a platform whose
`char` is signed or not; `port` gives the status of the `write` of the port
below.  The array `buffer` is cleared, so that it is given by its characters
up to the last one stored.  `none` stands for a store beyond the array, which
is also what the loop runs into when `numchars` is below `FINS_HEADER_LEN`
and its bound wraps around. -/
def interposeWrite (charSigned : Bool) (port : List Nat → Nat) (data : List Nat)
    (numchars : Nat) : Option WriteResult :=
  if numchars < FINS_HEADER_LEN then none
  else
    match hexLoop charSigned data (numchars - FINS_HEADER_LEN) (str "@00FA000000000") with
    | none => none
    | some buffer =>
      match sprintfAt buffer (HOST_HEADER_LEN + 2 * (numchars - FINS_HEADER_LEN))
          (fmt 16 true 2 (checksum buffer) ++ [42, 13]) with
      | none => none
      | some buffer =>
        some ⟨port (cstr buffer), data.take FINS_HEADER_LEN, cstr buffer, numchars⟩

/-- The request of the comment in interpose.c: a CPU status read from
node 254 to node 108 with session id 4. -/
def sampleRequest : List Nat :=
  [0x80, 0x00, 0x02, 0x00, 0x6C, 0x00, 0x00, 0xFE, 0x00, 0x04, 0x06, 0x01]

/-- A memory read request: two words of the Data Memory area from address
100. -/
def memoryRequest : List Nat :=
  [0x80, 0x00, 0x02, 0x00, 0x6C, 0x00, 0x00, 0xFE, 0x00, 0x04, 0x01, 0x01,
    0x82, 0x00, 0x64, 0x00, 0x00, 0x02]

end Interpose

/-! ## asynManager: the exception callback -/

/-- What asynManager does during one call of
`pasynCommonSyncIO->disconnectDevice`, as far as the driver sees it: the
exceptions it announces to the callbacks registered for the port, in order,
each with the answer `isConnected` gives while the callback runs.  The
argument is the log of the transport calls up to and including the
`disconnectDevice`. -/
abbrev Announce := List IOEvent → List (Nat × Int)

/-- The callbacks run for the announced exceptions `xs`.  `finsInit`
registers `exceptCallback` with `pasynManager->exceptionCallbackAdd` on a TCP
connection and on no other. -/
def runCallbacks (p : drvPvt) (xs : List (Nat × Int)) : drvPvt :=
  if p.type = FINS_TCP_type then xs.foldl (fun q x => exceptCallback q x.1 x.2) p else p

/-- The driver state an operation leaves when the callbacks are taken into
account.  The operation was entered with the log `log0` and returns the state
`p` and the log `log`.  In `finsRead`, `finsWrite` and `FINSnodeRequest` a
call of `disconnectDevice` is followed by `return (-1)` with no further
access to the driver state, so the callbacks that ran during that call act on
the state returned. -/
def afterDisconnect (an : Announce) (log0 : List IOEvent) (p : drvPvt) (log : List IOEvent) :
    drvPvt :=
  if log0.length < log.length ∧ log.getLast? = some IOEvent.disconnectDevice then
    runCallbacks p (an log)
  else p

/-- `finsRead` as it runs under asynManager: the callbacks announced during a
`disconnectDevice` have run when it returns. -/
def finsReadCb (an : Announce) (h : Host) (tr : Transport) (mmList : List MultiMemArea)
    (pdrvPvt : drvPvt) (log : List IOEvent) (reason : FINS_COMMANDS) (data : List Nat)
    (nelements address transferred asynSize : Nat) : Option ReadResult :=
  (finsRead h tr mmList pdrvPvt log reason data nelements address transferred asynSize).map
    (fun res => { res with pvt := afterDisconnect an log res.pvt res.log })

/-- A port that announces nothing. -/
def announceNothing : Announce := fun _ => []

/-! ## The scratch buffer within the memory of the driver -/

/-- The driver state with the memory from `message[0]` on: the scratch buffer
followed by `rest`, the bytes that lie behind `message[FINS_MAX_MSG - 1]`.  A
store at an index from `FINS_MAX_MSG` on changes `rest`, a load there reads
it. -/
def drvPvt.behind (p : drvPvt) (rest : List Nat) : drvPvt :=
  p.setMessage (p.message ++ rest)

/-- The result of a builder that ran with `rest` behind the scratch buffer and
left it as it was. -/
def BuildResult.behind : BuildResult → List Nat → BuildResult
  | BuildResult.ok p sendlen recvlen, rest => BuildResult.ok (p.behind rest) sendlen recvlen
  | BuildResult.err p, rest => BuildResult.err (p.behind rest)
  | BuildResult.fault, _ => BuildResult.fault


/-! # Lemmas -/

/-! ## Masks and shifts on bytes -/

theorem and_cat (b m x y : Nat) (hb : b < 256) (hm : m < 256) :
    (b + 256 * x) &&& (m + 256 * y) = (b &&& m) + 256 * (x &&& y) := by
  have hbm : b &&& m < 2 ^ 8 := Nat.and_lt_two_pow b (by simpa using hm)
  have e1 : b + 256 * x = 2 ^ 8 * x + b := by ring
  have e2 : m + 256 * y = 2 ^ 8 * y + m := by ring
  have e3 : (b &&& m) + 256 * (x &&& y) = 2 ^ 8 * (x &&& y) + (b &&& m) := by ring
  rw [e1, e2, e3]
  apply Nat.eq_of_testBit_eq
  intro i
  rw [Nat.testBit_and, Nat.testBit_mul_pow_two_add _ (by simpa using hb),
    Nat.testBit_mul_pow_two_add _ (by simpa using hm), Nat.testBit_mul_pow_two_add _ hbm]
  by_cases hi : i < 8 <;> simp [hi]

theorem or_cat (b m x y : Nat) (hb : b < 256) (hm : m < 256) :
    (b + 256 * x) ||| (m + 256 * y) = (b ||| m) + 256 * (x ||| y) := by
  have hbm : b ||| m < 2 ^ 8 := Nat.or_lt_two_pow (by simpa using hb) (by simpa using hm)
  have e1 : b + 256 * x = 2 ^ 8 * x + b := by ring
  have e2 : m + 256 * y = 2 ^ 8 * y + m := by ring
  have e3 : (b ||| m) + 256 * (x ||| y) = 2 ^ 8 * (x ||| y) + (b ||| m) := by ring
  rw [e1, e2, e3]
  apply Nat.eq_of_testBit_eq
  intro i
  rw [Nat.testBit_or, Nat.testBit_mul_pow_two_add _ (by simpa using hb),
    Nat.testBit_mul_pow_two_add _ (by simpa using hm), Nat.testBit_mul_pow_two_add _ hbm]
  by_cases hi : i < 8 <;> simp [hi]

theorem and_255 (b : Nat) (hb : b < 256) : b &&& 255 = b := by
  have := Nat.and_pow_two_sub_one_of_lt_two_pow (x := b) (n := 8) (by simpa using hb)
  simpa using this

/-- `LESWAP32` exchanges the two bytes inside each 16-bit half. -/
theorem LESWAP32_bytes (b0 b1 b2 b3 : Nat) (h0 : b0 < 256) (h1 : b1 < 256) (h2 : b2 < 256)
    (h3 : b3 < 256) :
    LESWAP32 (b0 + 256 * (b1 + 256 * (b2 + 256 * (b3 + 256 * 0))))
      = b1 + 256 * (b0 + 256 * (b3 + 256 * (b2 + 256 * 0))) := by
  unfold LESWAP32
  have m1 : (0x00ff00ff : Nat) = 255 + 256 * (0 + 256 * (255 + 256 * (0 + 256 * 0))) := by norm_num
  have m2 : (0xff00ff00 : Nat) = 0 + 256 * (255 + 256 * (0 + 256 * (255 + 256 * 0))) := by norm_num
  rw [m1, m2]
  simp only [and_cat, h0, h1, h2, h3, and_255, Nat.and_zero, Nat.shiftLeft_eq,
    Nat.shiftRight_eq_div_pow, show (0:Nat) < 256 by decide, show (255:Nat) < 256 by decide]
  have e1 : (b0 + 256 * (0 + 256 * (b2 + 256 * (0 + 256 * 0)))) * 2 ^ 8
      = 0 + 256 * (b0 + 256 * (0 + 256 * (b2 + 256 * 0))) := by ring
  have e2 : (0 + 256 * (b1 + 256 * (0 + 256 * (b3 + 256 * 0)))) / 2 ^ 8
      = b1 + 256 * (0 + 256 * (b3 + 256 * 0)) := by omega
  rw [e1, e2]
  simp only [or_cat, h0, h1, h2, h3, Nat.or_zero, Nat.zero_or, show (0:Nat) < 256 by decide]

/-- `BESWAP32` exchanges the two 16-bit halves. -/
theorem BESWAP32_bytes (b0 b1 b2 b3 : Nat) (h0 : b0 < 256) (h1 : b1 < 256) (h2 : b2 < 256)
    (h3 : b3 < 256) :
    BESWAP32 (b0 + 256 * (b1 + 256 * (b2 + 256 * (b3 + 256 * 0))))
      = b2 + 256 * (b3 + 256 * (b0 + 256 * (b1 + 256 * 0))) := by
  unfold BESWAP32
  have m1 : (0x0000ffff : Nat) = 255 + 256 * (255 + 256 * (0 + 256 * (0 + 256 * 0))) := by norm_num
  have m2 : (0xffff0000 : Nat) = 0 + 256 * (0 + 256 * (255 + 256 * (255 + 256 * 0))) := by norm_num
  rw [m1, m2]
  simp only [and_cat, h0, h1, h2, h3, and_255, Nat.and_zero, Nat.shiftLeft_eq,
    Nat.shiftRight_eq_div_pow, show (0:Nat) < 256 by decide, show (255:Nat) < 256 by decide]
  have e1 : (b0 + 256 * (b1 + 256 * (0 + 256 * (0 + 256 * 0)))) * 2 ^ 16
      = 0 + 256 * (0 + 256 * (b0 + 256 * (b1 + 256 * 0))) := by ring
  have e2 : (0 + 256 * (0 + 256 * (b2 + 256 * (b3 + 256 * 0)))) / 2 ^ 16
      = b2 + 256 * (b3 + 256 * (0 + 256 * 0)) := by omega
  rw [e1, e2]
  simp only [or_cat, h0, h1, h2, h3, Nat.or_zero, Nat.zero_or, show (0:Nat) < 256 by decide]

/-- The little-endian `BSWAP32` reverses the four bytes. -/
theorem BSWAP32_bytes (h : Host) (hl : h.EPICS_BYTE_ORDER = EPICS_ENDIAN_LITTLE)
    (b0 b1 b2 b3 : Nat) (h0 : b0 < 256) (h1 : b1 < 256) (h2 : b2 < 256) (h3 : b3 < 256) :
    BSWAP32 h (b0 + 256 * (b1 + 256 * (b2 + 256 * (b3 + 256 * 0))))
      = b3 + 256 * (b2 + 256 * (b1 + 256 * (b0 + 256 * 0))) := by
  unfold BSWAP32
  rw [hl]
  have m1 : (0x000000ff : Nat) = 255 + 256 * (0 + 256 * (0 + 256 * (0 + 256 * 0))) := by norm_num
  have m2 : (0x0000ff00 : Nat) = 0 + 256 * (255 + 256 * (0 + 256 * (0 + 256 * 0))) := by norm_num
  have m3 : (0x00ff0000 : Nat) = 0 + 256 * (0 + 256 * (255 + 256 * (0 + 256 * 0))) := by norm_num
  have m4 : (0xff000000 : Nat) = 0 + 256 * (0 + 256 * (0 + 256 * (255 + 256 * 0))) := by norm_num
  simp only []
  rw [m1, m2, m3, m4]
  simp only [and_cat, h0, h1, h2, h3, and_255, Nat.and_zero, Nat.shiftLeft_eq,
    Nat.shiftRight_eq_div_pow, show (0:Nat) < 256 by decide, show (255:Nat) < 256 by decide]
  have e1 : (b0 + 256 * (0 + 256 * (0 + 256 * (0 + 256 * 0)))) * 2 ^ 24
      = 0 + 256 * (0 + 256 * (0 + 256 * (b0 + 256 * 0))) := by ring
  have e2 : (0 + 256 * (b1 + 256 * (0 + 256 * (0 + 256 * 0)))) * 2 ^ 8
      = 0 + 256 * (0 + 256 * (b1 + 256 * (0 + 256 * 0))) := by ring
  have e3 : (0 + 256 * (0 + 256 * (b2 + 256 * (0 + 256 * 0)))) / 2 ^ 8
      = 0 + 256 * (b2 + 256 * (0 + 256 * (0 + 256 * 0))) := by omega
  have e4 : (0 + 256 * (0 + 256 * (0 + 256 * (b3 + 256 * 0)))) / 2 ^ 24
      = b3 + 256 * (0 + 256 * (0 + 256 * (0 + 256 * 0))) := by omega
  rw [e1, e2, e3, e4]
  simp only [or_cat, h0, h1, h2, h3, Nat.or_zero, Nat.zero_or, show (0:Nat) < 256 by decide]

/-- The little-endian `BSWAP16` exchanges the two bytes; a cast of its left
operand to 16 or more bits changes nothing. -/
theorem castBSWAP16_bytes (h : Host) (hl : h.EPICS_BYTE_ORDER = EPICS_ENDIAN_LITTLE)
    (bits b0 b1 : Nat) (hbits : 16 ≤ bits) (h0 : b0 < 256) (h1 : b1 < 256) :
    castBSWAP16 h bits (b0 + 256 * b1) = b1 + 256 * b0 := by
  unfold castBSWAP16
  rw [hl]
  have m1 : (0x00ff : Nat) = 255 + 256 * 0 := by norm_num
  have m2 : (0xff00 : Nat) = 0 + 256 * 255 := by norm_num
  simp only []
  rw [m1, m2]
  simp only [and_cat, h0, h1, and_255, Nat.and_zero, Nat.shiftLeft_eq,
    Nat.shiftRight_eq_div_pow, show (0:Nat) < 256 by decide, show (255:Nat) < 256 by decide]
  have hp : 2 ^ 16 ≤ 2 ^ bits := Nat.pow_le_pow_right (by decide) hbits
  have e1 : (b0 + 256 * 0) * 2 ^ 8 % 2 ^ bits = 0 + 256 * b0 := by
    rw [Nat.mod_eq_of_lt (by omega)]; ring
  have e2 : (0 + 256 * b1) / 2 ^ 8 = b1 + 256 * 0 := by omega
  rw [e1, e2]
  simp only [or_cat, h0, h1, Nat.or_zero, Nat.zero_or, show (0:Nat) < 256 by decide]

theorem BSWAP16_bytes (h : Host) (hl : h.EPICS_BYTE_ORDER = EPICS_ENDIAN_LITTLE)
    (b0 b1 : Nat) (h0 : b0 < 256) (h1 : b1 < 256) :
    BSWAP16 h (b0 + 256 * b1) = b1 + 256 * b0 := by
  unfold BSWAP16
  rw [hl]
  have m1 : (0x00ff : Nat) = 255 + 256 * 0 := by norm_num
  have m2 : (0xff00 : Nat) = 0 + 256 * 255 := by norm_num
  simp only []
  rw [m1, m2]
  simp only [and_cat, h0, h1, and_255, Nat.and_zero, Nat.shiftLeft_eq,
    Nat.shiftRight_eq_div_pow, show (0:Nat) < 256 by decide, show (255:Nat) < 256 by decide]
  have e1 : (b0 + 256 * 0) * 2 ^ 8 = 0 + 256 * b0 := by ring
  have e2 : (0 + 256 * b1) / 2 ^ 8 = b1 + 256 * 0 := by omega
  rw [e1, e2]
  simp only [or_cat, h0, h1, Nat.or_zero, Nat.zero_or, show (0:Nat) < 256 by decide]

theorem getByte_lt (m : List Nat) (i : Nat) : getByte m i < 256 := by
  unfold getByte; omega

theorem setByte_congr (m : List Nat) (i a b : Nat) (hab : a % 256 = b % 256) :
    setByte m i a = setByte m i b := by
  unfold setByte; rw [hab]

/-- The little-endian `BSWAP32` reverses the four low bytes and drops the rest. -/
theorem BSWAP32_bytes_tail (h : Host) (hl : h.EPICS_BYTE_ORDER = EPICS_ENDIAN_LITTLE)
    (b0 b1 b2 b3 t : Nat) (h0 : b0 < 256) (h1 : b1 < 256) (h2 : b2 < 256) (h3 : b3 < 256) :
    BSWAP32 h (b0 + 256 * (b1 + 256 * (b2 + 256 * (b3 + 256 * t))))
      = b3 + 256 * (b2 + 256 * (b1 + 256 * (b0 + 256 * 0))) := by
  unfold BSWAP32
  rw [hl]
  have m1 : (0x000000ff : Nat) = 255 + 256 * (0 + 256 * (0 + 256 * (0 + 256 * 0))) := by norm_num
  have m2 : (0x0000ff00 : Nat) = 0 + 256 * (255 + 256 * (0 + 256 * (0 + 256 * 0))) := by norm_num
  have m3 : (0x00ff0000 : Nat) = 0 + 256 * (0 + 256 * (255 + 256 * (0 + 256 * 0))) := by norm_num
  have m4 : (0xff000000 : Nat) = 0 + 256 * (0 + 256 * (0 + 256 * (255 + 256 * 0))) := by norm_num
  simp only []
  rw [m1, m2, m3, m4]
  simp only [and_cat, h0, h1, h2, h3, and_255, Nat.and_zero, Nat.shiftLeft_eq,
    Nat.shiftRight_eq_div_pow, show (0:Nat) < 256 by decide, show (255:Nat) < 256 by decide]
  have e1 : (b0 + 256 * (0 + 256 * (0 + 256 * (0 + 256 * 0)))) * 2 ^ 24
      = 0 + 256 * (0 + 256 * (0 + 256 * (b0 + 256 * 0))) := by ring
  have e2 : (0 + 256 * (b1 + 256 * (0 + 256 * (0 + 256 * 0)))) * 2 ^ 8
      = 0 + 256 * (0 + 256 * (b1 + 256 * (0 + 256 * 0))) := by ring
  have e3 : (0 + 256 * (0 + 256 * (b2 + 256 * (0 + 256 * 0)))) / 2 ^ 8
      = 0 + 256 * (b2 + 256 * (0 + 256 * (0 + 256 * 0))) := by omega
  have e4 : (0 + 256 * (0 + 256 * (0 + 256 * (b3 + 256 * 0)))) / 2 ^ 24
      = b3 + 256 * (0 + 256 * (0 + 256 * (0 + 256 * 0))) := by omega
  rw [e1, e2, e3, e4]
  simp only [or_cat, h0, h1, h2, h3, Nat.or_zero, Nat.zero_or, show (0:Nat) < 256 by decide]

/-! ## Wire form of the loads and stores, the same on both hosts -/

/-- A 16-bit word is read from the buffer as the big-endian number of its two bytes. -/
theorem wire_load16 (h : Host) (m : List Nat) (off bits : Nat) (hbits : 16 ≤ bits) :
    castBSWAP16 h bits (load16 h m off) % 2 ^ bits
      = 256 * getByte m off + getByte m (off + 1) := by
  have h0 := getByte_lt m off
  have h1 := getByte_lt m (off + 1)
  have hp : 2 ^ 16 ≤ 2 ^ bits := Nat.pow_le_pow_right (by decide) hbits
  cases hb : h.EPICS_BYTE_ORDER with
  | EPICS_ENDIAN_LITTLE =>
    have e : load16 h m off = getByte m off + 256 * getByte m (off + 1) := by
      simp only [load16, hb]
    rw [e, castBSWAP16_bytes h hb bits _ _ hbits h0 h1, Nat.mod_eq_of_lt (by omega)]
    omega
  | EPICS_ENDIAN_BIG =>
    have e : load16 h m off = 256 * getByte m off + getByte m (off + 1) := by
      simp only [load16, hb]
    simp only [castBSWAP16, hb, e]
    rw [Nat.mod_mod, Nat.mod_eq_of_lt (by omega)]

/-- A 32-bit element is read through `WSWAP32` as the first wire word in the
low half and the second wire word in the high half. -/
theorem wire_load32W (h : Host) (m : List Nat) (off : Nat) :
    WSWAP32 h (load32 h m off) % 2 ^ 32
      = 16777216 * getByte m (off + 2) + 65536 * getByte m (off + 3)
        + 256 * getByte m off + getByte m (off + 1) := by
  have h0 := getByte_lt m off
  have h1 := getByte_lt m (off + 1)
  have h2 := getByte_lt m (off + 2)
  have h3 := getByte_lt m (off + 3)
  cases hb : h.EPICS_BYTE_ORDER with
  | EPICS_ENDIAN_LITTLE =>
    have e : load32 h m off = getByte m off + 256 * (getByte m (off + 1)
        + 256 * (getByte m (off + 2) + 256 * (getByte m (off + 3) + 256 * 0))) := by
      simp only [load32, hb]; ring
    simp only [WSWAP32, hb]
    rw [e, LESWAP32_bytes _ _ _ _ h0 h1 h2 h3]
    omega
  | EPICS_ENDIAN_BIG =>
    have e : load32 h m off = getByte m (off + 3) + 256 * (getByte m (off + 2)
        + 256 * (getByte m (off + 1) + 256 * (getByte m off + 256 * 0))) := by
      simp only [load32, hb]; ring
    simp only [WSWAP32, hb]
    rw [e, BESWAP32_bytes _ _ _ _ h3 h2 h1 h0]
    omega

/-- A 32-bit word is read through `BSWAP32` as the big-endian number of its four bytes. -/
theorem wire_load32B (h : Host) (m : List Nat) (off : Nat) :
    BSWAP32 h (load32 h m off)
      = 16777216 * getByte m off + 65536 * getByte m (off + 1)
        + 256 * getByte m (off + 2) + getByte m (off + 3) := by
  have h0 := getByte_lt m off
  have h1 := getByte_lt m (off + 1)
  have h2 := getByte_lt m (off + 2)
  have h3 := getByte_lt m (off + 3)
  cases hb : h.EPICS_BYTE_ORDER with
  | EPICS_ENDIAN_LITTLE =>
    have e : load32 h m off = getByte m off + 256 * (getByte m (off + 1)
        + 256 * (getByte m (off + 2) + 256 * (getByte m (off + 3) + 256 * 0))) := by
      simp only [load32, hb]; ring
    rw [e, BSWAP32_bytes_tail h hb _ _ _ _ 0 h0 h1 h2 h3]
    omega
  | EPICS_ENDIAN_BIG =>
    simp only [BSWAP32, load32, hb]

theorem cat_div (c x : Nat) (hc : c < 256) : (c + 256 * x) / 256 = x := by omega

theorem cat_mod (c x : Nat) (hc : c < 256) : (c + 256 * x) % 256 = c := by omega

theorem div_65536 (x : Nat) : x / 65536 = x / 256 / 256 := by omega

theorem div_16777216 (x : Nat) : x / 16777216 = x / 256 / 256 / 256 := by omega

theorem bytes2 (v : Nat) (hv : v < 65536) :
    ∃ c0 c1, c0 < 256 ∧ c1 < 256 ∧ v = c0 + 256 * c1 :=
  ⟨v % 256, v / 256, by omega, by omega, by omega⟩

theorem bytes4 (v : Nat) :
    ∃ c0 c1 c2 c3 t, c0 < 256 ∧ c1 < 256 ∧ c2 < 256 ∧ c3 < 256 ∧
      v = c0 + 256 * (c1 + 256 * (c2 + 256 * (c3 + 256 * t))) :=
  ⟨v % 256, v / 256 % 256, v / 65536 % 256, v / 16777216 % 256, v / 4294967296,
    by omega, by omega, by omega, by omega, by omega⟩

/-- `ptrd[i] = BSWAP16(v)` puts the high byte of `v` first. -/
theorem wire_store16 (h : Host) (m : List Nat) (off v : Nat) (hv : v < 65536) :
    store16 h m off (BSWAP16 h v) = setByte (setByte m off (v / 256)) (off + 1) v := by
  obtain ⟨c0, c1, h0, h1, rfl⟩ := bytes2 v hv
  cases hb : h.EPICS_BYTE_ORDER with
  | EPICS_ENDIAN_LITTLE =>
    rw [BSWAP16_bytes h hb _ _ h0 h1]
    simp only [store16, hb]
    rw [setByte_congr m off (c1 + 256 * c0) ((c0 + 256 * c1) / 256)
        (by simp only [cat_div, cat_mod, h0, h1]; omega),
      setByte_congr _ (off + 1) ((c1 + 256 * c0) / 256) (c0 + 256 * c1)
        (by simp only [cat_div, cat_mod, h0, h1]; omega)]
  | EPICS_ENDIAN_BIG =>
    simp only [store16, BSWAP16, hb]

/-- `ptrd[i] = WSWAP32(v)` puts the low half of `v` first, each half with its
high byte first. -/
theorem wire_store32W (h : Host) (m : List Nat) (off v : Nat) (hv : v < 4294967296) :
    store32 h m off (WSWAP32 h v)
      = setByte (setByte (setByte (setByte m off (v / 256)) (off + 1) v) (off + 2)
          (v / 16777216)) (off + 3) (v / 65536) := by
  obtain ⟨c0, c1, c2, c3, t, h0, h1, h2, h3, rfl⟩ := bytes4 v
  have ht : t = 0 := by omega
  subst ht
  cases hb : h.EPICS_BYTE_ORDER with
  | EPICS_ENDIAN_LITTLE =>
    simp only [WSWAP32, hb]
    rw [LESWAP32_bytes _ _ _ _ h0 h1 h2 h3]
    simp only [store32, hb]
    rw [setByte_congr m off (c1 + 256 * (c0 + 256 * (c3 + 256 * (c2 + 256 * 0))))
        ((c0 + 256 * (c1 + 256 * (c2 + 256 * (c3 + 256 * 0)))) / 256) (by simp only [div_65536, div_16777216, cat_div, cat_mod, h0, h1, h2, h3, Nat.mul_zero,
          Nat.add_zero, Nat.mod_eq_of_lt]),
      setByte_congr _ (off + 1) ((c1 + 256 * (c0 + 256 * (c3 + 256 * (c2 + 256 * 0)))) / 256)
        (c0 + 256 * (c1 + 256 * (c2 + 256 * (c3 + 256 * 0)))) (by simp only [div_65536, div_16777216, cat_div, cat_mod, h0, h1, h2, h3, Nat.mul_zero,
          Nat.add_zero, Nat.mod_eq_of_lt]),
      setByte_congr _ (off + 2) ((c1 + 256 * (c0 + 256 * (c3 + 256 * (c2 + 256 * 0)))) / 65536)
        ((c0 + 256 * (c1 + 256 * (c2 + 256 * (c3 + 256 * 0)))) / 16777216) (by simp only [div_65536, div_16777216, cat_div, cat_mod, h0, h1, h2, h3, Nat.mul_zero,
          Nat.add_zero, Nat.mod_eq_of_lt]),
      setByte_congr _ (off + 3) ((c1 + 256 * (c0 + 256 * (c3 + 256 * (c2 + 256 * 0)))) / 16777216)
        ((c0 + 256 * (c1 + 256 * (c2 + 256 * (c3 + 256 * 0)))) / 65536) (by simp only [div_65536, div_16777216, cat_div, cat_mod, h0, h1, h2, h3, Nat.mul_zero,
          Nat.add_zero, Nat.mod_eq_of_lt])]
  | EPICS_ENDIAN_BIG =>
    simp only [WSWAP32, hb]
    rw [BESWAP32_bytes _ _ _ _ h0 h1 h2 h3]
    simp only [store32, hb]
    rw [setByte_congr m off ((c2 + 256 * (c3 + 256 * (c0 + 256 * (c1 + 256 * 0)))) / 16777216)
        ((c0 + 256 * (c1 + 256 * (c2 + 256 * (c3 + 256 * 0)))) / 256) (by simp only [div_65536, div_16777216, cat_div, cat_mod, h0, h1, h2, h3, Nat.mul_zero,
          Nat.add_zero, Nat.mod_eq_of_lt]),
      setByte_congr _ (off + 1) ((c2 + 256 * (c3 + 256 * (c0 + 256 * (c1 + 256 * 0)))) / 65536)
        (c0 + 256 * (c1 + 256 * (c2 + 256 * (c3 + 256 * 0)))) (by simp only [div_65536, div_16777216, cat_div, cat_mod, h0, h1, h2, h3, Nat.mul_zero,
          Nat.add_zero, Nat.mod_eq_of_lt]),
      setByte_congr _ (off + 2) ((c2 + 256 * (c3 + 256 * (c0 + 256 * (c1 + 256 * 0)))) / 256)
        ((c0 + 256 * (c1 + 256 * (c2 + 256 * (c3 + 256 * 0)))) / 16777216) (by simp only [div_65536, div_16777216, cat_div, cat_mod, h0, h1, h2, h3, Nat.mul_zero,
          Nat.add_zero, Nat.mod_eq_of_lt]),
      setByte_congr _ (off + 3) (c2 + 256 * (c3 + 256 * (c0 + 256 * (c1 + 256 * 0))))
        ((c0 + 256 * (c1 + 256 * (c2 + 256 * (c3 + 256 * 0)))) / 65536) (by simp only [div_65536, div_16777216, cat_div, cat_mod, h0, h1, h2, h3, Nat.mul_zero,
          Nat.add_zero, Nat.mod_eq_of_lt])]

/-- `FINSframe[k] = BSWAP32(v)` puts the four low bytes of `v` in big-endian order. -/
theorem wire_store32B (h : Host) (m : List Nat) (off v : Nat) :
    store32 h m off (BSWAP32 h v)
      = setByte (setByte (setByte (setByte m off (v / 16777216)) (off + 1) (v / 65536))
          (off + 2) (v / 256)) (off + 3) v := by
  cases hb : h.EPICS_BYTE_ORDER with
  | EPICS_ENDIAN_LITTLE =>
    obtain ⟨c0, c1, c2, c3, t, h0, h1, h2, h3, rfl⟩ := bytes4 v
    rw [BSWAP32_bytes_tail h hb _ _ _ _ _ h0 h1 h2 h3]
    simp only [store32, hb]
    rw [setByte_congr m off (c3 + 256 * (c2 + 256 * (c1 + 256 * (c0 + 256 * 0))))
        ((c0 + 256 * (c1 + 256 * (c2 + 256 * (c3 + 256 * t)))) / 16777216) (by simp only [div_65536, div_16777216, cat_div, cat_mod, h0, h1, h2, h3, Nat.mul_zero,
          Nat.add_zero, Nat.mod_eq_of_lt]),
      setByte_congr _ (off + 1) ((c3 + 256 * (c2 + 256 * (c1 + 256 * (c0 + 256 * 0)))) / 256)
        ((c0 + 256 * (c1 + 256 * (c2 + 256 * (c3 + 256 * t)))) / 65536) (by simp only [div_65536, div_16777216, cat_div, cat_mod, h0, h1, h2, h3, Nat.mul_zero,
          Nat.add_zero, Nat.mod_eq_of_lt]),
      setByte_congr _ (off + 2) ((c3 + 256 * (c2 + 256 * (c1 + 256 * (c0 + 256 * 0)))) / 65536)
        ((c0 + 256 * (c1 + 256 * (c2 + 256 * (c3 + 256 * t)))) / 256) (by simp only [div_65536, div_16777216, cat_div, cat_mod, h0, h1, h2, h3, Nat.mul_zero,
          Nat.add_zero, Nat.mod_eq_of_lt]),
      setByte_congr _ (off + 3) ((c3 + 256 * (c2 + 256 * (c1 + 256 * (c0 + 256 * 0)))) / 16777216)
        (c0 + 256 * (c1 + 256 * (c2 + 256 * (c3 + 256 * t)))) (by simp only [div_65536, div_16777216, cat_div, cat_mod, h0, h1, h2, h3, Nat.mul_zero,
          Nat.add_zero, Nat.mod_eq_of_lt])]
  | EPICS_ENDIAN_BIG =>
    simp only [store32, BSWAP32, hb]

/-! ## Projections of the state updates -/

@[simp]
theorem setMessage_type (p : drvPvt) (m : List Nat) :
    (p.setMessage m).type = p.type := rfl
@[simp]
theorem setMessage_nodevalid (p : drvPvt) (m : List Nat) :
    (p.setMessage m).nodevalid = p.nodevalid := rfl
@[simp]
theorem setMessage_dnode (p : drvPvt) (m : List Nat) :
    (p.setMessage m).dnode = p.dnode := rfl
@[simp]
theorem setMessage_snode (p : drvPvt) (m : List Nat) :
    (p.setMessage m).snode = p.snode := rfl
@[simp]
theorem setMessage_sid (p : drvPvt) (m : List Nat) :
    (p.setMessage m).sid = p.sid := rfl
@[simp]
theorem setMessage_mrc (p : drvPvt) (m : List Nat) :
    (p.setMessage m).mrc = p.mrc := rfl
@[simp]
theorem setMessage_src (p : drvPvt) (m : List Nat) :
    (p.setMessage m).src = p.src := rfl
@[simp]
theorem setMessage_message (p : drvPvt) (m : List Nat) :
    (p.setMessage m).message = m := rfl

@[simp]
theorem setCodes_type (p : drvPvt) (c d : Nat) :
    (p.setCodes c d).type = p.type := rfl
@[simp]
theorem setCodes_nodevalid (p : drvPvt) (c d : Nat) :
    (p.setCodes c d).nodevalid = p.nodevalid := rfl
@[simp]
theorem setCodes_dnode (p : drvPvt) (c d : Nat) :
    (p.setCodes c d).dnode = p.dnode := rfl
@[simp]
theorem setCodes_snode (p : drvPvt) (c d : Nat) :
    (p.setCodes c d).snode = p.snode := rfl
@[simp]
theorem setCodes_sid (p : drvPvt) (c d : Nat) :
    (p.setCodes c d).sid = p.sid := rfl
@[simp]
theorem setCodes_mrc (p : drvPvt) (c d : Nat) :
    (p.setCodes c d).mrc = c := rfl
@[simp]
theorem setCodes_src (p : drvPvt) (c d : Nat) :
    (p.setCodes c d).src = d := rfl
@[simp]
theorem setCodes_message (p : drvPvt) (c d : Nat) :
    (p.setCodes c d).message = p.message := rfl

@[simp]
theorem setSid_type (p : drvPvt) (k : Nat) :
    (p.setSid k).type = p.type := rfl
@[simp]
theorem setSid_nodevalid (p : drvPvt) (k : Nat) :
    (p.setSid k).nodevalid = p.nodevalid := rfl
@[simp]
theorem setSid_dnode (p : drvPvt) (k : Nat) :
    (p.setSid k).dnode = p.dnode := rfl
@[simp]
theorem setSid_snode (p : drvPvt) (k : Nat) :
    (p.setSid k).snode = p.snode := rfl
@[simp]
theorem setSid_sid (p : drvPvt) (k : Nat) :
    (p.setSid k).sid = k := rfl
@[simp]
theorem setSid_mrc (p : drvPvt) (k : Nat) :
    (p.setSid k).mrc = p.mrc := rfl
@[simp]
theorem setSid_src (p : drvPvt) (k : Nat) :
    (p.setSid k).src = p.src := rfl
@[simp]
theorem setSid_message (p : drvPvt) (k : Nat) :
    (p.setSid k).message = p.message := rfl

@[simp]
theorem setNode_type (p : drvPvt) (k : Nat) :
    (p.setNode k).type = p.type := rfl
@[simp]
theorem setNode_nodevalid (p : drvPvt) (k : Nat) :
    (p.setNode k).nodevalid = 1 := rfl
@[simp]
theorem setNode_dnode (p : drvPvt) (k : Nat) :
    (p.setNode k).dnode = p.dnode := rfl
@[simp]
theorem setNode_snode (p : drvPvt) (k : Nat) :
    (p.setNode k).snode = k := rfl
@[simp]
theorem setNode_sid (p : drvPvt) (k : Nat) :
    (p.setNode k).sid = p.sid := rfl
@[simp]
theorem setNode_mrc (p : drvPvt) (k : Nat) :
    (p.setNode k).mrc = p.mrc := rfl
@[simp]
theorem setNode_src (p : drvPvt) (k : Nat) :
    (p.setNode k).src = p.src := rfl
@[simp]
theorem setNode_message (p : drvPvt) (k : Nat) :
    (p.setNode k).message = p.message := rfl

@[simp]
theorem setType_type (p : drvPvt) (t : ConnType) :
    (p.setType t).type = t := rfl
@[simp]
theorem setType_nodevalid (p : drvPvt) (t : ConnType) :
    (p.setType t).nodevalid = p.nodevalid := rfl
@[simp]
theorem setType_dnode (p : drvPvt) (t : ConnType) :
    (p.setType t).dnode = p.dnode := rfl
@[simp]
theorem setType_snode (p : drvPvt) (t : ConnType) :
    (p.setType t).snode = p.snode := rfl
@[simp]
theorem setType_sid (p : drvPvt) (t : ConnType) :
    (p.setType t).sid = p.sid := rfl
@[simp]
theorem setType_mrc (p : drvPvt) (t : ConnType) :
    (p.setType t).mrc = p.mrc := rfl
@[simp]
theorem setType_src (p : drvPvt) (t : ConnType) :
    (p.setType t).src = p.src := rfl
@[simp]
theorem setType_message (p : drvPvt) (t : ConnType) :
    (p.setType t).message = p.message := rfl

@[simp]
theorem put_type (p : drvPvt) (i v : Nat) :
    (p.put i v).type = p.type := rfl
@[simp]
theorem put_nodevalid (p : drvPvt) (i v : Nat) :
    (p.put i v).nodevalid = p.nodevalid := rfl
@[simp]
theorem put_dnode (p : drvPvt) (i v : Nat) :
    (p.put i v).dnode = p.dnode := rfl
@[simp]
theorem put_snode (p : drvPvt) (i v : Nat) :
    (p.put i v).snode = p.snode := rfl
@[simp]
theorem put_sid (p : drvPvt) (i v : Nat) :
    (p.put i v).sid = p.sid := rfl
@[simp]
theorem put_mrc (p : drvPvt) (i v : Nat) :
    (p.put i v).mrc = p.mrc := rfl
@[simp]
theorem put_src (p : drvPvt) (i v : Nat) :
    (p.put i v).src = p.src := rfl
@[simp]
theorem put_message (p : drvPvt) (i v : Nat) :
    (p.put i v).message = setByte p.message i v := rfl

/-! ## Bytes of the buffer -/

@[simp]
theorem length_setByte (m : List Nat) (i v : Nat) : (setByte m i v).length = m.length := by
  simp [setByte]

theorem getD_setByte (m : List Nat) (i v j : Nat) :
    (setByte m i v)[j]?.getD 0 = if j = i ∧ i < m.length then v % 256 else m[j]?.getD 0 := by
  unfold setByte
  by_cases hji : j = i
  · subst hji
    by_cases hl : j < m.length
    · simp [hl, List.getElem?_set]
    · have : m.length ≤ j := by omega
      simp [hl, List.getElem?_set, List.getElem?_eq_none this]
  · have : ¬ i = j := fun e => hji e.symm
    simp [hji, List.getElem?_set, this]

theorem getByte_eq (m : List Nat) (j : Nat) : getByte m j = m[j]?.getD 0 % 256 := by
  simp [getByte]

theorem getByte_setByte (m : List Nat) (i v j : Nat) :
    getByte (setByte m i v) j = if j = i ∧ i < m.length then v % 256 else getByte m j := by
  rw [getByte_eq, getByte_eq, getD_setByte]
  split <;> simp

theorem take_eq_map_getD (m : List Nat) (n : Nat) (hn : n ≤ m.length) :
    m.take n = (List.range n).map (fun i => m[i]?.getD 0) := by
  apply List.ext_getElem
  · simp [hn]
  · intro i h1 h2
    simp at h1 h2
    simp
    rw [List.getElem?_eq_getElem (by omega)]
    simp

theorem shr8 (a : Nat) : a >>> 8 = a / 256 := by
  simp [Nat.shiftRight_eq_div_pow]

theorem and_ff (a : Nat) : a &&& 0xff = a % 256 := by
  simpa using Nat.and_pow_two_sub_one_eq_mod a 8

theorem sizeT_small (h : Host) (hs : 16 ≤ h.sizeBits) (x : Nat) (hx : x < 65536) :
    sizeT h x = x := by
  unfold sizeT
  apply Nat.mod_eq_of_lt
  calc x < 2 ^ 16 := by simpa using hx
    _ ≤ 2 ^ h.sizeBits := Nat.pow_le_pow_right (by decide) hs

/-! ## Header, address field and common tail -/

@[simp]
theorem setMessage_setMessage (p : drvPvt) (m m' : List Nat) :
    (p.setMessage m).setMessage m' = p.setMessage m' := rfl

theorem put_eq (p : drvPvt) (i v : Nat) : p.put i v = p.setMessage (setByte p.message i v) := rfl

theorem InitHeader_eq (p : drvPvt) :
    InitHeader p = p.setMessage (setByte (setByte (setByte (setByte (setByte (setByte (setByte
      (setByte (setByte p.message ICF 0x80) RSV 0x00) GCT FINS_GATEWAY) DNA 0x00) DA1 p.dnode)
      DA2 0x00) SNA 0x00) SA1 p.snode) SA2 0x00) := by
  simp only [InitHeader, put_eq, setMessage_setMessage, setMessage_message, setMessage_dnode,
    setMessage_snode]

theorem InitAddrSize_eq (h : Host) (p : drvPvt) (a n s : Nat) :
    InitAddrSize h p a n s = p.setMessage (setByte (setByte (setByte (setByte (setByte p.message
      (COM + 1) ((a % 65536) >>> 8)) (COM + 2) ((a % 65536) &&& 0xff)) (COM + 3) 0x00)
      (COM + 4) ((sizeT h (n % 65536 * s) / 2) >>> 8))
      (COM + 5) ((sizeT h (n % 65536 * s) / 2) &&& 0xff)) := by
  simp only [InitAddrSize, put_eq, setMessage_setMessage, setMessage_message]

/-- The state the common tail leaves before the FINS/TCP header is added. -/
theorem finishMessage_udp (h : Host) (p : drvPvt) (s r : Nat) (hu : p.type ≠ FINS_TCP_type) :
    finishMessage h p s r = BuildResult.ok
      ((p.setSid ((p.sid + 1) % 256)).setMessage
        (setByte (setByte (setByte p.message MRC p.mrc) SRC p.src) SID ((p.sid + 1) % 256))) s r := by
  simp only [finishMessage, put_eq, setMessage_type, setSid_type, hu, if_false, setMessage_mrc,
    setMessage_src, setMessage_sid, setSid_sid, setMessage_message, setSid_message]
  rfl

theorem AddCommand_frame (h : Host) (p : drvPvt) (s : Nat) :
    AddCommand h p s FINS_FRAME_SEND_COMMAND = p.setMessage
      (setByte (setByte (setByte (setByte (setByte (setByte (setByte (setByte (setByte (setByte
        (setByte (setByte (setByte (setByte (setByte (setByte p.message
        0 0x46) 1 0x49) 2 0x4E) 3 0x53) 8 0) 9 0) 10 0) 11 2) 12 0) 13 0) 14 0) 15 0)
        4 (sizeT h (s + 8) / 16777216)) 5 (sizeT h (s + 8) / 65536)) 6 (sizeT h (s + 8) / 256))
        7 (sizeT h (s + 8))) := by
  simp only [AddCommand, wire_store32B, FINS_MODE_HEADER, FINS_MODE_COMMAND, FINS_MODE_ERROR,
    FINS_MODE_LENGTH, FINS_FRAME_SEND_COMMAND, FINS_NODE_CLIENT_COMMAND, FINS_TCP_HEADER]
  rfl

theorem finishMessage_tcp (h : Host) (p : drvPvt) (s r : Nat) (hu : p.type = FINS_TCP_type) :
    finishMessage h p s r = BuildResult.ok
      (AddCommand h ((p.setSid ((p.sid + 1) % 256)).setMessage
        ((setByte (setByte (setByte p.message MRC p.mrc) SRC p.src) SID
            ((p.sid + 1) % 256)).take FINS_SEND_FRAME_SIZE ++
          (setByte (setByte (setByte p.message MRC p.mrc) SRC p.src) SID
            ((p.sid + 1) % 256)).take (FINS_MAX_MSG - FINS_SEND_FRAME_SIZE)))
        s FINS_FRAME_SEND_COMMAND)
      (sizeT h (s + FINS_SEND_FRAME_SIZE)) (sizeT h (r + FINS_SEND_FRAME_SIZE)) := by
  simp only [finishMessage, put_eq, setMessage_type, setSid_type, hu, if_true, setMessage_mrc,
    setMessage_src, setMessage_sid, setSid_sid, setMessage_message, setSid_message,
    setMessage_setMessage]
  rfl


/-! ## The copy loops -/

theorem assignLoop_succ (f : Nat → Nat) (n : Nat) (d : List Nat) :
    assignLoop f (n + 1) d = (assignLoop f n d).set n (f n) := by
  simp [assignLoop, List.range_succ, List.foldl_append]

@[simp]
theorem length_assignLoop (f : Nat → Nat) (n : Nat) (d : List Nat) :
    (assignLoop f n d).length = d.length := by
  induction n with
  | zero => simp [assignLoop]
  | succ k ih => rw [assignLoop_succ]; simp [ih]

theorem getElem?_assignLoop (f : Nat → Nat) (n : Nat) (d : List Nat) (i : Nat) :
    (assignLoop f n d)[i]? = if i < n ∧ i < d.length then some (f i) else d[i]? := by
  induction n with
  | zero => simp [assignLoop]
  | succ k ih =>
    rw [assignLoop_succ, List.getElem?_set]
    by_cases hik : k = i
    · subst hik
      by_cases hl : k < d.length
      · simp [hl]
      · have hl' : d.length ≤ k := by omega
        simp [hl, ih, hl']
    · have : ¬ i = k := fun e => hik e.symm
      simp only [hik, if_false, ih]
      by_cases h1 : i < k
      · have : i < k + 1 := by omega
        simp [h1, this]
      · have : ¬ i < k + 1 := by omega
        simp [h1, this]

/-- A loop over an array of exactly `n` elements stores `f 0, ..., f (n-1)`. -/
theorem assignLoop_eq_map (f : Nat → Nat) (n : Nat) (d : List Nat) (hd : d.length = n) :
    assignLoop f n d = (List.range n).map f := by
  apply List.ext_getElem?
  intro i
  rw [getElem?_assignLoop]
  by_cases hi : i < n
  · simp [hi, hd, List.getElem?_range]
  · have h1 : d.length ≤ i := by omega
    have h2 : (List.range n)[i]? = none := List.getElem?_eq_none (by simp; omega)
    simp [hi, List.getElem?_eq_none h1, h2]

theorem writeWords32_succ (h : Host) (data : List Nat) (n : Nat) (p : drvPvt) :
    writeWords32 h data (n + 1) p = (writeWords32 h data n p).setMessage
      (setByte (setByte (setByte (setByte (writeWords32 h data n p).message
        (18 + 4 * n) (data.getD n 0 % 2 ^ 32 / 256)) (18 + 4 * n + 1) (data.getD n 0 % 2 ^ 32))
        (18 + 4 * n + 2) (data.getD n 0 % 2 ^ 32 / 16777216))
        (18 + 4 * n + 3) (data.getD n 0 % 2 ^ 32 / 65536)) := by
  have hv : data.getD n 0 % 2 ^ 32 < 4294967296 := Nat.mod_lt _ (by norm_num)
  simp only [writeWords32, List.range_succ, List.foldl_append, List.foldl_cons, List.foldl_nil]
  rw [wire_store32W _ _ _ _ hv]
  rfl

theorem writeWords16_succ (h : Host) (data : List Nat) (b n : Nat) (p : drvPvt) :
    writeWords16 h data b (n + 1) p = (writeWords16 h data b n p).setMessage
      (setByte (setByte (writeWords16 h data b n p).message
        (18 + 2 * n) (data.getD n 0 % 2 ^ b % 2 ^ 16 / 256))
        (18 + 2 * n + 1) (data.getD n 0 % 2 ^ b % 2 ^ 16)) := by
  have hv : data.getD n 0 % 2 ^ b % 2 ^ 16 < 65536 := Nat.mod_lt _ (by norm_num)
  simp only [writeWords16, List.range_succ, List.foldl_append, List.foldl_cons, List.foldl_nil]
  rw [wire_store16 _ _ _ _ hv]
  rfl

/-- What the copy loops leave unchanged. -/
theorem writeWords32_fields (h : Host) (data : List Nat) (n : Nat) (p : drvPvt) :
    (writeWords32 h data n p).type = p.type ∧ (writeWords32 h data n p).nodevalid = p.nodevalid ∧
    (writeWords32 h data n p).dnode = p.dnode ∧ (writeWords32 h data n p).snode = p.snode ∧
    (writeWords32 h data n p).sid = p.sid ∧ (writeWords32 h data n p).mrc = p.mrc ∧
    (writeWords32 h data n p).src = p.src ∧
    (writeWords32 h data n p).message.length = p.message.length ∧
    ∀ j, j < 18 → (writeWords32 h data n p).message[j]?.getD 0 = p.message[j]?.getD 0 := by
  induction n with
  | zero => simp [writeWords32]
  | succ k ih =>
    rw [writeWords32_succ]
    obtain ⟨h1, h2, h3, h4, h5, h6, h7, h8, h9⟩ := ih
    refine ⟨by simpa, by simpa, by simpa, by simpa, by simpa, by simpa, by simpa, by simpa, ?_⟩
    intro j hj
    have e1 : ¬ j = 18 + 4 * k := by omega
    have e2 : ¬ j = 18 + 4 * k + 1 := by omega
    have e3 : ¬ j = 18 + 4 * k + 2 := by omega
    have e4 : ¬ j = 18 + 4 * k + 3 := by omega
    simp only [setMessage_message, getD_setByte, e1, e2, e3, e4, false_and, if_false]
    exact h9 j hj

theorem writeWords16_fields (h : Host) (data : List Nat) (b n : Nat) (p : drvPvt) :
    (writeWords16 h data b n p).type = p.type ∧
    (writeWords16 h data b n p).nodevalid = p.nodevalid ∧
    (writeWords16 h data b n p).dnode = p.dnode ∧ (writeWords16 h data b n p).snode = p.snode ∧
    (writeWords16 h data b n p).sid = p.sid ∧ (writeWords16 h data b n p).mrc = p.mrc ∧
    (writeWords16 h data b n p).src = p.src ∧
    (writeWords16 h data b n p).message.length = p.message.length ∧
    ∀ j, j < 18 → (writeWords16 h data b n p).message[j]?.getD 0 = p.message[j]?.getD 0 := by
  induction n with
  | zero => simp [writeWords16]
  | succ k ih =>
    rw [writeWords16_succ]
    obtain ⟨h1, h2, h3, h4, h5, h6, h7, h8, h9⟩ := ih
    refine ⟨by simpa, by simpa, by simpa, by simpa, by simpa, by simpa, by simpa, by simpa, ?_⟩
    intro j hj
    have e1 : ¬ j = 18 + 2 * k := by omega
    have e2 : ¬ j = 18 + 2 * k + 1 := by omega
    simp only [setMessage_message, getD_setByte, e1, e2, false_and, if_false]
    exact h9 j hj

/-- The wire bytes of element `i` after the 32-bit copy loop. -/
theorem writeWords32_bytes (h : Host) (data : List Nat) (n : Nat) (p : drvPvt)
    (hfit : 18 + 4 * n ≤ p.message.length) (i : Nat) (hi : i < n) :
    getByte (writeWords32 h data n p).message (18 + 4 * i) = data.getD i 0 % 2 ^ 32 / 256 % 256 ∧
    getByte (writeWords32 h data n p).message (18 + 4 * i + 1) = data.getD i 0 % 2 ^ 32 % 256 ∧
    getByte (writeWords32 h data n p).message (18 + 4 * i + 2)
      = data.getD i 0 % 2 ^ 32 / 16777216 % 256 ∧
    getByte (writeWords32 h data n p).message (18 + 4 * i + 3)
      = data.getD i 0 % 2 ^ 32 / 65536 % 256 := by
  induction n with
  | zero => omega
  | succ k ih =>
    rw [writeWords32_succ]
    have hl := (writeWords32_fields h data k p).2.2.2.2.2.2.2.1
    by_cases hik : i = k
    · subst hik
      simp [getByte_setByte, hl]
      omega
    · have hi' : i < k := by omega
      obtain ⟨a0, a1, a2, a3⟩ := ih (by omega) hi'
      have e : ∀ c d : Nat, c < 4 → d < 4 → ¬ (18 + 4 * i + c = 18 + 4 * k + d) := by
        intro c d hc hd; omega
      have e00 := e 0 0 (by omega) (by omega)
      have e01 := e 0 1 (by omega) (by omega)
      have e02 := e 0 2 (by omega) (by omega)
      have e03 := e 0 3 (by omega) (by omega)
      have e10 := e 1 0 (by omega) (by omega)
      have e11 := e 1 1 (by omega) (by omega)
      have e12 := e 1 2 (by omega) (by omega)
      have e13 := e 1 3 (by omega) (by omega)
      have e20 := e 2 0 (by omega) (by omega)
      have e21 := e 2 1 (by omega) (by omega)
      have e22 := e 2 2 (by omega) (by omega)
      have e23 := e 2 3 (by omega) (by omega)
      have e30 := e 3 0 (by omega) (by omega)
      have e31 := e 3 1 (by omega) (by omega)
      have e32 := e 3 2 (by omega) (by omega)
      have e33 := e 3 3 (by omega) (by omega)
      simp only [Nat.add_zero] at e00 e10 e20 e30 e01 e02 e03
      simp only [setMessage_message, getByte_setByte, e00, e01, e02, e03, e10, e11, e12, e13,
        e20, e21, e22, e23, e30, e31, e32, e33, false_and, if_false]
      exact ⟨a0, a1, a2, a3⟩

/-- The wire bytes of element `i` after the 16-bit copy loop. -/
theorem writeWords16_bytes (h : Host) (data : List Nat) (b n : Nat) (p : drvPvt)
    (hfit : 18 + 2 * n ≤ p.message.length) (i : Nat) (hi : i < n) :
    getByte (writeWords16 h data b n p).message (18 + 2 * i)
      = data.getD i 0 % 2 ^ b % 2 ^ 16 / 256 % 256 ∧
    getByte (writeWords16 h data b n p).message (18 + 2 * i + 1)
      = data.getD i 0 % 2 ^ b % 2 ^ 16 % 256 := by
  induction n with
  | zero => omega
  | succ k ih =>
    rw [writeWords16_succ]
    have hl := (writeWords16_fields h data b k p).2.2.2.2.2.2.2.1
    by_cases hik : i = k
    · subst hik
      simp [getByte_setByte, hl]
      omega
    · have hi' : i < k := by omega
      obtain ⟨a0, a1⟩ := ih (by omega) hi'
      have e00 : ¬ (18 + 2 * i = 18 + 2 * k) := by omega
      have e01 : ¬ (18 + 2 * i = 18 + 2 * k + 1) := by omega
      have e10 : ¬ (18 + 2 * i + 1 = 18 + 2 * k) := by omega
      have e11 : ¬ (18 + 2 * i + 1 = 18 + 2 * k + 1) := by omega
      simp only [setMessage_message, getByte_setByte, e00, e01, e10, e11, false_and, if_false]
      exact ⟨a0, a1⟩


/-! ## The switches of the builders -/

theorem readSwitch_mem16 (h : Host) (mmList : List MultiMemArea) (p : drvPvt) (r : FINS_COMMANDS)
    (area a n : Nat)
    (hr : (r, area) ∈ [(FINS_DM_READ, DM), (FINS_AR_READ, AR), (FINS_IO_READ, IO_),
      (FINS_WR_READ, WR), (FINS_HR_READ, HR), (FINS_DM_WRITE, DM), (FINS_AR_WRITE, AR),
      (FINS_IO_WRITE, IO_)]) :
    readSwitch h mmList p r a n = BuildResult.ok
      (InitAddrSize h ((p.setCodes 0x01 0x01).put COM area) a n 2)
      (COM + COMMAND_DATA_OFFSET) (sizeT h (RESP + sizeT h (2 * n))) := by
  simp only [List.mem_cons, Prod.mk.injEq, List.mem_singleton, List.not_mem_nil, or_false] at hr
  rcases hr with e | e | e | e | e | e | e | e <;> (obtain ⟨rfl, rfl⟩ := e; rfl)

theorem readSwitch_mem32 (h : Host) (mmList : List MultiMemArea) (p : drvPvt) (r : FINS_COMMANDS)
    (area a n : Nat)
    (hr : (r, area) ∈ [(FINS_DM_READ_32, DM), (FINS_AR_READ_32, AR), (FINS_IO_READ_32, IO_),
      (FINS_DM_WRITE_32, DM), (FINS_AR_WRITE_32, AR), (FINS_IO_WRITE_32, IO_)]) :
    readSwitch h mmList p r a n = BuildResult.ok
      (InitAddrSize h ((p.setCodes 0x01 0x01).put COM area) a n 4)
      (COM + COMMAND_DATA_OFFSET) (sizeT h (RESP + sizeT h (4 * n))) := by
  simp only [List.mem_cons, Prod.mk.injEq, List.mem_singleton, List.not_mem_nil, or_false] at hr
  rcases hr with e | e | e | e | e | e <;> (obtain ⟨rfl, rfl⟩ := e; rfl)

theorem writeSwitch_mem16 (h : Host) (p : drvPvt) (r : FINS_COMMANDS)
    (area a n : Nat) (data : List Nat)
    (hr : (r, area) ∈ [(FINS_DM_WRITE, DM), (FINS_DM_WRITE_NOREAD, DM), (FINS_AR_WRITE, AR),
      (FINS_AR_WRITE_NOREAD, AR), (FINS_IO_WRITE, IO_), (FINS_IO_WRITE_NOREAD, IO_)]) :
    writeSwitch h p r a n 2 data = BuildResult.ok
      (writeWords16 h data 16 n (InitAddrSize h ((p.setCodes 0x01 0x02).put COM area) a n 2))
      (sizeT h (COM + COMMAND_DATA_OFFSET + sizeT h (n * 2))) (RESP + 0) := by
  simp only [List.mem_cons, Prod.mk.injEq, List.mem_singleton, List.not_mem_nil, or_false] at hr
  rcases hr with e | e | e | e | e | e <;> (obtain ⟨rfl, rfl⟩ := e; rfl)

theorem writeSwitch_mem32 (h : Host) (p : drvPvt) (r : FINS_COMMANDS)
    (area a n asynSize : Nat) (data : List Nat)
    (hr : (r, area) ∈ [(FINS_DM_WRITE_32, DM), (FINS_DM_WRITE_32_NOREAD, DM),
      (FINS_AR_WRITE_32, AR), (FINS_AR_WRITE_32_NOREAD, AR), (FINS_IO_WRITE_32, IO_),
      (FINS_IO_WRITE_32_NOREAD, IO_)]) :
    writeSwitch h p r a n asynSize data = BuildResult.ok
      (writeWords32 h data n (InitAddrSize h ((p.setCodes 0x01 0x02).put COM area) a n 4))
      (sizeT h (COM + COMMAND_DATA_OFFSET + sizeT h (n * 4))) (RESP + 0) := by
  simp only [List.mem_cons, Prod.mk.injEq, List.mem_singleton, List.not_mem_nil, or_false] at hr
  rcases hr with e | e | e | e | e | e <;> (obtain ⟨rfl, rfl⟩ := e; rfl)

/-- What a state shares with the state a builder started from: everything
but the command codes and the contents of the scratch buffer. -/
theorem mmLoop_keeps (MM : MultiMemArea) (n fuel : Nat) :
    ∀ (i : Nat) (p : drvPvt) (j : Nat) (q : drvPvt), mmLoop MM n fuel i p = some (j, q) →
      q.type = p.type ∧ q.nodevalid = p.nodevalid ∧ q.dnode = p.dnode ∧ q.snode = p.snode ∧
      q.sid = p.sid ∧ q.mrc = p.mrc ∧ q.src = p.src ∧ q.message.length = p.message.length := by
  induction fuel with
  | zero =>
    intro i p j q hq
    simp only [mmLoop, Option.some.injEq, Prod.mk.injEq] at hq
    obtain ⟨-, rfl⟩ := hq
    simp
  | succ f ih =>
    intro i p j q hq
    simp only [mmLoop] at hq
    split at hq
    · split at hq
      · split at hq
        · have := ih _ _ _ _ hq
          simpa using this
        · simp only [Option.some.injEq, Prod.mk.injEq] at hq
          obtain ⟨-, rfl⟩ := hq
          simp
      · split at hq
        · cases hq
        · simp only [Option.some.injEq, Prod.mk.injEq] at hq
          obtain ⟨-, rfl⟩ := hq
          simp
      · cases hq
    · simp only [Option.some.injEq, Prod.mk.injEq] at hq
      obtain ⟨-, rfl⟩ := hq
      simp

theorem InitHeader_keeps (p : drvPvt) :
    (InitHeader p).type = p.type ∧ (InitHeader p).nodevalid = p.nodevalid ∧
    (InitHeader p).dnode = p.dnode ∧ (InitHeader p).snode = p.snode ∧
    (InitHeader p).sid = p.sid ∧ (InitHeader p).mrc = p.mrc ∧ (InitHeader p).src = p.src ∧
    (InitHeader p).message.length = p.message.length := by
  rw [InitHeader_eq]; simp

theorem readSwitch_keeps (h : Host) (mmList : List MultiMemArea) (p : drvPvt) (r : FINS_COMMANDS)
    (a n : Nat) (q : drvPvt) (s0 r0 : Nat)
    (hq : readSwitch h mmList p r a n = BuildResult.ok q s0 r0) :
    q.type = p.type ∧ q.nodevalid = p.nodevalid ∧ q.dnode = p.dnode ∧ q.snode = p.snode ∧
      q.sid = p.sid ∧ q.message.length = p.message.length := by
  by_cases hmm : r = FINS_MM_READ
  · subst hmm
    simp only [readSwitch] at hq
    split at hq
    · split at hq
      · cases hq
      · simp only [BuildResult.ok.injEq] at hq; obtain ⟨rfl, -, -⟩ := hq
        simp
    · split at hq
      · cases hq
      · rename_i hloop
        simp only [BuildResult.ok.injEq] at hq; obtain ⟨rfl, -, -⟩ := hq
        have := mmLoop_keeps _ n n 0 _ _ _ hloop
        simp only [setCodes_type, setCodes_nodevalid, setCodes_dnode, setCodes_snode,
          setCodes_sid, setCodes_message] at this
        exact ⟨this.1, this.2.1, this.2.2.1, this.2.2.2.1, this.2.2.2.2.1, this.2.2.2.2.2.2.2⟩
  · cases r <;> first
      | (exact absurd rfl hmm)
      | (simp only [readSwitch] at hq; exact BuildResult.noConfusion hq)
      | (simp only [readSwitch, BuildResult.ok.injEq] at hq; obtain ⟨rfl, -, -⟩ := hq
         simp [InitAddrSize_eq])

theorem writeSwitch_keeps (h : Host) (p : drvPvt) (r : FINS_COMMANDS)
    (a n asz : Nat) (data : List Nat) (q : drvPvt) (s0 r0 : Nat)
    (hq : writeSwitch h p r a n asz data = BuildResult.ok q s0 r0) :
    q.type = p.type ∧ q.nodevalid = p.nodevalid ∧ q.dnode = p.dnode ∧ q.snode = p.snode ∧
      q.sid = p.sid ∧ q.message.length = p.message.length := by
  have h32 := writeWords32_fields h data n
  have h16 := writeWords16_fields h data
  cases r <;> first
    | (simp only [writeSwitch] at hq; cases hq; done)
    | (simp only [writeSwitch, BuildResult.ok.injEq] at hq; obtain ⟨rfl, -, -⟩ := hq
       simp [InitAddrSize_eq, h32]; done)
    | (simp only [writeSwitch, BuildResult.ok.injEq] at hq; obtain ⟨rfl, -, -⟩ := hq
       split <;> simp [InitAddrSize_eq, h16])


/-! ## The connection kind does not enter the switches -/

theorem setType_setMessage (p : drvPvt) (t : ConnType) (m : List Nat) :
    (p.setType t).setMessage m = (p.setMessage m).setType t := rfl

theorem setType_setCodes (p : drvPvt) (t : ConnType) (c d : Nat) :
    (p.setType t).setCodes c d = (p.setCodes c d).setType t := rfl

theorem setType_put (p : drvPvt) (t : ConnType) (i v : Nat) :
    (p.setType t).put i v = (p.put i v).setType t := rfl

theorem setType_InitHeader (p : drvPvt) (t : ConnType) :
    InitHeader (p.setType t) = (InitHeader p).setType t := by
  simp only [InitHeader_eq, setType_message, setType_dnode, setType_snode, setType_setMessage]

theorem setType_InitAddrSize (h : Host) (p : drvPvt) (t : ConnType) (a n s : Nat) :
    InitAddrSize h (p.setType t) a n s = (InitAddrSize h p a n s).setType t := by
  simp only [InitAddrSize_eq, setType_message, setType_setMessage]

theorem setType_writeWords32 (h : Host) (data : List Nat) (n : Nat) (p : drvPvt) (t : ConnType) :
    writeWords32 h data n (p.setType t) = (writeWords32 h data n p).setType t := by
  induction n with
  | zero => simp [writeWords32]
  | succ k ih => rw [writeWords32_succ, writeWords32_succ, ih]; rfl

theorem setType_writeWords16 (h : Host) (data : List Nat) (b n : Nat) (p : drvPvt)
    (t : ConnType) :
    writeWords16 h data b n (p.setType t) = (writeWords16 h data b n p).setType t := by
  induction n with
  | zero => simp [writeWords16]
  | succ k ih => rw [writeWords16_succ, writeWords16_succ, ih]; rfl

theorem setType_mmLoop (MM : MultiMemArea) (n fuel : Nat) (t : ConnType) :
    ∀ (i : Nat) (p : drvPvt), mmLoop MM n fuel i (p.setType t)
      = (mmLoop MM n fuel i p).map (fun x => (x.1, x.2.setType t)) := by
  induction fuel with
  | zero => intro i p; simp [mmLoop]
  | succ f ih =>
    intro i p
    simp only [mmLoop]
    split
    · split
      · split
        · simp only [setType_put]; rw [ih]
        · simp
      · split <;> simp
      · simp
    · simp

theorem setType_readSwitch (h : Host) (mmList : List MultiMemArea) (p : drvPvt) (t : ConnType)
    (r : FINS_COMMANDS) (a n : Nat) :
    readSwitch h mmList (p.setType t) r a n =
      match readSwitch h mmList p r a n with
      | BuildResult.ok q s0 r0 => BuildResult.ok (q.setType t) s0 r0
      | BuildResult.err q => BuildResult.err (q.setType t)
      | BuildResult.fault => BuildResult.fault := by
  by_cases hmm : r = FINS_MM_READ
  · subst hmm
    simp only [readSwitch, setType_setCodes, setType_mmLoop]
    split
    · split <;> simp
    · rename_i MM hMM
      cases hl : mmLoop MM n n 0 (p.setCodes 1 4) with
      | none => simp
      | some x => simp
  · cases r <;> first
      | (exact absurd rfl hmm)
      | (simp only [readSwitch, setType_setCodes, setType_put, setType_InitAddrSize])

theorem setType_writeSwitch (h : Host) (p : drvPvt) (t : ConnType)
    (r : FINS_COMMANDS) (a n asz : Nat) (data : List Nat) :
    writeSwitch h (p.setType t) r a n asz data =
      match writeSwitch h p r a n asz data with
      | BuildResult.ok q s0 r0 => BuildResult.ok (q.setType t) s0 r0
      | BuildResult.err q => BuildResult.err (q.setType t)
      | BuildResult.fault => BuildResult.fault := by
  cases r <;> first
    | (simp only [writeSwitch, setType_setCodes, setType_put, setType_InitAddrSize,
        setType_writeWords32]; done)
    | (simp only [writeSwitch, setType_setCodes, setType_put, setType_InitAddrSize,
        setType_writeWords16]
       split <;> rfl)

/-! ## Every successful build ends in the common tail -/

theorem run_ok (h : Host) (p : drvPvt) (c : BuildCall) (p' : drvPvt) (s r : Nat)
    (hrun : c.run h p = BuildResult.ok p' s r) :
    ∃ q s0 r0, finishMessage h q s0 r0 = BuildResult.ok p' s r ∧ q.type = p.type ∧
      q.sid = p.sid ∧ q.message.length = p.message.length ∧
      ∀ t, c.run h (p.setType t) = finishMessage h (q.setType t) s0 r0 := by
  cases c with
  | read mmList reason address nelements =>
    simp only [BuildCall.run, BuildReadMessage] at hrun ⊢
    cases hsw : readSwitch h mmList (InitHeader p) reason address nelements with
    | ok q s0 r0 =>
      rw [hsw] at hrun
      have hk := readSwitch_keeps _ _ _ _ _ _ _ _ _ hsw
      have hi := InitHeader_keeps p
      refine ⟨q, s0, r0, hrun, by rw [hk.1, hi.1], by rw [hk.2.2.2.2.1, hi.2.2.2.2.1],
        by rw [hk.2.2.2.2.2, hi.2.2.2.2.2.2.2], ?_⟩
      intro t
      rw [setType_InitHeader, setType_readSwitch, hsw]
    | err q => rw [hsw] at hrun; cases hrun
    | fault => rw [hsw] at hrun; cases hrun
  | write reason address nelements asynSize data =>
    simp only [BuildCall.run, BuildWriteMessage] at hrun ⊢
    cases hsw : writeSwitch h (InitHeader p) reason address nelements asynSize data with
    | ok q s0 r0 =>
      rw [hsw] at hrun
      have hk := writeSwitch_keeps _ _ _ _ _ _ _ _ _ _ hsw
      have hi := InitHeader_keeps p
      refine ⟨q, s0, r0, hrun, by rw [hk.1, hi.1], by rw [hk.2.2.2.2.1, hi.2.2.2.2.1],
        by rw [hk.2.2.2.2.2, hi.2.2.2.2.2.2.2], ?_⟩
      intro t
      rw [setType_InitHeader, setType_writeSwitch, hsw]
    | err q => rw [hsw] at hrun; cases hrun
    | fault => rw [hsw] at hrun; cases hrun


/-! ## The FINS/TCP header in front of the frame -/

theorem getElem?_setByte_ne (m : List Nat) (i v j : Nat) (hji : j ≠ i) :
    (setByte m i v)[j]? = m[j]? := by
  unfold setByte
  rw [List.getElem?_set]
  have : ¬ i = j := fun e => hji e.symm
  simp [this]

theorem getElem?_setByte_eq (m : List Nat) (i v : Nat) (hi : i < m.length) :
    (setByte m i v)[i]? = some (v % 256) := by
  unfold setByte
  rw [List.getElem?_set]
  simp [hi]

/-- The sixteen stores of `AddCommand` replace the first sixteen bytes. -/
theorem header_bytes (x : List Nat) (hx : 16 ≤ x.length) (b4 b5 b6 b7 : Nat) :
    setByte (setByte (setByte (setByte (setByte (setByte (setByte (setByte (setByte (setByte
        (setByte (setByte (setByte (setByte (setByte (setByte x
        0 0x46) 1 0x49) 2 0x4E) 3 0x53) 8 0) 9 0) 10 0) 11 2) 12 0) 13 0) 14 0) 15 0)
        4 b4) 5 b5) 6 b6) 7 b7
      = [0x46, 0x49, 0x4E, 0x53, b4 % 256, b5 % 256, b6 % 256, b7 % 256, 0, 0, 0, 2, 0, 0, 0, 0]
        ++ x.drop 16 := by
  apply List.ext_getElem?
  intro j
  by_cases hj : j < 16
  · have hk : ∀ k, k < 16 → k < x.length := fun k hk => Nat.lt_of_lt_of_le hk hx
    rw [List.getElem?_append_left (by simpa using hj)]
    interval_cases j <;>
      simp only [getElem?_setByte_ne, getElem?_setByte_eq, length_setByte, hk, ne_eq,
        Nat.reduceEqDiff, not_false_eq_true, Nat.reduceLT] <;> rfl
  · have e : ∀ i, i < 16 → j ≠ i := by intro i hi; omega
    rw [getElem?_setByte_ne _ _ _ _ (e 7 (by decide)), getElem?_setByte_ne _ _ _ _ (e 6 (by decide)),
      getElem?_setByte_ne _ _ _ _ (e 5 (by decide)), getElem?_setByte_ne _ _ _ _ (e 4 (by decide)),
      getElem?_setByte_ne _ _ _ _ (e 15 (by decide)),
      getElem?_setByte_ne _ _ _ _ (e 14 (by decide)),
      getElem?_setByte_ne _ _ _ _ (e 13 (by decide)),
      getElem?_setByte_ne _ _ _ _ (e 12 (by decide)),
      getElem?_setByte_ne _ _ _ _ (e 11 (by decide)),
      getElem?_setByte_ne _ _ _ _ (e 10 (by decide)),
      getElem?_setByte_ne _ _ _ _ (e 9 (by decide)), getElem?_setByte_ne _ _ _ _ (e 8 (by decide)),
      getElem?_setByte_ne _ _ _ _ (e 3 (by decide)), getElem?_setByte_ne _ _ _ _ (e 2 (by decide)),
      getElem?_setByte_ne _ _ _ _ (e 1 (by decide)), getElem?_setByte_ne _ _ _ _ (e 0 (by decide))]
    rw [List.getElem?_append_right (by simp; omega)]
    simp only [List.length_cons, List.length_nil, List.getElem?_drop]
    congr 1
    omega

/-- The scratch buffer of a TCP session after the common tail: the FINS/TCP
header followed by the frame a UDP session gets. -/
theorem finishMessage_tcp_message (h : Host) (q : drvPvt) (s r : Nat)
    (hq : q.type = FINS_TCP_type) (hlen : q.message.length = FINS_MAX_MSG) :
    ∃ p'', finishMessage h q s r = BuildResult.ok p''
        (sizeT h (s + FINS_SEND_FRAME_SIZE)) (sizeT h (r + FINS_SEND_FRAME_SIZE)) ∧
      p''.sid = (q.sid + 1) % 256 ∧ p''.type = q.type ∧ p''.mrc = q.mrc ∧ p''.src = q.src ∧
      p''.dnode = q.dnode ∧ p''.snode = q.snode ∧ p''.nodevalid = q.nodevalid ∧
      p''.message = [0x46, 0x49, 0x4E, 0x53, sizeT h (s + 8) / 16777216 % 256,
          sizeT h (s + 8) / 65536 % 256, sizeT h (s + 8) / 256 % 256, sizeT h (s + 8) % 256,
          0, 0, 0, 2, 0, 0, 0, 0]
        ++ (setByte (setByte (setByte q.message MRC q.mrc) SRC q.src) SID
            ((q.sid + 1) % 256)).take (FINS_MAX_MSG - FINS_SEND_FRAME_SIZE) := by
  rw [finishMessage_tcp h q s r hq, AddCommand_frame]
  refine ⟨_, rfl, by simp, by simp, by simp, by simp, by simp, by simp, by simp, ?_⟩
  have hl : q.message.length = 2000 := by
    simpa [FINS_MAX_MSG, FINS_MAX_UDP_WORDS] using hlen
  simp only [setMessage_message]
  rw [header_bytes _ (by simp [hl, FINS_SEND_FRAME_SIZE, FINS_MAX_MSG, FINS_MAX_UDP_WORDS])]
  congr 1
  rw [List.drop_append_of_le_length (by simp [hl, FINS_SEND_FRAME_SIZE])]
  simp [hl, FINS_SEND_FRAME_SIZE]

/-- The session id after the common tail and the byte that carries it. -/
theorem finishMessage_sid (h : Host) (q : drvPvt) (s0 r0 : Nat) (p' : drvPvt) (s r : Nat)
    (hlen : q.message.length = FINS_MAX_MSG)
    (hf : finishMessage h q s0 r0 = BuildResult.ok p' s r) :
    p'.sid = (q.sid + 1) % 256 ∧ p'.type = q.type ∧ p'.message.length = FINS_MAX_MSG ∧
      getByte p'.message (if q.type = FINS_TCP_type then 25 else 9) = (q.sid + 1) % 256 := by
  have hl : q.message.length = 2000 := by
    simpa [FINS_MAX_MSG, FINS_MAX_UDP_WORDS] using hlen
  by_cases hq : q.type = FINS_TCP_type
  · obtain ⟨p'', h1, h2, h3, -, -, -, -, -, h4⟩ := finishMessage_tcp_message h q s0 r0 hq hlen
    rw [h1] at hf
    simp only [BuildResult.ok.injEq] at hf
    obtain ⟨rfl, -, -⟩ := hf
    refine ⟨h2, h3, ?_, ?_⟩
    · rw [h4]; simp [hl, FINS_MAX_MSG, FINS_MAX_UDP_WORDS, FINS_SEND_FRAME_SIZE]
    · rw [if_pos hq, h4, getByte_eq]
      rw [List.getElem?_append_right (by simp)]
      simp only [List.length_cons, List.length_nil, FINS_MAX_MSG, FINS_MAX_UDP_WORDS,
        FINS_SEND_FRAME_SIZE, List.getElem?_take, SID, MRC, SRC]
      simp only [Nat.reduceAdd, Nat.reduceMul, Nat.reduceSub, Nat.reduceLT, if_true,
        getD_setByte, length_setByte, hl, true_and, Option.getD_some, Nat.mod_mod]
  · rw [finishMessage_udp h q s0 r0 hq] at hf
    simp only [BuildResult.ok.injEq] at hf
    obtain ⟨rfl, -, -⟩ := hf
    refine ⟨by simp, by simp, by simp [hlen], ?_⟩
    rw [if_neg hq]
    simp only [setMessage_message, getByte_eq, getD_setByte, length_setByte, SID, MRC, SRC, hl]
    simp

theorem finishMessage_type (h : Host) (q : drvPvt) (s0 r0 : Nat) (p' : drvPvt) (s r : Nat)
    (hf : finishMessage h q s0 r0 = BuildResult.ok p' s r) : p'.type = q.type := by
  by_cases hq : q.type = FINS_TCP_type
  · rw [finishMessage_tcp h q s0 r0 hq, AddCommand_frame] at hf
    simp only [BuildResult.ok.injEq] at hf
    obtain ⟨rfl, -, -⟩ := hf
    simp
  · rw [finishMessage_udp h q s0 r0 hq] at hf
    simp only [BuildResult.ok.injEq] at hf
    obtain ⟨rfl, -, -⟩ := hf
    simp


/-! ## The exchange -/

@[simp]
theorem length_receive (m reply : List Nat) : (receive m reply).length = m.length := by
  simp only [receive, List.length_take, List.length_append, List.length_map, List.length_drop]
  omega

theorem getByte_receive (m reply : List Nat) (j : Nat) (hj : j < reply.length)
    (hm : j < m.length) : getByte (receive m reply) j = reply[j]?.getD 0 % 256 := by
  rw [getByte_eq]
  simp only [receive]
  rw [List.getElem?_take_of_lt hm, List.getElem?_append_left (by simpa using hj)]
  simp only [List.getElem?_map]
  rw [List.getElem?_eq_getElem hj]
  simp

/-- Every reason `BuildReadMessage` accepts has a case in the extraction switch. -/
theorem extractData_isSome (h : Host) (mmList : List MultiMemArea) (p : drvPvt)
    (r : FINS_COMMANDS) (a n : Nat) (q : drvPvt) (s0 r0 : Nat)
    (hq : readSwitch h mmList p r a n = BuildResult.ok q s0 r0)
    (m data : List Nat) (asz : Nat) :
    ∃ d, extractData h m r data n asz = some d := by
  cases r <;> first
    | (simp only [readSwitch] at hq; cases hq; done)
    | (simp only [extractData]; split <;> exact ⟨_, rfl⟩)
    | (simp only [extractData]; exact ⟨_, rfl⟩)

theorem BuildReadMessage_extract (h : Host) (mmList : List MultiMemArea) (p : drvPvt)
    (r : FINS_COMMANDS) (a n : Nat) (p' : drvPvt) (S R : Nat)
    (hb : BuildReadMessage h mmList p r a n = BuildResult.ok p' S R)
    (m data : List Nat) (asz : Nat) :
    ∃ d, extractData h m r data n asz = some d := by
  simp only [BuildReadMessage] at hb
  cases hsw : readSwitch h mmList (InitHeader p) r a n with
  | ok q s0 r0 => exact extractData_isSome h mmList _ r a n q s0 r0 hsw m data asz
  | err q => rw [hsw] at hb; cases hb
  | fault => rw [hsw] at hb; cases hb

theorem CheckData_cases (p : drvPvt) : CheckData p = 0 ∨ CheckData p = -1 := by
  simp only [CheckData]
  split_ifs <;> simp

/-- Without a pending handshake and with at least one element, `finsRead` is
the build followed by the exchange. -/
theorem finsRead_no_handshake (h : Host) (tr : Transport) (mmList : List MultiMemArea)
    (p : drvPvt) (log : List IOEvent) (r : FINS_COMMANDS) (data : List Nat)
    (n a t asz : Nat) (p' : drvPvt) (S R : Nat) (hn : 1 ≤ n)
    (hreg : ¬ (p.type = FINS_TCP_type ∧ p.nodevalid ≠ 1))
    (hb : BuildReadMessage h mmList p r (a % 65536) n = BuildResult.ok p' S R) :
    finsRead h tr mmList p log r data n a t asz
      = some (readExchange h tr p' log r data n t asz S R) := by
  have hn' : ¬ n < 1 := by omega
  simp only [finsRead, hn', if_false, hreg, hb]
  simp

/-- What a successful return of the exchange means. -/
theorem readExchange_ret (h : Host) (tr : Transport) (p : drvPvt) (log : List IOEvent)
    (r : FINS_COMMANDS) (data : List Nat) (n t asz S R : Nat) :
    ((readExchange h tr p log r data n t asz S R).ret = 0 ∨
      (readExchange h tr p log r data n t asz S R).ret = -1) ∧
    ((readExchange h tr p log r data n t asz S R).ret = 0 →
      CheckData (readExchange h tr p log r data n t asz S R).pvt = 0 ∧
      extractData h (readExchange h tr p log r data n t asz S R).pvt.message r data n asz
        = some (readExchange h tr p log r data n t asz S R).data ∧
      (readExchange h tr p log r data n t asz S R).transferred = n) := by
  simp only [readExchange]
  split_ifs <;> try simp
  all_goals
    split
    · simp
    · rename_i hcd _ d hd
      simp only [true_or, forall_const, and_true, true_and]
      refine ⟨?_, by simpa using hd⟩
      apply (CheckData_cases _).resolve_right
      intro hneg
      apply hcd
      try simp only [setMessage_setMessage, setMessage_message] at hneg ⊢
      rw [hneg]
      decide

/-- The scratch buffer in which `CheckData` and the extraction see the reply:
the received bytes, moved down by the size of the FINS/TCP header on a TCP
session. -/
theorem readExchange_iff (h : Host) (tr : Transport) (p : drvPvt) (log : List IOEvent)
    (r : FINS_COMMANDS) (data : List Nat) (n t asz S R : Nat)
    (hex : ∀ m, ∃ d, extractData h m r data n asz = some d) :
    ((readExchange h tr p log r data n t asz S R).ret = 0 ↔
      (tr log (p.message.take S) S R).status = asynSuccess ∧
      (tr log (p.message.take S) S R).sentlen = S ∧
      (tr log (p.message.take S) S R).recdlen = R ∧
      (p.type = FINS_TCP_type →
        BSWAP32 h (load32 h (receive p.message ((tr log (p.message.take S) S R).reply.take R))
          (4 * FINS_MODE_ERROR)) = FINS_ERROR_NORMAL) ∧
      CheckData (p.setMessage
        (if p.type = FINS_TCP_type then
          (receive p.message ((tr log (p.message.take S) S R).reply.take R)).drop
              FINS_SEND_FRAME_SIZE
            ++ (receive p.message ((tr log (p.message.take S) S R).reply.take R)).drop
              (FINS_MAX_MSG - FINS_SEND_FRAME_SIZE)
        else receive p.message ((tr log (p.message.take S) S R).reply.take R))) = 0) ∧
    ((readExchange h tr p log r data n t asz S R).ret = 0 →
      (readExchange h tr p log r data n t asz S R).pvt = p.setMessage
        (if p.type = FINS_TCP_type then
          (receive p.message ((tr log (p.message.take S) S R).reply.take R)).drop
              FINS_SEND_FRAME_SIZE
            ++ (receive p.message ((tr log (p.message.take S) S R).reply.take R)).drop
              (FINS_MAX_MSG - FINS_SEND_FRAME_SIZE)
        else receive p.message ((tr log (p.message.take S) S R).reply.take R))) ∧
    (∃ tail, (readExchange h tr p log r data n t asz S R).log
        = log ++ IOEvent.writeRead (p.message.take S) S R :: tail ∧
      (tail = [] ∨ tail = [IOEvent.disconnectDevice]) ∧
      ((readExchange h tr p log r data n t asz S R).ret = 0 → tail = [])) := by
  simp only [readExchange, setMessage_type, setMessage_message, setMessage_setMessage]
  by_cases h1 : (tr log (p.message.take S) S R).status = asynSuccess
  swap
  · simp [h1]
  by_cases h2 : (tr log (p.message.take S) S R).sentlen = S
  swap
  · simp [h1, h2]
  by_cases h3 : (tr log (p.message.take S) S R).recdlen = R
  swap
  · simp [h1, h2, h3]
  by_cases ht : p.type = FINS_TCP_type
  · by_cases h4 : BSWAP32 h (load32 h (receive p.message
        ((tr log (p.message.take S) S R).reply.take R)) (4 * FINS_MODE_ERROR)) = FINS_ERROR_NORMAL
    · rcases CheckData_cases (p.setMessage ((receive p.message
          ((tr log (p.message.take S) S R).reply.take R)).drop FINS_SEND_FRAME_SIZE
          ++ (receive p.message ((tr log (p.message.take S) S R).reply.take R)).drop
            (FINS_MAX_MSG - FINS_SEND_FRAME_SIZE))) with h5 | h5
      · obtain ⟨d, hd⟩ := hex ((receive p.message
          ((tr log (p.message.take S) S R).reply.take R)).drop FINS_SEND_FRAME_SIZE
          ++ (receive p.message ((tr log (p.message.take S) S R).reply.take R)).drop
            (FINS_MAX_MSG - FINS_SEND_FRAME_SIZE))
        simp [h1, h2, h3, ht, h4, h5, hd]
      · simp [h1, h2, h3, ht, h4, h5]
    · simp [h1, h2, h3, ht, h4]
  · rcases CheckData_cases (p.setMessage (receive p.message
        ((tr log (p.message.take S) S R).reply.take R))) with h5 | h5
    · obtain ⟨d, hd⟩ := hex (receive p.message ((tr log (p.message.take S) S R).reply.take R))
      simp [h1, h2, h3, ht, h5, hd]
    · simp [h1, h2, h3, ht, h5]

/-! ## Extraction of memory words, the same on both hosts -/

theorem extractData_mem16 (h : Host) (m : List Nat) (r : FINS_COMMANDS) (data : List Nat)
    (n asz : Nat)
    (hr : r ∈ [FINS_DM_READ, FINS_AR_READ, FINS_IO_READ, FINS_WR_READ, FINS_HR_READ,
      FINS_DM_WRITE, FINS_AR_WRITE, FINS_IO_WRITE]) :
    extractData h m r data n asz = some (assignLoop
      (fun i => 256 * getByte m (14 + 2 * i) + getByte m (14 + 2 * i + 1)) n data) := by
  have e16 : ∀ i, castBSWAP16 h 16 (load16 h m (RESP + 2 * i)) % 2 ^ 16
      = 256 * getByte m (14 + 2 * i) + getByte m (14 + 2 * i + 1) :=
    fun i => wire_load16 h m _ 16 (by decide)
  have e32 : ∀ i, castBSWAP16 h 32 (load16 h m (RESP + 2 * i)) % 2 ^ 32
      = 256 * getByte m (14 + 2 * i) + getByte m (14 + 2 * i + 1) :=
    fun i => wire_load16 h m _ 32 (by decide)
  simp only [List.mem_cons, List.mem_singleton, List.not_mem_nil, or_false] at hr
  rcases hr with rfl | rfl | rfl | rfl | rfl | rfl | rfl | rfl <;>
    (simp only [extractData, e16, e32]; split <;> rfl)

theorem extractData_mem32 (h : Host) (m : List Nat) (r : FINS_COMMANDS) (data : List Nat)
    (n asz : Nat)
    (hr : r ∈ [FINS_DM_READ_32, FINS_AR_READ_32, FINS_IO_READ_32, FINS_DM_WRITE_32,
      FINS_AR_WRITE_32, FINS_IO_WRITE_32]) :
    extractData h m r data n asz = some (assignLoop
      (fun i => 16777216 * getByte m (14 + 4 * i + 2) + 65536 * getByte m (14 + 4 * i + 3)
        + 256 * getByte m (14 + 4 * i) + getByte m (14 + 4 * i + 1)) n data) := by
  have e : ∀ i, WSWAP32 h (load32 h m (RESP + 4 * i)) % 2 ^ 32
      = 16777216 * getByte m (14 + 4 * i + 2) + 65536 * getByte m (14 + 4 * i + 3)
        + 256 * getByte m (14 + 4 * i) + getByte m (14 + 4 * i + 1) :=
    fun i => wire_load32W h m _
  simp only [List.mem_cons, List.mem_singleton, List.not_mem_nil, or_false] at hr
  rcases hr with rfl | rfl | rfl | rfl | rfl | rfl <;>
    (simp only [extractData, e])

/-- After a successful `finsRead` of at least one element the scratch buffer
holds a reply `CheckData` accepts and the caller's array holds what the
extraction switch makes of it. -/
theorem finsRead_ret0 (h : Host) (tr : Transport) (mmList : List MultiMemArea)
    (p : drvPvt) (log : List IOEvent) (r : FINS_COMMANDS) (data : List Nat)
    (n a t asz : Nat) (res : ReadResult) (hn : 1 ≤ n)
    (hres : finsRead h tr mmList p log r data n a t asz = some res) (hret : res.ret = 0) :
    CheckData res.pvt = 0 ∧ extractData h res.pvt.message r data n asz = some res.data ∧
      res.transferred = n := by
  have hn' : ¬ n < 1 := by omega
  simp only [finsRead, hn', if_false] at hres
  generalize (if p.type = FINS_TCP_type ∧ p.nodevalid ≠ 1 then FINSnodeRequest h tr p log
    else (0, p, log)) = hs at hres
  by_cases h1 : hs.1 < 0
  · simp only [h1, if_true, Option.some.injEq] at hres
    subst hres
    simp at hret
  · simp only [h1, if_false] at hres
    cases hb : BuildReadMessage h mmList hs.2.1 r (a % 65536) n with
    | fault => rw [hb] at hres; cases hres
    | err q =>
      rw [hb] at hres
      simp only [Option.some.injEq] at hres
      subst hres
      simp at hret
    | ok q S R =>
      rw [hb] at hres
      simp only [Option.some.injEq] at hres
      subst hres
      exact (readExchange_ret _ _ _ _ _ _ _ _ _ _ _).2 hret


/-! ## A memory read that succeeds -/

theorem session0_wf (t : ConnType) : (session0 t).wf := by
  refine ⟨?_, ?_, ?_, ?_, ?_, List.length_replicate _ _, ?_⟩
  · show (108 : Nat) < 256; decide
  · show (254 : Nat) < 256; decide
  · show (3 : Nat) < 256; decide
  · show (0 : Nat) < 256; decide
  · show (0 : Nat) < 256; decide
  · intro b hb
    rw [List.eq_of_mem_replicate hb]
    decide

theorem session0_length (t : ConnType) : (session0 t).message.length = FINS_MAX_MSG :=
  List.length_replicate _ _

/-- The state and lengths a memory read leaves on a session that is not TCP. -/
theorem BuildReadMessage_mem_udp (h : Host) (mmList : List MultiMemArea) (p : drvPvt)
    (r : FINS_COMMANDS) (a n : Nat) (hu : p.type ≠ FINS_TCP_type)
    (hr : r ∈ [FINS_DM_READ, FINS_AR_READ, FINS_IO_READ, FINS_WR_READ, FINS_HR_READ,
      FINS_DM_READ_32, FINS_AR_READ_32, FINS_IO_READ_32]) :
    ∃ p' R, BuildReadMessage h mmList p r a n = BuildResult.ok p' 18 R ∧
      p'.type = p.type ∧ p'.sid = (p.sid + 1) % 256 ∧ p'.mrc = 1 ∧ p'.src = 1 ∧
      p'.snode = p.snode ∧ p'.dnode = p.dnode ∧ p'.message.length = p.message.length ∧
      R = sizeT h (RESP + sizeT h ((if r ∈ [FINS_DM_READ_32, FINS_AR_READ_32, FINS_IO_READ_32]
        then 4 else 2) * n)) := by
  simp only [List.mem_cons, List.mem_singleton, List.not_mem_nil, or_false] at hr
  unfold BuildReadMessage
  rcases hr with rfl | rfl | rfl | rfl | rfl | rfl | rfl | rfl
  · rw [readSwitch_mem16 h mmList _ _ DM a n (by simp)]
    simp only []
    rw [finishMessage_udp _ _ _ _ (by simpa [InitAddrSize_eq, InitHeader_eq] using hu)]
    exact ⟨_, _, rfl, by simp [InitAddrSize_eq, InitHeader_eq]⟩
  · rw [readSwitch_mem16 h mmList _ _ AR a n (by simp)]
    simp only []
    rw [finishMessage_udp _ _ _ _ (by simpa [InitAddrSize_eq, InitHeader_eq] using hu)]
    exact ⟨_, _, rfl, by simp [InitAddrSize_eq, InitHeader_eq]⟩
  · rw [readSwitch_mem16 h mmList _ _ IO_ a n (by simp)]
    simp only []
    rw [finishMessage_udp _ _ _ _ (by simpa [InitAddrSize_eq, InitHeader_eq] using hu)]
    exact ⟨_, _, rfl, by simp [InitAddrSize_eq, InitHeader_eq]⟩
  · rw [readSwitch_mem16 h mmList _ _ WR a n (by simp)]
    simp only []
    rw [finishMessage_udp _ _ _ _ (by simpa [InitAddrSize_eq, InitHeader_eq] using hu)]
    exact ⟨_, _, rfl, by simp [InitAddrSize_eq, InitHeader_eq]⟩
  · rw [readSwitch_mem16 h mmList _ _ HR a n (by simp)]
    simp only []
    rw [finishMessage_udp _ _ _ _ (by simpa [InitAddrSize_eq, InitHeader_eq] using hu)]
    exact ⟨_, _, rfl, by simp [InitAddrSize_eq, InitHeader_eq]⟩
  · rw [readSwitch_mem32 h mmList _ _ DM a n (by simp)]
    simp only []
    rw [finishMessage_udp _ _ _ _ (by simpa [InitAddrSize_eq, InitHeader_eq] using hu)]
    exact ⟨_, _, rfl, by simp [InitAddrSize_eq, InitHeader_eq]⟩
  · rw [readSwitch_mem32 h mmList _ _ AR a n (by simp)]
    simp only []
    rw [finishMessage_udp _ _ _ _ (by simpa [InitAddrSize_eq, InitHeader_eq] using hu)]
    exact ⟨_, _, rfl, by simp [InitAddrSize_eq, InitHeader_eq]⟩
  · rw [readSwitch_mem32 h mmList _ _ IO_ a n (by simp)]
    simp only []
    rw [finishMessage_udp _ _ _ _ (by simpa [InitAddrSize_eq, InitHeader_eq] using hu)]
    exact ⟨_, _, rfl, by simp [InitAddrSize_eq, InitHeader_eq]⟩

/-- On the sample UDP session a memory read of `n` elements answered with the
sample reply header and a payload of the expected size succeeds, and the
payload is found from byte 14 of the scratch buffer on. -/
theorem sample_read (h : Host) (hs : 16 ≤ h.sizeBits) (r : FINS_COMMANDS)
    (hr : r ∈ [FINS_DM_READ, FINS_AR_READ, FINS_IO_READ, FINS_WR_READ, FINS_HR_READ,
      FINS_DM_READ_32, FINS_AR_READ_32, FINS_IO_READ_32])
    (payload data : List Nat) (n a t asz : Nat) (hn : 1 ≤ n) (hn2 : n ≤ 475)
    (hpay : payload.length = (if r ∈ [FINS_DM_READ_32, FINS_AR_READ_32, FINS_IO_READ_32]
        then 4 else 2) * n) :
    ∃ res, finsRead h (replyTransport (replyHeader ++ payload)) [] (session0 FINS_UDP_type) []
        r data n a t asz = some res ∧ res.ret = 0 ∧
      ∀ j, j < payload.length → getByte res.pvt.message (14 + j) = payload[j]?.getD 0 % 256 := by
  obtain ⟨p', R, hb, h1, h2, h3, h4, h5, h6, h7, h8⟩ :=
    BuildReadMessage_mem_udp h [] (session0 FINS_UDP_type) r (a % 65536) n (by decide) hr
  have hlen : p'.message.length = 2000 := by rw [h7]; exact session0_length _
  have hR : R = 14 + payload.length := by
    rw [h8, hpay]
    split
    · rw [sizeT_small h hs (4 * n) (by omega), sizeT_small h hs _ (by simp [RESP]; omega)]
      simp [RESP]
    · rw [sizeT_small h hs (2 * n) (by omega), sizeT_small h hs _ (by simp [RESP]; omega)]
      simp [RESP]
  have hlr : (replyHeader ++ payload).length = R := by
    rw [hR]; simp [replyHeader]; omega
  have htake : (replyHeader ++ payload).take R = replyHeader ++ payload := by
    rw [← hlr]; exact List.take_length _
  have hfin := finsRead_no_handshake h (replyTransport (replyHeader ++ payload)) []
    (session0 FINS_UDP_type) [] r data n a t asz p' 18 R hn (by decide) hb
  have hex := BuildReadMessage_extract h [] _ r _ n p' 18 R hb
  obtain ⟨hiff, hpvt, -⟩ := readExchange_iff h (replyTransport (replyHeader ++ payload)) p' []
    r data n t asz 18 R (fun m => hex m data asz)
  have hty : ¬ p'.type = FINS_TCP_type := by rw [h1]; decide
  have hbig : 14 + payload.length ≤ 2000 := by rw [hpay]; split <;> omega
  have hget : ∀ j, j < 14 + payload.length →
      getByte (receive p'.message (replyHeader ++ payload)) j
        = (replyHeader ++ payload)[j]?.getD 0 % 256 := by
    intro j hj
    exact getByte_receive _ _ _ (by rw [hlr, hR]; exact hj) (by rw [hlen]; omega)
  have hret : (readExchange h (replyTransport (replyHeader ++ payload)) p' [] r data n t asz
      18 R).ret = 0 := by
    rw [hiff]
    refine ⟨rfl, rfl, rfl, fun ht => absurd ht hty, ?_⟩
    simp only [replyTransport, htake, hty, if_false, CheckData, setMessage_message,
      setMessage_sid, setMessage_mrc, setMessage_src, setMessage_snode, setMessage_dnode,
      MRES, SRES, SID, MRC, SRC, DA1, SA1]
    rw [hget 12 (by omega), hget 13 (by omega), hget 9 (by omega), hget 10 (by omega),
      hget 11 (by omega), hget 4 (by omega), hget 7 (by omega), h2, h3, h4, h5, h6]
    simp [replyHeader, session0]
  refine ⟨_, hfin, hret, ?_⟩
  intro j hj
  rw [hpvt hret]
  simp only [replyTransport, htake, hty, if_false, setMessage_message]
  rw [hget (14 + j) (by omega)]
  rw [List.getElem?_append_right (by simp [replyHeader])]
  simp [replyHeader]


/-! ## The data block of a memory write -/

theorem getByte_tail (m : List Nat) (x y z j : Nat) (hj : 18 ≤ j) :
    getByte (setByte (setByte (setByte m MRC x) SRC y) SID z) j = getByte m j := by
  have e1 : ¬ j = 9 := by omega
  have e2 : ¬ j = 10 := by omega
  have e3 : ¬ j = 11 := by omega
  simp only [getByte_setByte, MRC, SRC, SID, e1, e2, e3, false_and, if_false]

/-- A 16-bit memory write on a session that is not TCP: lengths and wire
bytes of the data block. -/
theorem BuildWriteMessage_mem16_udp (h : Host) (hs : 16 ≤ h.sizeBits) (p : drvPvt)
    (r : FINS_COMMANDS) (a n : Nat) (data : List Nat) (hu : p.type ≠ FINS_TCP_type)
    (hlen : p.message.length = FINS_MAX_MSG) (hn : n ≤ 950)
    (hr : r ∈ [FINS_DM_WRITE, FINS_DM_WRITE_NOREAD, FINS_AR_WRITE, FINS_AR_WRITE_NOREAD,
      FINS_IO_WRITE, FINS_IO_WRITE_NOREAD]) :
    ∃ p', BuildWriteMessage h p r a n 2 data = BuildResult.ok p' (18 + 2 * n) 14 ∧
      ∀ i, i < n →
        getByte p'.message (18 + 2 * i) = data.getD i 0 % 2 ^ 16 / 256 % 256 ∧
        getByte p'.message (18 + 2 * i + 1) = data.getD i 0 % 2 ^ 16 % 256 := by
  have hl : p.message.length = 2000 := by simpa [FINS_MAX_MSG, FINS_MAX_UDP_WORDS] using hlen
  obtain ⟨area, hra⟩ : ∃ area, (r, area) ∈ [(FINS_DM_WRITE, DM), (FINS_DM_WRITE_NOREAD, DM),
      (FINS_AR_WRITE, AR), (FINS_AR_WRITE_NOREAD, AR), (FINS_IO_WRITE, IO_),
      (FINS_IO_WRITE_NOREAD, IO_)] := by
    simp only [List.mem_cons, List.mem_singleton, List.not_mem_nil, or_false] at hr
    rcases hr with rfl | rfl | rfl | rfl | rfl | rfl
    · exact ⟨DM, by simp⟩
    · exact ⟨DM, by simp⟩
    · exact ⟨AR, by simp⟩
    · exact ⟨AR, by simp⟩
    · exact ⟨IO_, by simp⟩
    · exact ⟨IO_, by simp⟩
  have e1 : sizeT h (n * 2) = 2 * n := by rw [sizeT_small h hs _ (by omega)]; omega
  have e2 : sizeT h (COM + COMMAND_DATA_OFFSET + 2 * n) = 18 + 2 * n := by
    rw [sizeT_small h hs _ (by simp [COM, COMMAND_DATA_OFFSET]; omega)]
    simp [COM, COMMAND_DATA_OFFSET]
  have hR : RESP + 0 = 14 := rfl
  unfold BuildWriteMessage
  rw [writeSwitch_mem16 h _ r area a n data hra]
  simp only []
  obtain ⟨f1, -, -, -, -, -, -, f8, -⟩ := writeWords16_fields h data 16 n
    (InitAddrSize h (((InitHeader p).setCodes 0x01 0x02).put COM area) a n 2)
  have hql : (InitAddrSize h (((InitHeader p).setCodes 0x01 0x02).put COM area) a n
      2).message.length = 2000 := by
    simp [InitAddrSize_eq, InitHeader_eq, hl]
  rw [finishMessage_udp _ _ _ _ (by rw [f1]; simpa [InitAddrSize_eq, InitHeader_eq] using hu)]
  rw [e1, e2, hR]
  refine ⟨_, rfl, ?_⟩
  intro i hi
  simp only [setMessage_message]
  rw [getByte_tail _ _ _ _ _ (by omega), getByte_tail _ _ _ _ _ (by omega)]
  have := writeWords16_bytes h data 16 n _ (by rw [hql]; omega) i hi
  simpa using this

/-- A 32-bit memory write on a session that is not TCP: lengths and wire
bytes of the data block. -/
theorem BuildWriteMessage_mem32_udp (h : Host) (hs : 16 ≤ h.sizeBits) (p : drvPvt)
    (r : FINS_COMMANDS) (a n asz : Nat) (data : List Nat) (hu : p.type ≠ FINS_TCP_type)
    (hlen : p.message.length = FINS_MAX_MSG) (hn : 2 * n ≤ 950)
    (hr : r ∈ [FINS_DM_WRITE_32, FINS_DM_WRITE_32_NOREAD, FINS_AR_WRITE_32,
      FINS_AR_WRITE_32_NOREAD, FINS_IO_WRITE_32, FINS_IO_WRITE_32_NOREAD]) :
    ∃ p', BuildWriteMessage h p r a n asz data = BuildResult.ok p' (18 + 4 * n) 14 ∧
      ∀ i, i < n →
        getByte p'.message (18 + 4 * i) = data.getD i 0 % 2 ^ 32 / 256 % 256 ∧
        getByte p'.message (18 + 4 * i + 1) = data.getD i 0 % 2 ^ 32 % 256 ∧
        getByte p'.message (18 + 4 * i + 2) = data.getD i 0 % 2 ^ 32 / 16777216 % 256 ∧
        getByte p'.message (18 + 4 * i + 3) = data.getD i 0 % 2 ^ 32 / 65536 % 256 := by
  have hl : p.message.length = 2000 := by simpa [FINS_MAX_MSG, FINS_MAX_UDP_WORDS] using hlen
  obtain ⟨area, hra⟩ : ∃ area, (r, area) ∈ [(FINS_DM_WRITE_32, DM),
      (FINS_DM_WRITE_32_NOREAD, DM), (FINS_AR_WRITE_32, AR), (FINS_AR_WRITE_32_NOREAD, AR),
      (FINS_IO_WRITE_32, IO_), (FINS_IO_WRITE_32_NOREAD, IO_)] := by
    simp only [List.mem_cons, List.mem_singleton, List.not_mem_nil, or_false] at hr
    rcases hr with rfl | rfl | rfl | rfl | rfl | rfl
    · exact ⟨DM, by simp⟩
    · exact ⟨DM, by simp⟩
    · exact ⟨AR, by simp⟩
    · exact ⟨AR, by simp⟩
    · exact ⟨IO_, by simp⟩
    · exact ⟨IO_, by simp⟩
  have e1 : sizeT h (n * 4) = 4 * n := by rw [sizeT_small h hs _ (by omega)]; omega
  have e2 : sizeT h (COM + COMMAND_DATA_OFFSET + 4 * n) = 18 + 4 * n := by
    rw [sizeT_small h hs _ (by simp [COM, COMMAND_DATA_OFFSET]; omega)]
    simp [COM, COMMAND_DATA_OFFSET]
  have hR : RESP + 0 = 14 := rfl
  unfold BuildWriteMessage
  rw [writeSwitch_mem32 h _ r area a n asz data hra]
  simp only []
  obtain ⟨f1, -, -, -, -, -, -, f8, -⟩ := writeWords32_fields h data n
    (InitAddrSize h (((InitHeader p).setCodes 0x01 0x02).put COM area) a n 4)
  have hql : (InitAddrSize h (((InitHeader p).setCodes 0x01 0x02).put COM area) a n
      4).message.length = 2000 := by
    simp [InitAddrSize_eq, InitHeader_eq, hl]
  rw [finishMessage_udp _ _ _ _ (by rw [f1]; simpa [InitAddrSize_eq, InitHeader_eq] using hu)]
  rw [e1, e2, hR]
  refine ⟨_, rfl, ?_⟩
  intro i hi
  simp only [setMessage_message]
  rw [getByte_tail _ _ _ _ _ (by omega), getByte_tail _ _ _ _ _ (by omega),
    getByte_tail _ _ _ _ _ (by omega), getByte_tail _ _ _ _ _ (by omega)]
  exact writeWords32_bytes h data n _ (by rw [hql]; omega) i hi

/-! ## The swaps are involutions -/

theorem BSWAP16_BSWAP16 (h : Host) (v : Nat) (hv : v < 65536) : BSWAP16 h (BSWAP16 h v) = v := by
  cases hb : h.EPICS_BYTE_ORDER with
  | EPICS_ENDIAN_LITTLE =>
    obtain ⟨c0, c1, h0, h1, rfl⟩ := bytes2 v hv
    rw [BSWAP16_bytes h hb _ _ h0 h1, BSWAP16_bytes h hb _ _ h1 h0]
  | EPICS_ENDIAN_BIG => simp only [BSWAP16, hb]

theorem WSWAP32_WSWAP32 (h : Host) (v : Nat) (hv : v < 4294967296) :
    WSWAP32 h (WSWAP32 h v) = v := by
  obtain ⟨c0, c1, c2, c3, t, h0, h1, h2, h3, rfl⟩ := bytes4 v
  have ht : t = 0 := by omega
  subst ht
  cases hb : h.EPICS_BYTE_ORDER with
  | EPICS_ENDIAN_LITTLE =>
    simp only [WSWAP32, hb]
    rw [LESWAP32_bytes _ _ _ _ h0 h1 h2 h3, LESWAP32_bytes _ _ _ _ h1 h0 h3 h2]
  | EPICS_ENDIAN_BIG =>
    simp only [WSWAP32, hb]
    rw [BESWAP32_bytes _ _ _ _ h0 h1 h2 h3, BESWAP32_bytes _ _ _ _ h2 h3 h0 h1]


/-! ## The node address handshake -/

@[simp]
theorem setNodevalid_type (p : drvPvt) (v : Int) : (p.setNodevalid v).type = p.type := rfl
@[simp]
theorem setNodevalid_nodevalid (p : drvPvt) (v : Int) : (p.setNodevalid v).nodevalid = v := rfl
@[simp]
theorem setNodevalid_dnode (p : drvPvt) (v : Int) : (p.setNodevalid v).dnode = p.dnode := rfl
@[simp]
theorem setNodevalid_snode (p : drvPvt) (v : Int) : (p.setNodevalid v).snode = p.snode := rfl
@[simp]
theorem setNodevalid_sid (p : drvPvt) (v : Int) : (p.setNodevalid v).sid = p.sid := rfl
@[simp]
theorem setNodevalid_mrc (p : drvPvt) (v : Int) : (p.setNodevalid v).mrc = p.mrc := rfl
@[simp]
theorem setNodevalid_src (p : drvPvt) (v : Int) : (p.setNodevalid v).src = p.src := rfl
@[simp]
theorem setNodevalid_message (p : drvPvt) (v : Int) :
    (p.setNodevalid v).message = p.message := rfl

@[simp]
theorem length_store32 (h : Host) (m : List Nat) (off v : Nat) :
    (store32 h m off v).length = m.length := by
  cases hb : h.EPICS_BYTE_ORDER <;> simp [store32, hb]

theorem AddCommand_eq (h : Host) (p : drvPvt) (s c : Nat) :
    ∃ m, AddCommand h p s c = p.setMessage m ∧ m.length = p.message.length := by
  simp only [AddCommand]
  split
  · exact ⟨_, rfl, by simp⟩
  · exact ⟨_, rfl, by simp⟩

/-- The request of the handshake: the first 20 bytes of the scratch buffer
after `AddCommand`. -/
theorem FINSnodeRequest_cases (h : Host) (tr : Transport) (p : drvPvt) (log : List IOEvent) :
    ((FINSnodeRequest h tr p log).1 = 0 ∧ (FINSnodeRequest h tr p log).2.1.nodevalid = 1 ∧
      (FINSnodeRequest h tr p log).2.2 = log ++ [IOEvent.writeRead
        ((AddCommand h p 0 FINS_NODE_CLIENT_COMMAND).message.take FINS_MODE_SEND_SIZE)
        FINS_MODE_SEND_SIZE FINS_MODE_RECV_SIZE]) ∨
    ((FINSnodeRequest h tr p log).1 = -1 ∧
      (FINSnodeRequest h tr p log).2.1.nodevalid = p.nodevalid ∧
      (FINSnodeRequest h tr p log).2.1.snode = p.snode ∧
      (FINSnodeRequest h tr p log).2.2 = log ++ [IOEvent.writeRead
        ((AddCommand h p 0 FINS_NODE_CLIENT_COMMAND).message.take FINS_MODE_SEND_SIZE)
        FINS_MODE_SEND_SIZE FINS_MODE_RECV_SIZE, IOEvent.disconnectDevice]) := by
  obtain ⟨m, hm, -⟩ := AddCommand_eq h p 0 FINS_NODE_CLIENT_COMMAND
  simp only [FINSnodeRequest]
  split
  · left
    refine ⟨rfl, rfl, rfl⟩
  · right
    refine ⟨rfl, ?_, ?_, ?_⟩
    · simp only [hm, setMessage_nodevalid]
    · simp only [hm, setMessage_snode]
    · simp

theorem FINSnodeRequest_keeps (h : Host) (tr : Transport) (p : drvPvt) (log : List IOEvent) :
    (FINSnodeRequest h tr p log).2.1.type = p.type ∧
    (FINSnodeRequest h tr p log).2.1.sid = p.sid ∧
    (FINSnodeRequest h tr p log).2.1.dnode = p.dnode ∧
    (FINSnodeRequest h tr p log).2.1.mrc = p.mrc ∧
    (FINSnodeRequest h tr p log).2.1.src = p.src ∧
    (FINSnodeRequest h tr p log).2.1.message.length = p.message.length := by
  obtain ⟨m, hm, hl⟩ := AddCommand_eq h p 0 FINS_NODE_CLIENT_COMMAND
  simp only [FINSnodeRequest]
  split <;> simp [hm, hl]

/-- After a handshake that did not fail, `finsRead` is `finsRead` on the
session the handshake left. -/
theorem finsRead_after_handshake (h : Host) (tr : Transport) (mmList : List MultiMemArea)
    (p : drvPvt) (log : List IOEvent) (r : FINS_COMMANDS) (data : List Nat)
    (n a t asz : Nat) (hn : 1 ≤ n) (hT : p.type = FINS_TCP_type) (hv : p.nodevalid ≠ 1)
    (hok : ¬ (FINSnodeRequest h tr p log).1 < 0) :
    finsRead h tr mmList p log r data n a t asz
      = finsRead h tr mmList (FINSnodeRequest h tr p log).2.1 (FINSnodeRequest h tr p log).2.2
          r data n a t asz := by
  have hnv : (FINSnodeRequest h tr p log).2.1.nodevalid = 1 := by
    rcases FINSnodeRequest_cases h tr p log with ⟨-, h2, -⟩ | ⟨h1, -⟩
    · exact h2
    · rw [h1] at hok; exact absurd (by decide) hok
  have hc : p.type = FINS_TCP_type ∧ p.nodevalid ≠ 1 := ⟨hT, hv⟩
  have hn' : ¬ n < 1 := by omega
  have hc' : ¬ ((FINSnodeRequest h tr p log).2.1.type = FINS_TCP_type ∧
      (FINSnodeRequest h tr p log).2.1.nodevalid ≠ 1) := fun hx => hx.2 hnv
  simp only [finsRead, hn', if_false, if_pos hc, if_neg hc', hok, Int.lt_irrefl]

/-- After a failed handshake `finsRead` returns -1 at once. -/
theorem finsRead_handshake_failed (h : Host) (tr : Transport) (mmList : List MultiMemArea)
    (p : drvPvt) (log : List IOEvent) (r : FINS_COMMANDS) (data : List Nat)
    (n a t asz : Nat) (hn : 1 ≤ n) (hT : p.type = FINS_TCP_type) (hv : p.nodevalid ≠ 1)
    (hf : (FINSnodeRequest h tr p log).1 < 0) :
    finsRead h tr mmList p log r data n a t asz
      = some ⟨-1, (FINSnodeRequest h tr p log).2.1, (FINSnodeRequest h tr p log).2.2, data, t⟩ := by
  have hc : p.type = FINS_TCP_type ∧ p.nodevalid ≠ 1 := ⟨hT, hv⟩
  have hn' : ¬ n < 1 := by omega
  simp only [finsRead, hn', if_false, if_pos hc, hf, if_true]

theorem finsWrite_after_handshake (h : Host) (tr : Transport)
    (p : drvPvt) (log : List IOEvent) (r : FINS_COMMANDS) (data : List Nat)
    (n a asz : Nat) (hT : p.type = FINS_TCP_type) (hv : p.nodevalid ≠ 1)
    (hok : ¬ (FINSnodeRequest h tr p log).1 < 0) :
    finsWrite h tr p log r data n a asz
      = finsWrite h tr (FINSnodeRequest h tr p log).2.1 (FINSnodeRequest h tr p log).2.2
          r data n a asz := by
  have hnv : (FINSnodeRequest h tr p log).2.1.nodevalid = 1 := by
    rcases FINSnodeRequest_cases h tr p log with ⟨-, h2, -⟩ | ⟨h1, -⟩
    · exact h2
    · rw [h1] at hok; exact absurd (by decide) hok
  have hc : p.type = FINS_TCP_type ∧ p.nodevalid ≠ 1 := ⟨hT, hv⟩
  have hc' : ¬ ((FINSnodeRequest h tr p log).2.1.type = FINS_TCP_type ∧
      (FINSnodeRequest h tr p log).2.1.nodevalid ≠ 1) := fun hx => hx.2 hnv
  simp only [finsWrite, if_pos hc, if_neg hc', hok, if_false, Int.lt_irrefl]

theorem finsWrite_handshake_failed (h : Host) (tr : Transport)
    (p : drvPvt) (log : List IOEvent) (r : FINS_COMMANDS) (data : List Nat)
    (n a asz : Nat) (hT : p.type = FINS_TCP_type) (hv : p.nodevalid ≠ 1)
    (hf : (FINSnodeRequest h tr p log).1 < 0) :
    finsWrite h tr p log r data n a asz
      = some ⟨-1, (FINSnodeRequest h tr p log).2.1, (FINSnodeRequest h tr p log).2.2⟩ := by
  have hc : p.type = FINS_TCP_type ∧ p.nodevalid ≠ 1 := ⟨hT, hv⟩
  simp only [finsWrite, if_pos hc, hf, if_true]

/-! ## Reading back a stored word -/

theorem getByte_store32_ne (h : Host) (m : List Nat) (off v j : Nat)
    (hj : j < off ∨ off + 4 ≤ j) : getByte (store32 h m off v) j = getByte m j := by
  have e0 : ¬ j = off := by omega
  have e1 : ¬ j = off + 1 := by omega
  have e2 : ¬ j = off + 2 := by omega
  have e3 : ¬ j = off + 3 := by omega
  cases hb : h.EPICS_BYTE_ORDER <;>
    simp only [store32, hb, getByte_setByte, e0, e1, e2, e3, false_and, if_false]

theorem load32_store32_ne (h : Host) (m : List Nat) (off v off' : Nat)
    (hd : off' + 4 ≤ off ∨ off + 4 ≤ off') :
    load32 h (store32 h m off v) off' = load32 h m off' := by
  have a0 := getByte_store32_ne h m off v off' (by omega)
  have a1 := getByte_store32_ne h m off v (off' + 1) (by omega)
  have a2 := getByte_store32_ne h m off v (off' + 2) (by omega)
  have a3 := getByte_store32_ne h m off v (off' + 3) (by omega)
  cases hb : h.EPICS_BYTE_ORDER <;> simp only [load32, hb, a0, a1, a2, a3]

theorem load32_store32 (h : Host) (m : List Nat) (off v : Nat) (hl : off + 3 < m.length) :
    load32 h (store32 h m off v) off = v % 4294967296 := by
  have l0 : off < m.length := by omega
  have l1 : off + 1 < m.length := by omega
  have l2 : off + 2 < m.length := by omega
  cases hb : h.EPICS_BYTE_ORDER <;>
    (simp only [load32, store32, hb, getByte_setByte, length_setByte, l0, l1, l2, hl, and_true,
      if_true, Nat.add_right_cancel_iff, self_eq_add_right, add_right_eq_self,
      OfNat.ofNat_ne_zero, OfNat.one_ne_ofNat, OfNat.ofNat_ne_one, Nat.reduceEqDiff,
      one_ne_zero, if_false, Nat.succ_ne_self, false_and]
     omega)

/-- The handshake succeeds exactly when the transport reports success and
the reply carries the command 1 (node address data send, server to client)
in bytes 8 to 11 and the error code 0 in bytes 12 to 15. -/
theorem FINSnodeRequest_ok_iff (h : Host) (tr : Transport) (p : drvPvt) (log : List IOEvent)
    (hlen : p.message.length = FINS_MAX_MSG) (rr : WriteReadResult) (m0 : List Nat)
    (hrr : rr = tr log ((AddCommand h p 0 FINS_NODE_CLIENT_COMMAND).message.take
      FINS_MODE_SEND_SIZE) FINS_MODE_SEND_SIZE FINS_MODE_RECV_SIZE)
    (hm0 : m0 = receive (AddCommand h p 0 FINS_NODE_CLIENT_COMMAND).message
      (rr.reply.take FINS_MODE_RECV_SIZE)) :
    ((FINSnodeRequest h tr p log).1 = 0 ↔
      rr.status = asynSuccess ∧
      [getByte m0 8, getByte m0 9, getByte m0 10, getByte m0 11] = [0, 0, 0, 1] ∧
      [getByte m0 12, getByte m0 13, getByte m0 14, getByte m0 15] = [0, 0, 0, 0]) ∧
    ((FINSnodeRequest h tr p log).1 = 0 →
      (FINSnodeRequest h tr p log).2.1.snode = getByte m0 19) := by
  obtain ⟨ma, hma, hla⟩ := AddCommand_eq h p 0 FINS_NODE_CLIENT_COMMAND
  have hl0 : m0.length = 2000 := by
    rw [hm0, length_receive, hma, setMessage_message, hla, hlen]; rfl
  have b8 := getByte_lt m0 8
  have b9 := getByte_lt m0 9
  have b10 := getByte_lt m0 10
  have b11 := getByte_lt m0 11
  have b12 := getByte_lt m0 12
  have b13 := getByte_lt m0 13
  have b14 := getByte_lt m0 14
  have b15 := getByte_lt m0 15
  have b16 := getByte_lt m0 16
  have b17 := getByte_lt m0 17
  have b18 := getByte_lt m0 18
  have b19 := getByte_lt m0 19
  have c1 : load32 h (store32 h (store32 h (store32 h m0 8 (BSWAP32 h (load32 h m0 8))) 12
      (BSWAP32 h (load32 h (store32 h m0 8 (BSWAP32 h (load32 h m0 8))) 12))) 16
      (BSWAP32 h (load32 h (store32 h (store32 h m0 8 (BSWAP32 h (load32 h m0 8))) 12
      (BSWAP32 h (load32 h (store32 h m0 8 (BSWAP32 h (load32 h m0 8))) 12))) 16))) 8
      = 16777216 * getByte m0 8 + 65536 * getByte m0 9 + 256 * getByte m0 10 + getByte m0 11 := by
    rw [load32_store32_ne _ _ _ _ _ (by omega), load32_store32_ne _ _ _ _ _ (by omega),
      load32_store32 _ _ _ _ (by omega), wire_load32B]
    simp only [Nat.reduceAdd]
    omega
  have c2 : load32 h (store32 h (store32 h (store32 h m0 8 (BSWAP32 h (load32 h m0 8))) 12
      (BSWAP32 h (load32 h (store32 h m0 8 (BSWAP32 h (load32 h m0 8))) 12))) 16
      (BSWAP32 h (load32 h (store32 h (store32 h m0 8 (BSWAP32 h (load32 h m0 8))) 12
      (BSWAP32 h (load32 h (store32 h m0 8 (BSWAP32 h (load32 h m0 8))) 12))) 16))) 12
      = 16777216 * getByte m0 12 + 65536 * getByte m0 13 + 256 * getByte m0 14
        + getByte m0 15 := by
    rw [load32_store32_ne _ _ _ _ _ (by omega), load32_store32 _ _ _ _ (by simp; omega),
      load32_store32_ne _ _ _ _ _ (by omega), wire_load32B]
    simp only [Nat.reduceAdd]
    omega
  have c3 : load32 h (store32 h (store32 h (store32 h m0 8 (BSWAP32 h (load32 h m0 8))) 12
      (BSWAP32 h (load32 h (store32 h m0 8 (BSWAP32 h (load32 h m0 8))) 12))) 16
      (BSWAP32 h (load32 h (store32 h (store32 h m0 8 (BSWAP32 h (load32 h m0 8))) 12
      (BSWAP32 h (load32 h (store32 h m0 8 (BSWAP32 h (load32 h m0 8))) 12))) 16))) 16 % 256
      = getByte m0 19 := by
    rw [load32_store32 _ _ _ _ (by simp; omega), load32_store32_ne _ _ _ _ _ (by omega),
      load32_store32_ne _ _ _ _ _ (by omega), wire_load32B]
    simp only [Nat.reduceAdd]
    omega
  subst hrr hm0
  simp only [FINSnodeRequest, FINS_MODE_COMMAND, FINS_MODE_ERROR, FINS_MODE_CLIENT,
    FINS_NODE_SERVER_COMMAND, Nat.reduceMul, setMessage_message, c1, c2, c3]
  constructor
  · split
    · rename_i hc
      simp only [true_iff]
      refine ⟨hc.1, ?_, ?_⟩
      · simp only [List.cons.injEq, and_true]; omega
      · simp only [List.cons.injEq, and_true]; omega
    · rename_i hc
      simp only [Int.reduceNeg, Int.neg_eq_zero, one_ne_zero, false_iff]
      intro hx
      apply hc
      refine ⟨hx.1, ?_, ?_⟩
      · have := hx.2.1
        simp only [List.cons.injEq, and_true] at this
        omega
      · have := hx.2.2
        simp only [List.cons.injEq, and_true] at this
        omega
  · split
    · intro _
      simp only [setNode_snode]
    · intro hx
      simp at hx


/-! ## What every exchange does to the log and to the caller's array -/

theorem readExchange_log (h : Host) (tr : Transport) (p : drvPvt) (log : List IOEvent)
    (r : FINS_COMMANDS) (data : List Nat) (n t asz S R : Nat) :
    ∃ tail, (readExchange h tr p log r data n t asz S R).log
      = log ++ IOEvent.writeRead (p.message.take S) S R :: tail := by
  simp only [readExchange]
  split_ifs
  · exact ⟨[], rfl⟩
  · exact ⟨[], rfl⟩
  · exact ⟨[], rfl⟩
  · exact ⟨[IOEvent.disconnectDevice], by simp⟩
  · exact ⟨[], rfl⟩
  · split <;> exact ⟨[], rfl⟩
  · exact ⟨[], rfl⟩
  · split <;> exact ⟨[], rfl⟩

theorem readExchange_fail (h : Host) (tr : Transport) (p : drvPvt) (log : List IOEvent)
    (r : FINS_COMMANDS) (data : List Nat) (n t asz S R : Nat)
    (hf : (readExchange h tr p log r data n t asz S R).ret ≠ 0) :
    (readExchange h tr p log r data n t asz S R).data = data ∧
    (readExchange h tr p log r data n t asz S R).transferred = t := by
  simp only [readExchange] at hf ⊢
  split_ifs at hf ⊢ <;> try exact ⟨rfl, rfl⟩
  all_goals
    split at hf
    · simp_all
    · simp at hf

theorem writeExchange_log (h : Host) (tr : Transport) (p : drvPvt) (log : List IOEvent)
    (S R : Nat) :
    ∃ tail, (writeExchange h tr p log S R).log
      = log ++ IOEvent.writeRead (p.message.take S) S R :: tail := by
  simp only [writeExchange]
  split_ifs
  · exact ⟨[], rfl⟩
  · exact ⟨[], rfl⟩
  · exact ⟨[], rfl⟩
  · exact ⟨[IOEvent.disconnectDevice], by simp⟩
  · exact ⟨[], rfl⟩
  · exact ⟨[], rfl⟩
  · exact ⟨[], rfl⟩
  · exact ⟨[], rfl⟩

/-- A `finsRead` that does not return 0 leaves the caller's array and
`*transferred` as they were. -/
theorem finsRead_fail (h : Host) (tr : Transport) (mmList : List MultiMemArea)
    (p : drvPvt) (log : List IOEvent) (r : FINS_COMMANDS) (data : List Nat)
    (n a t asz : Nat) (res : ReadResult)
    (hres : finsRead h tr mmList p log r data n a t asz = some res) (hf : res.ret ≠ 0) :
    res.data = data ∧ res.transferred = t := by
  simp only [finsRead] at hres
  split_ifs at hres with h1 h2 h3
  · simp only [Option.some.injEq] at hres; subst hres; exact ⟨rfl, rfl⟩
  · simp only [Option.some.injEq] at hres; subst hres; exact ⟨rfl, rfl⟩
  · split at hres
    · cases hres
    · simp only [Option.some.injEq] at hres; subst hres; exact ⟨rfl, rfl⟩
    · simp only [Option.some.injEq] at hres; subst hres
      exact readExchange_fail _ _ _ _ _ _ _ _ _ _ _ hf
  · simp only [Option.some.injEq] at hres; subst hres; exact ⟨rfl, rfl⟩
  · split at hres
    · cases hres
    · simp only [Option.some.injEq] at hres; subst hres; exact ⟨rfl, rfl⟩
    · simp only [Option.some.injEq] at hres; subst hres
      exact readExchange_fail _ _ _ _ _ _ _ _ _ _ _ hf

theorem finsRead_ret_cases (h : Host) (tr : Transport) (mmList : List MultiMemArea)
    (p : drvPvt) (log : List IOEvent) (r : FINS_COMMANDS) (data : List Nat)
    (n a t asz : Nat) (res : ReadResult)
    (hres : finsRead h tr mmList p log r data n a t asz = some res) :
    res.ret = 0 ∨ res.ret = -1 := by
  simp only [finsRead] at hres
  split_ifs at hres with h1 h2 h3
  · simp only [Option.some.injEq] at hres; subst hres; exact Or.inl rfl
  · simp only [Option.some.injEq] at hres; subst hres; exact Or.inr rfl
  · split at hres
    · cases hres
    · simp only [Option.some.injEq] at hres; subst hres; exact Or.inr rfl
    · simp only [Option.some.injEq] at hres; subst hres
      exact (readExchange_ret _ _ _ _ _ _ _ _ _ _ _).1
  · simp only [Option.some.injEq] at hres; subst hres; exact Or.inr rfl
  · split at hres
    · cases hres
    · simp only [Option.some.injEq] at hres; subst hres; exact Or.inr rfl
    · simp only [Option.some.injEq] at hres; subst hres
      exact (readExchange_ret _ _ _ _ _ _ _ _ _ _ _).1

/-! ## Memory commands always build -/

theorem finishMessage_isOk (h : Host) (q : drvPvt) (s r : Nat) :
    ∃ p' s' r', finishMessage h q s r = BuildResult.ok p' s' r' := by
  by_cases hq : q.type = FINS_TCP_type
  · exact ⟨_, _, _, finishMessage_tcp h q s r hq⟩
  · exact ⟨_, _, _, finishMessage_udp h q s r hq⟩

theorem BuildReadMessage_mem_isOk (h : Host) (mmList : List MultiMemArea) (p : drvPvt)
    (r : FINS_COMMANDS) (a n : Nat)
    (hr : r ∈ [FINS_DM_READ, FINS_AR_READ, FINS_IO_READ, FINS_WR_READ, FINS_HR_READ,
      FINS_DM_READ_32, FINS_AR_READ_32, FINS_IO_READ_32]) :
    ∃ p' S R, BuildReadMessage h mmList p r a n = BuildResult.ok p' S R := by
  simp only [List.mem_cons, List.mem_singleton, List.not_mem_nil, or_false] at hr
  unfold BuildReadMessage
  rcases hr with rfl | rfl | rfl | rfl | rfl | rfl | rfl | rfl
  · rw [readSwitch_mem16 h mmList _ _ DM a n (by simp)]; exact finishMessage_isOk _ _ _ _
  · rw [readSwitch_mem16 h mmList _ _ AR a n (by simp)]; exact finishMessage_isOk _ _ _ _
  · rw [readSwitch_mem16 h mmList _ _ IO_ a n (by simp)]; exact finishMessage_isOk _ _ _ _
  · rw [readSwitch_mem16 h mmList _ _ WR a n (by simp)]; exact finishMessage_isOk _ _ _ _
  · rw [readSwitch_mem16 h mmList _ _ HR a n (by simp)]; exact finishMessage_isOk _ _ _ _
  · rw [readSwitch_mem32 h mmList _ _ DM a n (by simp)]; exact finishMessage_isOk _ _ _ _
  · rw [readSwitch_mem32 h mmList _ _ AR a n (by simp)]; exact finishMessage_isOk _ _ _ _
  · rw [readSwitch_mem32 h mmList _ _ IO_ a n (by simp)]; exact finishMessage_isOk _ _ _ _

theorem BuildWriteMessage_mem_isOk (h : Host) (p : drvPvt) (r : FINS_COMMANDS)
    (a n asz : Nat) (data : List Nat)
    (hr : (r ∈ [FINS_DM_WRITE, FINS_AR_WRITE, FINS_IO_WRITE] ∧ asz = 2) ∨
      r ∈ [FINS_DM_WRITE_32, FINS_AR_WRITE_32, FINS_IO_WRITE_32]) :
    ∃ p' S R, BuildWriteMessage h p r a n asz data = BuildResult.ok p' S R := by
  simp only [List.mem_cons, List.mem_singleton, List.not_mem_nil, or_false] at hr
  unfold BuildWriteMessage
  rcases hr with ⟨rfl | rfl | rfl, rfl⟩ | rfl | rfl | rfl
  · rw [writeSwitch_mem16 h _ _ DM a n data (by simp)]; exact finishMessage_isOk _ _ _ _
  · rw [writeSwitch_mem16 h _ _ AR a n data (by simp)]; exact finishMessage_isOk _ _ _ _
  · rw [writeSwitch_mem16 h _ _ IO_ a n data (by simp)]; exact finishMessage_isOk _ _ _ _
  · rw [writeSwitch_mem32 h _ _ DM a n asz data (by simp)]; exact finishMessage_isOk _ _ _ _
  · rw [writeSwitch_mem32 h _ _ AR a n asz data (by simp)]; exact finishMessage_isOk _ _ _ _
  · rw [writeSwitch_mem32 h _ _ IO_ a n asz data (by simp)]; exact finishMessage_isOk _ _ _ _

/-- A read of at least one element whose request builds on every session
makes at least one transport call. -/
theorem finsRead_io (h : Host) (tr : Transport) (mmList : List MultiMemArea)
    (p : drvPvt) (log : List IOEvent) (r : FINS_COMMANDS) (data : List Nat)
    (n a t asz : Nat) (hn : 1 ≤ n)
    (hb : ∀ q, ∃ p' S R, BuildReadMessage h mmList q r (a % 65536) n = BuildResult.ok p' S R) :
    ∃ res l, finsRead h tr mmList p log r data n a t asz = some res ∧
      res.log = log ++ l ∧ l ≠ [] := by
  have hn' : ¬ n < 1 := by omega
  simp only [finsRead, hn', if_false]
  split_ifs with h1 h2 h3
  · rcases FINSnodeRequest_cases h tr p log with ⟨-, -, hl⟩ | ⟨-, -, -, hl⟩
    · exact ⟨_, _, rfl, hl, by simp⟩
    · exact ⟨_, _, rfl, hl, by simp⟩
  · obtain ⟨p', S, R, hq⟩ := hb (FINSnodeRequest h tr p log).2.1
    rw [hq]
    obtain ⟨tail, ht⟩ := readExchange_log h tr p' (FINSnodeRequest h tr p log).2.2 r data n t
      asz S R
    rcases FINSnodeRequest_cases h tr p log with ⟨-, -, hl⟩ | ⟨-, -, -, hl⟩
    · exact ⟨_, _, rfl, by rw [ht, hl]; exact List.append_assoc _ _ _, by simp⟩
    · exact ⟨_, _, rfl, by rw [ht, hl]; exact List.append_assoc _ _ _, by simp⟩
  · simp at h3
  · obtain ⟨p', S, R, hq⟩ := hb p
    simp only [hq]
    obtain ⟨tail, ht⟩ := readExchange_log h tr p' log r data n t asz S R
    exact ⟨_, _, rfl, ht, by simp⟩

/-- A write whose request builds on every session makes at least one
transport call. -/
theorem finsWrite_io (h : Host) (tr : Transport) (p : drvPvt) (log : List IOEvent)
    (r : FINS_COMMANDS) (data : List Nat) (n a asz : Nat)
    (hb : ∀ q, ∃ p' S R,
      BuildWriteMessage h q r (a % 65536) n asz data = BuildResult.ok p' S R) :
    ∃ res l, finsWrite h tr p log r data n a asz = some res ∧
      res.log = log ++ l ∧ l ≠ [] := by
  simp only [finsWrite]
  split_ifs with h1 h2 h3
  · rcases FINSnodeRequest_cases h tr p log with ⟨-, -, hl⟩ | ⟨-, -, -, hl⟩
    · exact ⟨_, _, rfl, hl, by simp⟩
    · exact ⟨_, _, rfl, hl, by simp⟩
  · obtain ⟨p', S, R, hq⟩ := hb (FINSnodeRequest h tr p log).2.1
    rw [hq]
    obtain ⟨tail, ht⟩ := writeExchange_log h tr p' (FINSnodeRequest h tr p log).2.2 S R
    rcases FINSnodeRequest_cases h tr p log with ⟨-, -, hl⟩ | ⟨-, -, -, hl⟩
    · exact ⟨_, _, rfl, by rw [ht, hl]; exact List.append_assoc _ _ _, by simp⟩
    · exact ⟨_, _, rfl, by rw [ht, hl]; exact List.append_assoc _ _ _, by simp⟩
  · simp at h3
  · obtain ⟨p', S, R, hq⟩ := hb p
    simp only [hq]
    obtain ⟨tail, ht⟩ := writeExchange_log h tr p' log S R
    exact ⟨_, _, rfl, ht, by simp⟩


/-! ## Command codes and lengths of the fixed-shape commands -/

theorem getByte_InitHeader (p : drvPvt) (j : Nat) (hj : 9 ≤ j) :
    getByte (InitHeader p).message j = getByte p.message j := by
  have e0 : ¬ j = 0 := by omega
  have e1 : ¬ j = 1 := by omega
  have e2 : ¬ j = 2 := by omega
  have e3 : ¬ j = 3 := by omega
  have e4 : ¬ j = 4 := by omega
  have e5 : ¬ j = 5 := by omega
  have e6 : ¬ j = 6 := by omega
  have e7 : ¬ j = 7 := by omega
  have e8 : ¬ j = 8 := by omega
  simp only [InitHeader_eq, setMessage_message, getByte_setByte, ICF, RSV, GCT, DNA, DA1, DA2,
    SNA, SA1, SA2, e0, e1, e2, e3, e4, e5, e6, e7, e8, false_and, if_false]

/-- The state the common tail leaves on a session that is not TCP. -/
theorem finishMessage_udp_state (h : Host) (q : drvPvt) (s r : Nat)
    (hu : q.type ≠ FINS_TCP_type) (hl : 12 ≤ q.message.length) :
    ∃ p', finishMessage h q s r = BuildResult.ok p' s r ∧ p'.type = q.type ∧
      p'.nodevalid = q.nodevalid ∧ p'.dnode = q.dnode ∧ p'.snode = q.snode ∧
      p'.sid = (q.sid + 1) % 256 ∧ p'.mrc = q.mrc ∧ p'.src = q.src ∧
      p'.message.length = q.message.length ∧
      getByte p'.message 9 = (q.sid + 1) % 256 ∧ getByte p'.message 10 = q.mrc % 256 ∧
      getByte p'.message 11 = q.src % 256 ∧
      ∀ j, j ≠ 9 → j ≠ 10 → j ≠ 11 → getByte p'.message j = getByte q.message j := by
  rw [finishMessage_udp h q s r hu]
  refine ⟨_, rfl, by simp, by simp, by simp, by simp, by simp, by simp, by simp, by simp, ?_,
    ?_, ?_, ?_⟩
  · simp only [setMessage_message, getByte_setByte, length_setByte, SID, MRC, SRC]
    simp; omega
  · simp only [setMessage_message, getByte_setByte, length_setByte, SID, MRC, SRC]
    simp; omega
  · simp only [setMessage_message, getByte_setByte, length_setByte, SID, MRC, SRC]
    simp; omega
  · intro j h9 h10 h11
    simp only [setMessage_message, getByte_setByte, SID, MRC, SRC, h9, h10, h11, false_and,
      if_false]

/-- The switch of `BuildReadMessage` for the fixed-shape read commands. -/
theorem readSwitch_fixed (h : Host) (mmList : List MultiMemArea) (p : drvPvt)
    (r : FINS_COMMANDS) (a n S R mrc src : Nat)
    (hr : (r, S, R, mrc, src) ∈ [(FINS_MODEL, 14, 36, 0x05, 0x02),
      (FINS_CPU_STATUS, 12, 40, 0x06, 0x01), (FINS_CPU_MODE, 12, 40, 0x06, 0x01),
      (FINS_CYCLE_TIME, 13, 26, 0x06, 0x20), (FINS_CYCLE_TIME_MEAN, 13, 26, 0x06, 0x20),
      (FINS_CYCLE_TIME_MAX, 13, 26, 0x06, 0x20), (FINS_CYCLE_TIME_MIN, 13, 26, 0x06, 0x20),
      (FINS_CLOCK_READ, 12, 21, 0x07, 0x01)]) :
    ∃ q, readSwitch h mmList p r a n = BuildResult.ok q S R ∧ q.type = p.type ∧
      q.nodevalid = p.nodevalid ∧ q.dnode = p.dnode ∧ q.snode = p.snode ∧ q.sid = p.sid ∧
      q.mrc = mrc ∧ q.src = src ∧ q.message.length = p.message.length ∧
      (r ∈ [FINS_CYCLE_TIME, FINS_CYCLE_TIME_MEAN, FINS_CYCLE_TIME_MAX, FINS_CYCLE_TIME_MIN] →
        12 < p.message.length → getByte q.message 12 = 0x01) ∧
      ∀ j, 14 ≤ j → getByte q.message j = getByte p.message j := by
  simp only [List.mem_cons, Prod.mk.injEq, List.mem_singleton, List.not_mem_nil, or_false] at hr
  have key : ∀ (j : Nat), 14 ≤ j → ¬ j = 12 ∧ ¬ j = 13 := fun j hj => ⟨by omega, by omega⟩
  rcases hr with e | e | e | e | e | e | e | e <;>
    (obtain ⟨rfl, rfl, rfl, rfl, rfl⟩ := e
     simp only [readSwitch]
     refine ⟨_, rfl, by simp, by simp, by simp, by simp, by simp, by simp, by simp,
       by simp [put_eq], ?_, ?_⟩
     · intro hmem hlen
       first
         | (simp at hmem; done)
         | (simp [put_eq, getByte_setByte, COM, hlen])
     · intro j hj
       obtain ⟨e12, e13⟩ := key j hj
       simp [put_eq, getByte_setByte, COM, e12, e13])

/-- The fixed-shape read commands on a session that is not TCP: lengths,
command codes and what is left of the scratch buffer. -/
theorem BuildReadMessage_fixed_udp (h : Host) (mmList : List MultiMemArea) (p : drvPvt)
    (r : FINS_COMMANDS) (a n S R mrc src : Nat) (hu : p.type ≠ FINS_TCP_type)
    (hl : p.message.length = FINS_MAX_MSG)
    (hr : (r, S, R, mrc, src) ∈ [(FINS_MODEL, 14, 36, 0x05, 0x02),
      (FINS_CPU_STATUS, 12, 40, 0x06, 0x01), (FINS_CPU_MODE, 12, 40, 0x06, 0x01),
      (FINS_CYCLE_TIME, 13, 26, 0x06, 0x20), (FINS_CYCLE_TIME_MEAN, 13, 26, 0x06, 0x20),
      (FINS_CYCLE_TIME_MAX, 13, 26, 0x06, 0x20), (FINS_CYCLE_TIME_MIN, 13, 26, 0x06, 0x20),
      (FINS_CLOCK_READ, 12, 21, 0x07, 0x01)]) :
    ∃ p', BuildReadMessage h mmList p r a n = BuildResult.ok p' S R ∧ p'.type = p.type ∧
      p'.nodevalid = p.nodevalid ∧ p'.dnode = p.dnode ∧ p'.snode = p.snode ∧
      p'.sid = (p.sid + 1) % 256 ∧ p'.mrc = mrc ∧ p'.src = src ∧
      p'.message.length = p.message.length ∧
      getByte p'.message 9 = (p.sid + 1) % 256 ∧ getByte p'.message 10 = mrc ∧
      getByte p'.message 11 = src ∧
      (r ∈ [FINS_CYCLE_TIME, FINS_CYCLE_TIME_MEAN, FINS_CYCLE_TIME_MAX, FINS_CYCLE_TIME_MIN] →
        getByte p'.message 12 = 0x01) ∧
      ∀ j, 14 ≤ j → getByte p'.message j = getByte p.message j := by
  have hl' : p.message.length = 2000 := by simpa [FINS_MAX_MSG, FINS_MAX_UDP_WORDS] using hl
  obtain ⟨i1, i2, i3, i4, i5, -, -, i8⟩ := InitHeader_keeps p
  obtain ⟨q, hq, q1, q2, q3, q4, q5, q6, q7, q8, q9, q10⟩ :=
    readSwitch_fixed h mmList (InitHeader p) r a n S R mrc src hr
  obtain ⟨p', f0, f1, f2, f3, f4, f5, f6, f7, f8, f9, f10, f11, f12⟩ :=
    finishMessage_udp_state h q S R (by rw [q1, i1]; exact hu) (by rw [q8, i8, hl']; decide)
  have hm : mrc < 256 ∧ src < 256 := by
    simp only [List.mem_cons, Prod.mk.injEq, List.mem_singleton, List.not_mem_nil,
      or_false] at hr
    omega
  unfold BuildReadMessage
  rw [hq]
  refine ⟨p', f0, by rw [f1, q1, i1], by rw [f2, q2, i2], by rw [f3, q3, i3],
    by rw [f4, q4, i4], by rw [f5, q5, i5], by rw [f6, q6], by rw [f7, q7],
    by rw [f8, q8, i8], by rw [f9, q5, i5], ?_, ?_, ?_, ?_⟩
  · rw [f10, q6]; exact Nat.mod_eq_of_lt hm.1
  · rw [f11, q7]; exact Nat.mod_eq_of_lt hm.2
  · intro hmem
    rw [f12 12 (by decide) (by decide) (by decide)]
    exact q9 hmem (by rw [i8, hl']; decide)
  · intro j hj
    rw [f12 j (by omega) (by omega) (by omega), q10 j hj]
    exact getByte_InitHeader p j (by omega)

/-- The switch of `BuildWriteMessage` for the two fixed-shape write commands. -/
theorem writeSwitch_fixed (h : Host) (p : drvPvt) (r : FINS_COMMANDS)
    (a n asz S R mrc src : Nat) (data : List Nat)
    (hr : (r, S, R, mrc, src) ∈ [(FINS_CYCLE_TIME_RESET, 13, 14, 0x06, 0x20),
      (FINS_SET_RESET_CANCEL, 12, 14, 0x23, 0x02)]) :
    ∃ q, writeSwitch h p r a n asz data = BuildResult.ok q S R ∧ q.type = p.type ∧
      q.nodevalid = p.nodevalid ∧ q.dnode = p.dnode ∧ q.snode = p.snode ∧ q.sid = p.sid ∧
      q.mrc = mrc ∧ q.src = src ∧ q.message.length = p.message.length ∧
      (r = FINS_CYCLE_TIME_RESET → 12 < p.message.length → getByte q.message 12 = 0x00) ∧
      ∀ j, 14 ≤ j → getByte q.message j = getByte p.message j := by
  simp only [List.mem_cons, Prod.mk.injEq, List.mem_singleton, List.not_mem_nil, or_false] at hr
  have key : ∀ (j : Nat), 14 ≤ j → ¬ j = 12 := fun j hj => by omega
  rcases hr with e | e <;>
    (obtain ⟨rfl, rfl, rfl, rfl, rfl⟩ := e
     simp only [writeSwitch]
     refine ⟨_, rfl, by simp, by simp, by simp, by simp, by simp, by simp, by simp,
       by simp [put_eq], ?_, ?_⟩
     · intro hmem hlen
       first
         | (cases hmem; simp [put_eq, getByte_setByte, COM, hlen])
         | cases hmem
     · intro j hj
       have e12 := key j hj
       simp [put_eq, getByte_setByte, COM, e12])

theorem BuildWriteMessage_fixed_udp (h : Host) (p : drvPvt) (r : FINS_COMMANDS)
    (a n asz S R mrc src : Nat) (data : List Nat) (hu : p.type ≠ FINS_TCP_type)
    (hl : p.message.length = FINS_MAX_MSG)
    (hr : (r, S, R, mrc, src) ∈ [(FINS_CYCLE_TIME_RESET, 13, 14, 0x06, 0x20),
      (FINS_SET_RESET_CANCEL, 12, 14, 0x23, 0x02)]) :
    ∃ p', BuildWriteMessage h p r a n asz data = BuildResult.ok p' S R ∧ p'.type = p.type ∧
      p'.sid = (p.sid + 1) % 256 ∧ p'.mrc = mrc ∧ p'.src = src ∧
      p'.message.length = p.message.length ∧
      getByte p'.message 9 = (p.sid + 1) % 256 ∧ getByte p'.message 10 = mrc ∧
      getByte p'.message 11 = src ∧
      (r = FINS_CYCLE_TIME_RESET → getByte p'.message 12 = 0x00) := by
  have hl' : p.message.length = 2000 := by simpa [FINS_MAX_MSG, FINS_MAX_UDP_WORDS] using hl
  obtain ⟨i1, i2, i3, i4, i5, -, -, i8⟩ := InitHeader_keeps p
  obtain ⟨q, hq, q1, q2, q3, q4, q5, q6, q7, q8, q9, q10⟩ :=
    writeSwitch_fixed h (InitHeader p) r a n asz S R mrc src data hr
  obtain ⟨p', f0, f1, f2, f3, f4, f5, f6, f7, f8, f9, f10, f11, f12⟩ :=
    finishMessage_udp_state h q S R (by rw [q1, i1]; exact hu) (by rw [q8, i8, hl']; decide)
  have hm : mrc < 256 ∧ src < 256 := by
    simp only [List.mem_cons, Prod.mk.injEq, List.mem_singleton, List.not_mem_nil,
      or_false] at hr
    omega
  unfold BuildWriteMessage
  rw [hq]
  refine ⟨p', f0, by rw [f1, q1, i1], by rw [f5, q5, i5], by rw [f6, q6], by rw [f7, q7],
    by rw [f8, q8, i8], by rw [f9, q5, i5], ?_, ?_, ?_⟩
  · rw [f10, q6]; exact Nat.mod_eq_of_lt hm.1
  · rw [f11, q7]; exact Nat.mod_eq_of_lt hm.2
  · intro hmem
    rw [f12 12 (by decide) (by decide) (by decide)]
    exact q9 hmem (by rw [i8, hl']; decide)

/-! ## Command codes and area byte of the memory commands -/

theorem getByte_InitAddrSize (h : Host) (p : drvPvt) (a n s j : Nat) (hj : j < 13 ∨ 18 ≤ j) :
    getByte (InitAddrSize h p a n s).message j = getByte p.message j := by
  have e1 : ¬ j = 13 := by omega
  have e2 : ¬ j = 14 := by omega
  have e3 : ¬ j = 15 := by omega
  have e4 : ¬ j = 16 := by omega
  have e5 : ¬ j = 17 := by omega
  simp only [InitAddrSize_eq, setMessage_message, getByte_setByte, COM, Nat.reduceAdd, e1, e2,
    e3, e4, e5, false_and, if_false]

theorem BuildReadMessage_mem_codes (h : Host) (mmList : List MultiMemArea) (p : drvPvt)
    (r : FINS_COMMANDS) (area a n : Nat) (hu : p.type ≠ FINS_TCP_type)
    (hl : p.message.length = FINS_MAX_MSG)
    (hr : (r, area) ∈ [(FINS_DM_READ, 0x82), (FINS_DM_READ_32, 0x82), (FINS_DM_WRITE, 0x82),
      (FINS_DM_WRITE_32, 0x82), (FINS_AR_READ, 0xB3), (FINS_AR_READ_32, 0xB3),
      (FINS_AR_WRITE, 0xB3), (FINS_AR_WRITE_32, 0xB3), (FINS_IO_READ, 0xB0),
      (FINS_IO_READ_32, 0xB0), (FINS_IO_WRITE, 0xB0), (FINS_IO_WRITE_32, 0xB0),
      (FINS_WR_READ, 0xB1), (FINS_HR_READ, 0xB2)]) :
    ∃ p' S R, BuildReadMessage h mmList p r a n = BuildResult.ok p' S R ∧ p'.mrc = 0x01 ∧
      p'.src = 0x01 ∧
      [getByte p'.message 10, getByte p'.message 11, getByte p'.message 12]
        = [0x01, 0x01, area] := by
  have hl' : p.message.length = 2000 := by simpa [FINS_MAX_MSG, FINS_MAX_UDP_WORDS] using hl
  obtain ⟨i1, i2, i3, i4, i5, -, -, i8⟩ := InitHeader_keeps p
  have harea : area < 256 := by
    simp only [List.mem_cons, Prod.mk.injEq, List.mem_singleton, List.not_mem_nil,
      or_false] at hr
    omega
  have hsw : ∃ w S R, readSwitch h mmList (InitHeader p) r a n = BuildResult.ok
      (InitAddrSize h (((InitHeader p).setCodes 0x01 0x01).put COM area) a n w) S R := by
    simp only [List.mem_cons, Prod.mk.injEq, List.mem_singleton, List.not_mem_nil,
      or_false] at hr
    rcases hr with e | e | e | e | e | e | e | e | e | e | e | e | e | e <;>
      (obtain ⟨rfl, rfl⟩ := e
       first
         | (refine ⟨2, _, _, readSwitch_mem16 h mmList _ _ _ a n ?_⟩
            simp only [DM, AR, IO_, WR, HR]
            decide)
         | (refine ⟨4, _, _, readSwitch_mem32 h mmList _ _ _ a n ?_⟩
            simp only [DM, AR, IO_]
            decide))
  obtain ⟨w, S, R, hq⟩ := hsw
  obtain ⟨p', f0, f1, f2, f3, f4, f5, f6, f7, f8, f9, f10, f11, f12⟩ :=
    finishMessage_udp_state h
      (InitAddrSize h (((InitHeader p).setCodes 0x01 0x01).put COM area) a n w) S R
      (by simp [InitAddrSize_eq, i1]; exact hu) (by simp [InitAddrSize_eq, i8, hl'])
  unfold BuildReadMessage
  rw [hq]
  refine ⟨p', S, R, f0, by rw [f6]; simp [InitAddrSize_eq], by rw [f7]; simp [InitAddrSize_eq],
    ?_⟩
  rw [f10, f11, f12 12 (by decide) (by decide) (by decide),
    getByte_InitAddrSize h _ a n w 12 (by omega)]
  simp [InitAddrSize_eq, put_eq, getByte_setByte, COM, i8, hl']
  exact harea

theorem writeSwitch_mem16_any (h : Host) (p : drvPvt) (r : FINS_COMMANDS)
    (area a n asz : Nat) (data : List Nat)
    (hr : (r, area) ∈ [(FINS_DM_WRITE, DM), (FINS_DM_WRITE_NOREAD, DM), (FINS_AR_WRITE, AR),
      (FINS_AR_WRITE_NOREAD, AR), (FINS_IO_WRITE, IO_), (FINS_IO_WRITE_NOREAD, IO_)]) :
    ∃ b, writeSwitch h p r a n asz data = BuildResult.ok
      (writeWords16 h data b n (InitAddrSize h ((p.setCodes 0x01 0x02).put COM area) a n 2))
      (sizeT h (COM + COMMAND_DATA_OFFSET + sizeT h (n * 2))) (RESP + 0) := by
  simp only [List.mem_cons, Prod.mk.injEq, List.mem_singleton, List.not_mem_nil, or_false] at hr
  by_cases hs : asz = 2
  · rcases hr with e | e | e | e | e | e <;>
      (obtain ⟨rfl, rfl⟩ := e; exact ⟨16, by simp only [writeSwitch, hs, if_true]⟩)
  · rcases hr with e | e | e | e | e | e <;>
      (obtain ⟨rfl, rfl⟩ := e; exact ⟨32, by simp only [writeSwitch, hs, if_false]⟩)

theorem BuildWriteMessage_mem_codes (h : Host) (p : drvPvt)
    (r : FINS_COMMANDS) (area a n asz : Nat) (data : List Nat) (hu : p.type ≠ FINS_TCP_type)
    (hl : p.message.length = FINS_MAX_MSG)
    (hr : (r, area) ∈ [(FINS_DM_WRITE, 0x82), (FINS_DM_WRITE_NOREAD, 0x82),
      (FINS_DM_WRITE_32, 0x82), (FINS_DM_WRITE_32_NOREAD, 0x82), (FINS_AR_WRITE, 0xB3),
      (FINS_AR_WRITE_NOREAD, 0xB3), (FINS_AR_WRITE_32, 0xB3), (FINS_AR_WRITE_32_NOREAD, 0xB3),
      (FINS_IO_WRITE, 0xB0), (FINS_IO_WRITE_NOREAD, 0xB0), (FINS_IO_WRITE_32, 0xB0),
      (FINS_IO_WRITE_32_NOREAD, 0xB0)]) :
    ∃ p' S R, BuildWriteMessage h p r a n asz data = BuildResult.ok p' S R ∧ p'.mrc = 0x01 ∧
      p'.src = 0x02 ∧
      [getByte p'.message 10, getByte p'.message 11, getByte p'.message 12]
        = [0x01, 0x02, area] := by
  have hl' : p.message.length = 2000 := by simpa [FINS_MAX_MSG, FINS_MAX_UDP_WORDS] using hl
  obtain ⟨i1, i2, i3, i4, i5, -, -, i8⟩ := InitHeader_keeps p
  have harea : area < 256 := by
    simp only [List.mem_cons, Prod.mk.injEq, List.mem_singleton, List.not_mem_nil,
      or_false] at hr
    omega
  have hsplit : (r, area) ∈ [(FINS_DM_WRITE, DM), (FINS_DM_WRITE_NOREAD, DM),
      (FINS_AR_WRITE, AR), (FINS_AR_WRITE_NOREAD, AR), (FINS_IO_WRITE, IO_),
      (FINS_IO_WRITE_NOREAD, IO_)] ∨
      (r, area) ∈ [(FINS_DM_WRITE_32, DM), (FINS_DM_WRITE_32_NOREAD, DM),
      (FINS_AR_WRITE_32, AR), (FINS_AR_WRITE_32_NOREAD, AR), (FINS_IO_WRITE_32, IO_),
      (FINS_IO_WRITE_32_NOREAD, IO_)] := by
    simp only [List.mem_cons, Prod.mk.injEq, List.mem_singleton, List.not_mem_nil,
      or_false] at hr
    rcases hr with e | e | e | e | e | e | e | e | e | e | e | e <;>
      (obtain ⟨rfl, rfl⟩ := e
       first
         | (left; decide)
         | (right; decide))
  have hsw : ∃ q w S R, writeSwitch h (InitHeader p) r a n asz data = BuildResult.ok q S R ∧
      q.type = p.type ∧ q.mrc = 0x01 ∧ q.src = 0x02 ∧ q.message.length = p.message.length ∧
      getByte q.message 12 = getByte
        (InitAddrSize h (((InitHeader p).setCodes 0x01 0x02).put COM area) a n w).message
        12 := by
    rcases hsplit with h16 | h32
    · obtain ⟨b, hb⟩ := writeSwitch_mem16_any h (InitHeader p) r area a n asz data h16
      obtain ⟨g1, -, -, -, -, g6, g7, g8, g9⟩ := writeWords16_fields h data b n
        (InitAddrSize h (((InitHeader p).setCodes 0x01 0x02).put COM area) a n 2)
      refine ⟨_, 2, _, _, hb, ?_, ?_, ?_, ?_, ?_⟩
      · rw [g1]; simp [InitAddrSize_eq, i1]
      · rw [g6]; simp [InitAddrSize_eq]
      · rw [g7]; simp [InitAddrSize_eq]
      · rw [g8]; simp [InitAddrSize_eq, put_eq, i8]
      · rw [getByte_eq, getByte_eq, g9 12 (by decide)]
    · have hb := writeSwitch_mem32 h (InitHeader p) r area a n asz data h32
      obtain ⟨g1, -, -, -, -, g6, g7, g8, g9⟩ := writeWords32_fields h data n
        (InitAddrSize h (((InitHeader p).setCodes 0x01 0x02).put COM area) a n 4)
      refine ⟨_, 4, _, _, hb, ?_, ?_, ?_, ?_, ?_⟩
      · rw [g1]; simp [InitAddrSize_eq, i1]
      · rw [g6]; simp [InitAddrSize_eq]
      · rw [g7]; simp [InitAddrSize_eq]
      · rw [g8]; simp [InitAddrSize_eq, put_eq, i8]
      · rw [getByte_eq, getByte_eq, g9 12 (by decide)]
  obtain ⟨q, w, S, R, hq, q1, q6, q7, q8, q12⟩ := hsw
  obtain ⟨p', f0, f1, f2, f3, f4, f5, f6, f7, f8, f9, f10, f11, f12⟩ :=
    finishMessage_udp_state h q S R (by rw [q1]; exact hu) (by rw [q8, hl']; decide)
  unfold BuildWriteMessage
  rw [hq]
  refine ⟨p', S, R, f0, by rw [f6, q6], by rw [f7, q7], ?_⟩
  rw [f10, f11, f12 12 (by decide) (by decide) (by decide), q6, q7, q12,
    getByte_InitAddrSize h _ a n w 12 (by omega)]
  simp [put_eq, getByte_setByte, COM, i8, hl']
  exact harea

/-- The command codes of a multiple-area read that builds. -/
theorem BuildReadMessage_mm_codes (h : Host) (mmList : List MultiMemArea) (p : drvPvt)
    (a n : Nat) (p' : drvPvt) (S R : Nat) (hu : p.type ≠ FINS_TCP_type)
    (hl : p.message.length = FINS_MAX_MSG)
    (hb : BuildReadMessage h mmList p FINS_MM_READ a n = BuildResult.ok p' S R) :
    p'.mrc = 0x01 ∧ p'.src = 0x04 ∧
      [getByte p'.message 10, getByte p'.message 11] = [0x01, 0x04] := by
  have hl' : p.message.length = 2000 := by simpa [FINS_MAX_MSG, FINS_MAX_UDP_WORDS] using hl
  obtain ⟨i1, i2, i3, i4, i5, -, -, i8⟩ := InitHeader_keeps p
  simp only [BuildReadMessage] at hb
  cases hsw : readSwitch h mmList (InitHeader p) FINS_MM_READ a n with
  | err q => rw [hsw] at hb; cases hb
  | fault => rw [hsw] at hb; cases hb
  | ok q s0 r0 =>
    rw [hsw] at hb
    obtain ⟨k1, -, -, -, -, k6⟩ := readSwitch_keeps h mmList _ _ a n q s0 r0 hsw
    have hc : q.mrc = 0x01 ∧ q.src = 0x04 := by
      simp only [readSwitch] at hsw
      split at hsw
      · split at hsw
        · cases hsw
        · simp only [BuildResult.ok.injEq] at hsw
          obtain ⟨rfl, -, -⟩ := hsw
          simp
      · split at hsw
        · cases hsw
        · rename_i hloop
          simp only [BuildResult.ok.injEq] at hsw
          obtain ⟨rfl, -, -⟩ := hsw
          have := mmLoop_keeps _ n n 0 _ _ _ hloop
          simp only [setCodes_mrc, setCodes_src] at this
          exact ⟨this.2.2.2.2.2.1, this.2.2.2.2.2.2.1⟩
    obtain ⟨p'', f0, f1, f2, f3, f4, f5, f6, f7, f8, f9, f10, f11, f12⟩ :=
      finishMessage_udp_state h q s0 r0 (by rw [k1, i1]; exact hu) (by rw [k6, i8, hl']; decide)
    have hb' : finishMessage h q s0 r0 = BuildResult.ok p' S R := hb
    rw [f0] at hb'
    simp only [BuildResult.ok.injEq] at hb'
    obtain ⟨rfl, -, -⟩ := hb'
    refine ⟨by rw [f6, hc.1], by rw [f7, hc.2], ?_⟩
    rw [f10, f11, hc.1, hc.2]


/-! ## Fixed-shape reads on the sample session -/

theorem getByte_receive_ge (m reply : List Nat) (j : Nat) (hj : reply.length ≤ j) :
    getByte (receive m reply) j = getByte m j := by
  rw [getByte_eq, getByte_eq]
  simp only [receive]
  by_cases hm : j < m.length
  · rw [List.getElem?_take_of_lt hm, List.getElem?_append_right (by simpa using hj)]
    simp only [List.length_map, List.getElem?_drop]
    rw [show reply.length + (j - reply.length) = j by omega]
  · have h1 : m.length ≤ j := by omega
    rw [List.getElem?_eq_none (by simp; omega), List.getElem?_eq_none h1]

theorem getByte_session0 (t : ConnType) (j : Nat) : getByte (session0 t).message j = 0 := by
  rw [getByte_eq]
  show (List.replicate FINS_MAX_MSG 0)[j]?.getD 0 % 256 = 0
  rw [List.getElem?_replicate]
  split <;> rfl

/-- On the sample UDP session a fixed-shape read answered with the matching
header and a payload of the expected size succeeds; the payload is found from
byte 14 of the scratch buffer on, followed by the zeros the buffer held. -/
theorem sample_fixed_read (h : Host) (r : FINS_COMMANDS) (S R mrc src : Nat)
    (hr : (r, S, R, mrc, src) ∈ [(FINS_MODEL, 14, 36, 0x05, 0x02),
      (FINS_CPU_STATUS, 12, 40, 0x06, 0x01), (FINS_CPU_MODE, 12, 40, 0x06, 0x01),
      (FINS_CYCLE_TIME, 13, 26, 0x06, 0x20), (FINS_CYCLE_TIME_MEAN, 13, 26, 0x06, 0x20),
      (FINS_CYCLE_TIME_MAX, 13, 26, 0x06, 0x20), (FINS_CYCLE_TIME_MIN, 13, 26, 0x06, 0x20),
      (FINS_CLOCK_READ, 12, 21, 0x07, 0x01)])
    (payload data : List Nat) (n a t asz : Nat) (hn : 1 ≤ n)
    (hpay : 14 + payload.length = R) :
    ∃ res req, finsRead h (replyTransport (fixedReplyHeader mrc src ++ payload)) []
        (session0 FINS_UDP_type) [] r data n a t asz = some res ∧ res.ret = 0 ∧
      res.transferred = n ∧ res.log = [IOEvent.writeRead req S R] ∧
      extractData h res.pvt.message r data n asz = some res.data ∧
      (∀ j, j < payload.length → getByte res.pvt.message (14 + j) = payload[j]?.getD 0 % 256) ∧
      (∀ j, R ≤ j → getByte res.pvt.message j = 0) := by
  have hR40 : R ≤ 40 ∧ mrc < 256 ∧ src < 256 := by
    simp only [List.mem_cons, Prod.mk.injEq, List.mem_singleton, List.not_mem_nil,
      or_false] at hr
    omega
  obtain ⟨p', hb, h1, -, h3, h4, h5, h6, h7, h8, -, -, -, -, h14⟩ :=
    BuildReadMessage_fixed_udp h [] (session0 FINS_UDP_type) r (a % 65536) n S R mrc src
      (by decide) (session0_length _) hr
  have hlen : p'.message.length = 2000 := by rw [h8]; exact session0_length _
  have hlr : (fixedReplyHeader mrc src ++ payload).length = R := by
    rw [← hpay]; simp [fixedReplyHeader]; omega
  have htake : (fixedReplyHeader mrc src ++ payload).take R
      = fixedReplyHeader mrc src ++ payload := by
    rw [← hlr]; exact List.take_length _
  have hfin := finsRead_no_handshake h (replyTransport (fixedReplyHeader mrc src ++ payload)) []
    (session0 FINS_UDP_type) [] r data n a t asz p' S R hn (by decide) hb
  have hex := BuildReadMessage_extract h [] _ r _ n p' S R hb
  obtain ⟨hiff, hpvt, tail, hlog, -, htail⟩ := readExchange_iff h
    (replyTransport (fixedReplyHeader mrc src ++ payload)) p' [] r data n t asz S R
    (fun m => hex m data asz)
  have hty : ¬ p'.type = FINS_TCP_type := by rw [h1]; decide
  have hget : ∀ j, j < 14 + payload.length →
      getByte (receive p'.message (fixedReplyHeader mrc src ++ payload)) j
        = (fixedReplyHeader mrc src ++ payload)[j]?.getD 0 % 256 := by
    intro j hj
    exact getByte_receive _ _ _ (by rw [hlr, ← hpay]; exact hj) (by rw [hlen]; omega)
  have hret : (readExchange h (replyTransport (fixedReplyHeader mrc src ++ payload)) p' [] r
      data n t asz S R).ret = 0 := by
    rw [hiff]
    refine ⟨rfl, rfl, rfl, fun ht => absurd ht hty, ?_⟩
    simp only [replyTransport, htake, hty, if_false, CheckData, setMessage_message,
      setMessage_sid, setMessage_mrc, setMessage_src, setMessage_snode, setMessage_dnode,
      MRES, SRES, SID, MRC, SRC, DA1, SA1]
    rw [hget 12 (by omega), hget 13 (by omega), hget 9 (by omega), hget 10 (by omega),
      hget 11 (by omega), hget 4 (by omega), hget 7 (by omega), h3, h4, h5, h6, h7]
    simp [fixedReplyHeader, session0, Nat.mod_eq_of_lt hR40.2.1, Nat.mod_eq_of_lt hR40.2.2]
  obtain ⟨-, hext, htr⟩ := (readExchange_ret h
    (replyTransport (fixedReplyHeader mrc src ++ payload)) p' [] r data n t asz S R).2 hret
  refine ⟨_, p'.message.take S, hfin, hret, htr, ?_, hext, ?_, ?_⟩
  · rw [hlog, htail hret]
    rfl
  · intro j hj
    rw [hpvt hret]
    simp only [replyTransport, htake, hty, if_false, setMessage_message]
    rw [hget (14 + j) (by omega)]
    rw [List.getElem?_append_right (by simp [fixedReplyHeader])]
    simp [fixedReplyHeader]
  · intro j hj
    rw [hpvt hret]
    simp only [replyTransport, htake, hty, if_false, setMessage_message]
    rw [getByte_receive_ge _ _ _ (by rw [hlr]; exact hj), h14 j (by omega)]
    exact getByte_session0 _ j


/-! ## Multiple memory area read -/

theorem get?_getD (l : List Nat) (i : Nat) (hi : i < l.length) : l.get? i = some (l.getD i 0) := by
  rw [List.get?_eq_getElem?, List.getD_eq_getElem?_getD, List.getElem?_eq_getElem hi]
  rfl

/-- The four bytes one pass of the loop stores. -/
theorem getByte_quad (m : List Nat) (o a b c d j : Nat) (ho : o + 3 < m.length) :
    getByte (setByte (setByte (setByte (setByte m (o + 0) a) (o + 1) b) (o + 2) c) (o + 3) d) j
      = if j = o then a % 256 else if j = o + 1 then b % 256 else if j = o + 2 then c % 256
        else if j = o + 3 then d % 256 else getByte m j := by
  simp only [getByte_setByte, length_setByte, Nat.add_zero]
  by_cases h0 : j = o
  · subst h0
    have e1 : ¬ j = j + 1 := by omega
    have e2 : ¬ j = j + 2 := by omega
    have e3 : ¬ j = j + 3 := by omega
    have e4 : j < m.length := by omega
    simp [e1, e2, e3, e4]
  by_cases h1 : j = o + 1
  · subst h1
    have e4 : o + 1 < m.length := by omega
    simp [e4]
  by_cases h2 : j = o + 2
  · subst h2
    have e4 : o + 2 < m.length := by omega
    simp [e4]
  by_cases h3 : j = o + 3
  · subst h3
    simp [ho]
  simp [h0, h1, h2, h3]

/-- The loop of the multiple-area read, started at `i` with `n - i` passes
left: it stops at the first `m ≥ i` with a zero area code or at `n`, has
stored one quadruple for each index from `i` up to `m`, and has left the
other bytes alone. -/
theorem mmLoop_spec (MM : MultiMemArea) (n : Nat) (hA : n ≤ MM.area.length)
    (hD : n ≤ MM.address.length) :
    ∀ (fuel i : Nat) (p : drvPvt), fuel + i = n → 12 + 4 * n ≤ p.message.length →
      ∃ m q, mmLoop MM n fuel i p = some (m, q) ∧ i ≤ m ∧ m ≤ n ∧
        (∀ k, i ≤ k → k < m → MM.area.getD k 0 ≠ 0) ∧ (m < n → MM.area.getD m 0 = 0) ∧
        (∀ k, i ≤ k → k < m →
          getByte q.message (12 + 4 * k) = MM.area.getD k 0 % 256 ∧
          getByte q.message (13 + 4 * k) = (MM.address.getD k 0 >>> 8) % 256 ∧
          getByte q.message (14 + 4 * k) = (MM.address.getD k 0 &&& 0xff) % 256 ∧
          getByte q.message (15 + 4 * k) = 0) ∧
        (∀ j, j < 12 + 4 * i ∨ 12 + 4 * m ≤ j → getByte q.message j = getByte p.message j) := by
  intro fuel
  induction fuel with
  | zero =>
    intro i p hf hl
    refine ⟨i, p, rfl, le_refl _, by omega, ?_, ?_, ?_, ?_⟩
    · intro k h1 h2; omega
    · intro h1; omega
    · intro k h1 h2; omega
    · intro j _; rfl
  | succ f ih =>
    intro i p hf hl
    have hi : i < n := by omega
    have g1 := get?_getD MM.area i (by omega)
    have g2 := get?_getD MM.address i (by omega)
    by_cases hz : MM.area.getD i 0 = 0
    · refine ⟨i, p, ?_, le_refl _, by omega, ?_, fun _ => hz, ?_, ?_⟩
      · simp only [mmLoop, if_pos hi, g1, g2, hz, ne_eq, not_true_eq_false, if_false]
      · intro k h1 h2; omega
      · intro k h1 h2; omega
      · intro j _; rfl
    · have hstep : mmLoop MM n (f + 1) i p = mmLoop MM n f (i + 1)
          ((((p.put (COM + 4 * i + 0) (MM.area.getD i 0)).put (COM + 4 * i + 1)
            (MM.address.getD i 0 >>> 8)).put (COM + 4 * i + 2)
            (MM.address.getD i 0 &&& 0xff)).put (COM + 4 * i + 3) 0x00) := by
        simp only [mmLoop, if_pos hi, g1, g2, ne_eq, hz, not_false_eq_true, if_true]
      have hbytes : ∀ j, getByte ((((p.put (COM + 4 * i + 0) (MM.area.getD i 0)).put
            (COM + 4 * i + 1) (MM.address.getD i 0 >>> 8)).put (COM + 4 * i + 2)
            (MM.address.getD i 0 &&& 0xff)).put (COM + 4 * i + 3) 0x00).message j
          = if j = 12 + 4 * i then MM.area.getD i 0 % 256
            else if j = 12 + 4 * i + 1 then (MM.address.getD i 0 >>> 8) % 256
            else if j = 12 + 4 * i + 2 then (MM.address.getD i 0 &&& 0xff) % 256
            else if j = 12 + 4 * i + 3 then 0 % 256 else getByte p.message j := by
        intro j
        simp only [put_message, COM]
        exact getByte_quad p.message (12 + 4 * i) _ _ _ _ j (by omega)
      obtain ⟨m, q, hq, h1, h2, h3, h4, h5, h6⟩ := ih (i + 1)
        ((((p.put (COM + 4 * i + 0) (MM.area.getD i 0)).put (COM + 4 * i + 1)
            (MM.address.getD i 0 >>> 8)).put (COM + 4 * i + 2)
            (MM.address.getD i 0 &&& 0xff)).put (COM + 4 * i + 3) 0x00) (by omega)
        (by simp only [put_message, length_setByte]; exact hl)
      refine ⟨m, q, by rw [hstep, hq], by omega, h2, ?_, h4, ?_, ?_⟩
      · intro k k1 k2
        by_cases hk : k = i
        · subst hk; exact hz
        · exact h3 k (by omega) k2
      · intro k k1 k2
        by_cases hk : k = i
        · subst hk
          have a0 := h6 (12 + 4 * k) (Or.inl (by omega))
          have a1 := h6 (13 + 4 * k) (Or.inl (by omega))
          have a2 := h6 (14 + 4 * k) (Or.inl (by omega))
          have a3 := h6 (15 + 4 * k) (Or.inl (by omega))
          rw [hbytes] at a0 a1 a2 a3
          refine ⟨?_, ?_, ?_, ?_⟩
          · rw [a0, if_pos rfl]
          · rw [a1, if_neg (by omega), if_pos (by omega)]
          · rw [a2, if_neg (by omega), if_neg (by omega), if_pos (by omega)]
          · rw [a3, if_neg (by omega), if_neg (by omega), if_neg (by omega), if_pos (by omega)]
        · exact h5 k (by omega) k2
      · intro j hj
        rw [h6 j (by omega), hbytes, if_neg (by omega), if_neg (by omega), if_neg (by omega),
          if_neg (by omega)]

theorem getByte_append_right (x y : List Nat) (j : Nat) :
    getByte (x ++ y) (x.length + j) = getByte y j := by
  rw [getByte_eq, getByte_eq, List.getElem?_append_right (by omega)]
  simp

theorem getByte_take (x : List Nat) (k j : Nat) (hj : j < k) :
    getByte (x.take k) j = getByte x j := by
  rw [getByte_eq, getByte_eq, List.getElem?_take_of_lt hj]

/-- The request of a multiple-area read of `n ≤ 10` elements against an entry
with arrays of ten pairs: with `m` the number of quadruples, `off` the size of
the FINS/TCP header on a TCP session and 0 otherwise. -/
theorem BuildReadMessage_mm (h : Host) (hs : 16 ≤ h.sizeBits) (mmList : List MultiMemArea)
    (p : drvPvt) (a n off : Nat) (MM : MultiMemArea)
    (hl : p.message.length = FINS_MAX_MSG)
    (hoff : off = if p.type = FINS_TCP_type then FINS_SEND_FRAME_SIZE else 0)
    (hMM : ellNth mmList (sizeT h (a + 1)) = some MM)
    (hA : MM.area.length = FINS_MM_MAX_ADDRS) (hD : MM.address.length = FINS_MM_MAX_ADDRS)
    (hn : n ≤ FINS_MM_MAX_ADDRS) :
    ∃ m p', BuildReadMessage h mmList p FINS_MM_READ a n
        = BuildResult.ok p' (12 + 4 * m + off) (14 + 3 * m + off) ∧
      m ≤ n ∧ (∀ k, k < m → MM.area.getD k 0 ≠ 0) ∧ (m < n → MM.area.getD m 0 = 0) ∧
      p'.mrc = 0x01 ∧ p'.src = 0x04 ∧
      getByte p'.message (off + 10) = 0x01 ∧ getByte p'.message (off + 11) = 0x04 ∧
      p'.message.length = FINS_MAX_MSG ∧
      (∀ k, k < m →
        getByte p'.message (off + 12 + 4 * k) = MM.area.getD k 0 % 256 ∧
        getByte p'.message (off + 13 + 4 * k) = (MM.address.getD k 0 >>> 8) % 256 ∧
        getByte p'.message (off + 14 + 4 * k) = (MM.address.getD k 0 &&& 0xff) % 256 ∧
        getByte p'.message (off + 15 + 4 * k) = 0) := by
  have hl' : p.message.length = 2000 := by simpa [FINS_MAX_MSG, FINS_MAX_UDP_WORDS] using hl
  have hA' : MM.area.length = 10 := hA
  have hD' : MM.address.length = 10 := hD
  have hn' : n ≤ 10 := hn
  obtain ⟨i1, -, -, -, i5, -, -, i8⟩ := InitHeader_keeps p
  obtain ⟨m, q, hq, -, h2, h3, h4, h5, h6⟩ := mmLoop_spec MM n (by omega) (by omega) n 0
    ((InitHeader p).setCodes 0x01 0x04) rfl (by rw [setCodes_message, i8, hl']; omega)
  obtain ⟨k1, -, -, -, k5, k6, k7, k8⟩ := mmLoop_keeps MM n n 0 _ m q hq
  have hsw : readSwitch h mmList (InitHeader p) FINS_MM_READ a n
      = BuildResult.ok q (COM + 4 * m) (RESP + 3 * m) := by
    simp only [readSwitch, hMM, hq]
  have hql : q.message.length = 2000 := by rw [k8, setCodes_message, i8, hl']
  have hb : BuildReadMessage h mmList p FINS_MM_READ a n
      = finishMessage h q (COM + 4 * m) (RESP + 3 * m) := by
    simp only [BuildReadMessage, hsw]
  have hmrc : q.mrc = 1 := by rw [k6]; rfl
  have hsrc : q.src = 4 := by rw [k7]; rfl
  have hqt : q.type = p.type := by rw [k1]; exact i1
  by_cases ht : p.type = FINS_TCP_type
  · have ho : off = 16 := by rw [hoff, if_pos ht]; rfl
    obtain ⟨p'', f0, -, -, f3, f4, -, -, -, fm⟩ := finishMessage_tcp_message h q (COM + 4 * m)
      (RESP + 3 * m) (by rw [hqt, ht]) (by rw [hql]; rfl)
    have e1 : sizeT h (COM + 4 * m + FINS_SEND_FRAME_SIZE) = 12 + 4 * m + off := by
      rw [sizeT_small h hs _ (by simp only [COM, FINS_SEND_FRAME_SIZE]; omega), ho]; rfl
    have e2 : sizeT h (RESP + 3 * m + FINS_SEND_FRAME_SIZE) = 14 + 3 * m + off := by
      rw [sizeT_small h hs _ (by simp only [RESP, FINS_SEND_FRAME_SIZE]; omega), ho]; rfl
    have hg : ∀ j, j < 1984 → getByte p''.message (16 + j)
        = getByte (setByte (setByte (setByte q.message MRC q.mrc) SRC q.src) SID
            ((q.sid + 1) % 256)) j := by
      intro j hj
      rw [fm]
      have := getByte_append_right [0x46, 0x49, 0x4E, 0x53,
        sizeT h (COM + 4 * m + 8) / 16777216 % 256, sizeT h (COM + 4 * m + 8) / 65536 % 256,
        sizeT h (COM + 4 * m + 8) / 256 % 256, sizeT h (COM + 4 * m + 8) % 256,
        0, 0, 0, 2, 0, 0, 0, 0]
        ((setByte (setByte (setByte q.message MRC q.mrc) SRC q.src) SID
            ((q.sid + 1) % 256)).take (FINS_MAX_MSG - FINS_SEND_FRAME_SIZE)) j
      simp only [List.length_cons, List.length_nil, Nat.reduceAdd] at this
      rw [this]
      exact getByte_take _ _ _ hj
    have hlen'' : p''.message.length = FINS_MAX_MSG := by
      rw [fm]
      simp only [List.length_append, List.length_cons, List.length_nil, List.length_take,
        length_setByte, hql]
      rfl
    refine ⟨m, p'', by rw [hb, f0, e1, e2], h2, fun k hk => h3 k (Nat.zero_le _) hk, h4,
      by rw [f3, hmrc], by rw [f4, hsrc], ?_, ?_, hlen'', ?_⟩
    · rw [ho, hg 10 (by decide)]
      simp only [getByte_setByte, length_setByte, hql, MRC, SRC, SID, hmrc]
      simp
    · rw [ho, hg 11 (by decide)]
      simp only [getByte_setByte, length_setByte, hql, MRC, SRC, SID, hsrc]
      simp
    · intro k hk
      obtain ⟨b0, b1, b2, b3⟩ := h5 k (Nat.zero_le _) hk
      have hk' : k < 10 := by omega
      rw [ho, show 16 + 12 + 4 * k = 16 + (12 + 4 * k) by omega,
        show 16 + 13 + 4 * k = 16 + (13 + 4 * k) by omega,
        show 16 + 14 + 4 * k = 16 + (14 + 4 * k) by omega,
        show 16 + 15 + 4 * k = 16 + (15 + 4 * k) by omega,
        hg _ (by omega), hg _ (by omega), hg _ (by omega), hg _ (by omega)]
      simp only [getByte_setByte, MRC, SRC, SID]
      repeat rw [if_neg (by omega)]
      exact ⟨b0, b1, b2, b3⟩
  · have ho : off = 0 := by rw [hoff, if_neg ht]
    obtain ⟨p'', f0, -, -, -, -, -, f6, f7, f8, -, f10, f11, frest⟩ :=
      finishMessage_udp_state h q (COM + 4 * m) (RESP + 3 * m) (by rw [hqt]; exact ht)
        (by rw [hql]; omega)
    refine ⟨m, p'', by rw [hb, f0, ho]; rfl, h2, fun k hk => h3 k (Nat.zero_le _) hk, h4,
      by rw [f6, hmrc], by rw [f7, hsrc], by rw [ho, Nat.zero_add, f10, hmrc],
      by rw [ho, Nat.zero_add, f11, hsrc], by rw [f8, hql]; rfl, ?_⟩
    intro k hk
    obtain ⟨b0, b1, b2, b3⟩ := h5 k (Nat.zero_le _) hk
    rw [ho, Nat.zero_add, Nat.zero_add, Nat.zero_add, Nat.zero_add,
      frest _ (by omega) (by omega) (by omega), frest _ (by omega) (by omega) (by omega),
      frest _ (by omega) (by omega) (by omega), frest _ (by omega) (by omega) (by omega)]
    exact ⟨b0, b1, b2, b3⟩

/-- On the sample UDP session every read that builds, answered with the
matching header (session id 4, the command codes of the request) and a
payload of the expected size, succeeds; the payload is found from byte 14 of
the scratch buffer on. -/
theorem sample_built_read (h : Host) (mmList : List MultiMemArea) (r : FINS_COMMANDS)
    (p' : drvPvt) (S R mrc src : Nat) (payload data : List Nat) (n a t asz : Nat) (hn : 1 ≤ n)
    (hb : BuildReadMessage h mmList (session0 FINS_UDP_type) r (a % 65536) n
      = BuildResult.ok p' S R)
    (h1 : p'.type = FINS_UDP_type) (h3 : p'.dnode = 108) (h4 : p'.snode = 254) (h5 : p'.sid = 4)
    (h6 : p'.mrc = mrc) (h7 : p'.src = src) (hlen : p'.message.length = 2000)
    (hm : mrc < 256) (hsr : src < 256) (hpay : 14 + payload.length = R) (hR : R ≤ 2000) :
    ∃ res, finsRead h (replyTransport (fixedReplyHeader mrc src ++ payload)) mmList
        (session0 FINS_UDP_type) [] r data n a t asz = some res ∧ res.ret = 0 ∧
      res.transferred = n ∧
      extractData h res.pvt.message r data n asz = some res.data ∧
      (∀ j, j < payload.length → getByte res.pvt.message (14 + j) = payload[j]?.getD 0 % 256) := by
  have hlr : (fixedReplyHeader mrc src ++ payload).length = R := by
    rw [← hpay]; simp [fixedReplyHeader]; omega
  have htake : (fixedReplyHeader mrc src ++ payload).take R
      = fixedReplyHeader mrc src ++ payload := by
    rw [← hlr]; exact List.take_length _
  have hfin := finsRead_no_handshake h (replyTransport (fixedReplyHeader mrc src ++ payload))
    mmList (session0 FINS_UDP_type) [] r data n a t asz p' S R hn (by decide) hb
  have hex := BuildReadMessage_extract h mmList _ r _ n p' S R hb
  obtain ⟨hiff, hpvt, -⟩ := readExchange_iff h
    (replyTransport (fixedReplyHeader mrc src ++ payload)) p' [] r data n t asz S R
    (fun m => hex m data asz)
  have hty : ¬ p'.type = FINS_TCP_type := by rw [h1]; decide
  have hget : ∀ j, j < 14 + payload.length →
      getByte (receive p'.message (fixedReplyHeader mrc src ++ payload)) j
        = (fixedReplyHeader mrc src ++ payload)[j]?.getD 0 % 256 := by
    intro j hj
    exact getByte_receive _ _ _ (by rw [hlr, ← hpay]; exact hj) (by rw [hlen]; omega)
  have hret : (readExchange h (replyTransport (fixedReplyHeader mrc src ++ payload)) p' [] r
      data n t asz S R).ret = 0 := by
    rw [hiff]
    refine ⟨rfl, rfl, rfl, fun ht => absurd ht hty, ?_⟩
    simp only [replyTransport, htake, hty, if_false, CheckData, setMessage_message,
      setMessage_sid, setMessage_mrc, setMessage_src, setMessage_snode, setMessage_dnode,
      MRES, SRES, SID, MRC, SRC, DA1, SA1]
    rw [hget 12 (by omega), hget 13 (by omega), hget 9 (by omega), hget 10 (by omega),
      hget 11 (by omega), hget 4 (by omega), hget 7 (by omega), h3, h4, h5, h6, h7]
    simp [fixedReplyHeader, Nat.mod_eq_of_lt hm, Nat.mod_eq_of_lt hsr]
  obtain ⟨-, hext, htr⟩ := (readExchange_ret h
    (replyTransport (fixedReplyHeader mrc src ++ payload)) p' [] r data n t asz S R).2 hret
  refine ⟨_, hfin, hret, htr, hext, ?_⟩
  intro j hj
  rw [hpvt hret]
  simp only [replyTransport, htake, hty, if_false, setMessage_message]
  rw [hget (14 + j) (by omega)]
  rw [List.getElem?_append_right (by simp [fixedReplyHeader])]
  simp [fixedReplyHeader]

/-- What a multiple-area read that succeeded has stored: for each element
the big-endian number of the second and third byte of its reply entry. -/
theorem finsRead_mm_data (h : Host) (tr : Transport) (mmList : List MultiMemArea)
    (p : drvPvt) (log : List IOEvent) (data : List Nat) (n a t asz : Nat) (res : ReadResult)
    (hn : 1 ≤ n) (hd : data.length = n)
    (hres : finsRead h tr mmList p log FINS_MM_READ data n a t asz = some res)
    (hret : res.ret = 0) :
    res.data = (List.range n).map (fun i =>
      256 * getByte res.pvt.message (15 + 3 * i) + getByte res.pvt.message (16 + 3 * i)) ∧
      res.transferred = n ∧ CheckData res.pvt = 0 := by
  obtain ⟨hc, hext, htr⟩ := finsRead_ret0 h tr mmList p log _ data n a t asz res hn hres hret
  simp only [extractData, Option.some.injEq] at hext
  rw [← hext, assignLoop_eq_map _ n _ hd]
  refine ⟨?_, htr, hc⟩
  apply List.map_congr_left
  intro i _
  rw [wire_load16 h _ _ 16 (le_refl _)]
  simp only [RESP]
  rw [show 14 + 3 * i + 1 = 15 + 3 * i by omega, show 15 + 3 * i + 1 = 16 + 3 * i by omega]

/-- What a request built on a session that is not TCP shares with the state
it was built from. -/
theorem BuildReadMessage_udp_fields (h : Host) (mmList : List MultiMemArea) (p : drvPvt)
    (r : FINS_COMMANDS) (a n : Nat) (p' : drvPvt) (S R : Nat) (hu : p.type ≠ FINS_TCP_type)
    (hl : 12 ≤ p.message.length)
    (hb : BuildReadMessage h mmList p r a n = BuildResult.ok p' S R) :
    p'.type = p.type ∧ p'.nodevalid = p.nodevalid ∧ p'.dnode = p.dnode ∧ p'.snode = p.snode ∧
      p'.sid = (p.sid + 1) % 256 ∧ p'.message.length = p.message.length := by
  obtain ⟨i1, i2, i3, i4, i5, -, -, i8⟩ := InitHeader_keeps p
  simp only [BuildReadMessage] at hb
  cases hsw : readSwitch h mmList (InitHeader p) r a n with
  | err q => rw [hsw] at hb; cases hb
  | fault => rw [hsw] at hb; cases hb
  | ok q s0 r0 =>
    rw [hsw] at hb
    obtain ⟨k1, k2, k3, k4, k5, k6⟩ := readSwitch_keeps h mmList _ r a n q s0 r0 hsw
    obtain ⟨p'', f0, f1, f2, f3, f4, f5, -, -, f8, -⟩ := finishMessage_udp_state h q s0 r0
      (by rw [k1, i1]; exact hu) (by rw [k6, i8]; exact hl)
    have hb' : finishMessage h q s0 r0 = BuildResult.ok p' S R := hb
    rw [f0] at hb'
    simp only [BuildResult.ok.injEq] at hb'
    obtain ⟨rfl, -, -⟩ := hb'
    exact ⟨by rw [f1, k1, i1], by rw [f2, k2, i2], by rw [f3, k3, i3], by rw [f4, k4, i4],
      by rw [f5, k5, i5], by rw [f8, k6, i8]⟩

/-- `CheckData` does not look at the payload. -/
theorem CheckData_setByte (p : drvPvt) (j v : Nat) (hj : 14 ≤ j) :
    CheckData (p.setMessage (setByte p.message j v)) = CheckData p := by
  have e4 : ¬ 4 = j := by omega
  have e7 : ¬ 7 = j := by omega
  have e9 : ¬ 9 = j := by omega
  have e10 : ¬ 10 = j := by omega
  have e11 : ¬ 11 = j := by omega
  have e12 : ¬ 12 = j := by omega
  have e13 : ¬ 13 = j := by omega
  simp only [CheckData, setMessage_message, setMessage_sid, setMessage_mrc, setMessage_src,
    setMessage_snode, setMessage_dnode, getByte_setByte, MRES, SRES, SID, MRC, SRC, DA1, SA1,
    e4, e7, e9, e10, e11, e12, e13, false_and, if_false]


/-! ## FINS/TCP frame errors -/

theorem finishMessage_nodevalid (h : Host) (q : drvPvt) (s0 r0 : Nat) (p' : drvPvt) (s r : Nat)
    (hf : finishMessage h q s0 r0 = BuildResult.ok p' s r) : p'.nodevalid = q.nodevalid := by
  by_cases hq : q.type = FINS_TCP_type
  · rw [finishMessage_tcp h q s0 r0 hq, AddCommand_frame] at hf
    simp only [BuildResult.ok.injEq] at hf
    obtain ⟨rfl, -, -⟩ := hf
    simp
  · rw [finishMessage_udp h q s0 r0 hq] at hf
    simp only [BuildResult.ok.injEq] at hf
    obtain ⟨rfl, -, -⟩ := hf
    simp

/-- A builder changes neither the connection type nor the node address
flag. -/
theorem BuildReadMessage_keeps_reg (h : Host) (mmList : List MultiMemArea) (p : drvPvt)
    (r : FINS_COMMANDS) (a n : Nat) (p' : drvPvt) (S R : Nat)
    (hb : BuildReadMessage h mmList p r a n = BuildResult.ok p' S R) :
    p'.type = p.type ∧ p'.nodevalid = p.nodevalid := by
  obtain ⟨i1, i2, -⟩ := InitHeader_keeps p
  simp only [BuildReadMessage] at hb
  cases hsw : readSwitch h mmList (InitHeader p) r a n with
  | err q => rw [hsw] at hb; cases hb
  | fault => rw [hsw] at hb; cases hb
  | ok q s0 r0 =>
    rw [hsw] at hb
    obtain ⟨k1, k2, -⟩ := readSwitch_keeps h mmList _ r a n q s0 r0 hsw
    have hb' : finishMessage h q s0 r0 = BuildResult.ok p' S R := hb
    exact ⟨by rw [finishMessage_type h q s0 r0 p' S R hb', k1, i1],
      by rw [finishMessage_nodevalid h q s0 r0 p' S R hb', k2, i2]⟩

/-- The exchange of `finsRead` when the transport call went through with the
expected lengths and the error word of the FINS/TCP header is not zero. -/
theorem readExchange_frame_error (h : Host) (tr : Transport) (p : drvPvt) (log : List IOEvent)
    (r : FINS_COMMANDS) (data : List Nat) (n t asz S R : Nat) (hT : p.type = FINS_TCP_type)
    (h1 : (tr log (p.message.take S) S R).status = asynSuccess)
    (h2 : (tr log (p.message.take S) S R).sentlen = S)
    (h3 : (tr log (p.message.take S) S R).recdlen = R)
    (h4 : BSWAP32 h (load32 h (receive p.message ((tr log (p.message.take S) S R).reply.take R))
      (4 * FINS_MODE_ERROR)) ≠ FINS_ERROR_NORMAL) :
    readExchange h tr p log r data n t asz S R
      = ⟨-1, p.setMessage (receive p.message ((tr log (p.message.take S) S R).reply.take R)),
          log ++ [IOEvent.writeRead (p.message.take S) S R, IOEvent.disconnectDevice], data, t⟩ := by
  have hc : (p.setMessage (receive p.message
      ((tr log (p.message.take S) S R).reply.take R))).type = FINS_TCP_type ∧
      BSWAP32 h (load32 h (p.setMessage (receive p.message
        ((tr log (p.message.take S) S R).reply.take R))).message (4 * FINS_MODE_ERROR))
        ≠ FINS_ERROR_NORMAL := ⟨hT, h4⟩
  simp only [readExchange, h1, h2, h3, ne_eq, not_true_eq_false, if_false]
  rw [if_pos hc]
  simp

theorem cstr_append_nul (body rest : List Nat) (hb : ∀ c ∈ body, c ≠ 0) :
    cstr (body ++ 0 :: rest) = body := by
  induction body with
  | nil => simp [cstr]
  | cons c t ih =>
    have hc : c ≠ 0 := hb c (List.mem_cons_self _ _)
    have ht := ih (fun x hx => hb x (List.mem_cons_of_mem _ hx))
    simp only [cstr, List.cons_append, List.takeWhile_cons, bne_iff_ne, ne_eq, hc,
      not_false_eq_true, if_true] at ht ⊢
    rw [ht]

theorem cstr_append (body rest : List Nat) (hb : ∀ c ∈ body, c ≠ 0) :
    cstr (body ++ rest) = body ++ cstr rest := by
  induction body with
  | nil => simp
  | cons c t ih =>
    have hc : c ≠ 0 := hb c (List.mem_cons_self _ _)
    have ht := ih (fun x hx => hb x (List.mem_cons_of_mem _ hx))
    simp only [cstr, List.cons_append, List.takeWhile_cons, bne_iff_ne, ne_eq, hc,
      not_false_eq_true, if_true] at ht ⊢
    rw [ht]

theorem cstr_self (body : List Nat) (hb : ∀ c ∈ body, c ≠ 0) : cstr body = body := by
  have := cstr_append body [] hb
  simpa [cstr] using this

theorem xor_byte (a b : Nat) (ha : a < 256) (hb : b < 256) : a ^^^ b < 256 :=
  Nat.xor_lt_two_pow (n := 8) ha hb

/-- The loop of `checksum` on characters is the exclusive or of them. -/
theorem foldl_xor_byte (t : List Nat) (ht : ∀ c ∈ t, c < 256) :
    ∀ k, k < 256 → t.foldl (fun k c => (k ^^^ c) % 256) k = t.foldl (fun k c => k ^^^ c) k ∧
      t.foldl (fun k c => k ^^^ c) k < 256 := by
  induction t with
  | nil => intro k hk; exact ⟨rfl, hk⟩
  | cons c t ih =>
    intro k hk
    have hc : c < 256 := ht c (List.mem_cons_self _ _)
    have hx := xor_byte k c hk hc
    obtain ⟨i1, i2⟩ := ih (fun x hx => ht x (List.mem_cons_of_mem _ hx)) (k ^^^ c) hx
    simp only [List.foldl_cons, Nat.mod_eq_of_lt hx]
    exact ⟨i1, i2⟩

theorem foldl_xor_start (t : List Nat) :
    ∀ k, t.foldl (fun k c => k ^^^ c) k = k ^^^ t.foldl (fun k c => k ^^^ c) 0 := by
  induction t with
  | nil => intro k; simp
  | cons c t ih =>
    intro k
    simp only [List.foldl_cons, Nat.zero_xor]
    rw [ih (k ^^^ c), ih c, Nat.xor_assoc]

/-- The checksum of an array that holds the characters `body`, none of them
NUL, and then a NUL: the exclusive or of the characters. -/
theorem checksum_body (body rest : List Nat) (hb : ∀ c ∈ body, c ≠ 0 ∧ c < 256) :
    Hostlink.checksum (body ++ 0 :: rest) = body.foldl (fun k c => k ^^^ c) 0 ∧
      body.foldl (fun k c => k ^^^ c) 0 < 256 := by
  have hc := cstr_append_nul body rest (fun c hc => (hb c hc).1)
  unfold Hostlink.checksum
  rw [hc]
  cases body with
  | nil => simp
  | cons c t =>
    have hc256 : c < 256 := (hb c (List.mem_cons_self _ _)).2
    obtain ⟨i1, i2⟩ := foldl_xor_byte t (fun x hx => (hb x (List.mem_cons_of_mem _ hx)).2) c hc256
    simp only [List.cons_append, List.headD_cons, List.drop_succ_cons, List.drop_zero,
      Nat.mod_eq_of_lt hc256, List.foldl_cons, Nat.zero_xor]
    exact ⟨i1, i2⟩

theorem checksum_string (body : List Nat) (hb : ∀ c ∈ body, c ≠ 0 ∧ c < 256) :
    Hostlink.checksum body = body.foldl (fun k c => k ^^^ c) 0 := by
  have hc := cstr_self body (fun c hc => (hb c hc).1)
  unfold Hostlink.checksum
  rw [hc]
  cases body with
  | nil => simp
  | cons c t =>
    have hc256 : c < 256 := (hb c (List.mem_cons_self _ _)).2
    obtain ⟨i1, -⟩ := foldl_xor_byte t (fun x hx => (hb x (List.mem_cons_of_mem _ hx)).2) c hc256
    simp only [List.headD_cons, List.drop_succ_cons, List.drop_zero,
      Nat.mod_eq_of_lt hc256, List.foldl_cons, Nat.zero_xor]
    exact i1

theorem Interpose_checksum_eq (m : List Nat) : Interpose.checksum m = Hostlink.checksum m := rfl

/-- `%02X` of a number below 256: two upper-case digits. -/
theorem fmt_02X (k : Nat) (hk : k < 256) :
    fmt 16 true 2 k = [digitChar true (k / 16), digitChar true (k % 16)] := by
  have hn : numDigits 16 32 k ≤ 2 := by
    have e1 : numDigits 16 32 k = if k < 16 then 1 else 1 + numDigits 16 31 (k / 16) := rfl
    have e2 : numDigits 16 31 (k / 16)
        = if k / 16 < 16 then 1 else 1 + numDigits 16 30 (k / 16 / 16) := rfl
    rw [e1, e2, if_pos (show k / 16 < 16 by omega)]
    split <;> omega
  have hd : k / 16 % 16 = k / 16 := Nat.mod_eq_of_lt (by omega)
  simp only [fmt, Nat.max_eq_left hn, lowDigits, List.nil_append, List.singleton_append, hd]

/-- The two digits `%02X` prints are read back by `%2hhx`. -/
theorem scanNum_digits (a b : Nat) (ha : a < 16) (hb : b < 16) (rest : List Nat) :
    scanNum 16 2 8 (digitChar true a :: digitChar true b :: rest) = some (16 * a + b, rest) := by
  interval_cases a <;> interval_cases b <;> rfl

theorem digitChar_ne_zero (u : Bool) (d : Nat) : digitChar u d ≠ 0 := by
  unfold digitChar
  split
  · omega
  · split <;> omega

/-- Replacing one character of a list changes the exclusive or of the list,
unless the character is replaced by itself. -/
theorem foldl_xor_set (l : List Nat) (j c : Nat) (hj : j < l.length)
    (he : (l.set j c).foldl (fun k c => k ^^^ c) 0 = l.foldl (fun k c => k ^^^ c) 0) :
    c = l.getD j 0 := by
  have h1 : l = l.take j ++ l.getD j 0 :: l.drop (j + 1) := by
    rw [List.getD_eq_getElem _ _ hj]
    simp
  have h2 : l.set j c = l.take j ++ c :: l.drop (j + 1) := by
    rw [List.set_eq_take_append_cons_drop, if_pos hj]
  rw [h2] at he
  nth_rewrite 3 [h1] at he
  simp only [List.foldl_append, List.foldl_cons] at he
  rw [foldl_xor_start _ (_ ^^^ c), foldl_xor_start _ (_ ^^^ l.getD j 0)] at he
  exact Nat.xor_right_injective (Nat.xor_left_injective he)


/-- The request of a multiple-area read on a session that is not TCP leaves
the scratch buffer behind its last quadruple as it was. -/
theorem BuildReadMessage_mm_tail (h : Host) (mmList : List MultiMemArea)
    (p : drvPvt) (a n : Nat) (MM : MultiMemArea)
    (hu : p.type ≠ FINS_TCP_type)
    (hl : p.message.length = FINS_MAX_MSG)
    (hMM : ellNth mmList (sizeT h (a + 1)) = some MM)
    (hA : MM.area.length = FINS_MM_MAX_ADDRS) (hD : MM.address.length = FINS_MM_MAX_ADDRS)
    (hn : n ≤ FINS_MM_MAX_ADDRS) :
    ∃ m p', BuildReadMessage h mmList p FINS_MM_READ a n
        = BuildResult.ok p' (12 + 4 * m) (14 + 3 * m) ∧
      ∀ j, 12 + 4 * m ≤ j → getByte p'.message j = getByte p.message j := by
  have hl' : p.message.length = 2000 := by simpa [FINS_MAX_MSG, FINS_MAX_UDP_WORDS] using hl
  have hA' : MM.area.length = 10 := hA
  have hD' : MM.address.length = 10 := hD
  have hn' : n ≤ 10 := hn
  obtain ⟨i1, -, -, -, i5, -, -, i8⟩ := InitHeader_keeps p
  obtain ⟨m, q, hq, -, h2, h3, h4, h5, h6⟩ := mmLoop_spec MM n (by omega) (by omega) n 0
    ((InitHeader p).setCodes 0x01 0x04) rfl (by rw [setCodes_message, i8, hl']; omega)
  obtain ⟨k1, -, -, -, k5, k6, k7, k8⟩ := mmLoop_keeps MM n n 0 _ m q hq
  have hsw : readSwitch h mmList (InitHeader p) FINS_MM_READ a n
      = BuildResult.ok q (COM + 4 * m) (RESP + 3 * m) := by
    simp only [readSwitch, hMM, hq]
  have hql : q.message.length = 2000 := by rw [k8, setCodes_message, i8, hl']
  have hb : BuildReadMessage h mmList p FINS_MM_READ a n
      = finishMessage h q (COM + 4 * m) (RESP + 3 * m) := by
    simp only [BuildReadMessage, hsw]
  have hqt : q.type = p.type := by rw [k1]; exact i1
  obtain ⟨p'', f0, -, -, -, -, -, -, -, -, -, -, -, frest⟩ :=
    finishMessage_udp_state h q (COM + 4 * m) (RESP + 3 * m) (by rw [hqt]; exact hu)
      (by rw [hql]; omega)
  refine ⟨m, p'', by rw [hb, f0]; rfl, ?_⟩
  intro j hj
  rw [frest j (by omega) (by omega) (by omega), h6 j (Or.inr hj), setCodes_message,
    getByte_InitHeader p j (by omega)]

/-- After a read on the sample UDP session that `sample_built_read` covers,
the scratch buffer behind the reply is what the request left there. -/
theorem sample_built_read_tail (h : Host) (mmList : List MultiMemArea) (r : FINS_COMMANDS)
    (p' : drvPvt) (S R mrc src : Nat) (payload data : List Nat) (n a t asz : Nat) (hn : 1 ≤ n)
    (hb : BuildReadMessage h mmList (session0 FINS_UDP_type) r (a % 65536) n
      = BuildResult.ok p' S R)
    (h1 : p'.type = FINS_UDP_type) (hpay : 14 + payload.length = R)
    (res : ReadResult)
    (hres : finsRead h (replyTransport (fixedReplyHeader mrc src ++ payload)) mmList
        (session0 FINS_UDP_type) [] r data n a t asz = some res)
    (hret : res.ret = 0) :
    ∀ j, R ≤ j → getByte res.pvt.message j = getByte p'.message j := by
  have hlr : (fixedReplyHeader mrc src ++ payload).length = R := by
    rw [← hpay]; simp [fixedReplyHeader]; omega
  have htake : (fixedReplyHeader mrc src ++ payload).take R
      = fixedReplyHeader mrc src ++ payload := by
    rw [← hlr]; exact List.take_length _
  have hfin := finsRead_no_handshake h (replyTransport (fixedReplyHeader mrc src ++ payload))
    mmList (session0 FINS_UDP_type) [] r data n a t asz p' S R hn (by decide) hb
  have hex := BuildReadMessage_extract h mmList _ r _ n p' S R hb
  obtain ⟨-, hpvt, -⟩ := readExchange_iff h
    (replyTransport (fixedReplyHeader mrc src ++ payload)) p' [] r data n t asz S R
    (fun m => hex m data asz)
  have hty : ¬ p'.type = FINS_TCP_type := by rw [h1]; decide
  rw [hfin] at hres
  have hres' := Option.some.inj hres
  subst hres'
  intro j hj
  rw [hpvt hret]
  simp only [replyTransport, htake, hty, if_false, setMessage_message]
  exact getByte_receive_ge _ _ _ (by rw [hlr]; exact hj)


/-- The two hexadecimal digits of each of the bytes `data[10]` to
`data[10 + count - 1]`. -/
theorem hexLoop_succ (cs : Bool) (data : List Nat) (k : Nat) (b : List Nat) :
    Interpose.hexLoop cs data (k + 1) b
      = (Interpose.hexLoop cs data k b).bind (fun b' =>
          Interpose.sprintfAt b' (Interpose.HOST_HEADER_LEN + 2 * k)
            (fmt 16 true 2 (Interpose.charArg cs
              (data.getD (Interpose.FINS_HEADER_LEN + k) 0)))) := by
  simp only [Interpose.hexLoop, List.range_succ, List.foldlM_append, List.foldlM_cons,
    List.foldlM_nil]
  cases (List.foldlM (fun (b : List Nat) (i : Nat) =>
    Interpose.sprintfAt b (Interpose.HOST_HEADER_LEN + 2 * i)
      (fmt 16 true 2 (Interpose.charArg cs (data.getD (Interpose.FINS_HEADER_LEN + i) 0))))
    b (List.range k)) with
  | none => rfl
  | some x =>
    simp only [Option.bind_eq_bind, Option.some_bind, Option.bind_some]
    cases Interpose.sprintfAt x (Interpose.HOST_HEADER_LEN + 2 * k)
      (fmt 16 true 2 (Interpose.charArg cs (data.getD (Interpose.FINS_HEADER_LEN + k) 0))) <;>
      rfl

/-- A store right behind the characters `pre`, over at most as many
characters as are stored. -/
theorem store_behind (pre z s : List Nat) (hz : z.length ≤ s.length) :
    Interpose.store (pre ++ z) pre.length s = pre ++ s := by
  simp only [Interpose.store, List.length_append]
  rw [show pre.length - (pre.length + z.length) = 0 by omega]
  simp only [List.replicate_zero, List.append_nil]
  rw [List.take_left' rfl, List.drop_eq_nil_of_le (by rw [List.length_append]; omega),
    List.append_nil]

/-- The flattened list of `k + 1` pairs. -/
theorem flatten_range_succ (f : Nat → List Nat) (k : Nat) :
    ((List.range (k + 1)).map f).flatten = ((List.range k).map f).flatten ++ f k := by
  simp [List.range_succ]

/-- The length of `k` pairs of digits. -/
theorem length_pairs (f : Nat → List Nat) (hf : ∀ i, (f i).length = 2) (k : Nat) :
    ((List.range k).map f).flatten.length = 2 * k := by
  induction k with
  | zero => simp
  | succ k ih => rw [flatten_range_succ, List.length_append, ih, hf]; omega

/-- The loop of `interposeWrite` where no byte is printed as a negative
number: the buffer holds the header, two digits for each byte, and at most
one further character, a NUL. -/
theorem hexLoop_spec (cs : Bool) (data : List Nat) (hdr : List Nat) (hh : hdr.length = 14)
    (k : Nat) (hk : 2 * k + 15 ≤ 2000)
    (hok : cs = false ∨ ∀ i, i < k → data.getD (10 + i) 0 % 256 < 128) :
    ∃ z, Interpose.hexLoop cs data k hdr
        = some (hdr ++ ((List.range k).map (fun i =>
            [digitChar true (data.getD (10 + i) 0 % 256 / 16),
              digitChar true (data.getD (10 + i) 0 % 256 % 16)])).flatten ++ z) ∧
      (z = [] ∨ z = [0]) := by
  induction k with
  | zero => exact ⟨[], by simp [Interpose.hexLoop], Or.inl rfl⟩
  | succ k ih =>
    obtain ⟨z, hz, hz'⟩ := ih (by omega)
      (hok.elim Or.inl (fun hx => Or.inr (fun i hi => hx i (by omega))))
    have hca : Interpose.charArg cs (data.getD (Interpose.FINS_HEADER_LEN + k) 0)
        = data.getD (10 + k) 0 % 256 := by
      simp only [Interpose.charArg, Interpose.FINS_HEADER_LEN]
      rcases hok with hc | hc
      · rw [hc]; simp
      · rw [if_neg (fun hx => by have := hc k (by omega); omega)]
    have hfmt := fmt_02X (data.getD (10 + k) 0 % 256) (Nat.mod_lt _ (by decide))
    have hlen : (hdr ++ ((List.range k).map (fun i =>
        [digitChar true (data.getD (10 + i) 0 % 256 / 16),
          digitChar true (data.getD (10 + i) 0 % 256 % 16)])).flatten).length = 14 + 2 * k := by
      rw [List.length_append, hh, length_pairs (fun i =>
        [digitChar true (data.getD (10 + i) 0 % 256 / 16),
          digitChar true (data.getD (10 + i) 0 % 256 % 16)]) (fun _ => rfl) k]
    refine ⟨[0], ?_, Or.inr rfl⟩
    rw [hexLoop_succ, hz, hca, hfmt]
    simp only [Option.some_bind, Interpose.sprintfAt, Interpose.HOST_HEADER_LEN,
      List.length_cons, List.length_nil]
    rw [if_neg (by simp only [FINS_MAX_MSG, FINS_MAX_UDP_WORDS]; omega)]
    have hs := store_behind (hdr ++ ((List.range k).map (fun i =>
        [digitChar true (data.getD (10 + i) 0 % 256 / 16),
          digitChar true (data.getD (10 + i) 0 % 256 % 16)])).flatten) z
      ([digitChar true (data.getD (10 + k) 0 % 256 / 16),
        digitChar true (data.getD (10 + k) 0 % 256 % 16)] ++ [0])
      (by rcases hz' with e | e <;> (rw [e]; simp))
    rw [hlen] at hs
    rw [hs, flatten_range_succ]
    simp only [List.append_assoc, List.cons_append, List.nil_append]


/-- An upper-case hexadecimal digit is a character below 256. -/
theorem digitChar_lt (d : Nat) (hd : d < 16) : digitChar true d < 256 := by
  unfold digitChar
  split_ifs <;> omega

/-- The characters of the pairs of digits are not NUL and below 256. -/
theorem pairs_chars (b : Nat → Nat) (k : Nat) :
    ∀ c ∈ ((List.range k).map (fun i =>
      [digitChar true (b i % 256 / 16), digitChar true (b i % 256 % 16)])).flatten,
      c ≠ 0 ∧ c < 256 := by
  intro c hc
  simp only [List.mem_flatten, List.mem_map, List.mem_range] at hc
  obtain ⟨l, ⟨i, -, rfl⟩, hc⟩ := hc
  simp only [List.mem_cons, List.mem_singleton, List.not_mem_nil, or_false] at hc
  have h1 : b i % 256 / 16 < 16 := by
    have := Nat.mod_lt (b i) (show 0 < 256 by decide)
    omega
  have h2 : b i % 256 % 16 < 16 := Nat.mod_lt _ (by decide)
  rcases hc with rfl | rfl
  · exact ⟨digitChar_ne_zero _ _, digitChar_lt _ h1⟩
  · exact ⟨digitChar_ne_zero _ _, digitChar_lt _ h2⟩

/-- `interposeWrite` for a request of 10 to 1000 bytes where no byte from
position 10 on is printed as a negative number: the frame is the header, two
upper-case digits for each of these bytes, the two digits of the exclusive or
of all these characters, `*` and carriage return. -/
theorem interposeWrite_spec (cs : Bool) (port : List Nat → Nat) (data : List Nat) (N : Nat)
    (h10 : 10 ≤ N) (hN : N ≤ 1000)
    (hok : cs = false ∨ ∀ i, i < N - 10 → data.getD (10 + i) 0 % 256 < 128) :
    (str "@00FA000000000" ++ ((List.range (N - 10)).map (fun i =>
        [digitChar true (data.getD (10 + i) 0 % 256 / 16),
          digitChar true (data.getD (10 + i) 0 % 256 % 16)])).flatten).foldl
      (fun k c => k ^^^ c) 0 < 256 ∧
    Interpose.interposeWrite cs port data N
      = some ⟨port (str "@00FA000000000" ++ ((List.range (N - 10)).map (fun i =>
            [digitChar true (data.getD (10 + i) 0 % 256 / 16),
              digitChar true (data.getD (10 + i) 0 % 256 % 16)])).flatten
          ++ fmt 16 true 2 ((str "@00FA000000000" ++ ((List.range (N - 10)).map (fun i =>
            [digitChar true (data.getD (10 + i) 0 % 256 / 16),
              digitChar true (data.getD (10 + i) 0 % 256 % 16)])).flatten).foldl
                (fun k c => k ^^^ c) 0) ++ [42, 13]),
        data.take 10,
        str "@00FA000000000" ++ ((List.range (N - 10)).map (fun i =>
            [digitChar true (data.getD (10 + i) 0 % 256 / 16),
              digitChar true (data.getD (10 + i) 0 % 256 % 16)])).flatten
          ++ fmt 16 true 2 ((str "@00FA000000000" ++ ((List.range (N - 10)).map (fun i =>
            [digitChar true (data.getD (10 + i) 0 % 256 / 16),
              digitChar true (data.getD (10 + i) 0 % 256 % 16)])).flatten).foldl
                (fun k c => k ^^^ c) 0) ++ [42, 13],
        N⟩ := by
  obtain ⟨z, hz, hz'⟩ := hexLoop_spec cs data (str "@00FA000000000") rfl (N - 10) (by omega) hok
  generalize hbody : str "@00FA000000000" ++ ((List.range (N - 10)).map (fun i =>
        [digitChar true (data.getD (10 + i) 0 % 256 / 16),
          digitChar true (data.getD (10 + i) 0 % 256 % 16)])).flatten = body at hz ⊢
  have hchars : ∀ c ∈ body, c ≠ 0 ∧ c < 256 := by
    intro c hc
    rw [← hbody, List.mem_append] at hc
    rcases hc with hc | hc
    · revert c
      decide
    · exact pairs_chars (fun i => data.getD (10 + i) 0) (N - 10) c hc
  have hlen : body.length = 14 + 2 * (N - 10) := by
    rw [← hbody, List.length_append, length_pairs (fun i =>
      [digitChar true (data.getD (10 + i) 0 % 256 / 16),
        digitChar true (data.getD (10 + i) 0 % 256 % 16)]) (fun _ => rfl) (N - 10)]
    rfl
  have hk : Interpose.checksum (body ++ z) = body.foldl (fun k c => k ^^^ c) 0 ∧
      body.foldl (fun k c => k ^^^ c) 0 < 256 := by
    rw [Interpose_checksum_eq]
    rcases hz' with e | e
    · rw [e, List.append_nil, checksum_string body hchars]
      have := (checksum_body body [] hchars).2
      exact ⟨rfl, this⟩
    · rw [e]
      exact checksum_body body [] hchars
  refine ⟨hk.2, ?_⟩
  have hf := fmt_02X (body.foldl (fun k c => k ^^^ c) 0) hk.2
  simp only [Interpose.interposeWrite]
  rw [if_neg (by simp only [Interpose.FINS_HEADER_LEN]; omega),
    show N - Interpose.FINS_HEADER_LEN = N - 10 from rfl, hz]
  simp only [hk.1, hf, Interpose.sprintfAt, Interpose.HOST_HEADER_LEN, List.length_cons,
    List.length_nil, List.length_append]
  rw [if_neg (by simp only [FINS_MAX_MSG, FINS_MAX_UDP_WORDS]; omega)]
  have hs := store_behind body z
    ([digitChar true (body.foldl (fun k c => k ^^^ c) 0 / 16),
      digitChar true (body.foldl (fun k c => k ^^^ c) 0 % 16)] ++ [42, 13] ++ [0])
    (by rcases hz' with e | e <;> (rw [e]; simp))
  rw [hlen] at hs
  rw [hs]
  have hc : cstr (body ++ ([digitChar true (body.foldl (fun k c => k ^^^ c) 0 / 16),
      digitChar true (body.foldl (fun k c => k ^^^ c) 0 % 16)] ++ [42, 13] ++ [0]))
      = body ++ [digitChar true (body.foldl (fun k c => k ^^^ c) 0 / 16),
        digitChar true (body.foldl (fun k c => k ^^^ c) 0 % 16)] ++ [42, 13] := by
    have := cstr_append_nul (body ++ [digitChar true (body.foldl (fun k c => k ^^^ c) 0 / 16),
        digitChar true (body.foldl (fun k c => k ^^^ c) 0 % 16)] ++ [42, 13]) [] (by
      intro c hc
      simp only [List.mem_append, List.mem_cons, List.mem_singleton, List.not_mem_nil,
        or_false] at hc
      rcases hc with (hc | hc | hc) | hc | hc
      · exact (hchars c hc).1
      · rw [hc]; exact digitChar_ne_zero _ _
      · rw [hc]; exact digitChar_ne_zero _ _
      · rw [hc]; decide
      · rw [hc]; decide)
    simpa only [List.append_assoc] using this
  dsimp only
  rw [hc]
  simp only [Interpose.FINS_HEADER_LEN, List.append_assoc]


/-- `BuildReadMessage` returns -1 exactly when its `switch` does. -/
theorem BuildReadMessage_err_iff (h : Host) (mmList : List MultiMemArea) (p : drvPvt)
    (r : FINS_COMMANDS) (a n : Nat) :
    (∃ q, BuildReadMessage h mmList p r a n = BuildResult.err q) ↔
      ∃ q, readSwitch h mmList (InitHeader p) r a n = BuildResult.err q := by
  unfold BuildReadMessage
  cases hsw : readSwitch h mmList (InitHeader p) r a n with
  | ok q s0 r0 =>
    obtain ⟨p', s, r', hf⟩ := finishMessage_isOk h q s0 r0
    simp only [hf]
    constructor <;> (rintro ⟨q', hq'⟩; cases hq')
  | err q => simp
  | fault => simp

/-- The reasons the `switch` of `BuildReadMessage` has a case for. -/
theorem readSwitch_err_iff (h : Host) (mmList : List MultiMemArea) (p : drvPvt)
    (r : FINS_COMMANDS) (a n : Nat) :
    (∃ q, readSwitch h mmList p r a n = BuildResult.err q) ↔
      r ∉ [FINS_DM_READ, FINS_AR_READ, FINS_IO_READ, FINS_WR_READ, FINS_HR_READ,
        FINS_DM_WRITE, FINS_AR_WRITE, FINS_IO_WRITE, FINS_DM_READ_32, FINS_AR_READ_32,
        FINS_IO_READ_32, FINS_DM_WRITE_32, FINS_AR_WRITE_32, FINS_IO_WRITE_32, FINS_MODEL,
        FINS_CPU_STATUS, FINS_CPU_MODE, FINS_CYCLE_TIME, FINS_CYCLE_TIME_MEAN,
        FINS_CYCLE_TIME_MAX, FINS_CYCLE_TIME_MIN, FINS_CLOCK_READ, FINS_MM_READ] := by
  cases r
  case FINS_MM_READ =>
    simp only [readSwitch]
    constructor
    · rintro ⟨q, hq⟩
      split at hq
      · split at hq <;> cases hq
      · split at hq <;> cases hq
    · intro hc
      exact absurd (by simp) hc
  all_goals simp [readSwitch]

/-- The reasons the `switch` of `BuildWriteMessage` has a case for are built,
whatever the element size. -/
theorem BuildWriteMessage_isOk (h : Host) (p : drvPvt) (r : FINS_COMMANDS)
    (a n asz : Nat) (data : List Nat)
    (hr : r ∈ [FINS_DM_WRITE, FINS_DM_WRITE_NOREAD, FINS_AR_WRITE, FINS_AR_WRITE_NOREAD,
      FINS_IO_WRITE, FINS_IO_WRITE_NOREAD, FINS_CYCLE_TIME_RESET, FINS_DM_WRITE_32,
      FINS_DM_WRITE_32_NOREAD, FINS_AR_WRITE_32, FINS_AR_WRITE_32_NOREAD, FINS_IO_WRITE_32,
      FINS_IO_WRITE_32_NOREAD, FINS_SET_RESET_CANCEL]) :
    ∃ p' S R, BuildWriteMessage h p r a n asz data = BuildResult.ok p' S R := by
  simp only [List.mem_cons, List.mem_singleton, List.not_mem_nil, or_false] at hr
  unfold BuildWriteMessage
  rcases hr with e | e | e | e | e | e | e | e | e | e | e | e | e | e <;> subst e
  · obtain ⟨b, hb⟩ := writeSwitch_mem16_any h (InitHeader p) FINS_DM_WRITE DM a n asz data (by simp)
    rw [hb]; exact finishMessage_isOk _ _ _ _
  · obtain ⟨b, hb⟩ := writeSwitch_mem16_any h (InitHeader p) FINS_DM_WRITE_NOREAD DM a n asz data (by simp)
    rw [hb]; exact finishMessage_isOk _ _ _ _
  · obtain ⟨b, hb⟩ := writeSwitch_mem16_any h (InitHeader p) FINS_AR_WRITE AR a n asz data (by simp)
    rw [hb]; exact finishMessage_isOk _ _ _ _
  · obtain ⟨b, hb⟩ := writeSwitch_mem16_any h (InitHeader p) FINS_AR_WRITE_NOREAD AR a n asz data (by simp)
    rw [hb]; exact finishMessage_isOk _ _ _ _
  · obtain ⟨b, hb⟩ := writeSwitch_mem16_any h (InitHeader p) FINS_IO_WRITE IO_ a n asz data (by simp)
    rw [hb]; exact finishMessage_isOk _ _ _ _
  · obtain ⟨b, hb⟩ := writeSwitch_mem16_any h (InitHeader p) FINS_IO_WRITE_NOREAD IO_ a n asz data (by simp)
    rw [hb]; exact finishMessage_isOk _ _ _ _
  · obtain ⟨q, hq, -⟩ := writeSwitch_fixed h (InitHeader p) FINS_CYCLE_TIME_RESET a n asz
      13 14 0x06 0x20 data (by simp)
    rw [hq]; exact finishMessage_isOk _ _ _ _
  · rw [writeSwitch_mem32 h _ FINS_DM_WRITE_32 DM a n asz data (by simp)]; exact finishMessage_isOk _ _ _ _
  · rw [writeSwitch_mem32 h _ FINS_DM_WRITE_32_NOREAD DM a n asz data (by simp)]; exact finishMessage_isOk _ _ _ _
  · rw [writeSwitch_mem32 h _ FINS_AR_WRITE_32 AR a n asz data (by simp)]; exact finishMessage_isOk _ _ _ _
  · rw [writeSwitch_mem32 h _ FINS_AR_WRITE_32_NOREAD AR a n asz data (by simp)]; exact finishMessage_isOk _ _ _ _
  · rw [writeSwitch_mem32 h _ FINS_IO_WRITE_32 IO_ a n asz data (by simp)]; exact finishMessage_isOk _ _ _ _
  · rw [writeSwitch_mem32 h _ FINS_IO_WRITE_32_NOREAD IO_ a n asz data (by simp)]; exact finishMessage_isOk _ _ _ _
  · obtain ⟨q, hq, -⟩ := writeSwitch_fixed h (InitHeader p) FINS_SET_RESET_CANCEL a n asz
      12 14 0x23 0x02 data (by simp)
    rw [hq]; exact finishMessage_isOk _ _ _ _

/-- A read under a reason the `switch` of `BuildReadMessage` has no case for
fails on a session that needs no handshake, with no call of the transport. -/
theorem finsRead_unbuilt (h : Host) (tr : Transport) (mmList : List MultiMemArea)
    (p : drvPvt) (log : List IOEvent) (r : FINS_COMMANDS) (data : List Nat) (n a t asz : Nat)
    (hn : 1 ≤ n) (hreg : ¬ (p.type = FINS_TCP_type ∧ p.nodevalid ≠ 1)) (q : drvPvt)
    (hb : BuildReadMessage h mmList p r (a % 65536) n = BuildResult.err q) :
    finsRead h tr mmList p log r data n a t asz = some ⟨-1, q, log, data, t⟩ := by
  simp only [finsRead]
  rw [if_neg (by omega), if_neg hreg]
  simp only [hb]
  rw [if_neg (by decide)]


/-- The two lengths after the common tail of the builders: on a TCP session
both are larger by the size of the FINS/TCP header. -/
theorem finishMessage_lengths (h : Host) (hs : 16 ≤ h.sizeBits) (q : drvPvt) (s r : Nat)
    (hl : q.message.length = FINS_MAX_MSG) (h1 : s + 16 < 65536) (h2 : r + 16 < 65536) :
    ∃ p', finishMessage h q s r
        = BuildResult.ok p' (s + if q.type = FINS_TCP_type then 16 else 0)
            (r + if q.type = FINS_TCP_type then 16 else 0) ∧
      p'.message.length = FINS_MAX_MSG := by
  by_cases hq : q.type = FINS_TCP_type
  · have hf := finishMessage_tcp h q s r hq
    have e1 : sizeT h (s + FINS_SEND_FRAME_SIZE) = s + 16 := sizeT_small h hs _ h1
    have e2 : sizeT h (r + FINS_SEND_FRAME_SIZE) = r + 16 := sizeT_small h hs _ h2
    rw [e1, e2] at hf
    rw [if_pos hq]
    exact ⟨_, hf, (finishMessage_sid h q s r _ _ _ hl hf).2.2.1⟩
  · have hf := finishMessage_udp h q s r hq
    rw [if_neg hq]
    exact ⟨_, hf, (finishMessage_sid h q s r _ _ _ hl hf).2.2.1⟩

/-- The lengths `BuildReadMessage` returns, from those of its `switch`. -/
theorem BuildReadMessage_lengths (h : Host) (hs : 16 ≤ h.sizeBits) (mmList : List MultiMemArea)
    (p : drvPvt) (r : FINS_COMMANDS) (a n : Nat) (q : drvPvt) (s0 r0 : Nat)
    (hsw : readSwitch h mmList (InitHeader p) r a n = BuildResult.ok q s0 r0)
    (hl : p.message.length = FINS_MAX_MSG) (h1 : s0 + 16 < 65536) (h2 : r0 + 16 < 65536) :
    ∃ p', BuildReadMessage h mmList p r a n
        = BuildResult.ok p' (s0 + if p.type = FINS_TCP_type then 16 else 0)
            (r0 + if p.type = FINS_TCP_type then 16 else 0) ∧
      p'.message.length = FINS_MAX_MSG := by
  obtain ⟨k1, -, -, -, -, k6⟩ := readSwitch_keeps h mmList _ r a n q s0 r0 hsw
  obtain ⟨i1, -, -, -, -, -, -, i8⟩ := InitHeader_keeps p
  have hf := finishMessage_lengths h hs q s0 r0 (by rw [k6, i8]; exact hl) h1 h2
  rw [k1, i1] at hf
  simp only [BuildReadMessage, hsw]
  exact hf

/-- The lengths `BuildWriteMessage` returns, from those of its `switch`. -/
theorem BuildWriteMessage_lengths (h : Host) (hs : 16 ≤ h.sizeBits) (p : drvPvt)
    (r : FINS_COMMANDS) (a n asz : Nat) (data : List Nat) (q : drvPvt) (s0 r0 : Nat)
    (hsw : writeSwitch h (InitHeader p) r a n asz data = BuildResult.ok q s0 r0)
    (hl : p.message.length = FINS_MAX_MSG) (h1 : s0 + 16 < 65536) (h2 : r0 + 16 < 65536) :
    ∃ p', BuildWriteMessage h p r a n asz data
        = BuildResult.ok p' (s0 + if p.type = FINS_TCP_type then 16 else 0)
            (r0 + if p.type = FINS_TCP_type then 16 else 0) ∧
      p'.message.length = FINS_MAX_MSG := by
  obtain ⟨k1, -, -, -, -, k6⟩ := writeSwitch_keeps h _ r a n asz data q s0 r0 hsw
  obtain ⟨i1, -, -, -, -, -, -, i8⟩ := InitHeader_keeps p
  have hf := finishMessage_lengths h hs q s0 r0 (by rw [k6, i8]; exact hl) h1 h2
  rw [k1, i1] at hf
  simp only [BuildWriteMessage, hsw]
  exact hf

/-- The size test of the array functions passes a count up to the limit of
the connection, which is at most 950. -/
theorem tooBig_false (p : drvPvt) (words : Nat) (ht : tooBig p words = false) :
    words ≤ 950 ∧ (p.type = HOSTLINK_type → words ≤ 268) := by
  simp only [tooBig, decide_eq_false_iff_not, not_or, not_and, not_lt, gt_iff_lt,
    FINS_MAX_UDP_WORDS, FINS_MAX_TCP_WORDS, FINS_MAX_HOST_WORDS] at ht
  obtain ⟨t1, t2, t3⟩ := ht
  cases hp : p.type
  · exact ⟨t1 hp, fun hc => by cases hc⟩
  · exact ⟨t2 hp, fun hc => by cases hc⟩
  · have := t3 hp
    exact ⟨by omega, fun _ => this⟩


/-- The request and the expected reply of a 16-bit memory read of at most 950
words. -/
theorem BuildReadMessage_mem16_fit (h : Host) (hs : 16 ≤ h.sizeBits)
    (mmList : List MultiMemArea) (p : drvPvt) (hl : p.message.length = FINS_MAX_MSG)
    (r : FINS_COMMANDS) (a n : Nat) (hn : n ≤ 950)
    (hr : r ∈ [FINS_DM_READ, FINS_AR_READ, FINS_IO_READ, FINS_WR_READ, FINS_HR_READ]) :
    ∃ p', BuildReadMessage h mmList p r a n
        = BuildResult.ok p' (18 + if p.type = FINS_TCP_type then 16 else 0)
            (14 + 2 * n + if p.type = FINS_TCP_type then 16 else 0) ∧
      p'.message.length = FINS_MAX_MSG := by
  have e1 : sizeT h (2 * n) = 2 * n := sizeT_small h hs _ (by omega)
  have e2 : sizeT h (RESP + 2 * n) = 14 + 2 * n := sizeT_small h hs _ (by simp only [RESP]; omega)
  have key : ∀ area, readSwitch h mmList (InitHeader p) r a n
      = BuildResult.ok (InitAddrSize h (((InitHeader p).setCodes 0x01 0x01).put COM area) a n 2)
          (COM + COMMAND_DATA_OFFSET) (sizeT h (RESP + sizeT h (2 * n))) →
      ∃ p', BuildReadMessage h mmList p r a n
        = BuildResult.ok p' (18 + if p.type = FINS_TCP_type then 16 else 0)
            (14 + 2 * n + if p.type = FINS_TCP_type then 16 else 0) ∧
      p'.message.length = FINS_MAX_MSG := by
    intro area hsw
    rw [e1, e2] at hsw
    exact BuildReadMessage_lengths h hs mmList p r a n _ _ _ hsw hl (by decide) (by omega)
  simp only [List.mem_cons, List.mem_singleton, List.not_mem_nil, or_false] at hr
  rcases hr with rfl | rfl | rfl | rfl | rfl
  · exact key DM (readSwitch_mem16 h mmList _ FINS_DM_READ DM a n (by simp))
  · exact key AR (readSwitch_mem16 h mmList _ FINS_AR_READ AR a n (by simp))
  · exact key IO_ (readSwitch_mem16 h mmList _ FINS_IO_READ IO_ a n (by simp))
  · exact key WR (readSwitch_mem16 h mmList _ FINS_WR_READ WR a n (by simp))
  · exact key HR (readSwitch_mem16 h mmList _ FINS_HR_READ HR a n (by simp))

/-- The request and the expected reply of a 32-bit memory read of at most 950
words. -/
theorem BuildReadMessage_mem32_fit (h : Host) (hs : 16 ≤ h.sizeBits)
    (mmList : List MultiMemArea) (p : drvPvt) (hl : p.message.length = FINS_MAX_MSG)
    (r : FINS_COMMANDS) (a n : Nat) (hn : 2 * n ≤ 950)
    (hr : r ∈ [FINS_DM_READ_32, FINS_AR_READ_32, FINS_IO_READ_32]) :
    ∃ p', BuildReadMessage h mmList p r a n
        = BuildResult.ok p' (18 + if p.type = FINS_TCP_type then 16 else 0)
            (14 + 4 * n + if p.type = FINS_TCP_type then 16 else 0) ∧
      p'.message.length = FINS_MAX_MSG := by
  have e1 : sizeT h (4 * n) = 4 * n := sizeT_small h hs _ (by omega)
  have e2 : sizeT h (RESP + 4 * n) = 14 + 4 * n := sizeT_small h hs _ (by simp only [RESP]; omega)
  have key : ∀ area, readSwitch h mmList (InitHeader p) r a n
      = BuildResult.ok (InitAddrSize h (((InitHeader p).setCodes 0x01 0x01).put COM area) a n 4)
          (COM + COMMAND_DATA_OFFSET) (sizeT h (RESP + sizeT h (4 * n))) →
      ∃ p', BuildReadMessage h mmList p r a n
        = BuildResult.ok p' (18 + if p.type = FINS_TCP_type then 16 else 0)
            (14 + 4 * n + if p.type = FINS_TCP_type then 16 else 0) ∧
      p'.message.length = FINS_MAX_MSG := by
    intro area hsw
    rw [e1, e2] at hsw
    exact BuildReadMessage_lengths h hs mmList p r a n _ _ _ hsw hl (by decide) (by omega)
  simp only [List.mem_cons, List.mem_singleton, List.not_mem_nil, or_false] at hr
  rcases hr with rfl | rfl | rfl
  · exact key DM (readSwitch_mem32 h mmList _ FINS_DM_READ_32 DM a n (by simp))
  · exact key AR (readSwitch_mem32 h mmList _ FINS_AR_READ_32 AR a n (by simp))
  · exact key IO_ (readSwitch_mem32 h mmList _ FINS_IO_READ_32 IO_ a n (by simp))

/-- The request and the expected reply of a 16-bit memory write of at most
950 words. -/
theorem BuildWriteMessage_mem16_fit (h : Host) (hs : 16 ≤ h.sizeBits)
    (p : drvPvt) (hl : p.message.length = FINS_MAX_MSG)
    (r : FINS_COMMANDS) (a n : Nat) (data : List Nat) (hn : n ≤ 950)
    (hr : r ∈ [FINS_DM_WRITE, FINS_AR_WRITE, FINS_IO_WRITE]) :
    ∃ p', BuildWriteMessage h p r a n 2 data
        = BuildResult.ok p' (18 + 2 * n + if p.type = FINS_TCP_type then 16 else 0)
            (14 + if p.type = FINS_TCP_type then 16 else 0) ∧
      p'.message.length = FINS_MAX_MSG := by
  have e1 : sizeT h (n * 2) = n * 2 := sizeT_small h hs _ (by omega)
  have e2 : sizeT h (COM + COMMAND_DATA_OFFSET + n * 2) = 18 + 2 * n := by
    rw [sizeT_small h hs _ (by simp only [COM, COMMAND_DATA_OFFSET]; omega)]
    simp only [COM, COMMAND_DATA_OFFSET]; omega
  have key : ∀ area, writeSwitch h (InitHeader p) r a n 2 data
      = BuildResult.ok (writeWords16 h data 16 n
          (InitAddrSize h (((InitHeader p).setCodes 0x01 0x02).put COM area) a n 2))
          (sizeT h (COM + COMMAND_DATA_OFFSET + sizeT h (n * 2))) (RESP + 0) →
      ∃ p', BuildWriteMessage h p r a n 2 data
        = BuildResult.ok p' (18 + 2 * n + if p.type = FINS_TCP_type then 16 else 0)
            (14 + if p.type = FINS_TCP_type then 16 else 0) ∧
      p'.message.length = FINS_MAX_MSG := by
    intro area hsw
    rw [e1, e2] at hsw
    exact BuildWriteMessage_lengths h hs p r a n 2 data _ _ _ hsw hl (by omega) (by decide)
  simp only [List.mem_cons, List.mem_singleton, List.not_mem_nil, or_false] at hr
  rcases hr with rfl | rfl | rfl
  · exact key DM (writeSwitch_mem16 h _ FINS_DM_WRITE DM a n data (by simp))
  · exact key AR (writeSwitch_mem16 h _ FINS_AR_WRITE AR a n data (by simp))
  · exact key IO_ (writeSwitch_mem16 h _ FINS_IO_WRITE IO_ a n data (by simp))

/-- The request and the expected reply of a 32-bit memory write of at most
950 words. -/
theorem BuildWriteMessage_mem32_fit (h : Host) (hs : 16 ≤ h.sizeBits)
    (p : drvPvt) (hl : p.message.length = FINS_MAX_MSG)
    (r : FINS_COMMANDS) (a n : Nat) (data : List Nat) (hn : 2 * n ≤ 950)
    (hr : r ∈ [FINS_DM_WRITE_32, FINS_AR_WRITE_32, FINS_IO_WRITE_32]) :
    ∃ p', BuildWriteMessage h p r a n 4 data
        = BuildResult.ok p' (18 + 4 * n + if p.type = FINS_TCP_type then 16 else 0)
            (14 + if p.type = FINS_TCP_type then 16 else 0) ∧
      p'.message.length = FINS_MAX_MSG := by
  have e1 : sizeT h (n * 4) = n * 4 := sizeT_small h hs _ (by omega)
  have e2 : sizeT h (COM + COMMAND_DATA_OFFSET + n * 4) = 18 + 4 * n := by
    rw [sizeT_small h hs _ (by simp only [COM, COMMAND_DATA_OFFSET]; omega)]
    simp only [COM, COMMAND_DATA_OFFSET]; omega
  have key : ∀ area, writeSwitch h (InitHeader p) r a n 4 data
      = BuildResult.ok (writeWords32 h data n
          (InitAddrSize h (((InitHeader p).setCodes 0x01 0x02).put COM area) a n 4))
          (sizeT h (COM + COMMAND_DATA_OFFSET + sizeT h (n * 4))) (RESP + 0) →
      ∃ p', BuildWriteMessage h p r a n 4 data
        = BuildResult.ok p' (18 + 4 * n + if p.type = FINS_TCP_type then 16 else 0)
            (14 + if p.type = FINS_TCP_type then 16 else 0) ∧
      p'.message.length = FINS_MAX_MSG := by
    intro area hsw
    rw [e1, e2] at hsw
    exact BuildWriteMessage_lengths h hs p r a n 4 data _ _ _ hsw hl (by omega) (by decide)
  simp only [List.mem_cons, List.mem_singleton, List.not_mem_nil, or_false] at hr
  rcases hr with rfl | rfl | rfl
  · exact key DM (writeSwitch_mem32 h _ FINS_DM_WRITE_32 DM a n 4 data (by simp))
  · exact key AR (writeSwitch_mem32 h _ FINS_AR_WRITE_32 AR a n 4 data (by simp))
  · exact key IO_ (writeSwitch_mem32 h _ FINS_IO_WRITE_32 IO_ a n 4 data (by simp))


/-! ## The scratch buffer within a larger memory -/

theorem setByte_append (m rest : List Nat) (i v : Nat) (hi : i < m.length) :
    setByte (m ++ rest) i v = setByte m i v ++ rest := by
  unfold setByte
  exact List.set_append_left _ _ hi

theorem getByte_append (m rest : List Nat) (i : Nat) (hi : i < m.length) :
    getByte (m ++ rest) i = getByte m i := by
  unfold getByte
  rw [List.getD_eq_getElem?_getD, List.getD_eq_getElem?_getD, List.getElem?_append_left hi]

theorem store16_append (h : Host) (m rest : List Nat) (i v : Nat) (hi : i + 1 < m.length) :
    store16 h (m ++ rest) i v = store16 h m i v ++ rest := by
  unfold store16
  cases h.EPICS_BYTE_ORDER <;>
    (simp only
     rw [setByte_append _ _ _ _ (by omega), setByte_append _ _ _ _ (by simp; omega)])

theorem store32_append (h : Host) (m rest : List Nat) (i v : Nat) (hi : i + 3 < m.length) :
    store32 h (m ++ rest) i v = store32 h m i v ++ rest := by
  unfold store32
  cases h.EPICS_BYTE_ORDER <;>
    (simp only
     rw [setByte_append _ _ _ _ (by omega), setByte_append _ _ _ _ (by simp; omega),
       setByte_append _ _ _ _ (by simp; omega), setByte_append _ _ _ _ (by simp; omega)])

theorem load16_append (h : Host) (m rest : List Nat) (i : Nat) (hi : i + 1 < m.length) :
    load16 h (m ++ rest) i = load16 h m i := by
  unfold load16
  rw [getByte_append _ _ _ (by omega), getByte_append _ _ _ hi]

theorem load32_append (h : Host) (m rest : List Nat) (i : Nat) (hi : i + 3 < m.length) :
    load32 h (m ++ rest) i = load32 h m i := by
  unfold load32
  rw [getByte_append _ _ _ (by omega), getByte_append _ _ _ (by omega),
    getByte_append _ _ _ (by omega), getByte_append _ _ _ hi]

@[simp]
theorem behind_message (p : drvPvt) (rest : List Nat) :
    (p.behind rest).message = p.message ++ rest := rfl

theorem behind_fields (p : drvPvt) (rest : List Nat) :
    (p.behind rest).type = p.type ∧ (p.behind rest).nodevalid = p.nodevalid ∧
    (p.behind rest).dnode = p.dnode ∧ (p.behind rest).snode = p.snode ∧
    (p.behind rest).sid = p.sid ∧ (p.behind rest).mrc = p.mrc ∧ (p.behind rest).src = p.src :=
  ⟨rfl, rfl, rfl, rfl, rfl, rfl, rfl⟩

theorem setMessage_behind (p : drvPvt) (m rest : List Nat) :
    (p.behind rest).setMessage (m ++ rest) = (p.setMessage m).behind rest := rfl

theorem setCodes_behind (p : drvPvt) (rest : List Nat) (a b : Nat) :
    (p.behind rest).setCodes a b = (p.setCodes a b).behind rest := rfl

theorem put_behind (p : drvPvt) (rest : List Nat) (i v : Nat) (hi : i < p.message.length) :
    (p.behind rest).put i v = (p.put i v).behind rest := by
  rw [put_eq, put_eq, behind_message, setByte_append _ _ _ _ hi, setMessage_behind]

theorem length_put (p : drvPvt) (i v : Nat) : (p.put i v).message.length = p.message.length := by
  rw [put_message, length_setByte]

/-- `InitHeader` stores in the first nine bytes. -/
theorem InitHeader_behind (p : drvPvt) (rest : List Nat) (hl : 9 ≤ p.message.length) :
    InitHeader (p.behind rest) = (InitHeader p).behind rest := by
  unfold InitHeader
  simp only [ICF, RSV, GCT, DNA, DA1, DA2, SNA, SA1, SA2]
  rw [put_behind _ _ _ _ (by omega)]
  rw [put_behind _ _ _ _ (by rw [length_put]; omega)]
  rw [put_behind _ _ _ _ (by rw [length_put, length_put]; omega)]
  rw [put_behind _ _ _ _ (by rw [length_put, length_put, length_put]; omega)]
  rw [put_behind _ _ _ _ (by simp only [length_put]; omega)]
  rw [put_behind _ _ _ _ (by simp only [length_put]; omega)]
  rw [put_behind _ _ _ _ (by simp only [length_put]; omega)]
  rw [put_behind _ _ _ _ (by simp only [length_put]; omega)]
  rw [put_behind _ _ _ _ (by simp only [length_put]; omega)]
  rfl

/-- `InitAddrSize` stores in bytes 13 to 17. -/
theorem InitAddrSize_behind (h : Host) (p : drvPvt) (rest : List Nat) (a n s : Nat)
    (hl : 18 ≤ p.message.length) :
    InitAddrSize h (p.behind rest) a n s = (InitAddrSize h p a n s).behind rest := by
  unfold InitAddrSize
  simp only [COM]
  rw [put_behind _ _ _ _ (by omega)]
  rw [put_behind _ _ _ _ (by simp only [length_put]; omega)]
  rw [put_behind _ _ _ _ (by simp only [length_put]; omega)]
  rw [put_behind _ _ _ _ (by simp only [length_put]; omega)]
  rw [put_behind _ _ _ _ (by simp only [length_put]; omega)]

/-- The 16-bit copy loop of `BuildWriteMessage` stores in bytes 18 to
`17 + 2 n`. -/
theorem writeWords16_behind (h : Host) (data : List Nat) (b : Nat) (rest : List Nat) (n : Nat) :
    ∀ (p : drvPvt), 18 + 2 * n ≤ p.message.length →
      writeWords16 h data b n (p.behind rest) = (writeWords16 h data b n p).behind rest := by
  induction n with
  | zero => intro p _; rfl
  | succ k ih =>
    intro p hl
    obtain ⟨-, -, -, -, -, -, -, f8, -⟩ := writeWords16_fields h data b k p
    rw [writeWords16_succ, writeWords16_succ, ih p (by omega), behind_message,
      setByte_append _ _ _ _ (by rw [f8]; omega),
      setByte_append _ _ _ _ (by rw [length_setByte, f8]; omega), setMessage_behind]

/-- The 32-bit copy loop of `BuildWriteMessage` stores in bytes 18 to
`17 + 4 n`. -/
theorem writeWords32_behind (h : Host) (data : List Nat) (rest : List Nat) (n : Nat) :
    ∀ (p : drvPvt), 18 + 4 * n ≤ p.message.length →
      writeWords32 h data n (p.behind rest) = (writeWords32 h data n p).behind rest := by
  induction n with
  | zero => intro p _; rfl
  | succ k ih =>
    intro p hl
    obtain ⟨-, -, -, -, -, -, -, f8, -⟩ := writeWords32_fields h data k p
    rw [writeWords32_succ, writeWords32_succ, ih p (by omega), behind_message,
      setByte_append _ _ _ _ (by rw [f8]; omega),
      setByte_append _ _ _ _ (by rw [length_setByte, f8]; omega),
      setByte_append _ _ _ _ (by rw [length_setByte, length_setByte, f8]; omega),
      setByte_append _ _ _ _ (by rw [length_setByte, length_setByte, length_setByte, f8]; omega),
      setMessage_behind]

/-- The loop of the multiple-area read stores in bytes 12 to `11 + 4 n`. -/
theorem mmLoop_behind (MM : MultiMemArea) (n : Nat) (rest : List Nat) :
    ∀ (fuel i : Nat) (p : drvPvt), 12 + 4 * n ≤ p.message.length →
      mmLoop MM n fuel i (p.behind rest)
        = (mmLoop MM n fuel i p).map (fun x => (x.1, x.2.behind rest)) := by
  intro fuel
  induction fuel with
  | zero => intro i p _; rfl
  | succ f ih =>
    intro i p hl
    simp only [mmLoop]
    by_cases hi : i < n
    · rw [if_pos hi, if_pos hi]
      cases hA : MM.area.get? i with
      | none => rfl
      | some area =>
        cases hD : MM.address.get? i with
        | none =>
          by_cases ha : area ≠ 0
          · dsimp only
            rw [if_pos ha, if_pos ha]; rfl
          · dsimp only
            rw [if_neg ha, if_neg ha]; rfl
        | some addr =>
          dsimp only
          by_cases ha : area ≠ 0
          · rw [if_pos ha, if_pos ha]
            simp only [COM]
            rw [put_behind _ _ _ _ (by omega)]
            rw [put_behind _ _ _ _ (by simp only [length_put]; omega)]
            rw [put_behind _ _ _ _ (by simp only [length_put]; omega)]
            rw [put_behind _ _ _ _ (by simp only [length_put]; omega)]
            exact ih _ _ (by simp only [length_put]; omega)
          · rw [if_neg ha, if_neg ha]
            rfl
    · rw [if_neg hi, if_neg hi]
      rfl

/-- The `switch` of `BuildReadMessage`, for the commands of the array read
functions, stores inside the scratch buffer. -/
theorem readSwitch_behind (h : Host) (mmList : List MultiMemArea) (p : drvPvt)
    (rest : List Nat) (r : FINS_COMMANDS) (a n : Nat) (hl : 18 ≤ p.message.length)
    (hr : r ∈ [FINS_DM_READ, FINS_AR_READ, FINS_IO_READ, FINS_WR_READ, FINS_HR_READ,
        FINS_DM_READ_32, FINS_AR_READ_32, FINS_IO_READ_32, FINS_CLOCK_READ, FINS_CYCLE_TIME]
      ∨ (r = FINS_MM_READ ∧ 12 + 4 * n ≤ p.message.length)) :
    readSwitch h mmList (p.behind rest) r a n = (readSwitch h mmList p r a n).behind rest := by
  have h16 : ∀ area, InitAddrSize h (((p.behind rest).setCodes 0x01 0x01).put COM area) a n 2
      = (InitAddrSize h ((p.setCodes 0x01 0x01).put COM area) a n 2).behind rest := by
    intro area
    rw [setCodes_behind, put_behind _ _ _ _ (by show 12 < p.message.length; omega),
      InitAddrSize_behind _ _ _ _ _ _ (by rw [length_put]; exact hl)]
  have h32 : ∀ area, InitAddrSize h (((p.behind rest).setCodes 0x01 0x01).put COM area) a n 4
      = (InitAddrSize h ((p.setCodes 0x01 0x01).put COM area) a n 4).behind rest := by
    intro area
    rw [setCodes_behind, put_behind _ _ _ _ (by show 12 < p.message.length; omega),
      InitAddrSize_behind _ _ _ _ _ _ (by rw [length_put]; exact hl)]
  rcases hr with hr | ⟨rfl, hn⟩
  · simp only [List.mem_cons, List.mem_singleton, List.not_mem_nil, or_false] at hr
    rcases hr with rfl | rfl | rfl | rfl | rfl | rfl | rfl | rfl | rfl | rfl
    · rw [readSwitch_mem16 h mmList _ _ DM a n (by simp),
        readSwitch_mem16 h mmList _ _ DM a n (by simp), h16]; rfl
    · rw [readSwitch_mem16 h mmList _ _ AR a n (by simp),
        readSwitch_mem16 h mmList _ _ AR a n (by simp), h16]; rfl
    · rw [readSwitch_mem16 h mmList _ _ IO_ a n (by simp),
        readSwitch_mem16 h mmList _ _ IO_ a n (by simp), h16]; rfl
    · rw [readSwitch_mem16 h mmList _ _ WR a n (by simp),
        readSwitch_mem16 h mmList _ _ WR a n (by simp), h16]; rfl
    · rw [readSwitch_mem16 h mmList _ _ HR a n (by simp),
        readSwitch_mem16 h mmList _ _ HR a n (by simp), h16]; rfl
    · rw [readSwitch_mem32 h mmList _ _ DM a n (by simp),
        readSwitch_mem32 h mmList _ _ DM a n (by simp), h32]; rfl
    · rw [readSwitch_mem32 h mmList _ _ AR a n (by simp),
        readSwitch_mem32 h mmList _ _ AR a n (by simp), h32]; rfl
    · rw [readSwitch_mem32 h mmList _ _ IO_ a n (by simp),
        readSwitch_mem32 h mmList _ _ IO_ a n (by simp), h32]; rfl
    · rfl
    · simp only [readSwitch]
      rw [setCodes_behind, put_behind _ _ _ _ (by show 12 < p.message.length; omega)]
      rfl
  · simp only [readSwitch]
    cases hMM : ellNth mmList (sizeT h (a + 1)) with
    | none =>
      dsimp only
      split <;> rfl
    | some MM =>
      dsimp only
      rw [setCodes_behind, mmLoop_behind MM n rest n 0 (p.setCodes 0x01 0x04) hn]
      cases mmLoop MM n n 0 (p.setCodes 0x01 0x04) with
      | none => rfl
      | some x => rfl

/-- The `switch` of `BuildWriteMessage`, for the commands of the array write
functions and a count whose data end inside the scratch buffer, stores inside
the scratch buffer. -/
theorem writeSwitch_behind (h : Host) (p : drvPvt) (rest : List Nat) (r : FINS_COMMANDS)
    (a n asz : Nat) (data : List Nat)
    (hr : (r ∈ [FINS_DM_WRITE, FINS_AR_WRITE, FINS_IO_WRITE] ∧ asz = 2 ∧
        18 + 2 * n ≤ p.message.length)
      ∨ (r ∈ [FINS_DM_WRITE_32, FINS_AR_WRITE_32, FINS_IO_WRITE_32] ∧
        18 + 4 * n ≤ p.message.length)) :
    writeSwitch h (p.behind rest) r a n asz data
      = (writeSwitch h p r a n asz data).behind rest := by
  have hl : 18 ≤ p.message.length := by
    rcases hr with ⟨-, -, hl⟩ | ⟨-, hl⟩ <;> omega
  have h16 : ∀ area, 18 + 2 * n ≤ p.message.length →
      writeWords16 h data 16 n
        (InitAddrSize h (((p.behind rest).setCodes 0x01 0x02).put COM area) a n 2)
      = (writeWords16 h data 16 n
        (InitAddrSize h ((p.setCodes 0x01 0x02).put COM area) a n 2)).behind rest := by
    intro area hn
    rw [setCodes_behind, put_behind _ _ _ _ (by show 12 < p.message.length; omega),
      InitAddrSize_behind _ _ _ _ _ _ (by rw [length_put]; exact hl),
      writeWords16_behind h data 16 rest n _ (by
        rw [InitAddrSize_eq, setMessage_message]
        simp only [length_setByte, length_put]
        exact hn)]
  have h32 : ∀ area, 18 + 4 * n ≤ p.message.length →
      writeWords32 h data n
        (InitAddrSize h (((p.behind rest).setCodes 0x01 0x02).put COM area) a n 4)
      = (writeWords32 h data n
        (InitAddrSize h ((p.setCodes 0x01 0x02).put COM area) a n 4)).behind rest := by
    intro area hn
    rw [setCodes_behind, put_behind _ _ _ _ (by show 12 < p.message.length; omega),
      InitAddrSize_behind _ _ _ _ _ _ (by rw [length_put]; exact hl),
      writeWords32_behind h data rest n _ (by
        rw [InitAddrSize_eq, setMessage_message]
        simp only [length_setByte, length_put]
        exact hn)]
  rcases hr with ⟨hr, rfl, hn⟩ | ⟨hr, hn⟩
  · simp only [List.mem_cons, List.mem_singleton, List.not_mem_nil, or_false] at hr
    rcases hr with rfl | rfl | rfl
    · rw [writeSwitch_mem16 h _ FINS_DM_WRITE DM a n data (by simp),
        writeSwitch_mem16 h _ FINS_DM_WRITE DM a n data (by simp), h16 _ hn]; rfl
    · rw [writeSwitch_mem16 h _ FINS_AR_WRITE AR a n data (by simp),
        writeSwitch_mem16 h _ FINS_AR_WRITE AR a n data (by simp), h16 _ hn]; rfl
    · rw [writeSwitch_mem16 h _ FINS_IO_WRITE IO_ a n data (by simp),
        writeSwitch_mem16 h _ FINS_IO_WRITE IO_ a n data (by simp), h16 _ hn]; rfl
  · simp only [List.mem_cons, List.mem_singleton, List.not_mem_nil, or_false] at hr
    rcases hr with rfl | rfl | rfl
    · rw [writeSwitch_mem32 h _ FINS_DM_WRITE_32 DM a n asz data (by simp),
        writeSwitch_mem32 h _ FINS_DM_WRITE_32 DM a n asz data (by simp), h32 _ hn]; rfl
    · rw [writeSwitch_mem32 h _ FINS_AR_WRITE_32 AR a n asz data (by simp),
        writeSwitch_mem32 h _ FINS_AR_WRITE_32 AR a n asz data (by simp), h32 _ hn]; rfl
    · rw [writeSwitch_mem32 h _ FINS_IO_WRITE_32 IO_ a n asz data (by simp),
        writeSwitch_mem32 h _ FINS_IO_WRITE_32 IO_ a n asz data (by simp), h32 _ hn]; rfl

theorem assignLoop_congr (f g : Nat → Nat) (n : Nat) (d : List Nat)
    (hfg : ∀ i, i < n → f i = g i) : assignLoop f n d = assignLoop g n d := by
  induction n with
  | zero => rfl
  | succ k ih =>
    rw [assignLoop_succ, assignLoop_succ, ih (fun i hi => hfg i (by omega)), hfg k (by omega)]

/-- The extraction of `finsRead`, for the commands of the array read
functions and a count whose elements end inside the scratch buffer, loads
from inside the scratch buffer. -/
theorem extractData_behind (h : Host) (m rest : List Nat) (r : FINS_COMMANDS)
    (data : List Nat) (n asz : Nat)
    (hr : (r ∈ [FINS_DM_READ, FINS_AR_READ, FINS_IO_READ, FINS_WR_READ, FINS_HR_READ] ∧
        14 + 2 * n ≤ m.length)
      ∨ (r ∈ [FINS_DM_READ_32, FINS_AR_READ_32, FINS_IO_READ_32, FINS_CYCLE_TIME] ∧
        14 + 4 * n ≤ m.length)
      ∨ (r = FINS_CLOCK_READ ∧ 14 + n ≤ m.length)
      ∨ (r = FINS_MM_READ ∧ 14 + 3 * n ≤ m.length)) :
    extractData h (m ++ rest) r data n asz = extractData h m r data n asz := by
  have e16 : 14 + 2 * n ≤ m.length → ∀ b,
      assignLoop (fun i => castBSWAP16 h b (load16 h (m ++ rest) (RESP + 2 * i)) % 2 ^ b) n data
        = assignLoop (fun i => castBSWAP16 h b (load16 h m (RESP + 2 * i)) % 2 ^ b) n data := by
    intro hn b
    refine assignLoop_congr _ _ n data (fun i hi => ?_)
    show castBSWAP16 h b (load16 h (m ++ rest) (RESP + 2 * i)) % 2 ^ b = _
    rw [load16_append h m rest _ (by simp only [RESP]; omega)]
  have e32 : 14 + 4 * n ≤ m.length →
      assignLoop (fun i => WSWAP32 h (load32 h (m ++ rest) (RESP + 4 * i)) % 2 ^ 32) n data
        = assignLoop (fun i => WSWAP32 h (load32 h m (RESP + 4 * i)) % 2 ^ 32) n data := by
    intro hn
    refine assignLoop_congr _ _ n data (fun i hi => ?_)
    show WSWAP32 h (load32 h (m ++ rest) (RESP + 4 * i)) % 2 ^ 32 = _
    rw [load32_append h m rest _ (by simp only [RESP]; omega)]
  have ec : 14 + 4 * n ≤ m.length →
      assignLoop (fun i => BSWAP32 h (load32 h (m ++ rest) (RESP + 0 + 4 * i)) % 2 ^ 32) n data
        = assignLoop (fun i => BSWAP32 h (load32 h m (RESP + 0 + 4 * i)) % 2 ^ 32) n data := by
    intro hn
    refine assignLoop_congr _ _ n data (fun i hi => ?_)
    show BSWAP32 h (load32 h (m ++ rest) (RESP + 0 + 4 * i)) % 2 ^ 32 = _
    rw [load32_append h m rest _ (by simp only [RESP]; omega)]
  have ek : 14 + n ≤ m.length →
      assignLoop (fun i => int8To16 (getByte (m ++ rest) (RESP + 0 + i))) n data
        = assignLoop (fun i => int8To16 (getByte m (RESP + 0 + i))) n data := by
    intro hn
    refine assignLoop_congr _ _ n data (fun i hi => ?_)
    show int8To16 (getByte (m ++ rest) (RESP + 0 + i)) = _
    rw [getByte_append m rest _ (by simp only [RESP]; omega)]
  have em : 14 + 3 * n ≤ m.length →
      assignLoop (fun i => castBSWAP16 h 16 (load16 h (m ++ rest) (RESP + 3 * i + 1)) % 2 ^ 16)
          n data
        = assignLoop (fun i => castBSWAP16 h 16 (load16 h m (RESP + 3 * i + 1)) % 2 ^ 16)
          n data := by
    intro hn
    refine assignLoop_congr _ _ n data (fun i hi => ?_)
    show castBSWAP16 h 16 (load16 h (m ++ rest) (RESP + 3 * i + 1)) % 2 ^ 16 = _
    rw [load16_append h m rest _ (by simp only [RESP]; omega)]
  rcases hr with ⟨hr, hn⟩ | ⟨hr, hn⟩ | ⟨rfl, hn⟩ | ⟨rfl, hn⟩
  · simp only [List.mem_cons, List.mem_singleton, List.not_mem_nil, or_false] at hr
    rcases hr with rfl | rfl | rfl | rfl | rfl <;>
      (simp only [extractData]
       rw [e16 hn 16, e16 hn 32])
  · simp only [List.mem_cons, List.mem_singleton, List.not_mem_nil, or_false] at hr
    rcases hr with rfl | rfl | rfl | rfl
    · simp only [extractData]; rw [e32 hn]
    · simp only [extractData]; rw [e32 hn]
    · simp only [extractData]; rw [e32 hn]
    · simp only [extractData]; rw [ec hn]
  · simp only [extractData]; rw [ek hn]
  · simp only [extractData]; rw [em hn]

/-- C1: on a UDP session (source node `p.snode`, destination node `p.dnode`,
session id `p.sid`), for each of the five 16-bit memory-read reasons with its
area code, every 16-bit address `a` and every count `1 ≤ n ≤ 950`,
`BuildReadMessage` succeeds with send length 18 and receive length `14 + 2n`,
and the request is the 18 bytes
`80 00 02 00 d 00 00 s 00 (k+1) mod 256 01 01 area a>>8 a&FF 00 n>>8 n&FF`. -/
theorem BuildReadMessage_mem16_request (h : Host) (mmList : List MultiMemArea) (p : drvPvt)
    (r : FINS_COMMANDS) (area a n : Nat) (hs : 16 ≤ h.sizeBits) (hp : p.wf)
    (hu : p.type = FINS_UDP_type)
    (hr : (r, area) ∈ [(FINS_DM_READ, 0x82), (FINS_AR_READ, 0xB3), (FINS_IO_READ, 0xB0),
      (FINS_WR_READ, 0xB1), (FINS_HR_READ, 0xB2)])
    (ha : a < 65536) (hn1 : 1 ≤ n) (hn2 : n ≤ 950) :
    ∃ p', BuildReadMessage h mmList p r a n = BuildResult.ok p' 18 (14 + 2 * n) ∧
      p'.message.take 18 = [0x80, 0x00, 0x02, 0x00, p.dnode, 0x00, 0x00, p.snode, 0x00,
        (p.sid + 1) % 256, 0x01, 0x01, area, a >>> 8, a &&& 0xFF, 0x00, n >>> 8, n &&& 0xFF] := by
  obtain ⟨hd, hsn, hsid, hmrc, hsrc, hlen, hb⟩ := hp
  have e1 : sizeT h (2 * n) = 2 * n := sizeT_small h hs _ (by omega)
  have e2 : sizeT h (RESP + 2 * n) = 14 + 2 * n := by
    rw [sizeT_small h hs _ (by simp [RESP]; omega)]; simp [RESP]
  have e3 : sizeT h (n % 65536 * 2) = 2 * n := by
    rw [sizeT_small h hs _ (by omega)]; omega
  have hlen' : p.message.length = 2000 := by simpa [FINS_MAX_MSG, FINS_MAX_UDP_WORDS] using hlen
  have hr' : (r, area) ∈ [(FINS_DM_READ, DM), (FINS_AR_READ, AR), (FINS_IO_READ, IO_),
      (FINS_WR_READ, WR), (FINS_HR_READ, HR), (FINS_DM_WRITE, DM), (FINS_AR_WRITE, AR),
      (FINS_IO_WRITE, IO_)] := by
    simp only [List.mem_cons, Prod.mk.injEq, List.mem_singleton, List.not_mem_nil, or_false] at hr ⊢
    simp only [DM, AR, IO_, WR, HR]
    tauto
  have ea : area < 256 := by
    simp only [List.mem_cons, Prod.mk.injEq, List.mem_singleton, List.not_mem_nil, or_false] at hr
    omega
  unfold BuildReadMessage
  rw [readSwitch_mem16 h mmList _ r area a n hr']
  simp only []
  rw [finishMessage_udp _ _ _ _ (by simp [InitAddrSize_eq, InitHeader_eq, hu])]
  have hS : COM + COMMAND_DATA_OFFSET = 18 := rfl
  rw [hS, e1, e2]
  refine ⟨_, rfl, ?_⟩
  rw [take_eq_map_getD _ _ (by simp [InitAddrSize_eq, InitHeader_eq, hlen'])]
  simp [List.range_succ, InitAddrSize_eq, InitHeader_eq, getD_setByte, hlen', ICF, RSV, GCT,
    DNA, DA1, DA2, SNA, SA1, SA2, SID, MRC, SRC, COM, FINS_GATEWAY, shr8, and_ff, e3]
  omega

/-- C1, the scenario of the specification: a Data-Memory read of 2 words at
address 100 on a UDP session. -/
theorem BuildReadMessage_mem16_request_witness :
    ∃ p', BuildReadMessage hostLE [] (session0 FINS_UDP_type) FINS_DM_READ 100 2
        = BuildResult.ok p' 18 (14 + 2 * 2) ∧
      p'.message.take 18 = [0x80, 0x00, 0x02, 0x00, 108, 0x00, 0x00, 254, 0x00,
        (3 + 1) % 256, 0x01, 0x01, 0x82, 100 >>> 8, 100 &&& 0xFF, 0x00, 2 >>> 8, 2 &&& 0xFF] :=
  BuildReadMessage_mem16_request hostLE [] (session0 FINS_UDP_type) FINS_DM_READ 0x82 100 2
    (by decide) (session0_wf _) rfl (by simp) (by decide) (by decide) (by decide)

/-- C3: `CheckData` returns 0 exactly when both response codes are zero, the
reply carries the session id, the command codes just sent, the session's
source node as destination and its destination node as source; it returns -1
otherwise, in particular for any other session id or command code. -/
theorem CheckData_accepts_iff (p : drvPvt) :
    (CheckData p = 0 ↔
      getByte p.message 12 = 0 ∧ getByte p.message 13 = 0 ∧ getByte p.message 9 = p.sid ∧
      getByte p.message 10 = p.mrc ∧ getByte p.message 11 = p.src ∧
      getByte p.message 4 = p.snode ∧ getByte p.message 7 = p.dnode) ∧
    (CheckData p = 0 ∨ CheckData p = -1) ∧
    (getByte p.message 9 ≠ p.sid → CheckData p = -1) ∧
    (getByte p.message 10 ≠ p.mrc ∨ getByte p.message 11 ≠ p.src → CheckData p = -1) := by
  simp only [CheckData, MRES, SRES, SID, MRC, SRC, DA1, SA1]
  refine ⟨?_, ?_, ?_, ?_⟩
  · split_ifs <;> simp_all <;> omega
  · split_ifs <;> simp
  · intro hne; split_ifs <;> simp_all
  · intro hne; split_ifs <;> simp_all

theorem slice_13_18 (m : List Nat) (hm : 18 ≤ m.length) :
    (m.take 18).drop 13 = [m[13]?.getD 0, m[14]?.getD 0, m[15]?.getD 0, m[16]?.getD 0,
      m[17]?.getD 0] := by
  rw [take_eq_map_getD _ _ hm]
  simp [List.range_succ]

/-- C8: for the 32-bit memory commands on a UDP session, every 16-bit address
`a` and every count `n` with `2n ≤ 950`, request bytes 13 to 17 are
`a>>8, a&FF, 00` followed by the big-endian number `2n` of PLC words; a read
sends 18 bytes and expects `14 + 4n`, a write sends `18 + 4n` and expects 14. -/
theorem mem32_count_in_words (h : Host) (mmList : List MultiMemArea) (p : drvPvt) (a n : Nat)
    (hs : 16 ≤ h.sizeBits) (hp : p.wf) (hu : p.type = FINS_UDP_type) (ha : a < 65536)
    (hn : 2 * n ≤ 950) :
    (∀ r ∈ [FINS_DM_READ_32, FINS_AR_READ_32, FINS_IO_READ_32],
      ∃ p', BuildReadMessage h mmList p r a n = BuildResult.ok p' 18 (14 + 4 * n) ∧
        (p'.message.take 18).drop 13
          = [a >>> 8, a &&& 0xFF, 0x00, (2 * n) >>> 8, (2 * n) &&& 0xFF]) ∧
    (∀ r ∈ [FINS_DM_WRITE_32, FINS_DM_WRITE_32_NOREAD, FINS_AR_WRITE_32,
        FINS_AR_WRITE_32_NOREAD, FINS_IO_WRITE_32, FINS_IO_WRITE_32_NOREAD],
      ∀ (asynSize : Nat) (data : List Nat),
      ∃ p', BuildWriteMessage h p r a n asynSize data = BuildResult.ok p' (18 + 4 * n) 14 ∧
        (p'.message.take 18).drop 13
          = [a >>> 8, a &&& 0xFF, 0x00, (2 * n) >>> 8, (2 * n) &&& 0xFF]) := by
  obtain ⟨hd, hsn, hsid, hmrc, hsrc, hlen, hb⟩ := hp
  have hlen' : p.message.length = 2000 := by simpa [FINS_MAX_MSG, FINS_MAX_UDP_WORDS] using hlen
  have e1 : sizeT h (4 * n) = 4 * n := sizeT_small h hs _ (by omega)
  have e1' : sizeT h (n * 4) = 4 * n := by rw [sizeT_small h hs _ (by omega)]; omega
  have e2 : sizeT h (RESP + 4 * n) = 14 + 4 * n := by
    rw [sizeT_small h hs _ (by simp [RESP]; omega)]; simp [RESP]
  have e2' : sizeT h (COM + COMMAND_DATA_OFFSET + 4 * n) = 18 + 4 * n := by
    rw [sizeT_small h hs _ (by simp [COM, COMMAND_DATA_OFFSET]; omega)]
    simp [COM, COMMAND_DATA_OFFSET]
  have e3 : sizeT h (n % 65536 * 4) = 4 * n := by
    rw [sizeT_small h hs _ (by omega)]; omega
  have hS : COM + COMMAND_DATA_OFFSET = 18 := rfl
  have hR : RESP + 0 = 14 := rfl
  constructor
  · intro r hr
    obtain ⟨area, hra⟩ : ∃ area, (r, area) ∈ [(FINS_DM_READ_32, DM), (FINS_AR_READ_32, AR),
        (FINS_IO_READ_32, IO_), (FINS_DM_WRITE_32, DM), (FINS_AR_WRITE_32, AR),
        (FINS_IO_WRITE_32, IO_)] := by
      simp only [List.mem_cons, List.mem_singleton, List.not_mem_nil, or_false] at hr
      rcases hr with rfl | rfl | rfl
      · exact ⟨DM, by simp⟩
      · exact ⟨AR, by simp⟩
      · exact ⟨IO_, by simp⟩
    unfold BuildReadMessage
    rw [readSwitch_mem32 h mmList _ r area a n hra]
    simp only []
    rw [finishMessage_udp _ _ _ _ (by simp [InitAddrSize_eq, InitHeader_eq, hu])]
    rw [hS, e1, e2]
    refine ⟨_, rfl, ?_⟩
    rw [slice_13_18 _ (by simp [InitAddrSize_eq, InitHeader_eq, hlen'])]
    simp only [InitAddrSize_eq, InitHeader_eq, setMessage_message, setCodes_message,
      put_message, setSid_message, setCodes_mrc, setCodes_src, put_mrc, put_src,
      setMessage_mrc, setMessage_src, setMessage_sid, put_sid, setCodes_sid]
    simp only [getD_setByte, length_setByte, hlen', ICF, RSV, GCT, DNA, DA1, DA2, SNA, SA1,
      SA2, SID, MRC, SRC, COM, e3]
    simp [shr8, and_ff]
    omega
  · intro r hr asynSize data
    obtain ⟨area, hra⟩ : ∃ area, (r, area) ∈ [(FINS_DM_WRITE_32, DM),
        (FINS_DM_WRITE_32_NOREAD, DM), (FINS_AR_WRITE_32, AR), (FINS_AR_WRITE_32_NOREAD, AR),
        (FINS_IO_WRITE_32, IO_), (FINS_IO_WRITE_32_NOREAD, IO_)] := by
      simp only [List.mem_cons, List.mem_singleton, List.not_mem_nil, or_false] at hr
      rcases hr with rfl | rfl | rfl | rfl | rfl | rfl
      · exact ⟨DM, by simp⟩
      · exact ⟨DM, by simp⟩
      · exact ⟨AR, by simp⟩
      · exact ⟨AR, by simp⟩
      · exact ⟨IO_, by simp⟩
      · exact ⟨IO_, by simp⟩
    unfold BuildWriteMessage
    rw [writeSwitch_mem32 h _ r area a n asynSize data hra]
    simp only []
    obtain ⟨f1, f2, f3, f4, f5, f6, f7, f8, f9⟩ := writeWords32_fields h data n
      (InitAddrSize h (((InitHeader p).setCodes 0x01 0x02).put COM area) a n 4)
    rw [finishMessage_udp _ _ _ _ (by rw [f1]; simp [InitAddrSize_eq, InitHeader_eq, hu])]
    rw [e1', e2', hR]
    refine ⟨_, rfl, ?_⟩
    rw [slice_13_18 _ (by
      simp only [setMessage_message, length_setByte]
      rw [f8]; simp [InitAddrSize_eq, InitHeader_eq, hlen'])]
    simp only [setMessage_message, getD_setByte, MRC, SRC, SID]
    simp only [show ¬ (13 = 9) by decide, show ¬ (13 = 10) by decide, show ¬ (13 = 11) by decide,
      show ¬ (14 = 9) by decide, show ¬ (14 = 10) by decide, show ¬ (14 = 11) by decide,
      show ¬ (15 = 9) by decide, show ¬ (15 = 10) by decide, show ¬ (15 = 11) by decide,
      show ¬ (16 = 9) by decide, show ¬ (16 = 10) by decide, show ¬ (16 = 11) by decide,
      show ¬ (17 = 9) by decide, show ¬ (17 = 10) by decide, show ¬ (17 = 11) by decide,
      false_and, if_false]
    rw [f9 13 (by decide), f9 14 (by decide), f9 15 (by decide), f9 16 (by decide),
      f9 17 (by decide)]
    simp only [InitAddrSize_eq, InitHeader_eq, setMessage_message, setCodes_message,
      put_message, setSid_message, setCodes_mrc, setCodes_src, put_mrc, put_src,
      setMessage_mrc, setMessage_src, setMessage_sid, put_sid, setCodes_sid]
    simp only [getD_setByte, length_setByte, hlen', ICF, RSV, GCT, DNA, DA1, DA2, SNA, SA1,
      SA2, SID, MRC, SRC, COM, e3]
    simp [shr8, and_ff]
    omega

/-- C8 at a sample session: 100 32-bit elements at address 0x1234. -/
theorem mem32_count_in_words_witness :
    (∀ r ∈ [FINS_DM_READ_32, FINS_AR_READ_32, FINS_IO_READ_32],
      ∃ p', BuildReadMessage hostBE [] (session0 FINS_UDP_type) r 0x1234 100
          = BuildResult.ok p' 18 (14 + 4 * 100) ∧
        (p'.message.take 18).drop 13
          = [0x1234 >>> 8, 0x1234 &&& 0xFF, 0x00, (2 * 100) >>> 8, (2 * 100) &&& 0xFF]) ∧
    (∀ r ∈ [FINS_DM_WRITE_32, FINS_DM_WRITE_32_NOREAD, FINS_AR_WRITE_32,
        FINS_AR_WRITE_32_NOREAD, FINS_IO_WRITE_32, FINS_IO_WRITE_32_NOREAD],
      ∀ (asynSize : Nat) (data : List Nat),
      ∃ p', BuildWriteMessage hostBE (session0 FINS_UDP_type) r 0x1234 100 asynSize data
          = BuildResult.ok p' (18 + 4 * 100) 14 ∧
        (p'.message.take 18).drop 13
          = [0x1234 >>> 8, 0x1234 &&& 0xFF, 0x00, (2 * 100) >>> 8, (2 * 100) &&& 0xFF]) :=
  mem32_count_in_words hostBE [] (session0 FINS_UDP_type) 0x1234 100 (by decide)
    (session0_wf _) rfl (by decide) (by decide)

theorem run_sid (h : Host) (p : drvPvt) (hlen : p.message.length = FINS_MAX_MSG) (c : BuildCall)
    (p' : drvPvt) (s r : Nat) (hrun : c.run h p = BuildResult.ok p' s r) :
    p'.sid = (p.sid + 1) % 256 ∧ p'.message.length = FINS_MAX_MSG ∧
      getByte p'.message (if p.type = FINS_TCP_type then 25 else 9) = (p.sid + 1) % 256 := by
  obtain ⟨q, s0, r0, hf, hty, hsid, hl, -⟩ := run_ok h p c p' s r hrun
  have := finishMessage_sid h q s0 r0 p' s r (by rw [hl, hlen]) hf
  rw [hsid, hty] at this
  exact ⟨this.1, this.2.2.1, this.2.2.2⟩

theorem buildSeq_sids (h : Host) (calls : List (BuildCall × List Nat)) :
    ∀ (p : drvPvt) (ps : List drvPvt), p.message.length = FINS_MAX_MSG →
      buildSeq h p calls = some ps →
      ps.map (fun q => q.sid)
        = (List.range calls.length).map (fun i => (p.sid + (i + 1)) % 256) := by
  induction calls with
  | nil =>
    intro p ps _ hps
    simp only [buildSeq, Option.some.injEq] at hps
    subst hps
    simp
  | cons cr rest ih =>
    intro p ps hlen hps
    obtain ⟨c, reply⟩ := cr
    simp only [buildSeq] at hps
    cases hrun : c.run h p with
    | ok p' s r =>
      rw [hrun] at hps
      simp only [Option.map_eq_some'] at hps
      obtain ⟨ps', hps', rfl⟩ := hps
      obtain ⟨h1, h2, -⟩ := run_sid h p hlen c p' s r hrun
      have := ih (p'.setMessage (receive p'.message reply)) ps' (by simp [h2]) hps'
      simp only [setMessage_sid] at this
      simp only [List.map_cons, this, List.length_cons, List.range_succ_eq_map, List.map_map,
        h1, List.cons.injEq]
      refine ⟨by simp, ?_⟩
      apply List.map_congr_left
      intro i _
      simp only [Function.comp, Nat.succ_eq_add_one]
      omega
    | err q => rw [hrun] at hps; cases hps
    | fault => rw [hrun] at hps; cases hps

/-- C9: a successful call of either builder sets the session id to
`(k + 1) mod 256` and stores it in byte 9 of the request (byte 25 behind the
FINS/TCP header); `N` consecutive successful builds use the ids
`(k+1) mod 256, ..., (k+N) mod 256`; and `CheckData` accepts a reply only if
its byte 9 is the id of the state it is checked in. -/
theorem session_id_sequence (h : Host) (p : drvPvt) (hlen : p.message.length = FINS_MAX_MSG) :
    (∀ (c : BuildCall) (p' : drvPvt) (s r : Nat), c.run h p = BuildResult.ok p' s r →
      p'.sid = (p.sid + 1) % 256 ∧
      getByte p'.message (if p.type = FINS_TCP_type then 25 else 9) = (p.sid + 1) % 256) ∧
    (∀ (calls : List (BuildCall × List Nat)) (ps : List drvPvt),
      buildSeq h p calls = some ps →
      ps.map (fun q => q.sid)
        = (List.range calls.length).map (fun i => (p.sid + (i + 1)) % 256)) ∧
    (∀ (q : drvPvt) (reply : List Nat), CheckData (q.setMessage reply) = 0 →
      getByte reply SID = q.sid) := by
  refine ⟨?_, ?_, ?_⟩
  · intro c p' s r hrun
    have := run_sid h p hlen c p' s r hrun
    exact ⟨this.1, this.2.2⟩
  · intro calls ps hps
    exact buildSeq_sids h calls p ps hlen hps
  · intro q reply hc
    simp only [CheckData, setMessage_message, setMessage_sid] at hc
    split_ifs at hc with h1 h2
    exact (not_not.mp h2).symm

/-- C9 at the sample UDP session, whose session id is 3: two consecutive
Data-Memory reads are built with the ids 4 and 5, the first in byte 9 of its
request. -/
theorem session_id_sequence_witness :
    ∃ p1 p2, (BuildCall.read [] FINS_DM_READ 100 2).run hostLE (session0 FINS_UDP_type)
        = BuildResult.ok p1 18 18 ∧
      p1.sid = 4 ∧ getByte p1.message 9 = 4 ∧
      buildSeq hostLE (session0 FINS_UDP_type)
        [(BuildCall.read [] FINS_DM_READ 100 2, replyHeader ++ [0x12, 0x34, 0x56, 0x78]),
          (BuildCall.read [] FINS_DM_READ 100 2, [])] = some [p1, p2] ∧
      [p1, p2].map (fun q => q.sid) = [4, 5] := by
  obtain ⟨p1, R1, hb1, ht1, -, -, -, -, -, -, hR1⟩ := BuildReadMessage_mem_udp hostLE []
    (session0 FINS_UDP_type) FINS_DM_READ 100 2 (by decide) (by simp)
  have e1 : R1 = 18 := by rw [hR1]; decide
  rw [e1] at hb1
  obtain ⟨p2, R2, hb2, -⟩ := BuildReadMessage_mem_udp hostLE []
    (p1.setMessage (receive p1.message (replyHeader ++ [0x12, 0x34, 0x56, 0x78])))
    FINS_DM_READ 100 2 (by rw [setMessage_type, ht1]; decide) (by simp)
  have hseq : buildSeq hostLE (session0 FINS_UDP_type)
      [(BuildCall.read [] FINS_DM_READ 100 2, replyHeader ++ [0x12, 0x34, 0x56, 0x78]),
        (BuildCall.read [] FINS_DM_READ 100 2, [])] = some [p1, p2] := by
    simp only [buildSeq, BuildCall.run, hb1, hb2, Option.map_some']
  obtain ⟨h1, h2, -⟩ := session_id_sequence hostLE (session0 FINS_UDP_type)
    (session0_length _)
  obtain ⟨a1, a2⟩ := h1 (BuildCall.read [] FINS_DM_READ 100 2) p1 18 18 hb1
  exact ⟨p1, p2, hb1, a1, a2, hseq, h2 _ _ hseq⟩

/-- A Data-Memory read of two words can be built on the sample UDP session. -/
theorem run_read_DM_sample :
    ∃ p', (BuildCall.read [] FINS_DM_READ 100 2).run hostLE (session0 FINS_UDP_type)
      = BuildResult.ok p' 18 18 := by
  simp only [BuildCall.run, BuildReadMessage]
  rw [readSwitch_mem16 hostLE [] _ FINS_DM_READ DM 100 2 (by simp)]
  simp only []
  rw [finishMessage_udp _ _ _ _ (by rw [InitAddrSize_eq, InitHeader_eq]; decide)]
  exact ⟨_, rfl⟩

/-- C10: when a builder call succeeds on a UDP session with send length `L`
and receive length `R`, the request leaving room for the FINS/TCP header in
the scratch buffer and `R + 16` being a `size_t`, the same call on the TCP session with the same nodes, session
id and buffer succeeds with lengths `L + 16` and `R + 16`, and its request is
`46 49 4E 53`, the big-endian 32-bit number `L + 8`, `00 00 00 02`,
`00 00 00 00`, followed by the `L` bytes of the UDP request. -/
theorem tcp_request_wraps_udp_request (h : Host) (pu pt : drvPvt) (c : BuildCall)
    (p' : drvPvt) (L R : Nat) (hs : 16 ≤ h.sizeBits) (hu : pu.type = FINS_UDP_type)
    (ht : pt = pu.setType FINS_TCP_type) (hlen : pu.message.length = FINS_MAX_MSG)
    (hrun : c.run h pu = BuildResult.ok p' L R)
    (hL : L + 16 ≤ FINS_MAX_MSG) (hR : R + 16 < 2 ^ h.sizeBits) :
    ∃ p'', c.run h pt = BuildResult.ok p'' (L + 16) (R + 16) ∧
      p''.message.take (L + 16)
        = [0x46, 0x49, 0x4E, 0x53, (L + 8) / 16777216 % 256, (L + 8) / 65536 % 256,
            (L + 8) / 256 % 256, (L + 8) % 256, 0x00, 0x00, 0x00, 0x02, 0x00, 0x00, 0x00, 0x00]
          ++ p'.message.take L := by
  obtain ⟨q, s0, r0, hf, hty, hsid, hl, hall⟩ := run_ok h pu c p' L R hrun
  have hqu : q.type ≠ FINS_TCP_type := by rw [hty, hu]; decide
  rw [finishMessage_udp h q s0 r0 hqu] at hf
  simp only [BuildResult.ok.injEq] at hf
  obtain ⟨rfl, rfl, rfl⟩ := hf
  have hM : FINS_MAX_MSG = 2000 := rfl
  rw [hM] at hL
  obtain ⟨p'', h1, -, -, -, -, -, -, -, h4⟩ := finishMessage_tcp_message h
    (q.setType FINS_TCP_type) s0 r0 rfl (by simpa [hl] using hlen)
  have e1 : sizeT h (s0 + FINS_SEND_FRAME_SIZE) = s0 + 16 :=
    sizeT_small h hs _ (by simp only [FINS_SEND_FRAME_SIZE]; omega)
  have e2 : sizeT h (r0 + FINS_SEND_FRAME_SIZE) = r0 + 16 := Nat.mod_eq_of_lt hR
  have e3 : sizeT h (s0 + 8) = s0 + 8 := sizeT_small h hs _ (by omega)
  rw [e1, e2] at h1
  rw [e3] at h4
  refine ⟨p'', ?_, ?_⟩
  · rw [ht, hall, h1]
  · rw [h4]
    simp only [setType_message, setType_mrc, setType_src, setType_sid, setMessage_message]
    have e4 : s0 + 16 = ([0x46, 0x49, 0x4E, 0x53, (s0 + 8) / 16777216 % 256,
        (s0 + 8) / 65536 % 256, (s0 + 8) / 256 % 256, (s0 + 8) % 256, 0x00, 0x00, 0x00, 0x02,
        0x00, 0x00, 0x00, 0x00] : List Nat).length + s0 := by
      simp only [List.length_cons, List.length_nil]; omega
    rw [e4, List.take_append, List.take_take]
    congr 2
    simp only [FINS_MAX_MSG, FINS_MAX_UDP_WORDS, FINS_SEND_FRAME_SIZE]
    omega

/-- C10 at a sample session: a Data-Memory read of 2 words at address 100,
18 bytes on UDP and 34 bytes on TCP. -/
theorem tcp_request_wraps_udp_request_witness :
    ∃ p' p'', (BuildCall.read [] FINS_DM_READ 100 2).run hostLE (session0 FINS_UDP_type)
        = BuildResult.ok p' 18 18 ∧
      (BuildCall.read [] FINS_DM_READ 100 2).run hostLE
        ((session0 FINS_UDP_type).setType FINS_TCP_type) = BuildResult.ok p'' (18 + 16) (18 + 16) ∧
      p''.message.take (18 + 16)
        = [0x46, 0x49, 0x4E, 0x53, (18 + 8) / 16777216 % 256, (18 + 8) / 65536 % 256,
            (18 + 8) / 256 % 256, (18 + 8) % 256, 0x00, 0x00, 0x00, 0x02, 0x00, 0x00, 0x00, 0x00]
          ++ p'.message.take 18 := by
  obtain ⟨p', hrun⟩ := run_read_DM_sample
  obtain ⟨p'', h1, h2⟩ := tcp_request_wraps_udp_request hostLE (session0 FINS_UDP_type)
    ((session0 FINS_UDP_type).setType FINS_TCP_type) (BuildCall.read [] FINS_DM_READ 100 2)
    p' 18 18 (by decide) rfl rfl (session0_length _) hrun (by decide)
    (by show 18 + 16 < 2 ^ 64; norm_num)
  exact ⟨p', p'', hrun, h1, h2⟩


/-- C2: after a validated reply to a 16-bit memory read of `n` elements (the
exchange took place, so `n ≥ 1`, and `finsRead` returned 0), element `i` of
the caller's array is `256 * reply[14+2i] + reply[15+2i]`, for a caller's
element size of 2 as for one of 4 (one element per wire word, below 65536, so
that a 32-bit element is the zero-extended word), and `n` elements are
reported. -/
theorem finsRead_mem16_values (h : Host) (tr : Transport) (mmList : List MultiMemArea)
    (p : drvPvt) (log : List IOEvent) (r : FINS_COMMANDS) (data : List Nat)
    (n a t asz : Nat) (res : ReadResult)
    (hr : r ∈ [FINS_DM_READ, FINS_AR_READ, FINS_IO_READ, FINS_WR_READ, FINS_HR_READ])
    (hasz : asz = 2 ∨ asz = 4) (hn : 1 ≤ n) (hd : data.length = n)
    (hres : finsRead h tr mmList p log r data n a t asz = some res) (hret : res.ret = 0) :
    CheckData res.pvt = 0 ∧
    res.data = (List.range n).map (fun i =>
      256 * getByte res.pvt.message (14 + 2 * i) + getByte res.pvt.message (15 + 2 * i)) ∧
    (∀ v ∈ res.data, v < 65536) ∧ res.transferred = n := by
  obtain ⟨h1, h2, h3⟩ := finsRead_ret0 h tr mmList p log r data n a t asz res hn hres hret
  have hr' : r ∈ [FINS_DM_READ, FINS_AR_READ, FINS_IO_READ, FINS_WR_READ, FINS_HR_READ,
      FINS_DM_WRITE, FINS_AR_WRITE, FINS_IO_WRITE] := by
    simp only [List.mem_cons, List.mem_singleton, List.not_mem_nil, or_false] at hr ⊢
    tauto
  rw [extractData_mem16 h _ r data n asz hr', assignLoop_eq_map _ _ _ hd,
    Option.some.injEq] at h2
  have e : res.data = (List.range n).map (fun i =>
      256 * getByte res.pvt.message (14 + 2 * i) + getByte res.pvt.message (15 + 2 * i)) := by
    rw [← h2]
    apply List.map_congr_left
    intro i _
    have : 14 + 2 * i + 1 = 15 + 2 * i := by omega
    rw [this]
  refine ⟨h1, e, ?_, h3⟩
  intro v hv
  rw [e, List.mem_map] at hv
  obtain ⟨i, -, rfl⟩ := hv
  have b0 := getByte_lt res.pvt.message (14 + 2 * i)
  have b1 := getByte_lt res.pvt.message (15 + 2 * i)
  omega

/-- C2, the scenario of the specification: the payload `12 34 56 78` of a
reply with response code 00 00 decodes to `[0x1234, 0x5678]`. -/
theorem finsRead_mem16_values_witness :
    ∃ res, finsRead hostLE (replyTransport (replyHeader ++ [0x12, 0x34, 0x56, 0x78])) []
        (session0 FINS_UDP_type) [] FINS_DM_READ [0, 0] 2 100 0 2 = some res ∧
      res.ret = 0 ∧ res.data = [0x1234, 0x5678] ∧ res.transferred = 2 := by
  obtain ⟨res, hres, hret, hb⟩ := sample_read hostLE (by decide) FINS_DM_READ (by simp)
    [0x12, 0x34, 0x56, 0x78] [0, 0] 2 100 0 2 (by decide) (by decide) (by decide)
  obtain ⟨-, h2, -, h4⟩ := finsRead_mem16_values hostLE _ [] (session0 FINS_UDP_type) []
    FINS_DM_READ [0, 0] 2 100 0 2 res (by simp) (Or.inl rfl) (by decide) rfl hres hret
  refine ⟨res, hres, hret, ?_, h4⟩
  rw [h2]
  have b0 := hb 0 (by decide)
  have b1 := hb 1 (by decide)
  have b2 := hb 2 (by decide)
  have b3 := hb 3 (by decide)
  simp only [List.range_succ, List.range_zero, List.nil_append, List.cons_append,
    List.map_cons, List.map_nil, Nat.mul_zero, Nat.mul_one, Nat.add_zero] at b0 b1 b2 b3 ⊢
  rw [b0, b1, b2, b3]
  decide

/-- C4 fails for a request of no elements: on the sample session a
Data-Memory read of 0 elements would build (18 and 14 bytes), yet `finsRead`
returns success on a transport whose every `writeRead` fails, without any
call to the transport. -/
theorem finsRead_zero_elements_no_exchange :
    (∃ p', BuildReadMessage hostLE [] (session0 FINS_UDP_type) FINS_DM_READ 100 0
      = BuildResult.ok p' 18 14) ∧
    (deadTransport [] [] 18 14).status ≠ asynSuccess ∧
    finsRead hostLE deadTransport [] (session0 FINS_UDP_type) [] FINS_DM_READ [] 0 100 0 2
      = some ⟨0, session0 FINS_UDP_type, [], [], 0⟩ := by
  refine ⟨?_, by decide, ?_⟩
  · obtain ⟨p', R, hb, -, -, -, -, -, -, -, hR⟩ := BuildReadMessage_mem_udp hostLE []
      (session0 FINS_UDP_type) FINS_DM_READ 100 0 (by decide) (by simp)
    have : R = 14 := by rw [hR]; decide
    rw [this] at hb
    exact ⟨p', hb⟩
  · simp [finsRead]

/-- C4 as amended: on a UDP session or a registered TCP session, for at least
one element and a request that builds with lengths `S` and `R`, `finsRead`
makes exactly one `writeRead` (followed at most by a disconnect request) and
returns 0 exactly when the status is `asynSuccess`, `S` bytes were sent, `R`
bytes were received, on TCP the error word of the FINS/TCP header is 0, and
`CheckData` accepts the frame left after the header is removed; otherwise it
returns -1.  For no elements it returns 0 at once, with the driver state, the
log and the caller's array as they were. -/
theorem finsRead_success_iff (h : Host) (tr : Transport) (mmList : List MultiMemArea)
    (p : drvPvt) (log : List IOEvent) (r : FINS_COMMANDS) (data : List Nat)
    (n a t asz : Nat) (p' : drvPvt) (S R : Nat)
    (hreg : p.type = FINS_UDP_type ∨ (p.type = FINS_TCP_type ∧ p.nodevalid = 1))
    (hb : BuildReadMessage h mmList p r (a % 65536) n = BuildResult.ok p' S R) :
    (1 ≤ n → ∃ res, finsRead h tr mmList p log r data n a t asz = some res ∧
      (∃ tail, res.log = log ++ IOEvent.writeRead (p'.message.take S) S R :: tail ∧
        (tail = [] ∨ tail = [IOEvent.disconnectDevice]) ∧ (res.ret = 0 → tail = [])) ∧
      (res.ret = 0 ∨ res.ret = -1) ∧
      ∀ rr m1 frame, rr = tr log (p'.message.take S) S R →
        m1 = receive p'.message (rr.reply.take R) →
        frame = (if p.type = FINS_TCP_type then
          m1.drop FINS_SEND_FRAME_SIZE ++ m1.drop (FINS_MAX_MSG - FINS_SEND_FRAME_SIZE)
          else m1) →
        (res.ret = 0 ↔ rr.status = asynSuccess ∧ rr.sentlen = S ∧ rr.recdlen = R ∧
          (p.type = FINS_TCP_type →
            BSWAP32 h (load32 h m1 (4 * FINS_MODE_ERROR)) = FINS_ERROR_NORMAL) ∧
          CheckData (p'.setMessage frame) = 0)) ∧
    (n = 0 → finsRead h tr mmList p log r data n a t asz = some ⟨0, p, log, data, t⟩) := by
  refine ⟨fun hn => ?_, fun h0 => by subst h0; simp [finsRead]⟩
  have hreg' : ¬ (p.type = FINS_TCP_type ∧ p.nodevalid ≠ 1) := by
    rcases hreg with hu | ⟨-, hv⟩
    · rw [hu]; simp
    · simp [hv]
  have hfin := finsRead_no_handshake h tr mmList p log r data n a t asz p' S R hn hreg' hb
  have hex := BuildReadMessage_extract h mmList p r _ n p' S R hb
  obtain ⟨hiff, -, hlog⟩ := readExchange_iff h tr p' log r data n t asz S R
    (fun m => hex m data asz)
  have hty : p'.type = p.type := by
    obtain ⟨q, s0, r0, hf, hq, -, -, -⟩ := run_ok h p
      (BuildCall.read mmList r (a % 65536) n) p' S R hb
    rw [finishMessage_type h q s0 r0 p' S R hf, hq]
  refine ⟨_, hfin, hlog, (readExchange_ret _ _ _ _ _ _ _ _ _ _ _).1, ?_⟩
  intro rr m1 frame hrr hm1 hframe
  subst hrr hm1 hframe
  rw [hiff, hty]

/-- C4 as amended at the sample session: a Data-Memory read of 2 words
answered by the sample reply. -/
theorem finsRead_success_iff_witness :
    ∃ p' res, BuildReadMessage hostLE [] (session0 FINS_UDP_type) FINS_DM_READ (100 % 65536) 2
        = BuildResult.ok p' 18 18 ∧
      finsRead hostLE (replyTransport (replyHeader ++ [0x12, 0x34, 0x56, 0x78])) []
        (session0 FINS_UDP_type) [] FINS_DM_READ [0, 0] 2 100 0 2 = some res ∧
      res.log = [IOEvent.writeRead (p'.message.take 18) 18 18] ∧ res.ret = 0 := by
  obtain ⟨p', R, hb, -, -, -, -, -, -, -, hR⟩ := BuildReadMessage_mem_udp hostLE []
    (session0 FINS_UDP_type) FINS_DM_READ (100 % 65536) 2 (by decide) (by simp)
  have hR18 : R = 18 := by rw [hR]; decide
  rw [hR18] at hb
  obtain ⟨res, hres, ⟨tail, hlog, -, htail⟩, -, -⟩ := finsRead_success_iff hostLE
    (replyTransport (replyHeader ++ [0x12, 0x34, 0x56, 0x78])) [] (session0 FINS_UDP_type) []
    FINS_DM_READ [0, 0] 2 100 0 2 p' 18 18 (Or.inl rfl) hb |>.1 (by decide)
  obtain ⟨res', hres', hret', -⟩ := sample_read hostLE (by decide) FINS_DM_READ (by simp)
    [0x12, 0x34, 0x56, 0x78] [0, 0] 2 100 0 2 (by decide) (by decide) (by decide)
  rw [hres] at hres'
  simp only [Option.some.injEq] at hres'
  subst hres'
  refine ⟨p', res, hb, hres, ?_, hret'⟩
  rw [hlog, htail hret']
  rfl


/-- What a successful 32-bit memory read of at least one element leaves in
the caller's array, on every host. -/
theorem finsRead_mem32_data (h : Host) (tr : Transport) (mmList : List MultiMemArea)
    (p : drvPvt) (log : List IOEvent) (r : FINS_COMMANDS) (data : List Nat)
    (n a t asz : Nat) (res : ReadResult)
    (hr : r ∈ [FINS_DM_READ_32, FINS_AR_READ_32, FINS_IO_READ_32])
    (hn : 1 ≤ n) (hd : data.length = n)
    (hres : finsRead h tr mmList p log r data n a t asz = some res) (hret : res.ret = 0) :
    CheckData res.pvt = 0 ∧
    res.data = (List.range n).map (fun i =>
      16777216 * getByte res.pvt.message (14 + 4 * i + 2)
        + 65536 * getByte res.pvt.message (14 + 4 * i + 3)
        + 256 * getByte res.pvt.message (14 + 4 * i)
        + getByte res.pvt.message (14 + 4 * i + 1)) ∧
    res.transferred = n := by
  obtain ⟨h1, h2, h3⟩ := finsRead_ret0 h tr mmList p log r data n a t asz res hn hres hret
  have hr' : r ∈ [FINS_DM_READ_32, FINS_AR_READ_32, FINS_IO_READ_32, FINS_DM_WRITE_32,
      FINS_AR_WRITE_32, FINS_IO_WRITE_32] := by
    simp only [List.mem_cons, List.mem_singleton, List.not_mem_nil, or_false] at hr ⊢
    tauto
  rw [extractData_mem32 h _ r data n asz hr', assignLoop_eq_map _ _ _ hd,
    Option.some.injEq] at h2
  exact ⟨h1, h2.symm, h3⟩

/-- A successful `finsRead` of no elements leaves the caller's array alone. -/
theorem finsRead_zero (h : Host) (tr : Transport) (mmList : List MultiMemArea)
    (p : drvPvt) (log : List IOEvent) (r : FINS_COMMANDS) (data : List Nat)
    (a t asz : Nat) (res : ReadResult)
    (hres : finsRead h tr mmList p log r data 0 a t asz = some res) : res.data = data := by
  simp only [finsRead, Nat.lt_one_iff, if_true, Option.some.injEq] at hres
  rw [← hres]

/-- A list of `n` values equals the list of its `n` elements. -/
theorem map_range_eq (vs : List Nat) (f : Nat → Nat)
    (hf : ∀ i, i < vs.length → f i = vs.getD i 0) : (List.range vs.length).map f = vs := by
  apply List.ext_getElem?
  intro i
  by_cases hi : i < vs.length
  · rw [List.getElem?_map, List.getElem?_range hi, Option.map_some', hf i hi,
      List.getD_eq_getElem?_getD, List.getElem?_eq_getElem hi]
    rfl
  · rw [List.getElem?_eq_none (by simpa using hi), List.getElem?_eq_none (by simpa using hi)]

theorem getD_lt (vs : List Nat) (b : Nat) (hv : ∀ v ∈ vs, v < b) (i : Nat)
    (hi : i < vs.length) : vs.getD i 0 < b := by
  rw [List.getD_eq_getElem?_getD, List.getElem?_eq_getElem hi]
  exact hv _ (List.getElem_mem hi)

/-- C5: round trip of memory values. Let `w` be 2 with a 16-bit memory write
and a 16-bit memory read command, or 4 with a 32-bit memory write and a 32-bit
memory read command, `vs` values of `w` bytes within the transport limit, and
let the data block `BuildWriteMessage` places from request byte 18 on be the
payload (bytes 14 on) of the reply a successful `finsRead` of as many elements
has validated: the values `finsRead` returns are exactly `vs`. `BSWAP16` and
`WSWAP32` are involutions on 16-bit and 32-bit words. -/
theorem memory_round_trip (h : Host) (hs : 16 ≤ h.sizeBits) (tr : Transport)
    (mmList : List MultiMemArea) (pw pr pw' : drvPvt) (log : List IOEvent)
    (wr rr : FINS_COMMANDS) (vs data : List Nat) (w a a' t S R : Nat) (res : ReadResult)
    (hu : pw.type ≠ FINS_TCP_type) (hlen : pw.message.length = FINS_MAX_MSG)
    (hcase : (w = 2 ∧
        wr ∈ [FINS_DM_WRITE, FINS_DM_WRITE_NOREAD, FINS_AR_WRITE, FINS_AR_WRITE_NOREAD,
          FINS_IO_WRITE, FINS_IO_WRITE_NOREAD] ∧
        rr ∈ [FINS_DM_READ, FINS_AR_READ, FINS_IO_READ, FINS_WR_READ, FINS_HR_READ]) ∨
      (w = 4 ∧
        wr ∈ [FINS_DM_WRITE_32, FINS_DM_WRITE_32_NOREAD, FINS_AR_WRITE_32,
          FINS_AR_WRITE_32_NOREAD, FINS_IO_WRITE_32, FINS_IO_WRITE_32_NOREAD] ∧
        rr ∈ [FINS_DM_READ_32, FINS_AR_READ_32, FINS_IO_READ_32]))
    (hv : ∀ v ∈ vs, v < 2 ^ (8 * w)) (hn : w / 2 * vs.length ≤ FINS_MAX_UDP_WORDS)
    (hb : BuildWriteMessage h pw wr a vs.length w vs = BuildResult.ok pw' S R)
    (hd : data.length = vs.length)
    (hres : finsRead h tr mmList pr log rr data vs.length a' t w = some res)
    (hret : res.ret = 0)
    (hpay : ∀ j, j < w * vs.length →
      getByte res.pvt.message (14 + j) = getByte pw'.message (18 + j)) :
    res.data = vs ∧ S = 18 + w * vs.length ∧
    (∀ v, v < 65536 → BSWAP16 h (BSWAP16 h v) = v) ∧
    (∀ v, v < 4294967296 → WSWAP32 h (WSWAP32 h v) = v) := by
  refine ⟨?_, ?_, BSWAP16_BSWAP16 h, WSWAP32_WSWAP32 h⟩
  · rcases Nat.eq_zero_or_pos vs.length with h0 | hpos
    · rw [h0] at hres
      rw [finsRead_zero h tr mmList pr log rr data a' t w res hres]
      rw [h0] at hd
      rw [List.length_eq_zero.1 hd, List.length_eq_zero.1 h0]
    · rcases hcase with ⟨rfl, hwr, hrr⟩ | ⟨rfl, hwr, hrr⟩
      · obtain ⟨q, hq, hbytes⟩ := BuildWriteMessage_mem16_udp h hs pw wr a vs.length vs hu hlen
          (by simpa [FINS_MAX_UDP_WORDS] using hn) hwr
        rw [hb, BuildResult.ok.injEq] at hq
        obtain ⟨rfl, -, -⟩ := hq
        obtain ⟨-, h2, -⟩ := finsRead_ret0 h tr mmList pr log rr data vs.length a' t 2 res
          hpos hres hret
        have hr' : rr ∈ [FINS_DM_READ, FINS_AR_READ, FINS_IO_READ, FINS_WR_READ,
            FINS_HR_READ, FINS_DM_WRITE, FINS_AR_WRITE, FINS_IO_WRITE] := by
          simp only [List.mem_cons, List.mem_singleton, List.not_mem_nil, or_false] at hrr ⊢
          tauto
        rw [extractData_mem16 h _ rr data vs.length 2 hr', assignLoop_eq_map _ _ _ hd,
          Option.some.injEq] at h2
        rw [← h2]
        apply map_range_eq
        intro i hi
        have hvi := getD_lt vs _ hv i hi
        obtain ⟨c0, c1⟩ := hbytes i hi
        have p0 := hpay (2 * i) (by omega)
        have p1 := hpay (2 * i + 1) (by omega)
        simp only [] at hvi ⊢
        rw [show 14 + 2 * i + 1 = 14 + (2 * i + 1) by omega, p0, p1,
          show 18 + (2 * i + 1) = 18 + 2 * i + 1 by omega, c0, c1]
        norm_num at hvi ⊢
        omega
      · obtain ⟨q, hq, hbytes⟩ := BuildWriteMessage_mem32_udp h hs pw wr a vs.length 4 vs hu hlen
          (by simpa [FINS_MAX_UDP_WORDS] using hn) hwr
        rw [hb, BuildResult.ok.injEq] at hq
        obtain ⟨rfl, -, -⟩ := hq
        obtain ⟨-, h2, -⟩ := finsRead_mem32_data h tr mmList pr log rr data vs.length a' t 4 res
          hrr hpos hd hres hret
        rw [h2]
        apply map_range_eq
        intro i hi
        have hvi := getD_lt vs _ hv i hi
        obtain ⟨c0, c1, c2, c3⟩ := hbytes i hi
        have p0 := hpay (4 * i) (by omega)
        have p1 := hpay (4 * i + 1) (by omega)
        have p2 := hpay (4 * i + 2) (by omega)
        have p3 := hpay (4 * i + 3) (by omega)
        simp only [] at hvi ⊢
        rw [show 14 + 4 * i + 1 = 14 + (4 * i + 1) by omega,
          show 14 + 4 * i + 2 = 14 + (4 * i + 2) by omega,
          show 14 + 4 * i + 3 = 14 + (4 * i + 3) by omega, p0, p1, p2, p3,
          show 18 + (4 * i + 1) = 18 + 4 * i + 1 by omega,
          show 18 + (4 * i + 2) = 18 + 4 * i + 2 by omega,
          show 18 + (4 * i + 3) = 18 + 4 * i + 3 by omega, c0, c1, c2, c3]
        norm_num at hvi ⊢
        omega
  · rcases hcase with ⟨rfl, hwr, -⟩ | ⟨rfl, hwr, -⟩
    · obtain ⟨q, hq, -⟩ := BuildWriteMessage_mem16_udp h hs pw wr a vs.length vs hu hlen
        (by simpa [FINS_MAX_UDP_WORDS] using hn) hwr
      rw [hb, BuildResult.ok.injEq] at hq
      exact hq.2.1
    · obtain ⟨q, hq, -⟩ := BuildWriteMessage_mem32_udp h hs pw wr a vs.length 4 vs hu hlen
        (by simpa [FINS_MAX_UDP_WORDS] using hn) hwr
      rw [hb, BuildResult.ok.injEq] at hq
      exact hq.2.1


/-- C5 at the sample session, on a little-endian host: the words
`0x1234, 0x5678` written with `FINS_DM_WRITE` and read back with
`FINS_DM_READ`, and the value `0x11223344` written with `FINS_DM_WRITE_32`
and read back with `FINS_DM_READ_32`. -/
theorem memory_round_trip_witness :
    (∃ pw' res, BuildWriteMessage hostLE (session0 FINS_UDP_type) FINS_DM_WRITE 100 2 2
        [0x1234, 0x5678] = BuildResult.ok pw' 22 14 ∧
      finsRead hostLE (replyTransport (replyHeader ++ [0x12, 0x34, 0x56, 0x78])) []
        (session0 FINS_UDP_type) [] FINS_DM_READ [0, 0] 2 100 0 2 = some res ∧
      res.ret = 0 ∧ res.data = [0x1234, 0x5678]) ∧
    (∃ pw' res, BuildWriteMessage hostLE (session0 FINS_UDP_type) FINS_DM_WRITE_32 100 1 4
        [0x11223344] = BuildResult.ok pw' 22 14 ∧
      finsRead hostLE (replyTransport (replyHeader ++ [0x33, 0x44, 0x11, 0x22])) []
        (session0 FINS_UDP_type) [] FINS_DM_READ_32 [0] 1 100 0 4 = some res ∧
      res.ret = 0 ∧ res.data = [0x11223344]) := by
  constructor
  · obtain ⟨pw', hb, hbytes⟩ := BuildWriteMessage_mem16_udp hostLE (by decide)
      (session0 FINS_UDP_type) FINS_DM_WRITE 100 2 [0x1234, 0x5678] (by decide)
      (session0_length _) (by decide) (by simp)
    obtain ⟨res, hres, hret, hp⟩ := sample_read hostLE (by decide) FINS_DM_READ (by simp)
      [0x12, 0x34, 0x56, 0x78] [0, 0] 2 100 0 2 (by decide) (by decide) (by decide)
    refine ⟨pw', res, hb, hres, hret, ?_⟩
    refine (memory_round_trip hostLE (by decide) _ [] (session0 FINS_UDP_type)
      (session0 FINS_UDP_type) pw' [] FINS_DM_WRITE FINS_DM_READ [0x1234, 0x5678] [0, 0] 2
      100 100 0 22 14 res (by decide) (session0_length _)
      (Or.inl ⟨rfl, by simp, by simp⟩) (by simp) (by decide) hb rfl hres hret ?_).1
    intro j hj
    have hj4 : j < 4 := hj
    obtain ⟨a0, a1⟩ := hbytes 0 (by decide)
    obtain ⟨a2, a3⟩ := hbytes 1 (by decide)
    have q0 := hp 0 (by decide)
    have q1 := hp 1 (by decide)
    have q2 := hp 2 (by decide)
    have q3 := hp 3 (by decide)
    interval_cases j
    · rw [q0]; exact a0.symm
    · rw [q1]; exact a1.symm
    · rw [q2]; exact a2.symm
    · rw [q3]; exact a3.symm
  · obtain ⟨pw', hb, hbytes⟩ := BuildWriteMessage_mem32_udp hostLE (by decide)
      (session0 FINS_UDP_type) FINS_DM_WRITE_32 100 1 4 [0x11223344] (by decide)
      (session0_length _) (by decide) (by simp)
    obtain ⟨res, hres, hret, hp⟩ := sample_read hostLE (by decide) FINS_DM_READ_32 (by simp)
      [0x33, 0x44, 0x11, 0x22] [0] 1 100 0 4 (by decide) (by decide) (by decide)
    refine ⟨pw', res, hb, hres, hret, ?_⟩
    refine (memory_round_trip hostLE (by decide) _ [] (session0 FINS_UDP_type)
      (session0 FINS_UDP_type) pw' [] FINS_DM_WRITE_32 FINS_DM_READ_32 [0x11223344] [0] 4
      100 100 0 22 14 res (by decide) (session0_length _)
      (Or.inr ⟨rfl, by simp, by simp⟩) (by simp) (by decide) hb rfl hres hret ?_).1
    intro j hj
    have hj4 : j < 4 := hj
    obtain ⟨a0, a1, a2, a3⟩ := hbytes 0 (by decide)
    have q0 := hp 0 (by decide)
    have q1 := hp 1 (by decide)
    have q2 := hp 2 (by decide)
    have q3 := hp 3 (by decide)
    interval_cases j
    · rw [q0]; exact a0.symm
    · rw [q1]; exact a1.symm
    · rw [q2]; exact a2.symm
    · rw [q3]; exact a3.symm

/-- C6 fails on a big-endian host: there the payload `11 22 33 44` of a
validated reply to a one-element `FINS_DM_READ_32` is returned as
`0x33441122`, the halves of the big-endian word `0x11223344` exchanged, not
as that word itself. -/
theorem finsRead_mem32_big_endian_exchanges_halves :
    hostBE.EPICS_BYTE_ORDER = EPICS_ENDIAN_BIG ∧
    ∃ res, finsRead hostBE (replyTransport (replyHeader ++ [0x11, 0x22, 0x33, 0x44])) []
        (session0 FINS_UDP_type) [] FINS_DM_READ_32 [0] 1 100 0 4 = some res ∧
      res.ret = 0 ∧ res.data = [0x33441122] ∧ res.data ≠ [0x11223344] := by
  refine ⟨rfl, ?_⟩
  obtain ⟨res, hres, hret, hp⟩ := sample_read hostBE (by decide) FINS_DM_READ_32 (by simp)
    [0x11, 0x22, 0x33, 0x44] [0] 1 100 0 4 (by decide) (by decide) (by decide)
  obtain ⟨-, h2, -⟩ := finsRead_mem32_data hostBE _ [] (session0 FINS_UDP_type) []
    FINS_DM_READ_32 [0] 1 100 0 4 res (by simp) (by decide) rfl hres hret
  have q0 := hp 0 (by decide)
  have q1 := hp 1 (by decide)
  have q2 := hp 2 (by decide)
  have q3 := hp 3 (by decide)
  have e : res.data = [0x33441122] := by
    rw [h2]
    simp only [List.range_succ, List.range_zero, List.nil_append, List.map_cons, List.map_nil,
      Nat.mul_zero, Nat.add_zero] at q0 q1 q2 q3 ⊢
    rw [q0, q1, q2, q3]
    decide
  refine ⟨res, hres, hret, e, ?_⟩
  rw [e]
  decide

/-- C6 as amended: on every host, little-endian or big-endian, element `i` of
a validated reply to a 32-bit memory read, whose payload bytes are
`b0 b1 b2 b3` (at reply bytes `14+4i` to `17+4i`), is returned as the value
`b2 b3 b0 b1`: the two 16-bit halves of the big-endian word `B = b0 b1 b2 b3`
exchanged, each half keeping its byte order (so `B mod 65536` becomes the high
half and `B / 65536` the low half); `n` elements are reported. -/
theorem finsRead_mem32_values (h : Host) (tr : Transport) (mmList : List MultiMemArea)
    (p : drvPvt) (log : List IOEvent) (r : FINS_COMMANDS) (data : List Nat)
    (n a t asz : Nat) (res : ReadResult)
    (hr : r ∈ [FINS_DM_READ_32, FINS_AR_READ_32, FINS_IO_READ_32])
    (hn : 1 ≤ n) (hd : data.length = n)
    (hres : finsRead h tr mmList p log r data n a t asz = some res) (hret : res.ret = 0) :
    res.data.length = n ∧ res.transferred = n ∧
    ∀ i, i < n → ∀ b0 b1 b2 b3 B,
      b0 = getByte res.pvt.message (14 + 4 * i) →
      b1 = getByte res.pvt.message (15 + 4 * i) →
      b2 = getByte res.pvt.message (16 + 4 * i) →
      b3 = getByte res.pvt.message (17 + 4 * i) →
      B = 16777216 * b0 + 65536 * b1 + 256 * b2 + b3 →
      res.data.getD i 0 = 16777216 * b2 + 65536 * b3 + 256 * b0 + b1 ∧
      res.data.getD i 0 = 65536 * (B % 65536) + B / 65536 := by
  obtain ⟨-, h2, h3⟩ := finsRead_mem32_data h tr mmList p log r data n a t asz res hr hn hd
    hres hret
  refine ⟨by rw [h2]; simp, h3, ?_⟩
  intro i hi b0 b1 b2 b3 B e0 e1 e2 e3 eB
  have l0 : b0 < 256 := e0 ▸ getByte_lt res.pvt.message (14 + 4 * i)
  have l1 : b1 < 256 := e1 ▸ getByte_lt res.pvt.message (15 + 4 * i)
  have l2 : b2 < 256 := e2 ▸ getByte_lt res.pvt.message (16 + 4 * i)
  have l3 : b3 < 256 := e3 ▸ getByte_lt res.pvt.message (17 + 4 * i)
  have e : res.data.getD i 0 = 16777216 * b2 + 65536 * b3 + 256 * b0 + b1 := by
    rw [h2, List.getD_eq_getElem?_getD, List.getElem?_map, List.getElem?_range hi]
    simp only [Option.map_some', Option.getD_some]
    rw [e0, e1, e2, e3, show 14 + 4 * i + 2 = 16 + 4 * i by omega,
      show 14 + 4 * i + 3 = 17 + 4 * i by omega, show 14 + 4 * i + 1 = 15 + 4 * i by omega]
  refine ⟨e, ?_⟩
  rw [e, eB]
  omega

/-- C6 as amended, on the big-endian sample host: the payload `11 22 33 44`
is returned as `0x33441122`. -/
theorem finsRead_mem32_values_witness :
    ∃ res, finsRead hostBE (replyTransport (replyHeader ++ [0x11, 0x22, 0x33, 0x44])) []
        (session0 FINS_UDP_type) [] FINS_DM_READ_32 [0] 1 100 0 4 = some res ∧
      res.ret = 0 ∧ res.data.getD 0 0 = 0x33441122 ∧ res.data.length = 1 := by
  obtain ⟨res, hres, hret, hp⟩ := sample_read hostBE (by decide) FINS_DM_READ_32 (by simp)
    [0x11, 0x22, 0x33, 0x44] [0] 1 100 0 4 (by decide) (by decide) (by decide)
  obtain ⟨h1, -, h3⟩ := finsRead_mem32_values hostBE _ [] (session0 FINS_UDP_type) []
    FINS_DM_READ_32 [0] 1 100 0 4 res (by simp) (by decide) rfl hres hret
  refine ⟨res, hres, hret, ?_, h1⟩
  rw [(h3 0 (by decide) _ _ _ _ _ rfl rfl rfl rfl rfl).1]
  have q0 := hp 0 (by decide)
  have q1 := hp 1 (by decide)
  have q2 := hp 2 (by decide)
  have q3 := hp 3 (by decide)
  simp only [Nat.mul_zero, Nat.add_zero] at q0 q1 q2 q3 ⊢
  rw [q0, q1, q2, q3]
  decide


/-- C7: the 32-bit paths do not depend on the host. For two hosts `h1` and
`h2` (one may be little-endian and the other big-endian), a session that is
not TCP and `n` values below `2 ^ 32` within the transport limit, the 32-bit
write commands build on both hosts a request of `18 + 4n` bytes in which the
value `v` of element `i` occupies bytes `18+4i` to `21+4i` as the low 16-bit
half of `v` big-endian followed by the high half big-endian; storing
`WSWAP32(v)` gives the same bytes on both hosts, and the 32-bit read path
returns the same values from the same reply on both hosts. -/
theorem wswap32_host_independent (h1 h2 : Host) (hs1 : 16 ≤ h1.sizeBits)
    (hs2 : 16 ≤ h2.sizeBits) (p : drvPvt) (r : FINS_COMMANDS) (a n asz : Nat)
    (vs : List Nat) (hu : p.type ≠ FINS_TCP_type) (hlen : p.message.length = FINS_MAX_MSG)
    (hn : 2 * n ≤ FINS_MAX_UDP_WORDS) (hvl : vs.length = n) (hv : ∀ v ∈ vs, v < 2 ^ 32)
    (hr : r ∈ [FINS_DM_WRITE_32, FINS_DM_WRITE_32_NOREAD, FINS_AR_WRITE_32,
      FINS_AR_WRITE_32_NOREAD, FINS_IO_WRITE_32, FINS_IO_WRITE_32_NOREAD]) :
    (∃ p1 p2, BuildWriteMessage h1 p r a n asz vs = BuildResult.ok p1 (18 + 4 * n) 14 ∧
      BuildWriteMessage h2 p r a n asz vs = BuildResult.ok p2 (18 + 4 * n) 14 ∧
      ∀ i, i < n → ∀ v, v = vs.getD i 0 →
        [getByte p1.message (18 + 4 * i), getByte p1.message (19 + 4 * i),
          getByte p1.message (20 + 4 * i), getByte p1.message (21 + 4 * i)]
          = [v % 65536 / 256, v % 256, v / 16777216, v / 65536 % 256] ∧
        [getByte p2.message (18 + 4 * i), getByte p2.message (19 + 4 * i),
          getByte p2.message (20 + 4 * i), getByte p2.message (21 + 4 * i)]
          = [v % 65536 / 256, v % 256, v / 16777216, v / 65536 % 256]) ∧
    (∀ m off v, v < 2 ^ 32 → store32 h1 m off (WSWAP32 h1 v) = store32 h2 m off (WSWAP32 h2 v)) ∧
    (∀ m off, WSWAP32 h1 (load32 h1 m off) % 2 ^ 32 = WSWAP32 h2 (load32 h2 m off) % 2 ^ 32) ∧
    (∀ m rr data k asz', rr ∈ [FINS_DM_READ_32, FINS_AR_READ_32, FINS_IO_READ_32] →
      extractData h1 m rr data k asz' = extractData h2 m rr data k asz') := by
  refine ⟨?_, ?_, ?_, ?_⟩
  · obtain ⟨p1, hb1, hy1⟩ := BuildWriteMessage_mem32_udp h1 hs1 p r a n asz vs hu hlen
      (by simpa [FINS_MAX_UDP_WORDS] using hn) hr
    obtain ⟨p2, hb2, hy2⟩ := BuildWriteMessage_mem32_udp h2 hs2 p r a n asz vs hu hlen
      (by simpa [FINS_MAX_UDP_WORDS] using hn) hr
    refine ⟨p1, p2, hb1, hb2, ?_⟩
    intro i hi v hvi
    have hlt : v < 2 ^ 32 := by rw [hvi]; exact getD_lt vs _ hv i (by omega)
    obtain ⟨a0, a1, a2, a3⟩ := hy1 i hi
    obtain ⟨c0, c1, c2, c3⟩ := hy2 i hi
    rw [← hvi] at a0 a1 a2 a3 c0 c1 c2 c3
    have e1 : 19 + 4 * i = 18 + 4 * i + 1 := by omega
    have e2 : 20 + 4 * i = 18 + 4 * i + 2 := by omega
    have e3 : 21 + 4 * i = 18 + 4 * i + 3 := by omega
    rw [e1, e2, e3, a0, a1, a2, a3, c0, c1, c2, c3]
    norm_num at hlt ⊢
    omega
  · intro m off v hlt
    rw [wire_store32W h1 m off v (by simpa using hlt), wire_store32W h2 m off v (by simpa using hlt)]
  · intro m off
    rw [wire_load32W, wire_load32W]
  · intro m rr data k asz' hrr
    have hr' : rr ∈ [FINS_DM_READ_32, FINS_AR_READ_32, FINS_IO_READ_32, FINS_DM_WRITE_32,
        FINS_AR_WRITE_32, FINS_IO_WRITE_32] := by
      simp only [List.mem_cons, List.mem_singleton, List.not_mem_nil, or_false] at hrr ⊢
      tauto
    rw [extractData_mem32 h1 m rr data k asz' hr', extractData_mem32 h2 m rr data k asz' hr']

/-- C7 at the table of `FINS.h`: the host value `0x11223344` is sent as the
bytes `33 44 11 22` by the little-endian and by the big-endian sample host. -/
theorem wswap32_host_independent_witness :
    hostLE.EPICS_BYTE_ORDER = EPICS_ENDIAN_LITTLE ∧ hostBE.EPICS_BYTE_ORDER = EPICS_ENDIAN_BIG ∧
    ∃ p1 p2, BuildWriteMessage hostLE (session0 FINS_UDP_type) FINS_DM_WRITE_32 100 1 4
        [0x11223344] = BuildResult.ok p1 22 14 ∧
      BuildWriteMessage hostBE (session0 FINS_UDP_type) FINS_DM_WRITE_32 100 1 4
        [0x11223344] = BuildResult.ok p2 22 14 ∧
      [getByte p1.message 18, getByte p1.message 19, getByte p1.message 20,
        getByte p1.message 21] = [0x33, 0x44, 0x11, 0x22] ∧
      [getByte p2.message 18, getByte p2.message 19, getByte p2.message 20,
        getByte p2.message 21] = [0x33, 0x44, 0x11, 0x22] := by
  refine ⟨rfl, rfl, ?_⟩
  obtain ⟨⟨p1, p2, hb1, hb2, hy⟩, -⟩ := wswap32_host_independent hostLE hostBE (by decide)
    (by decide) (session0 FINS_UDP_type) FINS_DM_WRITE_32 100 1 4 [0x11223344] (by decide)
    (session0_length _) (by decide) rfl (by simp) (by simp)
  obtain ⟨y1, y2⟩ := hy 0 (by decide) 0x11223344 rfl
  exact ⟨p1, p2, hb1, hb2, y1, y2⟩


/-- C11: on a TCP session whose node address is not valid (as it is after
`exceptCallback` has seen a disconnect), the first transport call of
`finsRead` (for at least one element) and of `finsWrite` is the handshake
`hs = FINSnodeRequest`, which leaves the session id alone.  If it fails, the
operation returns -1 in the state and with the log the handshake left (the
handshake and a disconnect request, no request built).  If it succeeds, the
node address is valid and the operation is the same operation on the
registered session.  A `finsRead` of no elements makes no transport call. -/
theorem handshake_before_request (h : Host) (tr : Transport) (mmList : List MultiMemArea)
    (p : drvPvt) (log : List IOEvent) (hs : Int × drvPvt × List IOEvent)
    (hT : p.type = FINS_TCP_type) (hv : p.nodevalid ≠ 1)
    (hhs : hs = FINSnodeRequest h tr p log) :
    (∃ tail, hs.2.2 = log ++ IOEvent.writeRead
        ((AddCommand h p 0 FINS_NODE_CLIENT_COMMAND).message.take FINS_MODE_SEND_SIZE)
        FINS_MODE_SEND_SIZE FINS_MODE_RECV_SIZE :: tail ∧
      ((hs.1 = 0 ∧ tail = [] ∧ hs.2.1.nodevalid = 1) ∨
        (hs.1 = -1 ∧ tail = [IOEvent.disconnectDevice] ∧ hs.2.1.nodevalid = p.nodevalid))) ∧
    hs.2.1.sid = p.sid ∧ hs.2.1.type = FINS_TCP_type ∧
    (∀ r data n a t asz, 1 ≤ n →
      (hs.1 < 0 → finsRead h tr mmList p log r data n a t asz
        = some ⟨-1, hs.2.1, hs.2.2, data, t⟩) ∧
      (¬ hs.1 < 0 → finsRead h tr mmList p log r data n a t asz
        = finsRead h tr mmList hs.2.1 hs.2.2 r data n a t asz)) ∧
    (∀ r data a t asz, finsRead h tr mmList p log r data 0 a t asz
      = some ⟨0, p, log, data, t⟩) ∧
    (∀ r data n a asz,
      (hs.1 < 0 → finsWrite h tr p log r data n a asz = some ⟨-1, hs.2.1, hs.2.2⟩) ∧
      (¬ hs.1 < 0 → finsWrite h tr p log r data n a asz
        = finsWrite h tr hs.2.1 hs.2.2 r data n a asz)) ∧
    (∀ q : drvPvt, (exceptCallback q asynExceptionConnect 0).nodevalid ≠ 1 ∧
      (exceptCallback q asynExceptionConnect 0).type = q.type ∧
      (exceptCallback q asynExceptionConnect 0).sid = q.sid) := by
  subst hhs
  have hk := FINSnodeRequest_keeps h tr p log
  refine ⟨?_, hk.2.1, by rw [hk.1, hT], ?_, ?_, ?_, ?_⟩
  · rcases FINSnodeRequest_cases h tr p log with ⟨h1, h2, h3⟩ | ⟨h1, h2, -, h3⟩
    · exact ⟨[], h3, Or.inl ⟨h1, rfl, h2⟩⟩
    · refine ⟨[IOEvent.disconnectDevice], ?_, Or.inr ⟨h1, rfl, h2⟩⟩
      rw [h3]
  · intro r data n a t asz hn
    exact ⟨finsRead_handshake_failed h tr mmList p log r data n a t asz hn hT hv,
      finsRead_after_handshake h tr mmList p log r data n a t asz hn hT hv⟩
  · intro r data a t asz
    simp [finsRead]
  · intro r data n a asz
    exact ⟨finsWrite_handshake_failed h tr p log r data n a asz hT hv,
      finsWrite_after_handshake h tr p log r data n a asz hT hv⟩
  · intro q
    simp [exceptCallback]

theorem sessionDown_fields : sessionDown.type = FINS_TCP_type ∧ sessionDown.nodevalid = 0 ∧
    sessionDown.sid = 3 ∧ sessionDown.message.length = FINS_MAX_MSG := by
  refine ⟨rfl, rfl, rfl, ?_⟩
  show (session0 FINS_TCP_type).message.length = FINS_MAX_MSG
  exact session0_length _

/-- C11 at the sample TCP session after a disconnect: on a transport on
which every call fails a read of two words makes the handshake, asks for a
disconnect and returns -1 with the session id still 3; on a transport that
answers with the sample node address reply the handshake succeeds with client
node 3, and the read is the read of the registered session. -/
theorem handshake_before_request_witness :
    (∃ req, finsRead hostLE deadTransport [] sessionDown [] FINS_DM_READ [0, 0] 2 100 0 2
      = some ⟨-1, (FINSnodeRequest hostLE deadTransport sessionDown []).2.1,
          [IOEvent.writeRead req 20 24, IOEvent.disconnectDevice], [0, 0], 0⟩ ∧
      (FINSnodeRequest hostLE deadTransport sessionDown []).2.1.sid = 3) ∧
    ((FINSnodeRequest hostLE (replyTransport handshakeReply) sessionDown []).1 = 0 ∧
      (FINSnodeRequest hostLE (replyTransport handshakeReply) sessionDown []).2.1.nodevalid = 1 ∧
      (FINSnodeRequest hostLE (replyTransport handshakeReply) sessionDown []).2.1.snode = 3 ∧
      finsRead hostLE (replyTransport handshakeReply) [] sessionDown [] FINS_DM_READ [0, 0] 2 100
          0 2
        = finsRead hostLE (replyTransport handshakeReply) []
          (FINSnodeRequest hostLE (replyTransport handshakeReply) sessionDown []).2.1
          (FINSnodeRequest hostLE (replyTransport handshakeReply) sessionDown []).2.2
          FINS_DM_READ [0, 0] 2 100 0 2) := by
  obtain ⟨f1, f2, f3, f4⟩ := sessionDown_fields
  have hv : sessionDown.nodevalid ≠ 1 := by rw [f2]; decide
  constructor
  · obtain ⟨⟨tail, hl, hc⟩, hsid, -, hr, -⟩ := handshake_before_request hostLE deadTransport []
      sessionDown [] _ f1 hv rfl
    have hneg : (FINSnodeRequest hostLE deadTransport sessionDown []).1 = -1 := by
      simp [FINSnodeRequest, deadTransport, asynSuccess]
    rcases hc with ⟨h0, -⟩ | ⟨-, ht, -⟩
    · rw [hneg] at h0; exact absurd h0 (by decide)
    · refine ⟨(AddCommand hostLE sessionDown 0 FINS_NODE_CLIENT_COMMAND).message.take
        FINS_MODE_SEND_SIZE, ?_, by rw [hsid, f3]⟩
      rw [(hr FINS_DM_READ [0, 0] 2 100 0 2 (by decide)).1 (by rw [hneg]; decide), hl, ht]
      rfl
  · have hl : sessionDown.message.length = FINS_MAX_MSG := f4
    obtain ⟨hiff, hsn⟩ := FINSnodeRequest_ok_iff hostLE (replyTransport handshakeReply)
      sessionDown [] hl _ _ rfl rfl
    obtain ⟨ma, hma, hla⟩ := AddCommand_eq hostLE sessionDown 0 FINS_NODE_CLIENT_COMMAND
    have hb : ∀ j, j < 24 → getByte (receive
        (AddCommand hostLE sessionDown 0 FINS_NODE_CLIENT_COMMAND).message
        ((replyTransport handshakeReply []
          ((AddCommand hostLE sessionDown 0 FINS_NODE_CLIENT_COMMAND).message.take
            FINS_MODE_SEND_SIZE) FINS_MODE_SEND_SIZE FINS_MODE_RECV_SIZE).reply.take
          FINS_MODE_RECV_SIZE)) j = handshakeReply[j]?.getD 0 % 256 := by
      intro j hj
      have : (replyTransport handshakeReply []
          ((AddCommand hostLE sessionDown 0 FINS_NODE_CLIENT_COMMAND).message.take
            FINS_MODE_SEND_SIZE) FINS_MODE_SEND_SIZE FINS_MODE_RECV_SIZE).reply.take
          FINS_MODE_RECV_SIZE = handshakeReply := rfl
      rw [this]
      exact getByte_receive _ _ j hj (by
        rw [hma, setMessage_message, hla, hl]
        exact Nat.lt_of_lt_of_le hj (by decide))
    have hok : (FINSnodeRequest hostLE (replyTransport handshakeReply) sessionDown []).1 = 0 := by
      rw [hiff]
      refine ⟨rfl, ?_, ?_⟩
      · rw [hb 8 (by decide), hb 9 (by decide), hb 10 (by decide), hb 11 (by decide)]; rfl
      · rw [hb 12 (by decide), hb 13 (by decide), hb 14 (by decide), hb 15 (by decide)]; rfl
    obtain ⟨⟨tail, -, hc⟩, -, -, hr, -⟩ := handshake_before_request hostLE
      (replyTransport handshakeReply) [] sessionDown [] _ f1 hv rfl
    refine ⟨hok, ?_, ?_, ?_⟩
    · rcases hc with ⟨-, -, h2⟩ | ⟨h1, -⟩
      · exact h2
      · rw [hok] at h1; exact absurd h1 (by decide)
    · rw [hsn hok, hb 19 (by decide)]; rfl
    · exact (hr FINS_DM_READ [0, 0] 2 100 0 2 (by decide)).2 (by rw [hok]; decide)


theorem tooBig_iff (p : drvPvt) (w : Nat) :
    tooBig p w = true ↔ (if p.type = HOSTLINK_type then 268 else 950) < w := by
  simp only [tooBig, decide_eq_true_eq, FINS_MAX_UDP_WORDS, FINS_MAX_TCP_WORDS,
    FINS_MAX_HOST_WORDS]
  cases p.type <;> simp

/-- C12: with `lim` the word limit of the session (950 on UDP and TCP, 268 on
Hostlink), `ReadInt16Array` on a 16-bit memory read command and
`WriteInt16Array` on a 16-bit memory write command go on to `finsRead` and
`finsWrite` exactly for `n ≤ lim` (and then, for a read of at least one
element and for every write, at least one transport call is made), and for
`n > lim` they return `asynError` with the driver state, the log and the
caller's array untouched. -/
theorem int16_array_count_limit (h : Host) (tr : Transport) (mmList : List MultiMemArea)
    (p : drvPvt) (log : List IOEvent) (r : FINS_COMMANDS) (addr : Int) (value : List Nat)
    (n nIn lim : Nat) (hlim : lim = if p.type = HOSTLINK_type then 268 else 950) :
    (r ∈ [FINS_DM_READ, FINS_AR_READ, FINS_IO_READ, FINS_WR_READ, FINS_HR_READ] →
      (n ≤ lim →
        ReadInt16Array h tr mmList p log r asynSuccess addr value n nIn
          = readReturn (finsRead h tr mmList p log r value n (toAddress addr) nIn 2) ∧
        (1 ≤ n → ∃ c l, ReadInt16Array h tr mmList p log r asynSuccess addr value n nIn
          = some c ∧ c.log = log ++ l ∧ l ≠ [])) ∧
      (lim < n → ReadInt16Array h tr mmList p log r asynSuccess addr value n nIn
        = some ⟨asynError, p, log, value, nIn⟩)) ∧
    (r ∈ [FINS_DM_WRITE, FINS_AR_WRITE, FINS_IO_WRITE] →
      (n ≤ lim →
        WriteInt16Array h tr p log r asynSuccess addr value n
          = writeReturn value 0 0 (finsWrite h tr p log r value n (toAddress addr) 2) ∧
        ∃ c l, WriteInt16Array h tr p log r asynSuccess addr value n = some c ∧
          c.log = log ++ l ∧ l ≠ []) ∧
      (lim < n → WriteInt16Array h tr p log r asynSuccess addr value n
        = some ⟨asynError, p, log, value, 0⟩)) := by
  have hb := tooBig_iff p n
  rw [← hlim] at hb
  constructor
  · intro hr
    have hsw : ReadInt16ArraySwitch mmList p r addr n = !tooBig p n := by
      simp only [List.mem_cons, List.mem_singleton, List.not_mem_nil, or_false] at hr
      rcases hr with rfl | rfl | rfl | rfl | rfl <;>
        (simp only [ReadInt16ArraySwitch]; cases tooBig p n <;> rfl)
    constructor
    · intro hle
      have hnb : tooBig p n = false := by
        cases hx : tooBig p n
        · rfl
        · exact absurd (hb.1 hx) (by omega)
      have e : ReadInt16Array h tr mmList p log r asynSuccess addr value n nIn
          = readReturn (finsRead h tr mmList p log r value n (toAddress addr) nIn 2) := by
        simp [ReadInt16Array, hsw, hnb]
      refine ⟨e, ?_⟩
      intro hn
      obtain ⟨res, l, hres, hl, hne⟩ := finsRead_io h tr mmList p log r value n (toAddress addr)
        nIn 2 hn (fun q => BuildReadMessage_mem_isOk h mmList q r _ n (by
          simp only [List.mem_cons, List.mem_singleton, List.not_mem_nil, or_false] at hr ⊢
          tauto))
      rw [e, hres]
      simp only [readReturn]
      split
      · exact ⟨_, l, rfl, hl, hne⟩
      · exact ⟨_, l, rfl, hl, hne⟩
    · intro hlt
      have hnb : tooBig p n = true := hb.2 hlt
      simp [ReadInt16Array, hsw, hnb]
  · intro hr
    have hsw : WriteInt16ArraySwitch p r n = !tooBig p n := by
      simp only [List.mem_cons, List.mem_singleton, List.not_mem_nil, or_false] at hr
      rcases hr with rfl | rfl | rfl <;>
        (simp only [WriteInt16ArraySwitch]; cases tooBig p n <;> rfl)
    constructor
    · intro hle
      have hnb : tooBig p n = false := by
        cases hx : tooBig p n
        · rfl
        · exact absurd (hb.1 hx) (by omega)
      have e : WriteInt16Array h tr p log r asynSuccess addr value n
          = writeReturn value 0 0 (finsWrite h tr p log r value n (toAddress addr) 2) := by
        simp [WriteInt16Array, hsw, hnb]
      refine ⟨e, ?_⟩
      obtain ⟨res, l, hres, hl, hne⟩ := finsWrite_io h tr p log r value n (toAddress addr) 2
        (fun q => BuildWriteMessage_mem_isOk h q r _ n 2 value (Or.inl ⟨hr, rfl⟩))
      rw [e, hres]
      simp only [writeReturn]
      split
      · exact ⟨_, l, rfl, hl, hne⟩
      · exact ⟨_, l, rfl, hl, hne⟩
    · intro hlt
      have hnb : tooBig p n = true := hb.2 hlt
      simp [WriteInt16Array, hsw, hnb]

/-- C12 at the sample sessions: 950 words are accepted and 951 rejected on
UDP, 268 are accepted and 269 rejected on Hostlink. -/
theorem int16_array_count_limit_witness :
    (∃ c l, ReadInt16Array hostLE deadTransport [] (session0 FINS_UDP_type) [] FINS_DM_READ
        asynSuccess 100 [] 950 0 = some c ∧ c.log = [] ++ l ∧ l ≠ []) ∧
    ReadInt16Array hostLE deadTransport [] (session0 FINS_UDP_type) [] FINS_DM_READ
        asynSuccess 100 [] 951 0 = some ⟨asynError, session0 FINS_UDP_type, [], [], 0⟩ ∧
    (∃ c l, WriteInt16Array hostLE deadTransport (session0 HOSTLINK_type) [] FINS_DM_WRITE
        asynSuccess 100 [] 268 = some c ∧ c.log = [] ++ l ∧ l ≠ []) ∧
    WriteInt16Array hostLE deadTransport (session0 HOSTLINK_type) [] FINS_DM_WRITE
        asynSuccess 100 [] 269 = some ⟨asynError, session0 HOSTLINK_type, [], [], 0⟩ :=
  ⟨((int16_array_count_limit hostLE deadTransport [] (session0 FINS_UDP_type) [] FINS_DM_READ
      100 [] 950 0 950 rfl).1 (by simp)).1 (by decide) |>.2 (by decide),
    ((int16_array_count_limit hostLE deadTransport [] (session0 FINS_UDP_type) [] FINS_DM_READ
      100 [] 951 0 950 rfl).1 (by simp)).2 (by decide),
    (((int16_array_count_limit hostLE deadTransport [] (session0 HOSTLINK_type) [] FINS_DM_WRITE
      100 [] 268 0 268 rfl).2 (by simp)).1 (by decide)).2,
    ((int16_array_count_limit hostLE deadTransport [] (session0 HOSTLINK_type) [] FINS_DM_WRITE
      100 [] 269 0 268 rfl).2 (by simp)).2 (by decide)⟩


/-- The product `nelements * 2` of the size test is the number of words when
the array of `n` 32-bit elements lies in the address space. -/
theorem sizeT_words (h : Host) (n : Nat) (hreal : 4 * n < 2 ^ h.sizeBits) :
    sizeT h (n * 2) = 2 * n := by
  unfold sizeT
  rw [Nat.mod_eq_of_lt (by omega)]
  omega

theorem octetReadSwitch_rejects {maxchars : Nat} {r : FINS_COMMANDS}
    (hr : r ∉
      [FINS_MODEL]) :
    octetReadSwitch r maxchars = false := by
  cases r <;> first | rfl | exact absurd (by simp) hr

theorem octetWriteSwitch_rejects {r : FINS_COMMANDS}
    (hr : r ∉
      [FINS_CYCLE_TIME_RESET]) :
    octetWriteSwitch r = false := by
  cases r <;> first | rfl | exact absurd (by simp) hr

theorem ReadInt32Switch_rejects {r : FINS_COMMANDS}
    (hr : r ∉
      [FINS_DM_READ, FINS_AR_READ, FINS_IO_READ, FINS_WR_READ, FINS_HR_READ, FINS_DM_READ_32,
      FINS_AR_READ_32, FINS_IO_READ_32, FINS_CYCLE_TIME_MEAN, FINS_CYCLE_TIME_MAX,
      FINS_CYCLE_TIME_MIN, FINS_CPU_STATUS, FINS_CPU_MODE, FINS_DM_WRITE, FINS_IO_WRITE,
      FINS_AR_WRITE, FINS_CT_WRITE, FINS_DM_WRITE_32, FINS_IO_WRITE_32, FINS_AR_WRITE_32,
      FINS_CT_WRITE_32]) :
    ReadInt32Switch r = false := by
  cases r <;> first | rfl | exact absurd (by simp) hr

theorem WriteInt32Switch_rejects {r : FINS_COMMANDS}
    (hr : r ∉
      [FINS_DM_WRITE, FINS_DM_WRITE_NOREAD, FINS_AR_WRITE, FINS_AR_WRITE_NOREAD, FINS_IO_WRITE,
      FINS_IO_WRITE_NOREAD, FINS_CYCLE_TIME_RESET, FINS_DM_WRITE_32, FINS_DM_WRITE_32_NOREAD,
      FINS_AR_WRITE_32, FINS_AR_WRITE_32_NOREAD, FINS_IO_WRITE_32, FINS_IO_WRITE_32_NOREAD,
      FINS_SET_RESET_CANCEL]) :
    WriteInt32Switch r = false := by
  cases r <;> first | rfl | exact absurd (by simp) hr

theorem ReadFloat64Switch_rejects {r : FINS_COMMANDS}
    (hr : r ∉
      [FINS_DM_READ_32, FINS_AR_READ_32, FINS_DM_WRITE_32, FINS_AR_WRITE_32]) :
    ReadFloat64Switch r = false := by
  cases r <;> first | rfl | exact absurd (by simp) hr

theorem WriteFloat64Switch_rejects {r : FINS_COMMANDS}
    (hr : r ∉
      [FINS_DM_WRITE_32, FINS_DM_WRITE_32_NOREAD, FINS_AR_WRITE_32, FINS_AR_WRITE_32_NOREAD]) :
    WriteFloat64Switch r = false := by
  cases r <;> first | rfl | exact absurd (by simp) hr

theorem ReadInt16ArraySwitch_rejects {mmList : List MultiMemArea} {p : drvPvt} {addr : Int}
    {n : Nat} {r : FINS_COMMANDS}
    (hr : r ∉
      [FINS_DM_READ, FINS_AR_READ, FINS_IO_READ, FINS_WR_READ, FINS_HR_READ, FINS_CLOCK_READ,
      FINS_MM_READ]) :
    ReadInt16ArraySwitch mmList p r addr n = false := by
  cases r <;> first | rfl | exact absurd (by simp) hr

theorem WriteInt16ArraySwitch_rejects {p : drvPvt} {n : Nat} {r : FINS_COMMANDS}
    (hr : r ∉
      [FINS_DM_WRITE, FINS_AR_WRITE, FINS_IO_WRITE]) :
    WriteInt16ArraySwitch p r n = false := by
  cases r <;> first | rfl | exact absurd (by simp) hr

theorem ReadInt32ArraySwitch_rejects {h : Host} {p : drvPvt} {n : Nat} {r : FINS_COMMANDS}
    (hr : r ∉
      [FINS_DM_READ_32, FINS_AR_READ_32, FINS_IO_READ_32, FINS_CYCLE_TIME]) :
    ReadInt32ArraySwitch h p r n = false := by
  cases r <;> first | rfl | exact absurd (by simp) hr

theorem WriteInt32ArraySwitch_rejects {h : Host} {p : drvPvt} {n : Nat} {r : FINS_COMMANDS}
    (hr : r ∉
      [FINS_DM_WRITE_32, FINS_AR_WRITE_32, FINS_IO_WRITE_32]) :
    WriteInt32ArraySwitch h p r n = false := by
  cases r <;> first | rfl | exact absurd (by simp) hr

theorem ReadFloat32ArraySwitch_rejects {h : Host} {p : drvPvt} {n : Nat} {r : FINS_COMMANDS}
    (hr : r ∉
      [FINS_DM_READ_32, FINS_AR_READ_32]) :
    ReadFloat32ArraySwitch h p r n = false := by
  cases r <;> first | rfl | exact absurd (by simp) hr

theorem WriteFloat32ArraySwitch_rejects {h : Host} {p : drvPvt} {n : Nat} {r : FINS_COMMANDS}
    (hr : r ∉
      [FINS_DM_WRITE_32, FINS_AR_WRITE_32]) :
    WriteFloat32ArraySwitch h p r n = false := by
  cases r <;> first | rfl | exact absurd (by simp) hr

/-- C14: a reason outside the list of case labels of an interface function
that go on to `finsRead` or `finsWrite` (`FINS_NULL`, what `drvUserCreate`
yields for an unknown name, is in none of them) makes the function return
an error status `S` (the status of `getAddr` if that failed, else `asynError`)
with the driver state, the log and the caller's data as they were. -/
theorem unsupported_reason_rejected (h : Host) (tr : Transport) (mmList : List MultiMemArea)
    (p : drvPvt) (log : List IOEvent) (st S : Nat) (addr : Int) (data : List Nat)
    (maxchars numchars n k v w : Nat) (f : Nat → Nat)
    (hS : S = if st ≠ asynSuccess then st else asynError) :
    S ≠ asynSuccess ∧
    (∀ r, r ∉
        [FINS_MODEL] →
      octetRead h tr mmList p log r st addr data maxchars = some (⟨S, p, log, data, 0⟩, 0)) ∧
    (∀ r, r ∉
        [FINS_CYCLE_TIME_RESET] →
      octetWrite h tr p log r st addr data numchars = some ⟨S, p, log, data, 0⟩) ∧
    (∀ r, r ∉
        [FINS_DM_READ, FINS_AR_READ, FINS_IO_READ, FINS_WR_READ, FINS_HR_READ, FINS_DM_READ_32,
        FINS_AR_READ_32, FINS_IO_READ_32, FINS_CYCLE_TIME_MEAN, FINS_CYCLE_TIME_MAX,
        FINS_CYCLE_TIME_MIN, FINS_CPU_STATUS, FINS_CPU_MODE, FINS_DM_WRITE, FINS_IO_WRITE,
        FINS_AR_WRITE, FINS_CT_WRITE, FINS_DM_WRITE_32, FINS_IO_WRITE_32, FINS_AR_WRITE_32,
        FINS_CT_WRITE_32] →
      ReadInt32 h tr mmList p log r st addr v = some ⟨S, p, log, [v], 0⟩) ∧
    (∀ r, r ∉
        [FINS_DM_WRITE, FINS_DM_WRITE_NOREAD, FINS_AR_WRITE, FINS_AR_WRITE_NOREAD,
        FINS_IO_WRITE, FINS_IO_WRITE_NOREAD, FINS_CYCLE_TIME_RESET, FINS_DM_WRITE_32,
        FINS_DM_WRITE_32_NOREAD, FINS_AR_WRITE_32, FINS_AR_WRITE_32_NOREAD, FINS_IO_WRITE_32,
        FINS_IO_WRITE_32_NOREAD, FINS_SET_RESET_CANCEL] →
      WriteInt32 h tr p log r st addr v = some ⟨S, p, log, [v], 0⟩) ∧
    (∀ r, r ∉
        [FINS_DM_READ_32, FINS_AR_READ_32, FINS_DM_WRITE_32, FINS_AR_WRITE_32] →
      ReadFloat64 f h tr mmList p log r st addr w v = some ⟨S, p, log, [v], 0⟩) ∧
    (∀ r, r ∉
        [FINS_DM_WRITE_32, FINS_DM_WRITE_32_NOREAD, FINS_AR_WRITE_32, FINS_AR_WRITE_32_NOREAD] →
      WriteFloat64 f h tr p log r st addr v = some ⟨S, p, log, [v], 0⟩) ∧
    (∀ r, r ∉
        [FINS_DM_READ, FINS_AR_READ, FINS_IO_READ, FINS_WR_READ, FINS_HR_READ, FINS_CLOCK_READ,
        FINS_MM_READ] →
      ReadInt16Array h tr mmList p log r st addr data n k = some ⟨S, p, log, data, k⟩) ∧
    (∀ r, r ∉
        [FINS_DM_WRITE, FINS_AR_WRITE, FINS_IO_WRITE] →
      WriteInt16Array h tr p log r st addr data n = some ⟨S, p, log, data, 0⟩) ∧
    (∀ r, r ∉
        [FINS_DM_READ_32, FINS_AR_READ_32, FINS_IO_READ_32, FINS_CYCLE_TIME] →
      ReadInt32Array h tr mmList p log r st addr data n k = some ⟨S, p, log, data, k⟩) ∧
    (∀ r, r ∉
        [FINS_DM_WRITE_32, FINS_AR_WRITE_32, FINS_IO_WRITE_32] →
      WriteInt32Array h tr p log r st addr data n = some ⟨S, p, log, data, 0⟩) ∧
    (∀ r, r ∉
        [FINS_DM_READ_32, FINS_AR_READ_32] →
      ReadFloat32Array h tr mmList p log r st addr data n k = some ⟨S, p, log, data, k⟩) ∧
    (∀ r, r ∉
        [FINS_DM_WRITE_32, FINS_AR_WRITE_32] →
      WriteFloat32Array h tr p log r st addr data n = some ⟨S, p, log, data, 0⟩) := by
  have hS' : S ≠ asynSuccess := by
    rw [hS]; split
    · assumption
    · decide
  refine ⟨hS', ?_, ?_, ?_, ?_, ?_, ?_, ?_, ?_, ?_, ?_, ?_, ?_⟩
  · intro r hr
    have hsw : octetReadSwitch r maxchars = false := octetReadSwitch_rejects hr
    by_cases hst : st = asynSuccess
    · simp [octetRead, hsw, hst, hS]
    · simp [octetRead, hst, hS]
  · intro r hr
    have hsw : octetWriteSwitch r = false := octetWriteSwitch_rejects hr
    by_cases hst : st = asynSuccess
    · simp [octetWrite, hsw, hst, hS]
    · simp [octetWrite, hst, hS]
  · intro r hr
    have hsw : ReadInt32Switch r = false := ReadInt32Switch_rejects hr
    by_cases hst : st = asynSuccess
    · simp [ReadInt32, hsw, hst, hS]
    · simp [ReadInt32, hst, hS]
  · intro r hr
    have hsw : WriteInt32Switch r = false := WriteInt32Switch_rejects hr
    by_cases hst : st = asynSuccess
    · simp [WriteInt32, hsw, hst, hS]
    · simp [WriteInt32, hst, hS]
  · intro r hr
    have hsw : ReadFloat64Switch r = false := ReadFloat64Switch_rejects hr
    by_cases hst : st = asynSuccess
    · simp [ReadFloat64, hsw, hst, hS]
    · simp [ReadFloat64, hst, hS]
  · intro r hr
    have hsw : WriteFloat64Switch r = false := WriteFloat64Switch_rejects hr
    by_cases hst : st = asynSuccess
    · simp [WriteFloat64, hsw, hst, hS]
    · simp [WriteFloat64, hst, hS]
  · intro r hr
    have hsw : ReadInt16ArraySwitch mmList p r addr n = false := ReadInt16ArraySwitch_rejects hr
    by_cases hst : st = asynSuccess
    · simp [ReadInt16Array, hsw, hst, hS]
    · simp [ReadInt16Array, hst, hS]
  · intro r hr
    have hsw : WriteInt16ArraySwitch p r n = false := WriteInt16ArraySwitch_rejects hr
    by_cases hst : st = asynSuccess
    · simp [WriteInt16Array, hsw, hst, hS]
    · simp [WriteInt16Array, hst, hS]
  · intro r hr
    have hsw : ReadInt32ArraySwitch h p r n = false := ReadInt32ArraySwitch_rejects hr
    by_cases hst : st = asynSuccess
    · simp [ReadInt32Array, hsw, hst, hS]
    · simp [ReadInt32Array, hst, hS]
  · intro r hr
    have hsw : WriteInt32ArraySwitch h p r n = false := WriteInt32ArraySwitch_rejects hr
    by_cases hst : st = asynSuccess
    · simp [WriteInt32Array, hsw, hst, hS]
    · simp [WriteInt32Array, hst, hS]
  · intro r hr
    have hsw : ReadFloat32ArraySwitch h p r n = false := ReadFloat32ArraySwitch_rejects hr
    by_cases hst : st = asynSuccess
    · simp [ReadFloat32Array, hsw, hst, hS]
    · simp [ReadFloat32Array, hst, hS]
  · intro r hr
    have hsw : WriteFloat32ArraySwitch h p r n = false := WriteFloat32ArraySwitch_rejects hr
    by_cases hst : st = asynSuccess
    · simp [WriteFloat32Array, hsw, hst, hS]
    · simp [WriteFloat32Array, hst, hS]
/-- C14 at the sample UDP session, for the examples of unsupported reasons:
`FINS_CPU_STATUS` on `ReadInt16Array`, `FINS_MODEL`, a `_NOREAD` reason and
`FINS_SET_RESET_CANCEL` on `ReadInt32`, `FINS_NULL` on `octetRead` and on
`WriteFloat32Array`. -/
theorem unsupported_reason_rejected_witness :
    ReadInt16Array hostLE deadTransport [] (session0 FINS_UDP_type) [] FINS_CPU_STATUS
      asynSuccess 0 [7] 1 5 = some ⟨asynError, session0 FINS_UDP_type, [], [7], 5⟩ ∧
    ReadInt32 hostLE deadTransport [] (session0 FINS_UDP_type) [] FINS_MODEL asynSuccess 0 7
      = some ⟨asynError, session0 FINS_UDP_type, [], [7], 0⟩ ∧
    ReadInt32 hostLE deadTransport [] (session0 FINS_UDP_type) [] FINS_DM_WRITE_NOREAD
      asynSuccess 0 7 = some ⟨asynError, session0 FINS_UDP_type, [], [7], 0⟩ ∧
    ReadInt32 hostLE deadTransport [] (session0 FINS_UDP_type) [] FINS_SET_RESET_CANCEL
      asynSuccess 0 7 = some ⟨asynError, session0 FINS_UDP_type, [], [7], 0⟩ ∧
    octetRead hostLE deadTransport [] (session0 FINS_UDP_type) [] FINS_NULL asynSuccess 0 [7] 1
      = some (⟨asynError, session0 FINS_UDP_type, [], [7], 0⟩, 0) ∧
    WriteFloat32Array hostLE deadTransport (session0 FINS_UDP_type) [] FINS_NULL asynSuccess 0
      [7] 1 = some ⟨asynError, session0 FINS_UDP_type, [], [7], 0⟩ := by
  obtain ⟨-, h1, -, h3, -, -, -, h7, -, -, -, -, h12⟩ := unsupported_reason_rejected hostLE
    deadTransport [] (session0 FINS_UDP_type) [] asynSuccess asynError 0 [7] 1 1 1 5 7 7 id rfl
  exact ⟨h7 FINS_CPU_STATUS (by simp), h3 FINS_MODEL (by simp),
    h3 FINS_DM_WRITE_NOREAD (by simp), h3 FINS_SET_RESET_CANCEL (by simp),
    h1 FINS_NULL (by simp), h12 FINS_NULL (by simp)⟩


/-- When `finsRead` fails inside an array read function, the caller's array
is as it was and the count is 0. -/
theorem readReturn_error (h : Host) (tr : Transport) (mmList : List MultiMemArea)
    (p : drvPvt) (log : List IOEvent) (r : FINS_COMMANDS) (data : List Nat)
    (n a t asz : Nat) (c : CallResult)
    (hc : readReturn (finsRead h tr mmList p log r data n a t asz) = some c)
    (hs : c.status ≠ asynSuccess) : c.data = data ∧ c.count = 0 := by
  cases hres : finsRead h tr mmList p log r data n a t asz with
  | none => rw [hres] at hc; cases hc
  | some res =>
    rw [hres] at hc
    simp only [readReturn] at hc
    split at hc
    · rename_i hneg
      simp only [Option.some.injEq] at hc
      subst hc
      exact ⟨(finsRead_fail h tr mmList p log r data n a t asz res hres (by omega)).1, rfl⟩
    · simp only [Option.some.injEq] at hc
      subst hc
      exact absurd rfl hs

/-- On a transport on which every call fails, a memory read on a session
that needs no handshake returns -1 after one call. -/
theorem finsRead_dead (h : Host) (mmList : List MultiMemArea) (p : drvPvt)
    (r : FINS_COMMANDS) (data : List Nat) (n a t asz : Nat) (hn : 1 ≤ n)
    (hreg : ¬ (p.type = FINS_TCP_type ∧ p.nodevalid ≠ 1))
    (hr : r ∈ [FINS_DM_READ, FINS_AR_READ, FINS_IO_READ, FINS_WR_READ, FINS_HR_READ,
      FINS_DM_READ_32, FINS_AR_READ_32, FINS_IO_READ_32]) :
    ∃ res, finsRead h deadTransport mmList p [] r data n a t asz = some res ∧ res.ret = -1 ∧
      res.data = data ∧ res.transferred = t ∧ res.log ≠ [] := by
  obtain ⟨p', S, R, hb⟩ := BuildReadMessage_mem_isOk h mmList p r (a % 65536) n hr
  have hfin := finsRead_no_handshake h deadTransport mmList p [] r data n a t asz p' S R hn
    hreg hb
  have hret : (readExchange h deadTransport p' [] r data n t asz S R).ret = -1 := by
    simp [readExchange, deadTransport, asynSuccess]
  obtain ⟨tail, hl⟩ := readExchange_log h deadTransport p' [] r data n t asz S R
  obtain ⟨hd, ht⟩ := readExchange_fail h deadTransport p' [] r data n t asz S R
    (by rw [hret]; decide)
  exact ⟨_, hfin, hret, hd, ht, by rw [hl]; simp⟩

/-- C15 fails where an array read function rejects the request itself: the
count `*nIn` keeps the value it had (5 here, not 0) when `ReadInt16Array` is
called with the unsupported reason `FINS_CPU_STATUS`, `ReadInt32Array` with
476 elements, `ReadFloat32Array` with `FINS_NULL`; the caller's array is
untouched.  When the exchange fails inside `finsRead`, the count is 0 and
the array untouched, as the claim says. -/
theorem array_read_rejection_keeps_count :
    ReadInt16Array hostLE deadTransport [] (session0 FINS_UDP_type) [] FINS_CPU_STATUS
      asynSuccess 0 [7, 7] 2 5 = some ⟨asynError, session0 FINS_UDP_type, [], [7, 7], 5⟩ ∧
    ReadInt32Array hostLE deadTransport [] (session0 FINS_UDP_type) [] FINS_DM_READ_32
      asynSuccess 0 [7, 7] 476 5 = some ⟨asynError, session0 FINS_UDP_type, [], [7, 7], 5⟩ ∧
    ReadFloat32Array hostLE deadTransport [] (session0 FINS_UDP_type) [] FINS_NULL
      asynSuccess 0 [7, 7] 2 5 = some ⟨asynError, session0 FINS_UDP_type, [], [7, 7], 5⟩ ∧
    (∃ c, ReadInt16Array hostLE deadTransport [] (session0 FINS_UDP_type) [] FINS_DM_READ
      asynSuccess 0 [7, 7] 2 5 = some c ∧ c.status = asynError ∧ c.data = [7, 7] ∧
      c.count = 0 ∧ c.log ≠ []) := by
  refine ⟨?_, ?_, ?_, ?_⟩
  · simp [ReadInt16Array, ReadInt16ArraySwitch]
  · have hx : sizeT hostLE (476 * 2) = 952 := by simp only [sizeT, hostLE]; norm_num
    have ht : tooBig (session0 FINS_UDP_type) 952 = true :=
      (tooBig_iff _ _).2 (by show 950 < 952; decide)
    simp only [ReadInt32Array, ReadInt32ArraySwitch, hx, ht]
    simp
  · simp [ReadFloat32Array, ReadFloat32ArraySwitch]
  · obtain ⟨res, hres, hret, hd, -, hl⟩ := finsRead_dead hostLE [] (session0 FINS_UDP_type)
      FINS_DM_READ [7, 7] 2 (toAddress 0) 5 2 (by decide) (by
        intro hx; exact absurd hx.1 (by decide)) (by simp)
    have hb : tooBig (session0 FINS_UDP_type) 2 = false := by
      cases hx : tooBig (session0 FINS_UDP_type) 2
      · rfl
      · have := (tooBig_iff _ _).1 hx
        exact absurd this (by show ¬ 950 < 2; decide)
    simp only [ReadInt16Array, ReadInt16ArraySwitch, hb, hres, readReturn, hret]
    simp [hd, hl]


/-- Without the relay error flag `FINSerror` prints the one message of its
switch. -/
theorem FINSerror_plain (name port : String) (mres sres : Nat) (hm : mres &&& 0x80 = 0) :
    FINSerror name port mres sres = [FINSerrorSwitch name port mres sres] := by
  rw [FINSerror]
  simp [hm]

/-- C16: `CheckData` returns -1 for every reply whose response codes are not
both zero, reporting them through `FINSerror`; for each of the sixteen main
codes of the table `FINSerror` prints one message, made of the name of the
error of that code and the sub code (the format for `0x24` has a stray `e`
after the name); and a reply `CheckData` accepts has both codes zero. -/
theorem response_codes_classified :
    (∀ (p : drvPvt) (port : String),
      getByte p.message MRES ≠ 0 ∨ getByte p.message SRES ≠ 0 →
      CheckData p = -1 ∧
      CheckDataReport port p
        = FINSerror "CheckData" port (getByte p.message MRES) (getByte p.message SRES)) ∧
    (∀ code text, (code, text) ∈ [(0x01, "Local node error"), (0x02, "Destination node error"),
        (0x03, "Communications controller error"), (0x04, "Not executable"),
        (0x05, "Routing error"), (0x10, "Command format error"), (0x11, "Parameter error"),
        (0x20, "Read not possible"), (0x21, "Write not possible"),
        (0x22, "Not executable in current mode"), (0x23, "No unit"),
        (0x24, "Start/Stop not possible"), (0x25, "Unit error"), (0x26, "Command error"),
        (0x30, "Access rights error"), (0x40, "Abort error")] →
      ∀ (name port : String) (sres : Nat),
        FINSerror name port code sres
          = [name ++ ": port " ++ port ++ ", " ++ text ++ (if code = 0x24 then "e" else "")
              ++ " 0x" ++ hex2 sres ++ "\n"]) ∧
    (∀ p : drvPvt, CheckData p = 0 →
      getByte p.message MRES = 0 ∧ getByte p.message SRES = 0) := by
  refine ⟨?_, ?_, ?_⟩
  · intro p port hne
    constructor
    · simp only [CheckData]
      rw [if_pos hne]
    · simp only [CheckDataReport]
      rw [if_pos hne]
  · intro code text hmem name port sres
    simp only [List.mem_cons, Prod.mk.injEq, List.mem_singleton, List.not_mem_nil,
      or_false] at hmem
    rcases hmem with e | e | e | e | e | e | e | e | e | e | e | e | e | e | e | e <;>
      (obtain ⟨rfl, rfl⟩ := e
       rw [FINSerror_plain _ _ _ _ (by decide)]
       rfl)
  · intro p hp
    simp only [CheckData] at hp
    split_ifs at hp with h1
    simp only [ne_eq, not_or, not_not] at h1
    exact h1


/-- C17: on a UDP session every command gets one pair of command codes,
stored in request bytes 10 and 11, and the memory commands one area byte in
request byte 12.  Reads built by `BuildReadMessage` (also under the write
reasons) use 01/01 and writes built by `BuildWriteMessage` 01/02, with area
`0x82` for DM, `0xB3` for AR, `0xB0` for IO, `0xB1` for WR, `0xB2` for HR in
all variants; model 05/02; CPU status and mode 06/01; the four cycle-time
reads 06/20 with payload byte 01, cycle-time reset 06/20 with payload byte
00; clock read 07/01; multiple-area read 01/04; set/reset cancel 23/02. -/
theorem command_codes (h : Host) (mmList : List MultiMemArea) (p : drvPvt)
    (a n asz : Nat) (data : List Nat) (hu : p.type = FINS_UDP_type)
    (hl : p.message.length = FINS_MAX_MSG) :
    (∀ r area, (r, area) ∈ [(FINS_DM_READ, 0x82), (FINS_DM_READ_32, 0x82),
        (FINS_DM_WRITE, 0x82), (FINS_DM_WRITE_32, 0x82), (FINS_AR_READ, 0xB3),
        (FINS_AR_READ_32, 0xB3), (FINS_AR_WRITE, 0xB3), (FINS_AR_WRITE_32, 0xB3),
        (FINS_IO_READ, 0xB0), (FINS_IO_READ_32, 0xB0), (FINS_IO_WRITE, 0xB0),
        (FINS_IO_WRITE_32, 0xB0), (FINS_WR_READ, 0xB1), (FINS_HR_READ, 0xB2)] →
      ∃ p' S R, BuildReadMessage h mmList p r a n = BuildResult.ok p' S R ∧
        p'.mrc = 0x01 ∧ p'.src = 0x01 ∧
        [getByte p'.message 10, getByte p'.message 11, getByte p'.message 12]
          = [0x01, 0x01, area]) ∧
    (∀ r area, (r, area) ∈ [(FINS_DM_WRITE, 0x82), (FINS_DM_WRITE_NOREAD, 0x82),
        (FINS_DM_WRITE_32, 0x82), (FINS_DM_WRITE_32_NOREAD, 0x82), (FINS_AR_WRITE, 0xB3),
        (FINS_AR_WRITE_NOREAD, 0xB3), (FINS_AR_WRITE_32, 0xB3),
        (FINS_AR_WRITE_32_NOREAD, 0xB3), (FINS_IO_WRITE, 0xB0), (FINS_IO_WRITE_NOREAD, 0xB0),
        (FINS_IO_WRITE_32, 0xB0), (FINS_IO_WRITE_32_NOREAD, 0xB0)] →
      ∃ p' S R, BuildWriteMessage h p r a n asz data = BuildResult.ok p' S R ∧
        p'.mrc = 0x01 ∧ p'.src = 0x02 ∧
        [getByte p'.message 10, getByte p'.message 11, getByte p'.message 12]
          = [0x01, 0x02, area]) ∧
    (∀ r S R mrc src, (r, S, R, mrc, src) ∈ [(FINS_MODEL, 14, 36, 0x05, 0x02),
        (FINS_CPU_STATUS, 12, 40, 0x06, 0x01), (FINS_CPU_MODE, 12, 40, 0x06, 0x01),
        (FINS_CYCLE_TIME, 13, 26, 0x06, 0x20), (FINS_CYCLE_TIME_MEAN, 13, 26, 0x06, 0x20),
        (FINS_CYCLE_TIME_MAX, 13, 26, 0x06, 0x20), (FINS_CYCLE_TIME_MIN, 13, 26, 0x06, 0x20),
        (FINS_CLOCK_READ, 12, 21, 0x07, 0x01)] →
      ∃ p', BuildReadMessage h mmList p r a n = BuildResult.ok p' S R ∧
        p'.mrc = mrc ∧ p'.src = src ∧
        [getByte p'.message 10, getByte p'.message 11] = [mrc, src] ∧
        (r ∈ [FINS_CYCLE_TIME, FINS_CYCLE_TIME_MEAN, FINS_CYCLE_TIME_MAX, FINS_CYCLE_TIME_MIN] →
          getByte p'.message 12 = 0x01)) ∧
    (∀ r S R mrc src, (r, S, R, mrc, src) ∈ [(FINS_CYCLE_TIME_RESET, 13, 14, 0x06, 0x20),
        (FINS_SET_RESET_CANCEL, 12, 14, 0x23, 0x02)] →
      ∃ p', BuildWriteMessage h p r a n asz data = BuildResult.ok p' S R ∧
        p'.mrc = mrc ∧ p'.src = src ∧
        [getByte p'.message 10, getByte p'.message 11] = [mrc, src] ∧
        (r = FINS_CYCLE_TIME_RESET → getByte p'.message 12 = 0x00)) ∧
    (∀ p' S R, BuildReadMessage h mmList p FINS_MM_READ a n = BuildResult.ok p' S R →
      p'.mrc = 0x01 ∧ p'.src = 0x04 ∧
      [getByte p'.message 10, getByte p'.message 11] = [0x01, 0x04]) := by
  have hu' : p.type ≠ FINS_TCP_type := by rw [hu]; decide
  refine ⟨?_, ?_, ?_, ?_, ?_⟩
  · intro r area hr
    exact BuildReadMessage_mem_codes h mmList p r area a n hu' hl hr
  · intro r area hr
    exact BuildWriteMessage_mem_codes h p r area a n asz data hu' hl hr
  · intro r S R mrc src hr
    obtain ⟨p', f0, -, -, -, -, -, f6, f7, -, -, f10, f11, f12, -⟩ :=
      BuildReadMessage_fixed_udp h mmList p r a n S R mrc src hu' hl hr
    exact ⟨p', f0, f6, f7, by rw [f10, f11], f12⟩
  · intro r S R mrc src hr
    obtain ⟨p', f0, -, -, f6, f7, -, -, f10, f11, f12⟩ :=
      BuildWriteMessage_fixed_udp h p r a n asz S R mrc src data hu' hl hr
    exact ⟨p', f0, f6, f7, by rw [f10, f11], f12⟩
  · intro p' S R hb
    exact BuildReadMessage_mm_codes h mmList p a n p' S R hu' hl hb

/-- C17 at the sample UDP session: a Data-Memory write is built with the
bytes 01 02 82 and a cycle-time read with 06 20 01. -/
theorem command_codes_witness :
    (∃ p' S R, BuildWriteMessage hostLE (session0 FINS_UDP_type) FINS_DM_WRITE 100 2 2
        [0x1234, 0x5678] = BuildResult.ok p' S R ∧
      [getByte p'.message 10, getByte p'.message 11, getByte p'.message 12]
        = [0x01, 0x02, 0x82]) ∧
    (∃ p', BuildReadMessage hostLE [] (session0 FINS_UDP_type) FINS_CYCLE_TIME 0 3
        = BuildResult.ok p' 13 26 ∧
      [getByte p'.message 10, getByte p'.message 11] = [0x06, 0x20] ∧
      getByte p'.message 12 = 0x01) := by
  obtain ⟨-, h2, h3, -⟩ := command_codes hostLE [] (session0 FINS_UDP_type) 100 2 2
    [0x1234, 0x5678] rfl (session0_length _)
  obtain ⟨-, -, h3', -⟩ := command_codes hostLE [] (session0 FINS_UDP_type) 0 3 4
    [] rfl (session0_length _)
  constructor
  · obtain ⟨p', S, R, hb, -, -, hbytes⟩ := h2 FINS_DM_WRITE 0x82 (by simp)
    exact ⟨p', S, R, hb, hbytes⟩
  · obtain ⟨p', hb, -, -, hbytes, h12⟩ := h3' FINS_CYCLE_TIME 13 26 0x06 0x20 (by simp)
    exact ⟨p', hb, hbytes, h12 (by simp)⟩

/-- C18: on a UDP session the lengths of the fixed-shape commands are
constants, whatever address and element count are passed: model 14 and 36,
CPU status and CPU mode 12 and 40, each cycle-time read 13 and 26, clock
read 12 and 21, cycle-time reset 13 and 14, set/reset cancel 12 and 14. -/
theorem fixed_shape_lengths (h : Host) (mmList : List MultiMemArea) (p : drvPvt)
    (hu : p.type = FINS_UDP_type) (hl : p.message.length = FINS_MAX_MSG) :
    (∀ r S R, (r, S, R) ∈ [(FINS_MODEL, 14, 36), (FINS_CPU_STATUS, 12, 40),
        (FINS_CPU_MODE, 12, 40), (FINS_CYCLE_TIME, 13, 26), (FINS_CYCLE_TIME_MEAN, 13, 26),
        (FINS_CYCLE_TIME_MAX, 13, 26), (FINS_CYCLE_TIME_MIN, 13, 26),
        (FINS_CLOCK_READ, 12, 21)] →
      ∀ a n, ∃ p', BuildReadMessage h mmList p r a n = BuildResult.ok p' S R) ∧
    (∀ r S R, (r, S, R) ∈ [(FINS_CYCLE_TIME_RESET, 13, 14), (FINS_SET_RESET_CANCEL, 12, 14)] →
      ∀ a n asz data, ∃ p', BuildWriteMessage h p r a n asz data = BuildResult.ok p' S R) ∧
    36 = 14 + 2 + FINS_MODEL_LEN ∧ 40 = 14 + FINS_CPU_STATE_LEN ∧
    26 = 14 + FINS_CYCLE_TIME_LEN * 4 ∧ 21 = 14 + FINS_CLOCK_READ_LEN := by
  have hu' : p.type ≠ FINS_TCP_type := by rw [hu]; decide
  refine ⟨?_, ?_, rfl, rfl, rfl, rfl⟩
  · intro r S R hr a n
    simp only [List.mem_cons, Prod.mk.injEq, List.mem_singleton, List.not_mem_nil,
      or_false] at hr
    rcases hr with e | e | e | e | e | e | e | e <;>
      (obtain ⟨rfl, rfl, rfl⟩ := e
       first
         | (refine Exists.imp (fun p' hp => hp.1)
              (BuildReadMessage_fixed_udp h mmList p _ a n _ _ 0x05 0x02 hu' hl ?_)
            decide)
         | (refine Exists.imp (fun p' hp => hp.1)
              (BuildReadMessage_fixed_udp h mmList p _ a n _ _ 0x06 0x01 hu' hl ?_)
            decide)
         | (refine Exists.imp (fun p' hp => hp.1)
              (BuildReadMessage_fixed_udp h mmList p _ a n _ _ 0x06 0x20 hu' hl ?_)
            decide)
         | (refine Exists.imp (fun p' hp => hp.1)
              (BuildReadMessage_fixed_udp h mmList p _ a n _ _ 0x07 0x01 hu' hl ?_)
            decide))
  · intro r S R hr a n asz data
    simp only [List.mem_cons, Prod.mk.injEq, List.mem_singleton, List.not_mem_nil,
      or_false] at hr
    rcases hr with e | e <;>
      (obtain ⟨rfl, rfl, rfl⟩ := e
       first
         | (refine Exists.imp (fun p' hp => hp.1)
              (BuildWriteMessage_fixed_udp h p _ a n asz _ _ 0x06 0x20 data hu' hl ?_)
            decide)
         | (refine Exists.imp (fun p' hp => hp.1)
              (BuildWriteMessage_fixed_udp h p _ a n asz _ _ 0x23 0x02 data hu' hl ?_)
            decide))

/-- C18 at the sample UDP session: the model query and the clock read for two
different addresses and counts. -/
theorem fixed_shape_lengths_witness :
    (∃ p', BuildReadMessage hostLE [] (session0 FINS_UDP_type) FINS_MODEL 0 20
      = BuildResult.ok p' 14 36) ∧
    (∃ p', BuildReadMessage hostLE [] (session0 FINS_UDP_type) FINS_MODEL 7 40
      = BuildResult.ok p' 14 36) ∧
    (∃ p', BuildReadMessage hostLE [] (session0 FINS_UDP_type) FINS_CLOCK_READ 0 7
      = BuildResult.ok p' 12 21) ∧
    (∃ p', BuildWriteMessage hostLE (session0 FINS_UDP_type) FINS_SET_RESET_CANCEL 5 1 4 [0]
      = BuildResult.ok p' 12 14) := by
  obtain ⟨h1, h2, -⟩ := fixed_shape_lengths hostLE [] (session0 FINS_UDP_type) rfl
    (session0_length _)
  exact ⟨h1 FINS_MODEL 14 36 (by simp) 0 20, h1 FINS_MODEL 14 36 (by simp) 7 40,
    h1 FINS_CLOCK_READ 12 21 (by simp) 0 7, h2 FINS_SET_RESET_CANCEL 12 14 (by simp) 5 1 4 [0]⟩


theorem map_range_of_getD (f : Nat → Nat) (vs : List Nat)
    (hf : ∀ i, i < vs.length → f i = vs[i]?.getD 0) :
    (List.range vs.length).map f = vs := by
  apply List.ext_getElem?
  intro i
  by_cases hi : i < vs.length
  · rw [List.getElem?_map, List.getElem?_range hi, List.getElem?_eq_getElem hi]
    simp only [Option.map_some', Option.some.injEq]
    rw [hf i hi, List.getElem?_eq_getElem hi]
    rfl
  · have h1 : vs.length ≤ i := by omega
    rw [List.getElem?_eq_none h1, List.getElem?_eq_none (by simpa using h1)]

/-- The model query on the sample session, answered with `modelReply`: the
call succeeds after one exchange and copies `maxchars` bytes starting at
byte 16 of the scratch buffer. -/
theorem octetRead_model_sample (h : Host) (data : List Nat) (maxchars : Nat)
    (hm : 20 ≤ maxchars) (hd : data.length = maxchars) :
    ∃ c, octetRead h (replyTransport modelReply) [] (session0 FINS_UDP_type) []
        FINS_MODEL asynSuccess 0 data maxchars = some (c, ASYN_EOM_END) ∧
      c.status = asynSuccess ∧ c.count = maxchars ∧
      c.data = (List.range maxchars).map (fun i => getByte c.pvt.message (RESP + 2 + i)) ∧
      (∀ j, j < 20 → getByte c.pvt.message (RESP + 2 + j) = modelName[j]?.getD 0) ∧
      (∀ j, 20 ≤ j → getByte c.pvt.message (RESP + 2 + j) = 0) := by
  obtain ⟨res, req, hres, hret, htr, -, hext, hpay, hzero⟩ :=
    sample_fixed_read h FINS_MODEL 14 36 5 2 (by simp) ([0, 1] ++ modelName) data maxchars
      (toAddress 0) 0 0 (by omega) (by decide)
  have hrep : fixedReplyHeader 5 2 ++ ([0, 1] ++ modelName) = modelReply := by
    simp only [modelReply, List.append_assoc]
  rw [hrep] at hres
  have hsw : octetReadSwitch FINS_MODEL maxchars = true := by
    have : ¬ maxchars < FINS_MODEL_LEN := by show ¬ maxchars < 20; omega
    simp only [octetReadSwitch, this, if_false]
  have hdat : res.data
      = (List.range maxchars).map (fun i => getByte res.pvt.message (RESP + 2 + i)) := by
    simp only [extractData, Option.some.injEq] at hext
    rw [← hext]
    exact assignLoop_eq_map _ _ _ hd
  refine ⟨⟨asynSuccess, res.pvt, res.log, res.data, res.transferred⟩, ?_, rfl, htr, hdat, ?_, ?_⟩
  · simp only [octetRead, hsw, hres, hret]
    simp [ASYN_EOM_END]
  · intro j hj
    have := hpay (2 + j) (by simp [modelName]; omega)
    rw [show RESP + 2 + j = 14 + (2 + j) by simp only [RESP]; omega, this]
    interval_cases j <;> rfl
  · intro j hj
    exact hzero (RESP + 2 + j) (by simp only [RESP]; omega)

/-- C19 holds for a buffer of exactly 20 bytes and fails for a larger one:
the model read through `octetRead` with `maxchars = 40`, answered with a
valid reply carrying `modelName`, succeeds, reports 40 bytes transferred and
overwrites all 40 bytes of the caller's buffer (20 name bytes, then the 20
bytes that follow the reply in the scratch buffer, here zeros, in place of
the caller's 0xEE).  With `maxchars = 20` the 20 name bytes are returned and
20 reported; with `maxchars = 19` the call fails before any I/O. -/
theorem model_read_copies_maxchars (h : Host) :
    (∃ c, octetRead h (replyTransport modelReply) [] (session0 FINS_UDP_type) []
        FINS_MODEL asynSuccess 0 (List.replicate 40 0xEE) 40 = some (c, ASYN_EOM_END) ∧
      c.status = asynSuccess ∧ c.count = 40 ∧ c.data = modelName ++ List.replicate 20 0) ∧
    (∃ c, octetRead h (replyTransport modelReply) [] (session0 FINS_UDP_type) []
        FINS_MODEL asynSuccess 0 (List.replicate 20 0xEE) 20 = some (c, ASYN_EOM_END) ∧
      c.status = asynSuccess ∧ c.count = 20 ∧ c.data = modelName) ∧
    octetRead h (replyTransport modelReply) [] (session0 FINS_UDP_type) []
        FINS_MODEL asynSuccess 0 (List.replicate 40 0xEE) 19
      = some (⟨asynError, session0 FINS_UDP_type, [], List.replicate 40 0xEE, 0⟩, 0) := by
  refine ⟨?_, ?_, ?_⟩
  · obtain ⟨c, hc, hs, hn, hdat, hname, hzero⟩ :=
      octetRead_model_sample h (List.replicate 40 0xEE) 40 (by decide) (by simp)
    refine ⟨c, hc, hs, hn, ?_⟩
    rw [hdat]
    refine map_range_of_getD _ (modelName ++ List.replicate 20 0) ?_
    intro i hi
    have hi' : i < 40 := hi
    by_cases h20 : i < 20
    · show getByte c.pvt.message (RESP + 2 + i) = _
      rw [hname i h20]
      interval_cases i <;> rfl
    · show getByte c.pvt.message (RESP + 2 + i) = _
      rw [hzero i (by omega)]
      interval_cases i <;> rfl
  · obtain ⟨c, hc, hs, hn, hdat, hname, -⟩ :=
      octetRead_model_sample h (List.replicate 20 0xEE) 20 (by decide) (by simp)
    refine ⟨c, hc, hs, hn, ?_⟩
    rw [hdat]
    refine map_range_of_getD _ modelName ?_
    intro i hi
    exact hname i hi
  · simp [octetRead, octetReadSwitch, FINS_MODEL_LEN]


/-- A 32-bit word read through `BSWAP32` is the big-endian value of its four
bytes, and fits 32 bits. -/
theorem BSWAP32_load32_mod (h : Host) (m : List Nat) (off : Nat) :
    BSWAP32 h (load32 h m off) % 2 ^ 32
      = 16777216 * getByte m off + 65536 * getByte m (off + 1)
        + 256 * getByte m (off + 2) + getByte m (off + 3) := by
  have h0 := getByte_lt m off
  have h1 := getByte_lt m (off + 1)
  have h2 := getByte_lt m (off + 2)
  have h3 := getByte_lt m (off + 3)
  rw [wire_load32B]
  apply Nat.mod_eq_of_lt
  norm_num
  omega

theorem set_zero_singleton (data : List Nat) (v : Nat) (hd : data.length = 1) :
    data.set 0 v = [v] := by
  match data, hd with
  | [_], _ => rfl

/-- C20: after a validated reply (`finsRead` returned 0), `FINS_CYCLE_TIME`
with 3 elements returns the three big-endian 32-bit words found at reply
bytes 14-17, 18-21 and 22-25, on either byte order of the host, and
`FINS_CYCLE_TIME_MEAN`, `FINS_CYCLE_TIME_MAX`, `FINS_CYCLE_TIME_MIN` return
the first, the second and the third of these. -/
theorem cycle_time_values (h : Host) (tr : Transport) (mmList : List MultiMemArea)
    (p : drvPvt) (log : List IOEvent) (r : FINS_COMMANDS) (data : List Nat)
    (n a t asz : Nat) (res : ReadResult)
    (hres : finsRead h tr mmList p log r data n a t asz = some res) (hret : res.ret = 0)
    (hcase : (r = FINS_CYCLE_TIME ∧ n = FINS_CYCLE_TIME_LEN ∧ data.length = 3) ∨
      (r ∈ [FINS_CYCLE_TIME_MEAN, FINS_CYCLE_TIME_MAX, FINS_CYCLE_TIME_MIN] ∧
        n = ONE_ELEMENT ∧ data.length = 1)) :
    ∃ w0 w1 w2,
      w0 = 16777216 * getByte res.pvt.message 14 + 65536 * getByte res.pvt.message 15
        + 256 * getByte res.pvt.message 16 + getByte res.pvt.message 17 ∧
      w1 = 16777216 * getByte res.pvt.message 18 + 65536 * getByte res.pvt.message 19
        + 256 * getByte res.pvt.message 20 + getByte res.pvt.message 21 ∧
      w2 = 16777216 * getByte res.pvt.message 22 + 65536 * getByte res.pvt.message 23
        + 256 * getByte res.pvt.message 24 + getByte res.pvt.message 25 ∧
      (r = FINS_CYCLE_TIME → res.data = [w0, w1, w2]) ∧
      (r = FINS_CYCLE_TIME_MEAN → res.data = [w0]) ∧
      (r = FINS_CYCLE_TIME_MAX → res.data = [w1]) ∧
      (r = FINS_CYCLE_TIME_MIN → res.data = [w2]) := by
  have hn : 1 ≤ n := by
    rcases hcase with ⟨-, hn, -⟩ | ⟨-, hn, -⟩ <;> rw [hn] <;> decide
  obtain ⟨-, hext, -⟩ := finsRead_ret0 h tr mmList p log r data n a t asz res hn hres hret
  refine ⟨_, _, _, rfl, rfl, rfl, ?_, ?_, ?_, ?_⟩
  · intro hr
    subst hr
    rcases hcase with ⟨-, hn3, hd⟩ | ⟨hmem, -, -⟩
    · subst hn3
      simp only [extractData, Option.some.injEq] at hext
      rw [← hext, assignLoop_eq_map _ FINS_CYCLE_TIME_LEN _ hd]
      simp only [FINS_CYCLE_TIME_LEN, List.range_succ, List.range_zero, List.nil_append,
        List.cons_append, List.map_cons, List.map_nil, BSWAP32_load32_mod, RESP,
        Nat.reduceAdd, Nat.reduceMul]
    · simp at hmem
  · intro hr
    subst hr
    rcases hcase with ⟨hne, -, -⟩ | ⟨-, -, hd⟩
    · cases hne
    · simp only [extractData, Option.some.injEq] at hext
      rw [← hext, set_zero_singleton _ _ hd]
      simp only [BSWAP32_load32_mod, RESP, Nat.reduceAdd]
  · intro hr
    subst hr
    rcases hcase with ⟨hne, -, -⟩ | ⟨-, -, hd⟩
    · cases hne
    · simp only [extractData, Option.some.injEq] at hext
      rw [← hext, set_zero_singleton _ _ hd]
      simp only [BSWAP32_load32_mod, RESP, Nat.reduceAdd]
  · intro hr
    subst hr
    rcases hcase with ⟨hne, -, -⟩ | ⟨-, -, hd⟩
    · cases hne
    · simp only [extractData, Option.some.injEq] at hext
      rw [← hext, set_zero_singleton _ _ hd]
      simp only [BSWAP32_load32_mod, RESP, Nat.reduceAdd]

/-- The sample cycle-time reply (mean 10, maximum 256, minimum 5) read on a
big-endian host: the triple read returns the three values, the maximum read
the second. -/
theorem cycle_time_values_witness :
    (∃ res, finsRead hostBE (replyTransport cycleReply) [] (session0 FINS_UDP_type) []
        FINS_CYCLE_TIME [0, 0, 0] 3 0 0 4 = some res ∧ res.ret = 0 ∧
      res.data = [10, 256, 5]) ∧
    (∃ res, finsRead hostBE (replyTransport cycleReply) [] (session0 FINS_UDP_type) []
        FINS_CYCLE_TIME_MAX [0] 1 0 0 4 = some res ∧ res.ret = 0 ∧ res.data = [256]) := by
  constructor
  · obtain ⟨res, req, hres, hret, -, -, -, hpay, -⟩ :=
      sample_fixed_read hostBE FINS_CYCLE_TIME 13 26 6 0x20 (by simp)
        [0, 0, 0, 10, 0, 0, 1, 0, 0, 0, 0, 5] [0, 0, 0] 3 0 0 4 (by decide) (by decide)
    obtain ⟨w0, w1, w2, h0, h1, h2, hall, -, -, -⟩ :=
      cycle_time_values hostBE _ [] _ [] FINS_CYCLE_TIME [0, 0, 0] 3 0 0 4 res hres hret
        (Or.inl ⟨rfl, rfl, rfl⟩)
    refine ⟨res, hres, hret, ?_⟩
    rw [hall rfl, h0, h1, h2]
    rw [hpay 0 (by decide), hpay 1 (by decide), hpay 2 (by decide), hpay 3 (by decide),
      hpay 4 (by decide), hpay 5 (by decide), hpay 6 (by decide), hpay 7 (by decide),
      hpay 8 (by decide), hpay 9 (by decide), hpay 10 (by decide), hpay 11 (by decide)]
    rfl
  · obtain ⟨res, req, hres, hret, -, -, -, hpay, -⟩ :=
      sample_fixed_read hostBE FINS_CYCLE_TIME_MAX 13 26 6 0x20 (by simp)
        [0, 0, 0, 10, 0, 0, 1, 0, 0, 0, 0, 5] [0] 1 0 0 4 (by decide) (by decide)
    obtain ⟨w0, w1, w2, -, h1, -, -, -, hmax, -⟩ :=
      cycle_time_values hostBE _ [] _ [] FINS_CYCLE_TIME_MAX [0] 1 0 0 4 res hres hret
        (Or.inr ⟨by simp, rfl, rfl⟩)
    refine ⟨res, hres, hret, ?_⟩
    rw [hmax rfl, h1]
    rw [hpay 4 (by decide), hpay 5 (by decide), hpay 6 (by decide), hpay 7 (by decide)]
    rfl


/-- The clock fields a successful `FINS_CLOCK_READ` stores: each is the reply
byte read as an `epicsInt8` and widened to 16 bits. -/
theorem finsRead_clock_data (h : Host) (tr : Transport) (mmList : List MultiMemArea)
    (p : drvPvt) (log : List IOEvent) (data : List Nat) (n a t asz : Nat) (res : ReadResult)
    (hn : 1 ≤ n) (hd : data.length = n)
    (hres : finsRead h tr mmList p log FINS_CLOCK_READ data n a t asz = some res)
    (hret : res.ret = 0) :
    res.data = (List.range n).map (fun i => int8To16 (getByte res.pvt.message (14 + i))) ∧
      res.transferred = n := by
  obtain ⟨-, hext, htr⟩ := finsRead_ret0 h tr mmList p log _ data n a t asz res hn hres hret
  simp only [extractData, Option.some.injEq] at hext
  rw [← hext, assignLoop_eq_map _ n _ hd]
  exact ⟨by simp only [RESP, Nat.add_zero], htr⟩

theorem int8To16_byte (b : Nat) (hb : b < 256) :
    int8To16 b = if b < 128 then b else 0xFF00 + b := by
  simp only [int8To16, Nat.mod_eq_of_lt hb]

/-- C21 fails in the code for a reply byte of `0x80` or more: the validated
clock reply `99 12 31 23 59 59 06` (year 99) gives the first field `0xFF99`,
the 16-bit pattern of -103, and not `0x99` = 153; the other six fields are
the reply bytes.  The payload is read through `epicsInt8 *rep`, a signed
type where plain `char` is signed, and `*dat++ = *rep++` extends the sign. -/
theorem clock_read_sign_extends :
    ∃ res, finsRead hostLE (replyTransport clockReply) [] (session0 FINS_UDP_type) []
        FINS_CLOCK_READ [0, 0, 0, 0, 0, 0, 0] 7 0 0 2 = some res ∧ res.ret = 0 ∧
      getByte res.pvt.message 14 = 0x99 ∧
      res.data = [0xFF99, 0x12, 0x31, 0x23, 0x59, 0x59, 0x06] ∧
      res.data.getD 0 0 ≠ getByte res.pvt.message 14 := by
  obtain ⟨res, req, hres, hret, -, -, -, hpay, -⟩ :=
    sample_fixed_read hostLE FINS_CLOCK_READ 12 21 7 1 (by simp)
      [0x99, 0x12, 0x31, 0x23, 0x59, 0x59, 0x06] [0, 0, 0, 0, 0, 0, 0] 7 0 0 2 (by decide)
      (by decide)
  obtain ⟨hdat, -⟩ := finsRead_clock_data hostLE _ [] _ [] [0, 0, 0, 0, 0, 0, 0] 7 0 0 2 res
    (by decide) rfl hres hret
  have q0 := hpay 0 (by decide)
  have q1 := hpay 1 (by decide)
  have q2 := hpay 2 (by decide)
  have q3 := hpay 3 (by decide)
  have q4 := hpay 4 (by decide)
  have q5 := hpay 5 (by decide)
  have q6 := hpay 6 (by decide)
  have e : res.data = [0xFF99, 0x12, 0x31, 0x23, 0x59, 0x59, 0x06] := by
    rw [hdat]
    simp only [List.range_succ, List.range_zero, List.nil_append, List.cons_append,
      List.map_cons, List.map_nil]
    rw [q0, q1, q2, q3, q4, q5, q6]
    decide
  refine ⟨res, hres, hret, by rw [q0]; rfl, e, ?_⟩
  rw [e, q0]
  decide

/-- The clock fields as `finsRead` computes them: after a validated clock
reply, field `i` (`i < 7`) is reply byte `14 + i` read through `epicsInt8 *`
and widened to 16 bits, with no BCD conversion: a byte below `0x80` is
returned as its value (`0x59` gives 89), a byte `b` from `0x80` on comes out
as the 16-bit pattern `0xFF00 + b` of the negative number `b - 256`. -/
theorem clock_read_fields (h : Host) (tr : Transport) (mmList : List MultiMemArea)
    (p : drvPvt) (log : List IOEvent) (data : List Nat) (a t asz : Nat) (res : ReadResult)
    (hd : data.length = FINS_CLOCK_READ_LEN)
    (hres : finsRead h tr mmList p log FINS_CLOCK_READ data FINS_CLOCK_READ_LEN a t asz
      = some res)
    (hret : res.ret = 0) :
    res.data.length = 7 ∧ res.transferred = 7 ∧
    ∀ i, i < 7 → ∀ b, b = getByte res.pvt.message (14 + i) →
      (b < 0x80 → res.data.getD i 0 = b) ∧
      (0x80 ≤ b → res.data.getD i 0 = 0xFF00 + b ∧
        (res.data.getD i 0 : Int) - 65536 = (b : Int) - 256) ∧
      (b = 0x59 → res.data.getD i 0 = 89) := by
  obtain ⟨hdat, htr⟩ := finsRead_clock_data h tr mmList p log data FINS_CLOCK_READ_LEN a t asz
    res (by decide) hd hres hret
  refine ⟨by rw [hdat]; simp [FINS_CLOCK_READ_LEN], htr, ?_⟩
  intro i hi b hb
  have hlt : b < 256 := hb ▸ getByte_lt _ _
  have e : res.data.getD i 0 = int8To16 b := by
    rw [hdat, List.getD_eq_getElem?_getD, List.getElem?_map,
      List.getElem?_range (by simpa [FINS_CLOCK_READ_LEN] using hi)]
    simp only [Option.map_some', Option.getD_some]
    rw [hb]
  rw [e, int8To16_byte b hlt]
  refine ⟨fun h1 => by rw [if_pos (by omega)], fun h1 => ?_, fun h1 => ?_⟩
  · rw [if_neg (by omega)]
    refine ⟨rfl, ?_⟩
    push_cast
    omega
  · subst h1
    decide

/-- The sample clock reply: seven fields, of which the year byte `0x99` comes
out as `0xFF99` and the minute byte `0x59` as 89. -/
theorem clock_read_fields_witness :
    ∃ res, finsRead hostLE (replyTransport clockReply) [] (session0 FINS_UDP_type) []
        FINS_CLOCK_READ [0, 0, 0, 0, 0, 0, 0] 7 0 0 2 = some res ∧ res.ret = 0 ∧
      res.data.length = 7 ∧ res.data.getD 0 0 = 0xFF99 ∧ res.data.getD 4 0 = 89 := by
  obtain ⟨res, req, hres, hret, -, -, -, hpay, -⟩ :=
    sample_fixed_read hostLE FINS_CLOCK_READ 12 21 7 1 (by simp)
      [0x99, 0x12, 0x31, 0x23, 0x59, 0x59, 0x06] [0, 0, 0, 0, 0, 0, 0] 7 0 0 2 (by decide)
      (by decide)
  obtain ⟨hlen, -, hf⟩ := clock_read_fields hostLE _ [] _ [] [0, 0, 0, 0, 0, 0, 0] 0 0 2 res
    rfl hres hret
  refine ⟨res, hres, hret, hlen, ?_, ?_⟩
  · exact ((hf 0 (by decide) 0x99 (by rw [hpay 0 (by decide)]; rfl)).2.1 (by decide)).1
  · exact (hf 4 (by decide) 0x59 (by rw [hpay 4 (by decide)]; rfl)).2.2 rfl


/-- C22: for a multiple-area read of `n ≤ 10` elements against a configured
entry `MM` (two arrays of ten 16-bit numbers) whose first zero area code is at
index `z` (`z = 10` when there is none), `BuildReadMessage` succeeds, which
in this model means that no pair outside the arrays was read, with command
codes 01/04, send length `12 + 4m` and receive length `14 + 3m` for
`m = min n z`, and quadruple `i < m` at request bytes `12 + 4i` to `15 + 4i`
is the low byte of `area_i` (which is `area_i` for an area code below 256),
`address_i >> 8`, `address_i & 0xFF` and `00`.  On a TCP session the lengths
and the positions are larger by `off = 16`, the size of the FINS/TCP header;
`off = 0` otherwise. -/
theorem mm_read_request (h : Host) (hs : 16 ≤ h.sizeBits) (mmList : List MultiMemArea)
    (p : drvPvt) (a n z off : Nat) (MM : MultiMemArea)
    (hl : p.message.length = FINS_MAX_MSG)
    (hoff : off = if p.type = FINS_TCP_type then FINS_SEND_FRAME_SIZE else 0)
    (hMM : ellNth mmList (sizeT h (a + 1)) = some MM)
    (hA : MM.area.length = FINS_MM_MAX_ADDRS) (hD : MM.address.length = FINS_MM_MAX_ADDRS)
    (h16 : ∀ x ∈ MM.address, x < 65536)
    (hn : n ≤ 10) (hz : z ≤ 10) (hz1 : ∀ k, k < z → MM.area.getD k 0 ≠ 0)
    (hz2 : z < 10 → MM.area.getD z 0 = 0) :
    ∃ p', BuildReadMessage h mmList p FINS_MM_READ a n
        = BuildResult.ok p' (12 + 4 * min n z + off) (14 + 3 * min n z + off) ∧
      p'.mrc = 0x01 ∧ p'.src = 0x04 ∧
      [getByte p'.message (off + 10), getByte p'.message (off + 11)] = [0x01, 0x04] ∧
      (p'.message.take (12 + 4 * min n z + off)).length = 12 + 4 * min n z + off ∧
      ∀ i, i < min n z →
        [getByte p'.message (off + 12 + 4 * i), getByte p'.message (off + 13 + 4 * i),
          getByte p'.message (off + 14 + 4 * i), getByte p'.message (off + 15 + 4 * i)]
          = [MM.area.getD i 0 % 256, MM.address.getD i 0 >>> 8, MM.address.getD i 0 &&& 0xFF,
              0x00] ∧
        (MM.area.getD i 0 < 256 → getByte p'.message (off + 12 + 4 * i) = MM.area.getD i 0) := by
  obtain ⟨m, p', hb, m1, m2, m3, c1, c2, b10, b11, hlen, hq⟩ :=
    BuildReadMessage_mm h hs mmList p a n off MM hl hoff hMM hA hD hn
  have hA' : MM.area.length = 10 := hA
  have hD' : MM.address.length = 10 := hD
  have hm : m = min n z := by
    by_cases hmn : m < n
    · have e0 := m3 hmn
      have hzm : z ≤ m := by
        by_contra hc
        exact hz1 m (by omega) e0
      have hmz : m ≤ z := by
        by_contra hc
        exact m2 z (by omega) (hz2 (by omega))
      omega
    · have hnz : n ≤ z := by
        by_contra hc
        exact m2 z (by omega) (hz2 (by omega))
      omega
  have hoff' : off ≤ 16 := by
    rw [hoff]; split
    · exact le_refl _
    · exact Nat.zero_le _
  subst hm
  refine ⟨p', hb, c1, c2, by rw [b10, b11], ?_, ?_⟩
  · rw [List.length_take, hlen]
    have : (2000 : Nat) = FINS_MAX_MSG := rfl
    omega
  · intro i hi
    obtain ⟨q0, q1, q2, q3⟩ := hq i hi
    have hmem : MM.address.getD i 0 < 65536 := by
      rw [List.getD_eq_getElem _ _ (by omega)]
      exact h16 _ (List.getElem_mem _)
    have e1 : (MM.address.getD i 0 >>> 8) % 256 = MM.address.getD i 0 >>> 8 := by
      apply Nat.mod_eq_of_lt
      rw [Nat.shiftRight_eq_div_pow]
      omega
    have e2 : (MM.address.getD i 0 &&& 0xff) % 256 = MM.address.getD i 0 &&& 0xFF := by
      apply Nat.mod_eq_of_lt
      exact Nat.lt_of_le_of_lt Nat.and_le_right (by decide)
    refine ⟨by rw [q0, q1, q2, q3, e1, e2], fun hlt => ?_⟩
    rw [q0, Nat.mod_eq_of_lt hlt]

/-- The sample entry (DM 100, IO 0x1234, AR 1, then zero) read with five
elements on the sample UDP session: three quadruples, 24 bytes sent, 23
expected. -/
theorem mm_read_request_witness :
    ∃ p', BuildReadMessage hostLE [mmSample] (session0 FINS_UDP_type) FINS_MM_READ 0 5
        = BuildResult.ok p' 24 23 ∧
      [getByte p'.message 10, getByte p'.message 11] = [0x01, 0x04] ∧
      [getByte p'.message 12, getByte p'.message 13, getByte p'.message 14,
        getByte p'.message 15] = [0x82, 0x00, 0x64, 0x00] ∧
      [getByte p'.message 16, getByte p'.message 17, getByte p'.message 18,
        getByte p'.message 19] = [0xB0, 0x12, 0x34, 0x00] ∧
      [getByte p'.message 20, getByte p'.message 21, getByte p'.message 22,
        getByte p'.message 23] = [0xB3, 0x00, 0x01, 0x00] := by
  obtain ⟨p', hb, -, -, hc, -, hq⟩ := mm_read_request hostLE (by decide) [mmSample]
    (session0 FINS_UDP_type) 0 5 3 0 mmSample (session0_length _) rfl rfl rfl rfl
    (by decide) (by decide) (by decide) (by decide) (by decide)
  exact ⟨p', hb, hc, (hq 0 (by decide)).1, (hq 1 (by decide)).1, (hq 2 (by decide)).1⟩


/-- C23: after a validated multiple-area reply, value `i` returned by
`finsRead` is the big-endian 16-bit number of reply bytes `15 + 3i` and
`16 + 3i`, on either byte order of the host; any other value `v` in the
leading byte `14 + 3k` of an entry leaves the reply validated and every
returned value the same. -/
theorem mm_read_values (h : Host) (tr : Transport) (mmList : List MultiMemArea)
    (p : drvPvt) (log : List IOEvent) (data : List Nat) (n a t asz : Nat) (res : ReadResult)
    (hn : 1 ≤ n) (hd : data.length = n)
    (hres : finsRead h tr mmList p log FINS_MM_READ data n a t asz = some res)
    (hret : res.ret = 0) :
    res.data.length = n ∧ res.transferred = n ∧
    (∀ i, i < n → res.data.getD i 0
      = 256 * getByte res.pvt.message (15 + 3 * i) + getByte res.pvt.message (16 + 3 * i)) ∧
    (∀ k v, CheckData (res.pvt.setMessage (setByte res.pvt.message (14 + 3 * k) v)) = 0 ∧
      extractData h (setByte res.pvt.message (14 + 3 * k) v) FINS_MM_READ data n asz
        = some res.data) := by
  obtain ⟨hdat, htr, hc⟩ := finsRead_mm_data h tr mmList p log data n a t asz res hn hd hres hret
  refine ⟨by rw [hdat]; simp, htr, ?_, ?_⟩
  · intro i hi
    rw [hdat, List.getD_eq_getElem?_getD, List.getElem?_map, List.getElem?_range hi]
    rfl
  · intro k v
    refine ⟨by rw [CheckData_setByte _ _ _ (by omega), hc], ?_⟩
    simp only [extractData, Option.some.injEq]
    rw [hdat, assignLoop_eq_map _ n _ hd]
    apply List.map_congr_left
    intro i _
    rw [wire_load16 h _ _ 16 (le_refl _)]
    simp only [RESP, getByte_setByte]
    rw [if_neg (by omega), if_neg (by omega)]
    rw [show 14 + 3 * i + 1 = 15 + 3 * i by omega, show 15 + 3 * i + 1 = 16 + 3 * i by omega]

/-- The sample entry read with three elements and answered with the entries
`82 00 2A`, `B0 BE EF`, `B3 12 34`: the values are `0x002A`, `0xBEEF`,
`0x1234`. -/
theorem mm_read_values_witness :
    ∃ res, finsRead hostBE (replyTransport mmReply) [mmSample] (session0 FINS_UDP_type) []
        FINS_MM_READ [0, 0, 0] 3 0 0 2 = some res ∧ res.ret = 0 ∧
      res.data = [0x002A, 0xBEEF, 0x1234] := by
  obtain ⟨m, p', hb, m1, m2, m3, c1, c2, -, -, hlen, -⟩ :=
    BuildReadMessage_mm hostBE (by decide) [mmSample] (session0 FINS_UDP_type) 0 3 0 mmSample
      (session0_length _) rfl rfl rfl rfl (by decide)
  have hm : m = 3 := by
    by_contra hc
    have hlt : m < 3 := by omega
    have e0 := m3 hlt
    interval_cases m
    · exact absurd e0 (by decide)
    · exact absurd e0 (by decide)
    · exact absurd e0 (by decide)
  subst hm
  obtain ⟨g1, -, g3, g4, g5, g6⟩ := BuildReadMessage_udp_fields hostBE [mmSample]
    (session0 FINS_UDP_type) FINS_MM_READ 0 3 p' _ _ (by decide)
    (by rw [session0_length]; decide) hb
  obtain ⟨res, hres, hret, -, -, hpay⟩ := sample_built_read hostBE [mmSample] FINS_MM_READ p'
    24 23 1 4 [0x82, 0x00, 0x2A, 0xB0, 0xBE, 0xEF, 0xB3, 0x12, 0x34] [0, 0, 0] 3 0 0 2
    (by decide) hb (by rw [g1]; rfl) (by rw [g3]; rfl) (by rw [g4]; rfl) (by rw [g5]; rfl)
    c1 c2 hlen (by decide) (by decide) (by decide) (by decide)
  obtain ⟨hl, -, hv, -⟩ := mm_read_values hostBE _ [mmSample] _ [] [0, 0, 0] 3 0 0 2 res
    (by decide) rfl hres hret
  refine ⟨res, hres, hret, ?_⟩
  have v0 := hv 0 (by decide)
  have v1 := hv 1 (by decide)
  have v2 := hv 2 (by decide)
  have q1 := hpay 1 (by decide)
  have q2 := hpay 2 (by decide)
  have q4 := hpay 4 (by decide)
  have q5 := hpay 5 (by decide)
  have q7 := hpay 7 (by decide)
  have q8 := hpay 8 (by decide)
  simp only [Nat.reduceMul, Nat.reduceAdd] at v0 v1 v2 q1 q2 q4 q5 q7 q8
  rw [q1, q2] at v0
  rw [q4, q5] at v1
  rw [q7, q8] at v2
  match hd : res.data, hl with
  | [x0, x1, x2], _ =>
    rw [hd] at v0 v1 v2
    simp only [List.getD_cons_zero, List.getD_cons_succ] at v0 v1 v2
    rw [v0, v1, v2]
    rfl


/-- The sample TCP session builds a Data-Memory read of two words with 34
bytes to send and 34 to receive. -/
theorem sample_tcp_read_build :
    ∃ p', BuildReadMessage hostLE [] (session0 FINS_TCP_type) FINS_DM_READ (100 % 65536) 2
        = BuildResult.ok p' 34 34 ∧ p'.message.length = 2000 := by
  have hsw := readSwitch_mem16 hostLE [] (InitHeader (session0 FINS_TCP_type)) FINS_DM_READ DM
    (100 % 65536) 2 (by simp)
  obtain ⟨k1, -, -, -, -, k6⟩ := readSwitch_keeps hostLE [] _ _ _ _ _ _ _ hsw
  obtain ⟨i1, -, -, -, -, -, -, i8⟩ := InitHeader_keeps (session0 FINS_TCP_type)
  obtain ⟨p'', f0, -, -, -, -, -, -, -, fm⟩ := finishMessage_tcp_message hostLE _
    (COM + COMMAND_DATA_OFFSET) (sizeT hostLE (RESP + sizeT hostLE (2 * 2)))
    (by rw [k1, i1]; rfl) (by rw [k6, i8]; exact session0_length _)
  refine ⟨p'', ?_, ?_⟩
  · simp only [BuildReadMessage, hsw]
    rw [f0]
    have e1 : sizeT hostLE (COM + COMMAND_DATA_OFFSET + FINS_SEND_FRAME_SIZE) = 34 :=
      sizeT_small hostLE (by decide) _ (by decide)
    have e2 : sizeT hostLE (2 * 2) = 4 := sizeT_small hostLE (by decide) _ (by decide)
    have e3 : sizeT hostLE (RESP + 4) = 18 := sizeT_small hostLE (by decide) _ (by decide)
    have e4 : sizeT hostLE (18 + FINS_SEND_FRAME_SIZE) = 34 :=
      sizeT_small hostLE (by decide) _ (by decide)
    rw [e1, e2, e3, e4]
  · rw [fm]
    simp only [List.length_append, List.length_cons, List.length_nil, List.length_take,
      length_setByte, k6, i8, session0_length]
    rfl

theorem runCallbacks_nil (q : drvPvt) : runCallbacks q [] = q := by
  unfold runCallbacks
  split <;> rfl

theorem afterDisconnect_asked (an : Announce) (log : List IOEvent) (q : drvPvt) (e : IOEvent) :
    afterDisconnect an log q (log ++ [e, IOEvent.disconnectDevice])
      = runCallbacks q (an (log ++ [e, IOEvent.disconnectDevice])) := by
  unfold afterDisconnect
  rw [if_pos]
  refine ⟨by simp, ?_⟩
  have : log ++ [e, IOEvent.disconnectDevice] = (log ++ [e]) ++ [IOEvent.disconnectDevice] := by
    simp
  rw [this, List.getLast?_append]
  rfl

/-- The part of the callback in a frame error: on a port that announces
nothing during `disconnectDevice` the sample read, answered with a FINS/TCP
frame whose error word is 3, fails after the same two calls and the node
address flag is still 1. -/
theorem frame_error_silent_port :
    ∃ res req, finsReadCb announceNothing hostLE (replyTransport frameErrorReply) []
        (session0 FINS_TCP_type) [] FINS_DM_READ [0, 0] 2 100 0 2 = some res ∧ res.ret = -1 ∧
      res.log = [IOEvent.writeRead req 34 34, IOEvent.disconnectDevice] ∧
      res.pvt.nodevalid = 1 := by
  obtain ⟨p', hb, hlen⟩ := sample_tcp_read_build
  obtain ⟨g1, g2⟩ := BuildReadMessage_keeps_reg hostLE [] (session0 FINS_TCP_type) FINS_DM_READ
    _ 2 p' 34 34 hb
  have hb4 : ∀ j, j < 16 → getByte (receive p'.message
      ((replyTransport frameErrorReply [] (p'.message.take 34) 34 34).reply.take 34)) j
        = frameErrorReply[j]?.getD 0 % 256 := by
    intro j hj
    have : (replyTransport frameErrorReply [] (p'.message.take 34) 34 34).reply.take 34
        = frameErrorReply := rfl
    rw [this]
    exact getByte_receive _ _ j hj (by rw [hlen]; omega)
  have hfin := finsRead_no_handshake hostLE (replyTransport frameErrorReply) []
    (session0 FINS_TCP_type) [] FINS_DM_READ [0, 0] 2 100 0 2 p' 34 34 (by decide)
    (fun hc => hc.2 rfl) hb
  rw [readExchange_frame_error hostLE _ p' [] FINS_DM_READ [0, 0] 2 0 2 34 34 (by rw [g1]; rfl)
    rfl rfl rfl (by
      rw [wire_load32B]
      simp only [FINS_MODE_ERROR, Nat.reduceMul, Nat.reduceAdd]
      rw [hb4 12 (by decide), hb4 13 (by decide), hb4 14 (by decide), hb4 15 (by decide)]
      decide)] at hfin
  refine ⟨_, p'.message.take 34, by unfold finsReadCb; rw [hfin]; rfl, rfl, rfl, ?_⟩
  show (afterDisconnect announceNothing [] _ _).nodevalid = 1
  rw [afterDisconnect_asked]
  show (runCallbacks _ []).nodevalid = 1
  rw [runCallbacks_nil]
  show (p'.setMessage _).nodevalid = 1
  rw [setMessage_nodevalid, g2]
  rfl

/-- The Hostlink validation of an array that holds a body without NUL,
then two characters that `%2hhx` reads as `k`: it passes exactly when `k` is
the exclusive or of the body. -/
theorem Hostlink_extract_body (body tail : List Nat) (k : Nat) (rest : List Nat)
    (hb : ∀ c ∈ body, c ≠ 0 ∧ c < 256) (hl : body.length < Hostlink.FINS_MAX_MSG)
    (hs : scanNum 16 2 8 (cstr tail) = some (k, rest)) :
    Hostlink.extractAndCompareChecksum (body ++ tail) body.length
      = if body.foldl (fun k c => k ^^^ c) 0 ≠ k then some (-1) else some 0 := by
  have h1 : strncpy (body ++ tail) body.length = body := by
    unfold strncpy
    rw [cstr_append body tail (fun c hc => (hb c hc).1), List.take_left']
    · simp
    · rfl
  have h2 : (body ++ tail).drop body.length = tail := List.drop_left' rfl
  simp only [Hostlink.extractAndCompareChecksum, if_neg (Nat.not_le.2 hl), h1, h2, hs,
    List.append_assoc]
  rw [show body ++ [0] = body ++ 0 :: [] from rfl, (checksum_body body [] hb).1]

/-- The same for the validation of interpose.c. -/
theorem Interpose_extract_body (body tail : List Nat) (k : Nat) (rest : List Nat)
    (hb : ∀ c ∈ body, c ≠ 0 ∧ c < 256) (hl : body.length < FINS.FINS_MAX_MSG)
    (hs : scanNum 16 2 8 (cstr tail) = some (k, rest)) :
    Interpose.extractAndCompareChecksum (body ++ tail) body.length
      = if body.foldl (fun k c => k ^^^ c) 0 ≠ k then some (-1) else some 0 := by
  have h2 : (body ++ tail).drop body.length = tail := List.drop_left' rfl
  have h3 : (body ++ tail).take body.length = body := List.take_left' rfl
  simp only [Interpose.extractAndCompareChecksum, if_neg (Nat.not_le.2 hl), h2, h3, hs,
    Interpose_checksum_eq]
  rw [(checksum_body body _ hb).1]

/-- C24: for a frame body `m` of characters other than NUL, short enough
for the frame to fit the array `message`, `checksum m` is the exclusive or of
the characters of `m`; the frame the driver builds is `m`, the two upper-case
hexadecimal digits of the checksum, `*` and carriage return; and
`extractAndCompareChecksum` at the position `frame length - 4`, which is the
length of `m`, accepts that frame. -/
theorem hostlink_checksum_round_trip (m : List Nat) (hm : ∀ c ∈ m, c ≠ 0 ∧ c < 256)
    (hlen : m.length + 4 < Hostlink.FINS_MAX_MSG) :
    Hostlink.checksum m = m.foldl (fun k c => k ^^^ c) 0 ∧
    Hostlink.addChecksum m = some (m ++ [digitChar true (Hostlink.checksum m / 16),
      digitChar true (Hostlink.checksum m % 16), 42, 13]) ∧
    ∀ frame, Hostlink.addChecksum m = some frame →
      frame.length - 4 = m.length ∧
      Hostlink.extractAndCompareChecksum frame (frame.length - 4) = some 0 := by
  have hk := checksum_string m hm
  have hk256 : Hostlink.checksum m < 256 := by rw [hk]; exact (checksum_body m [] hm).2
  have hadd : Hostlink.addChecksum m = some (m ++ [digitChar true (Hostlink.checksum m / 16),
      digitChar true (Hostlink.checksum m % 16), 42, 13]) := by
    simp only [Hostlink.addChecksum, fmt_02X _ hk256, List.length_append, List.length_cons,
      List.length_nil, List.cons_append, List.nil_append]
    rw [if_neg (by omega)]
  refine ⟨hk, hadd, ?_⟩
  intro frame hf
  rw [hadd] at hf
  simp only [Option.some.injEq] at hf
  subst hf
  have hl : (m ++ [digitChar true (Hostlink.checksum m / 16),
      digitChar true (Hostlink.checksum m % 16), 42, 13]).length - 4 = m.length := by
    simp
  rw [hl]
  refine ⟨rfl, ?_⟩
  have hc : cstr [digitChar true (Hostlink.checksum m / 16),
      digitChar true (Hostlink.checksum m % 16), 42, 13]
      = [digitChar true (Hostlink.checksum m / 16),
        digitChar true (Hostlink.checksum m % 16), 42, 13] := by
    apply cstr_self
    intro c hc
    simp only [List.mem_cons, List.mem_singleton, List.not_mem_nil, or_false] at hc
    rcases hc with rfl | rfl | rfl | rfl
    · exact digitChar_ne_zero _ _
    · exact digitChar_ne_zero _ _
    · decide
    · decide
  rw [Hostlink_extract_body m _ (16 * (Hostlink.checksum m / 16) + Hostlink.checksum m % 16)
    [42, 13] hm (by omega) (by
      rw [hc]
      exact scanNum_digits _ _ (by omega) (Nat.mod_lt _ (by decide)) _)]
  rw [if_neg]
  rw [← hk]
  simp only [ne_eq, not_not]
  omega

/-- C24 at the body of a Data-Memory read request: checksum `0x7E`, and the
frame of 34 characters passes the validation at position 30. -/
theorem hostlink_checksum_round_trip_witness :
    Hostlink.checksum (Hostlink.header ++ str "0101820010000002") = 0x7E ∧
    Hostlink.addChecksum (Hostlink.header ++ str "0101820010000002")
      = some (Hostlink.header ++ str "0101820010000002" ++ str "7E" ++ [42, 13]) ∧
    Hostlink.extractAndCompareChecksum
      (Hostlink.header ++ str "0101820010000002" ++ str "7E" ++ [42, 13]) 30 = some 0 := by
  obtain ⟨-, -, h3⟩ := hostlink_checksum_round_trip (Hostlink.header ++ str "0101820010000002")
    (by decide) (by decide)
  refine ⟨by decide, by decide, ?_⟩
  exact (h3 (Hostlink.header ++ str "0101820010000002" ++ str "7E" ++ [42, 13])
    (by decide)).2


/-- C25 fails for a replacement by NUL: the sample reply, whose data are the
words `1234 1234`, passes `extractAndCompareChecksum` in finsHostlink.c and
in interpose.c, and it still passes when the first character of the data
(position 23 of the body of 31 characters) is replaced by NUL, because the
checksum is then taken over the 23 characters before it, and the characters
cut off have the exclusive or 0. -/
theorem checksum_accepts_nul_replacement :
    Hostlink.extractAndCompareChecksum Hostlink.sampleReply 31 = some 0 ∧
    Hostlink.sampleReply.getD 23 0 = 49 ∧
    Hostlink.extractAndCompareChecksum (Hostlink.sampleReply.set 23 0) 31 = some 0 ∧
    Interpose.extractAndCompareChecksum Interpose.sampleReply 31 = some 0 ∧
    Interpose.sampleReply.getD 23 0 = 49 ∧
    Interpose.extractAndCompareChecksum (Interpose.sampleReply.set 23 0) 31 = some 0 := by
  decide

/-- The validation of finsHostlink.c on a body without NUL, whatever follows
it. -/
theorem Hostlink_extract_cases (body tail : List Nat)
    (hb : ∀ c ∈ body, c ≠ 0 ∧ c < 256) :
    Hostlink.extractAndCompareChecksum (body ++ tail) body.length
      = if Hostlink.FINS_MAX_MSG ≤ body.length then none
        else match scanNum 16 2 8 (cstr tail) with
          | none => none
          | some (k, _) => if body.foldl (fun k c => k ^^^ c) 0 ≠ k then some (-1) else some 0 := by
  by_cases hl : Hostlink.FINS_MAX_MSG ≤ body.length
  · simp only [Hostlink.extractAndCompareChecksum, if_pos hl]
  · rw [if_neg hl]
    cases hs : scanNum 16 2 8 (cstr tail) with
    | none =>
      have h2 : (body ++ tail).drop body.length = tail := List.drop_left' rfl
      simp only [Hostlink.extractAndCompareChecksum, if_neg hl, h2, hs]
    | some kr =>
      obtain ⟨k, rest⟩ := kr
      exact Hostlink_extract_body body tail k rest hb (Nat.lt_of_not_le hl) hs

theorem Interpose_extract_cases (body tail : List Nat)
    (hb : ∀ c ∈ body, c ≠ 0 ∧ c < 256) :
    Interpose.extractAndCompareChecksum (body ++ tail) body.length
      = if FINS.FINS_MAX_MSG ≤ body.length then none
        else match scanNum 16 2 8 (cstr tail) with
          | none => none
          | some (k, _) => if body.foldl (fun k c => k ^^^ c) 0 ≠ k then some (-1) else some 0 := by
  by_cases hl : FINS.FINS_MAX_MSG ≤ body.length
  · simp only [Interpose.extractAndCompareChecksum, if_pos hl]
  · rw [if_neg hl]
    cases hs : scanNum 16 2 8 (cstr tail) with
    | none =>
      have h2 : (body ++ tail).drop body.length = tail := List.drop_left' rfl
      simp only [Interpose.extractAndCompareChecksum, if_neg hl, h2, hs]
    | some kr =>
      obtain ⟨k, rest⟩ := kr
      exact Interpose_extract_body body tail k rest hb (Nat.lt_of_not_le hl) hs

/-- What the two validations have in common: when the value is 0 for a
body without NUL, it is -1 after one character of the body has been replaced
by a different character other than NUL. -/
theorem replacement_detected (f : List Nat → Nat → Option Int) (M : Nat)
    (hf : ∀ body tail : List Nat, (∀ c ∈ body, c ≠ 0 ∧ c < 256) →
      f (body ++ tail) body.length = if M ≤ body.length then none
        else match scanNum 16 2 8 (cstr tail) with
          | none => none
          | some (k, _) => if body.foldl (fun k c => k ^^^ c) 0 ≠ k then some (-1) else some 0)
    (reply : List Nat) (pos j c : Nat)
    (hb : ∀ x ∈ reply.take pos, x ≠ 0 ∧ x < 256) (hpos : pos ≤ reply.length) (hj : j < pos)
    (hc : c ≠ 0 ∧ c < 256) (hne : c ≠ reply.getD j 0) (hok : f reply pos = some 0) :
    f (reply.set j c) pos = some (-1) := by
  have hlen : (reply.take pos).length = pos := by simp [hpos]
  have hsplit : reply = reply.take pos ++ reply.drop pos := (List.take_append_drop _ _).symm
  have hset : reply.set j c = (reply.take pos).set j c ++ reply.drop pos := by
    nth_rewrite 1 [hsplit]
    exact List.set_append_left _ _ (by rw [hlen]; exact hj)
  have hb' : ∀ x ∈ (reply.take pos).set j c, x ≠ 0 ∧ x < 256 := by
    intro x hx
    rcases List.mem_or_eq_of_mem_set hx with h1 | h1
    · exact hb x h1
    · rw [h1]; exact hc
  have h1 := hf (reply.take pos) (reply.drop pos) hb
  have h2 := hf ((reply.take pos).set j c) (reply.drop pos) hb'
  rw [List.length_set] at h2
  rw [hlen] at h1 h2
  rw [← hsplit] at h1
  rw [← hset] at h2
  rw [h1] at hok
  rw [h2]
  split at hok
  · cases hok
  · rename_i hM
    rw [if_neg hM]
    cases hs : scanNum 16 2 8 (cstr (reply.drop pos)) with
    | none => rw [hs] at hok; cases hok
    | some kr =>
      obtain ⟨k, rest⟩ := kr
      rw [hs] at hok
      simp only [] at hok ⊢
      split at hok
      · cases hok
      · rename_i hk
        simp only [ne_eq, not_not] at hk
        rw [if_pos]
        intro he
        rw [← hk] at he
        have := foldl_xor_set (reply.take pos) j c (by rw [hlen]; exact hj) he
        apply hne
        rw [this, List.getD_eq_getElem?_getD, List.getD_eq_getElem?_getD,
          List.getElem?_take_of_lt hj]

/-- C25 as amended: for a reply in the array whose body (the `pos`
characters before the two checksum digits) holds no NUL and that passes
`extractAndCompareChecksum`, in finsHostlink.c and in interpose.c,
replacing one character of the body by a different character other than NUL
makes the validation fail. -/
theorem checksum_detects_replacement (reply : List Nat) (pos j c : Nat)
    (hb : ∀ x ∈ reply.take pos, x ≠ 0 ∧ x < 256) (hpos : pos ≤ reply.length) (hj : j < pos)
    (hc : c ≠ 0 ∧ c < 256) (hne : c ≠ reply.getD j 0) :
    (Hostlink.extractAndCompareChecksum reply pos = some 0 →
      Hostlink.extractAndCompareChecksum (reply.set j c) pos = some (-1)) ∧
    (Interpose.extractAndCompareChecksum reply pos = some 0 →
      Interpose.extractAndCompareChecksum (reply.set j c) pos = some (-1)) :=
  ⟨replacement_detected Hostlink.extractAndCompareChecksum Hostlink.FINS_MAX_MSG
      Hostlink_extract_cases reply pos j c hb hpos hj hc hne,
    replacement_detected Interpose.extractAndCompareChecksum FINS.FINS_MAX_MSG
      Interpose_extract_cases reply pos j c hb hpos hj hc hne⟩

/-- The sample replies with the first data character `1` replaced by `3`:
both validations reject them. -/
theorem checksum_detects_replacement_witness :
    Hostlink.extractAndCompareChecksum Hostlink.sampleReply 31 = some 0 ∧
    Hostlink.extractAndCompareChecksum (Hostlink.sampleReply.set 23 51) 31 = some (-1) ∧
    Interpose.extractAndCompareChecksum Interpose.sampleReply 31 = some 0 ∧
    Interpose.extractAndCompareChecksum (Interpose.sampleReply.set 23 51) 31 = some (-1) := by
  have h1 := (checksum_detects_replacement Hostlink.sampleReply 31 23 51 (by decide) (by decide)
    (by decide) (by decide) (by decide)).1
  have h2 := (checksum_detects_replacement Interpose.sampleReply 31 23 51 (by decide)
    (by decide) (by decide) (by decide) (by decide)).2
  exact ⟨by decide, h1 (by decide), by decide, h2 (by decide)⟩


/-- C26 fails on the address field, which `finsHostlinkread` and
`finsHostlinkwrite` print with `%04u`: a read of two Data-Memory words at
address 10 sends `@00FA000000000 0101 82 0010 00 0002 7E*` and a write of one
word there `... 0102 82 0010 00 0001 1234 ...`, the address in decimal, where
four hexadecimal digits are `000A`; an address of 65535 takes five
characters.  The data of a 16-bit write of one 32-bit value, printed with
`%04X`, take five characters for `0x12345`. -/
theorem hostlink_address_in_decimal :
    (∃ res, Hostlink.finsHostlinkread hostLE (Hostlink.replyPort Hostlink.sampleReply) []
        Hostlink.FINS_COMMANDS.FINS_DM_READ [0, 0] 2 10 0 2 = some res ∧ res.ret = 0 ∧
      res.sent = [Hostlink.header ++ str "0101" ++ str "82" ++ str "0010" ++ str "00"
        ++ str "0002" ++ str "7E" ++ [42, 13]]) ∧
    fmt 16 true 4 10 = str "000A" ∧
    (∀ old, Hostlink.readMessage old Hostlink.FINS_COMMANDS.FINS_DM_READ 10 2
      = some (Hostlink.header ++ str "0101" ++ str "82" ++ str "0010" ++ str "00"
          ++ str "0002")) ∧
    Hostlink.writeMessage Hostlink.FINS_COMMANDS.FINS_DM_WRITE 10 1 2 [0x1234]
      = some (Hostlink.header ++ str "0102" ++ str "82" ++ str "0010" ++ str "00"
          ++ str "0001" ++ str "1234") ∧
    (∀ old, Hostlink.readMessage old Hostlink.FINS_COMMANDS.FINS_DM_READ 65535 2
      = some (Hostlink.header ++ str "0101" ++ str "82" ++ str "65535" ++ str "00"
          ++ str "0002")) ∧
    Hostlink.writeMessage Hostlink.FINS_COMMANDS.FINS_DM_WRITE 0 1 4 [0x12345]
      = some (Hostlink.header ++ str "0102" ++ str "82" ++ str "0000" ++ str "00"
          ++ str "0001" ++ str "12345") := by
  refine ⟨⟨_, rfl, rfl, rfl⟩, rfl, fun _ => rfl, rfl, fun _ => rfl, rfl⟩


/-- C27 fails from the second element on: `finsHostlinkread` steps through
the payload with a pointer to 32-bit numbers, 4 characters for each element,
and reads 8 digits there.  For the accepted reply with the payload digits
`11223344 55667788` a read of two 32-bit elements returns `0x11223344` and
`0x33445566`, the digits at positions 4 to 11, where the digits at positions
8 to 15 are `0x55667788`; the digits 4 to 7 go into both elements. -/
theorem hostlink_read32_groups_overlap :
    Hostlink.ReadInt32Array hostLE (Hostlink.replyPort Hostlink.reply32) []
        Hostlink.FINS_COMMANDS.FINS_DM_READ_32 asynSuccess 100 [0, 0] 2 0
      = some ⟨asynSuccess, [Hostlink.header ++ str "0101" ++ str "82" ++ str "0100" ++ str "00"
          ++ str "0004" ++ str "78" ++ [42, 13]], [0x11223344, 0x33445566], 2⟩ ∧
    Hostlink.extractAndCompareChecksum Hostlink.reply32 39 = some 0 ∧
    (scanNum 16 8 32 (Hostlink.reply32.drop (Hostlink.RESP + 8 * 1))).map Prod.fst
      = some 0x55667788 ∧
    (∀ reply data n asz, Hostlink.extractData reply Hostlink.FINS_COMMANDS.FINS_DM_READ_32
        data n asz
      = (Hostlink.scanLoop reply Hostlink.RESP 4 8 32 n data).map (fun d => some (d, n))) := by
  refine ⟨rfl, rfl, rfl, fun _ _ _ _ => rfl⟩


/-- C28 fails for the maximum and the minimum: they are read at the
characters `RESP + 4` and `RESP + 8` of the reply, the offsets of the binary
payload, not at the digit offsets 8 and 16.  For the accepted reply with the
words `0000000A 00000100 00000005`, `FINS_CYCLE_TIME` returns 10, 256 and 5
and `FINS_CYCLE_TIME_MEAN` 10, but `FINS_CYCLE_TIME_MAX` returns `0xA0000`
(digits 4 to 11) and `FINS_CYCLE_TIME_MIN` 256 (digits 8 to 15, the
maximum). -/
theorem hostlink_cycle_time_offsets :
    Hostlink.ReadInt32Array hostLE (Hostlink.replyPort Hostlink.cycleReply) []
        Hostlink.FINS_COMMANDS.FINS_CYCLE_TIME asynSuccess 0 [0, 0, 0] 3 0
      = some ⟨asynSuccess, [Hostlink.header ++ str "062001" ++ str "72" ++ [42, 13]],
          [10, 256, 5], 3⟩ ∧
    Hostlink.finsHostlinkread hostLE (Hostlink.replyPort Hostlink.cycleReply) []
        Hostlink.FINS_COMMANDS.FINS_CYCLE_TIME_MEAN [0] 1 0 0 4
      = some ⟨0, [Hostlink.header ++ str "062001" ++ str "72" ++ [42, 13]], [10], 1⟩ ∧
    Hostlink.finsHostlinkread hostLE (Hostlink.replyPort Hostlink.cycleReply) []
        Hostlink.FINS_COMMANDS.FINS_CYCLE_TIME_MAX [0] 1 0 0 4
      = some ⟨0, [Hostlink.header ++ str "062001" ++ str "72" ++ [42, 13]], [0xA0000], 1⟩ ∧
    Hostlink.finsHostlinkread hostLE (Hostlink.replyPort Hostlink.cycleReply) []
        Hostlink.FINS_COMMANDS.FINS_CYCLE_TIME_MIN [0] 1 0 0 4
      = some ⟨0, [Hostlink.header ++ str "062001" ++ str "72" ++ [42, 13]], [256], 1⟩ := by
  refine ⟨rfl, rfl, rfl, rfl⟩


theorem getD_set (l : List Nat) (k v i : Nat) :
    (l.set k v).getD i 0 = if i = k ∧ k < l.length then v else l.getD i 0 := by
  rw [List.getD_eq_getElem?_getD, List.getD_eq_getElem?_getD, List.getElem?_set]
  by_cases h1 : k = i
  · subst h1
    by_cases h2 : k < l.length
    · simp [h2]
    · simp [h2]
      rw [List.getElem?_eq_none (by omega)]
      rfl
  · have h1' : ¬ i = k := fun e => h1 e.symm
    simp [h1, h1']

theorem swapWords_succ (h : Host) (k : Nat) (value : List Nat) :
    Hostlink.swapWords h (k + 1) value
      = (Hostlink.swapWords h k value).set k
        (WSWAP32 h ((Hostlink.swapWords h k value).getD k 0 % 2 ^ 32) % 2 ^ 32) := by
  simp only [Hostlink.swapWords, List.range_succ, List.foldl_append, List.foldl_cons,
    List.foldl_nil]

theorem swapWords_length (h : Host) (n : Nat) (value : List Nat) :
    (Hostlink.swapWords h n value).length = value.length := by
  induction n with
  | zero => simp [Hostlink.swapWords]
  | succ k ih => rw [swapWords_succ, List.length_set, ih]

/-- The swapping loop of the Hostlink float functions changes each of the
first `nelements` elements by itself. -/
theorem swapWords_getD (h : Host) (n : Nat) (value : List Nat) :
    ∀ i, (Hostlink.swapWords h n value).getD i 0
      = if i < n ∧ i < value.length then WSWAP32 h (value.getD i 0 % 2 ^ 32) % 2 ^ 32
        else value.getD i 0 := by
  induction n with
  | zero => intro i; simp [Hostlink.swapWords]
  | succ k ih =>
    intro i
    have hk : (Hostlink.swapWords h k value).getD k 0 = value.getD k 0 := by
      rw [ih k, if_neg (by omega)]
    rw [swapWords_succ, getD_set, swapWords_length, hk, ih i]
    by_cases h1 : i = k
    · subst h1
      by_cases h2 : i < value.length
      · rw [if_pos ⟨rfl, h2⟩, if_pos ⟨by omega, h2⟩]
      · rw [if_neg (fun hc => h2 hc.2), if_neg (by omega), if_neg (fun hc => h2 hc.2)]
    · rw [if_neg (fun hc => h1 hc.1)]
      by_cases h3 : i < k ∧ i < value.length
      · rw [if_pos h3, if_pos ⟨by omega, h3.2⟩]
      · rw [if_neg h3, if_neg (by omega)]

/-- C29 fails in the Hostlink driver (finsHostlink.c): `WriteFloat32Array`
swaps each element with `WSWAP32` before the message is formed and
`ReadFloat32Array` after the reply is decoded, `WriteInt32Array` and
`ReadInt32Array` do not.  On a little-endian host the bit pattern
`0x11223344` is written as the digits `22114433` by the float function and
as `11223344` by the integer function, and the same accepted reply is
returned as `0x22114433`, `0x44336655` by the float function and as
`0x11223344`, `0x33445566` by the integer function.  On a big-endian host the
float function writes the digits `33441122`, so that the frame depends on the
host.  In the binary driver (FINS.c) the float function and the integer
function are the same call. -/
theorem hostlink_float_arrays_swap :
    Hostlink.WriteFloat32Array hostLE (Hostlink.replyPort Hostlink.writeReply)
        Hostlink.FINS_COMMANDS.FINS_DM_WRITE_32 asynSuccess 100 [0x11223344] 1
      = some ⟨asynSuccess, [Hostlink.header ++ str "0102" ++ str "82" ++ str "0100" ++ str "00"
          ++ str "0002" ++ str "22114433" ++ str "7D" ++ [42, 13]], [0x22114433], 0⟩ ∧
    Hostlink.WriteInt32Array hostLE (Hostlink.replyPort Hostlink.writeReply)
        Hostlink.FINS_COMMANDS.FINS_DM_WRITE_32 asynSuccess 100 [0x11223344] 1
      = some ⟨asynSuccess, [Hostlink.header ++ str "0102" ++ str "82" ++ str "0100" ++ str "00"
          ++ str "0002" ++ str "11223344" ++ str "7D" ++ [42, 13]], [0x11223344], 0⟩ ∧
    Hostlink.WriteFloat32Array hostLE (Hostlink.replyPort Hostlink.writeReply)
        Hostlink.FINS_COMMANDS.FINS_DM_WRITE_32 asynSuccess 100 [0x11223344] 1
      ≠ Hostlink.WriteInt32Array hostLE (Hostlink.replyPort Hostlink.writeReply)
        Hostlink.FINS_COMMANDS.FINS_DM_WRITE_32 asynSuccess 100 [0x11223344] 1 ∧
    Hostlink.ReadFloat32Array hostLE (Hostlink.replyPort Hostlink.reply32) []
        Hostlink.FINS_COMMANDS.FINS_DM_READ_32 asynSuccess 100 [0, 0] 2 0
      = some ⟨asynSuccess, [Hostlink.header ++ str "0101" ++ str "82" ++ str "0100" ++ str "00"
          ++ str "0004" ++ str "78" ++ [42, 13]], [0x22114433, 0x44336655], 2⟩ ∧
    Hostlink.ReadInt32Array hostLE (Hostlink.replyPort Hostlink.reply32) []
        Hostlink.FINS_COMMANDS.FINS_DM_READ_32 asynSuccess 100 [0, 0] 2 0
      = some ⟨asynSuccess, [Hostlink.header ++ str "0101" ++ str "82" ++ str "0100" ++ str "00"
          ++ str "0004" ++ str "78" ++ [42, 13]], [0x11223344, 0x33445566], 2⟩ ∧
    Hostlink.WriteFloat32Array hostBE (Hostlink.replyPort Hostlink.writeReply)
        Hostlink.FINS_COMMANDS.FINS_DM_WRITE_32 asynSuccess 100 [0x11223344] 1
      = some ⟨asynSuccess, [Hostlink.header ++ str "0102" ++ str "82" ++ str "0100" ++ str "00"
          ++ str "0002" ++ str "33441122" ++ str "7D" ++ [42, 13]], [0x33441122], 0⟩ ∧
    WriteFloat32Array hostLE deadTransport (session0 FINS_UDP_type) [] FINS_DM_WRITE_32
        asynSuccess 100 [0x11223344] 1
      = WriteInt32Array hostLE deadTransport (session0 FINS_UDP_type) [] FINS_DM_WRITE_32
        asynSuccess 100 [0x11223344] 1 ∧
    ReadFloat32Array hostLE deadTransport [] (session0 FINS_UDP_type) [] FINS_DM_READ_32
        asynSuccess 100 [0] 1 0
      = ReadInt32Array hostLE deadTransport [] (session0 FINS_UDP_type) [] FINS_DM_READ_32
        asynSuccess 100 [0] 1 0 := by
  refine ⟨rfl, rfl, by decide, rfl, rfl, rfl, rfl, rfl⟩

/-- The float array functions beside the integer ones, as the code has
them.  In the binary driver the float array functions accept
the Data-Memory and Auxiliary-area 32-bit commands only, and for these
`ReadFloat32Array` is `ReadInt32Array` and `WriteFloat32Array` is
`WriteInt32Array` on the same bit patterns.  In the Hostlink driver the
float functions differ from the integer functions by `WSWAP32` on each of the
`n` elements: an accepted `WriteFloat32Array` is `WriteInt32Array` of the
swapped patterns (a rejected one is `WriteInt32Array` of the same arguments),
and where `ReadInt32Array` succeeds with some patterns `ReadFloat32Array`
succeeds with these patterns swapped, with the same request and count, and
where it fails `ReadFloat32Array` fails alike. -/
theorem float_arrays_encoding (h : Host) :
    (∀ tr mmList p log r st addr value n nIn, r ∈ [FINS_DM_READ_32, FINS_AR_READ_32] →
      ReadFloat32Array h tr mmList p log r st addr value n nIn
        = ReadInt32Array h tr mmList p log r st addr value n nIn) ∧
    (∀ tr p log r st addr value n, r ∈ [FINS_DM_WRITE_32, FINS_AR_WRITE_32] →
      WriteFloat32Array h tr p log r st addr value n
        = WriteInt32Array h tr p log r st addr value n) ∧
    (∀ port r st addr value n,
      Hostlink.WriteFloat32Array h port r st addr value n
        = if st = asynSuccess ∧ Hostlink.Write32ArraySwitch h r n = true then
            Hostlink.WriteInt32Array h port r st addr (Hostlink.swapWords h n value) n
          else Hostlink.WriteInt32Array h port r st addr value n) ∧
    (∀ port old r st addr value n nIn c,
      r ∈ [Hostlink.FINS_COMMANDS.FINS_DM_READ_32, Hostlink.FINS_COMMANDS.FINS_AR_READ_32,
        Hostlink.FINS_COMMANDS.FINS_IO_READ_32] →
      Hostlink.ReadInt32Array h port old r st addr value n nIn = some c →
      Hostlink.ReadFloat32Array h port old r st addr value n nIn
        = some (if c.status = asynSuccess then
            ⟨c.status, c.sent, Hostlink.swapWords h n c.data, c.count⟩ else c)) ∧
    (∀ n value i, (Hostlink.swapWords h n value).getD i 0
      = if i < n ∧ i < value.length then WSWAP32 h (value.getD i 0 % 2 ^ 32) % 2 ^ 32
        else value.getD i 0) := by
  refine ⟨?_, ?_, ?_, ?_, fun n value i => swapWords_getD h n value i⟩
  · intro tr mmList p log r st addr value n nIn hr
    simp only [List.mem_cons, List.mem_singleton, List.not_mem_nil, or_false] at hr
    rcases hr with rfl | rfl <;> rfl
  · intro tr p log r st addr value n hr
    simp only [List.mem_cons, List.mem_singleton, List.not_mem_nil, or_false] at hr
    rcases hr with rfl | rfl <;> rfl
  · intro port r st addr value n
    by_cases hst : st = asynSuccess
    · by_cases hsw : Hostlink.Write32ArraySwitch h r n = true
      · rw [if_pos ⟨hst, hsw⟩]
        simp only [Hostlink.WriteFloat32Array, Hostlink.WriteInt32Array, hst, hsw, ne_eq,
          not_true_eq_false, if_false, Bool.not_true, Bool.false_eq_true]
      · rw [if_neg (fun hc => hsw hc.2)]
        simp only [Bool.not_eq_true] at hsw
        simp only [Hostlink.WriteFloat32Array, Hostlink.WriteInt32Array, hst, hsw, ne_eq,
          not_true_eq_false, if_false, Bool.not_false, if_true]
    · rw [if_neg (fun hc => hst hc.1)]
      simp only [Hostlink.WriteFloat32Array, Hostlink.WriteInt32Array, ne_eq, hst,
        not_false_eq_true, if_true]
  · intro port old r st addr value n nIn c hr hc
    have hsw : Hostlink.ReadFloat32ArraySwitch h r n = Hostlink.ReadInt32ArraySwitch h r n := by
      simp only [List.mem_cons, List.mem_singleton, List.not_mem_nil, or_false] at hr
      rcases hr with rfl | rfl | rfl <;> rfl
    simp only [Hostlink.ReadFloat32Array, hsw]
    simp only [Hostlink.ReadInt32Array] at hc
    by_cases hst : st = asynSuccess
    · simp only [hst, ne_eq, not_true_eq_false, if_false] at hc ⊢
      cases hb : Hostlink.ReadInt32ArraySwitch h r n
      · simp only [hb, Bool.not_false, if_true, Option.some.injEq] at hc ⊢
        subst hc
        rw [if_neg (show ¬ asynError = asynSuccess by decide)]
      · simp only [hb, Bool.not_true, Bool.false_eq_true, if_false] at hc ⊢
        cases hres : Hostlink.finsHostlinkread h port old r value n (toAddress addr) nIn 4 with
        | none => rw [hres] at hc; cases hc
        | some res =>
          rw [hres] at hc
          simp only [Hostlink.readReturn] at hc
          simp only []
          by_cases hneg : res.ret < 0
          · simp only [hneg, if_true, Option.some.injEq] at hc ⊢
            subst hc
            rw [if_neg (show ¬ asynError = asynSuccess by decide)]
          · simp only [hneg, if_false, Option.some.injEq] at hc ⊢
            subst hc
            rw [if_pos rfl]
    · simp only [ne_eq, hst, not_false_eq_true, if_true, Option.some.injEq] at hc ⊢
      subst hc
      rw [if_neg hst]


/-- C37: a read under one of the six write reasons `w` is the read under the
corresponding read reason `r`: in every session state `BuildReadMessage`
gives the same result (the same buffer, the same two lengths), the
extraction switch of `finsRead` stores the same values for every reply, so
that `finsRead` as a whole gives the same result on every transport, and so
does `ReadInt32`, the function that issues such reads to initialise output
records. -/
theorem write_reason_reads_as_read (w r : FINS_COMMANDS)
    (hwr : (w, r) ∈ [(FINS_DM_WRITE, FINS_DM_READ), (FINS_AR_WRITE, FINS_AR_READ),
      (FINS_IO_WRITE, FINS_IO_READ), (FINS_DM_WRITE_32, FINS_DM_READ_32),
      (FINS_AR_WRITE_32, FINS_AR_READ_32), (FINS_IO_WRITE_32, FINS_IO_READ_32)]) :
    (∀ (h : Host) (mmList : List MultiMemArea) (p : drvPvt) (a n : Nat),
      BuildReadMessage h mmList p w a n = BuildReadMessage h mmList p r a n) ∧
    (∀ (h : Host) (m data : List Nat) (n asz : Nat),
      extractData h m w data n asz = extractData h m r data n asz) ∧
    (∀ (h : Host) (tr : Transport) (mmList : List MultiMemArea) (p : drvPvt)
        (log : List IOEvent) (data : List Nat) (n a t asz : Nat),
      finsRead h tr mmList p log w data n a t asz
        = finsRead h tr mmList p log r data n a t asz) ∧
    (∀ (h : Host) (tr : Transport) (mmList : List MultiMemArea) (p : drvPvt)
        (log : List IOEvent) (st : Nat) (addr : Int) (value : Nat),
      ReadInt32Switch w = true ∧ ReadInt32Switch r = true ∧
      ReadInt32 h tr mmList p log w st addr value
        = ReadInt32 h tr mmList p log r st addr value) := by
  simp only [List.mem_cons, Prod.mk.injEq, List.mem_singleton, List.not_mem_nil,
    or_false] at hwr
  rcases hwr with e | e | e | e | e | e <;>
    (obtain ⟨rfl, rfl⟩ := e
     exact ⟨fun _ _ _ _ _ => rfl, fun _ _ _ _ _ => rfl,
       fun _ _ _ _ _ _ _ _ _ _ => rfl, fun _ _ _ _ _ _ _ _ => ⟨rfl, rfl, rfl⟩⟩)

/-- C37 at the sample UDP session: a read of two words under
`FINS_DM_WRITE` and under `FINS_DM_READ`, and a read of one 32-bit element
under `FINS_IO_WRITE_32` and under `FINS_IO_READ_32`. -/
theorem write_reason_reads_as_read_witness :
    BuildReadMessage hostLE [] (session0 FINS_UDP_type) FINS_DM_WRITE 100 2
      = BuildReadMessage hostLE [] (session0 FINS_UDP_type) FINS_DM_READ 100 2 ∧
    finsRead hostBE (replyTransport (replyHeader ++ [0x11, 0x22, 0x33, 0x44])) []
        (session0 FINS_UDP_type) [] FINS_IO_WRITE_32 [0] 1 100 0 4
      = finsRead hostBE (replyTransport (replyHeader ++ [0x11, 0x22, 0x33, 0x44])) []
        (session0 FINS_UDP_type) [] FINS_IO_READ_32 [0] 1 100 0 4 :=
  ⟨(write_reason_reads_as_read FINS_DM_WRITE FINS_DM_READ (by simp)).1 _ _ _ _ _,
    (write_reason_reads_as_read FINS_IO_WRITE_32 FINS_IO_READ_32 (by simp)).2.2.1
      _ _ _ _ _ _ _ _ _ _⟩


/-- With the relay error flag set in an `unsigned char` code, `FINSerror`
prints the flag, then what it prints for the code without the flag, then the
message of its own `switch` for the code with the flag. -/
theorem FINSerror_relay (name port : String) (mres sres : Nat) (hm : mres &&& 0x80 ≠ 0) :
    FINSerror name port mres sres
      = (name ++ ": port " ++ port ++ ", Relay Error Flag\n")
          :: FINSerror name port ((mres ^^^ 0x80) % 256) sres
        ++ [FINSerrorSwitch name port mres sres] := by
  rw [FINSerror]
  simp [hm]

/-- The code without the flag has no flag. -/
theorem relay_cleared (mres : Nat) (hm : mres &&& 0x80 ≠ 0) :
    ((mres ^^^ 0x80) % 256) &&& 0x80 = 0 := by
  have e1 : mres &&& 0x80 = (mres.testBit 7).toNat * 2 ^ 7 := Nat.and_two_pow mres 7
  have e2 : ((mres ^^^ 0x80) % 256) &&& 0x80
      = (((mres ^^^ 0x80) % 256).testBit 7).toNat * 2 ^ 7 := Nat.and_two_pow _ 7
  have e3 : ((mres ^^^ 0x80) % 256).testBit 7 = !(mres.testBit 7) := by
    rw [show (256 : Nat) = 2 ^ 8 by norm_num, Nat.testBit_mod_two_pow, Nat.testBit_xor]
    have : (0x80 : Nat).testBit 7 = true := by decide
    simp [this]
  rw [e2, e3]
  rw [e1] at hm
  cases hb : mres.testBit 7
  · simp [hb] at hm
  · simp

/-- The `switch` of `FINSerror` has no case for a code with the flag: it
takes the default branch. -/
theorem FINSerrorSwitch_relay (name port : String) (mres sres : Nat)
    (hm : mres &&& 0x80 ≠ 0) :
    FINSerrorSwitch name port mres sres
      = name ++ ": port " ++ port ++ ", Error 0x" ++ hex2 mres ++ "/0x" ++ hex2 sres ++ "\n" := by
  have h1 : ∀ c : Nat, c &&& 0x80 = 0 → mres ≠ c := by
    intro c hc e
    rw [e] at hm
    exact hm hc
  have a1 := h1 0x01 (by decide)
  have a2 := h1 0x02 (by decide)
  have a3 := h1 0x03 (by decide)
  have a4 := h1 0x04 (by decide)
  have a5 := h1 0x05 (by decide)
  have a6 := h1 0x10 (by decide)
  have a7 := h1 0x11 (by decide)
  have a8 := h1 0x20 (by decide)
  have a9 := h1 0x21 (by decide)
  have a10 := h1 0x22 (by decide)
  have a11 := h1 0x23 (by decide)
  have a12 := h1 0x24 (by decide)
  have a13 := h1 0x25 (by decide)
  have a14 := h1 0x26 (by decide)
  have a15 := h1 0x30 (by decide)
  have a16 := h1 0x40 (by decide)
  unfold FINSerrorSwitch
  split <;> first | rfl | (exfalso; simp_all)

/-- C39 fails in its last part: for the response codes `0x81`, `0x02` (relay
error flag and local node error) `FINSerror` prints three messages, the flag,
the classification of `0x01` with the sub code, and then `Error 0x81/0x02`
from the default branch of its own `switch`, which it goes on to after the
recursive call.  So it is for every code with the flag: the flag, the one
message of the code without it, and one more message, that of the default
branch. -/
theorem relay_error_extra_message :
    FINSerror "CheckData" "plc" 0x81 0x02
      = ["CheckData: port plc, Relay Error Flag\n",
         "CheckData: port plc, Local node error 0x02\n",
         "CheckData: port plc, Error 0x81/0x02\n"] ∧
    FINSerror "CheckData" "plc" 0x01 0x02 = ["CheckData: port plc, Local node error 0x02\n"] ∧
    (∀ (name port : String) (mres sres : Nat), mres &&& 0x80 ≠ 0 →
      FINSerror name port mres sres
        = [name ++ ": port " ++ port ++ ", Relay Error Flag\n",
           FINSerrorSwitch name port ((mres ^^^ 0x80) % 256) sres,
           name ++ ": port " ++ port ++ ", Error 0x" ++ hex2 mres ++ "/0x" ++ hex2 sres
             ++ "\n"] ∧
      FINSerror name port ((mres ^^^ 0x80) % 256) sres
        = [FINSerrorSwitch name port ((mres ^^^ 0x80) % 256) sres]) := by
  have hgen : ∀ (name port : String) (mres sres : Nat), mres &&& 0x80 ≠ 0 →
      FINSerror name port mres sres
        = [name ++ ": port " ++ port ++ ", Relay Error Flag\n",
           FINSerrorSwitch name port ((mres ^^^ 0x80) % 256) sres,
           name ++ ": port " ++ port ++ ", Error 0x" ++ hex2 mres ++ "/0x" ++ hex2 sres
             ++ "\n"] ∧
      FINSerror name port ((mres ^^^ 0x80) % 256) sres
        = [FINSerrorSwitch name port ((mres ^^^ 0x80) % 256) sres] := by
    intro name port mres sres hm
    have hp := FINSerror_plain name port _ sres (relay_cleared mres hm)
    refine ⟨?_, hp⟩
    rw [FINSerror_relay name port mres sres hm, hp, FINSerrorSwitch_relay name port mres sres hm]
    rfl
  refine ⟨?_, ?_, hgen⟩
  · rw [(hgen "CheckData" "plc" 0x81 0x02 (by decide)).1]
    decide
  · rw [FINSerror_plain _ _ _ _ (by decide)]
    decide


/-- A multiple-area read for which `ellNth` finds no entry dereferences the
null pointer in the loop of `BuildReadMessage`. -/
theorem BuildReadMessage_mm_fault (h : Host) (mmList : List MultiMemArea) (p : drvPvt)
    (a n : Nat) (hn : 0 < n) (hMM : ellNth mmList (sizeT h (a + 1)) = none) :
    BuildReadMessage h mmList p FINS_MM_READ a n = BuildResult.fault := by
  simp only [BuildReadMessage, readSwitch, hMM, if_pos hn]

/-- The entry looked up for an address from 0 to below the number of entries
exists. -/
theorem ellNth_in_range (h : Host) (hs : 17 ≤ h.sizeBits) (mmList : List MultiMemArea)
    (addr : Int) (h0 : 0 ≤ addr) (h1 : addr < (mmList.length : Int)) :
    ∃ MM, ellNth mmList (sizeT h (toAddress addr % 65536 + 1)) = some MM ∧
      1 ≤ toAddress addr % 65536 + 1 ∧ toAddress addr % 65536 + 1 ≤ mmList.length := by
  obtain ⟨k, rfl⟩ := Int.eq_ofNat_of_zero_le h0
  have hk : k < mmList.length := by exact_mod_cast h1
  have ha : toAddress (k : Int) = k % 65536 := by
    simp only [toAddress]
    omega
  have hlt : k % 65536 % 65536 + 1 < 2 ^ h.sizeBits := by
    have : (2 : Nat) ^ 17 ≤ 2 ^ h.sizeBits := Nat.pow_le_pow_right (by decide) hs
    have : k % 65536 % 65536 < 65536 := Nat.mod_lt _ (by decide)
    omega
  have hle : k % 65536 % 65536 ≤ k := by
    rw [Nat.mod_mod]
    exact Nat.mod_le _ _
  rw [ha]
  simp only [sizeT, Nat.mod_eq_of_lt hlt, ellNth]
  rw [if_neg (by omega)]
  have hi : k % 65536 % 65536 + 1 - 1 < mmList.length := by omega
  refine ⟨mmList.get ⟨_, hi⟩, ?_, by omega, by omega⟩
  exact List.get?_eq_get hi

/-- C36 fails for a negative address: with one configured entry, the asyn
address -1 passes the two checks of `ReadInt16Array` for `FINS_MM_READ` (the
comparison `addr >= ellCount(&mmList)` is between signed numbers), is
narrowed to 65535, and `ellNth` is asked for node 65536, which does not
exist; `BuildReadMessage` then reads through the null pointer, so that the
call has no result.  The address 0 is accepted too and finds the entry, and
so does every address from 0 to below the number of entries; an address from
the number of entries on is rejected. -/
theorem mm_read_negative_address :
    ReadInt16ArraySwitch [mmSample] (session0 FINS_UDP_type) FINS_MM_READ (-1) 3 = true ∧
    toAddress (-1) = 65535 ∧
    ellNth [mmSample] (sizeT hostLE (toAddress (-1) % 65536 + 1)) = none ∧
    ReadInt16Array hostLE (replyTransport mmReply) [mmSample] (session0 FINS_UDP_type) []
      FINS_MM_READ asynSuccess (-1) [0, 0, 0] 3 0 = none ∧
    ReadInt16ArraySwitch [mmSample] (session0 FINS_UDP_type) FINS_MM_READ 0 3 = true ∧
    ellNth [mmSample] (sizeT hostLE (toAddress 0 % 65536 + 1)) = some mmSample ∧
    ReadInt16ArraySwitch [mmSample] (session0 FINS_UDP_type) FINS_MM_READ 1 3 = false ∧
    (∀ (h : Host) (mmList : List MultiMemArea) (p : drvPvt) (addr : Int) (n : Nat),
      17 ≤ h.sizeBits → 0 ≤ addr →
      ReadInt16ArraySwitch mmList p FINS_MM_READ addr n = true →
      ∃ MM, ellNth mmList (sizeT h (toAddress addr % 65536 + 1)) = some MM ∧
        1 ≤ toAddress addr % 65536 + 1 ∧ toAddress addr % 65536 + 1 ≤ mmList.length) := by
  have hsw : ReadInt16ArraySwitch [mmSample] (session0 FINS_UDP_type) FINS_MM_READ (-1) 3
      = true := by decide
  have hnone : ellNth [mmSample] (sizeT hostLE (toAddress (-1) % 65536 + 1)) = none := by
    decide
  refine ⟨hsw, by decide, hnone, ?_, by decide, by decide, by decide, ?_⟩
  · have hb := BuildReadMessage_mm_fault hostLE [mmSample] (session0 FINS_UDP_type)
      (toAddress (-1) % 65536) 3 (by decide) hnone
    have hf : finsRead hostLE (replyTransport mmReply) [mmSample] (session0 FINS_UDP_type) []
        FINS_MM_READ [0, 0, 0] 3 (toAddress (-1)) 0 2 = none := by
      simp only [finsRead]
      rw [if_neg (by decide), if_neg (by decide), if_neg (by decide)]
      simp only [hb]
    simp only [ReadInt16Array]
    rw [if_neg (by decide), hsw, hf]
    rfl
  · intro h mmList p addr n hs h0 hacc
    have h1 : addr < (mmList.length : Int) := by
      simp only [ReadInt16ArraySwitch] at hacc
      split_ifs at hacc with c1 c2
      omega
    exact ellNth_in_range h hs mmList addr h0 h1


/-- One comparison of the chain of `drvUserCreate`. -/
theorem drvUserReason_step (c : Prop) [Decidable c] (A rest : FINS_COMMANDS) (s : String)
    (hA : c → s = A.name) (hrest : rest = FINS_NULL ∨ s = rest.name) :
    (if c then A else rest) = FINS_NULL ∨ s = (if c then A else rest).name := by
  by_cases hc : c
  · rw [if_pos hc]
    exact Or.inr (hA hc)
  · rw [if_neg hc]
    exact hrest

/-- A string `drvUserCreate` resolves to an identifier other than `FINS_NULL`
is the name the table has for that identifier. -/
theorem drvUserReason_name (s : String) :
    drvUserReason s = FINS_NULL ∨ s = (drvUserReason s).name := by
  unfold drvUserReason
  iterate 35 (refine drvUserReason_step _ _ _ _ (fun hc => by subst hc; rfl) ?_)
  exact Or.inl rfl

/-- C38: the table `FINS_names` has one name for each of the 45 identifiers,
at the position of the identifier; `drvUserCreate` can return 35 of them
besides `FINS_NULL`, and given the name of any of these it returns that
identifier, with `asynSuccess`; every other string, the names of the nine
identifiers it has no comparison for and `FINS_NULL` among them, gives
`FINS_NULL` with `asynSuccess`; and for the null pointer it returns
`asynError` and leaves the reason as it was. -/
theorem name_resolution :
    FINS_names.length = 45 ∧ FINS_EXPLICIT.value = 44 ∧
    (∀ r : FINS_COMMANDS, r ≠ FINS_NULL → (∃ s, drvUserReason s = r) →
      ∀ r0, drvUserCreate (some r.name) r0 = (asynSuccess, r)) ∧
    (∀ r : FINS_COMMANDS, (r ≠ FINS_NULL ∧ ∃ s, drvUserReason s = r) ↔
      r ∈ [FINS_DM_READ, FINS_DM_READ_32, FINS_DM_WRITE, FINS_DM_WRITE_NOREAD,
        FINS_DM_WRITE_32, FINS_DM_WRITE_32_NOREAD, FINS_IO_READ, FINS_IO_READ_32,
        FINS_IO_WRITE, FINS_IO_WRITE_NOREAD, FINS_IO_WRITE_32, FINS_IO_WRITE_32_NOREAD,
        FINS_AR_READ, FINS_AR_READ_32, FINS_AR_WRITE, FINS_AR_WRITE_NOREAD,
        FINS_AR_WRITE_32, FINS_AR_WRITE_32_NOREAD, FINS_WR_READ, FINS_HR_READ,
        FINS_CT_READ, FINS_CT_WRITE, FINS_CPU_STATUS, FINS_CPU_MODE, FINS_MODEL,
        FINS_CYCLE_TIME_RESET, FINS_CYCLE_TIME, FINS_CYCLE_TIME_MEAN, FINS_CYCLE_TIME_MAX,
        FINS_CYCLE_TIME_MIN, FINS_MONITOR, FINS_CLOCK_READ, FINS_SET_RESET_CANCEL,
        FINS_MM_READ, FINS_EXPLICIT]) ∧
    (∀ s : String, (∀ r : FINS_COMMANDS, r ≠ FINS_NULL → (∃ s', drvUserReason s' = r) →
        s ≠ r.name) →
      ∀ r0, drvUserCreate (some s) r0 = (asynSuccess, FINS_NULL)) ∧
    (∀ r0, drvUserCreate (some "FINS_CT_WRITE_NOREAD") r0 = (asynSuccess, FINS_NULL) ∧
      drvUserCreate (some "FINS_NULL") r0 = (asynSuccess, FINS_NULL) ∧
      drvUserCreate (some "fins_dm_read") r0 = (asynSuccess, FINS_NULL) ∧
      drvUserCreate (some "") r0 = (asynSuccess, FINS_NULL)) ∧
    (∀ r0, drvUserCreate none r0 = (asynError, r0)) := by
  have h1 : ∀ r : FINS_COMMANDS, r ≠ FINS_NULL → (∃ s, drvUserReason s = r) →
      drvUserReason r.name = r := by
    intro r hr hs
    obtain ⟨s, rfl⟩ := hs
    rcases drvUserReason_name s with e | e
    · exact absurd e hr
    · rw [← e]
  refine ⟨rfl, rfl, ?_, ?_, ?_, ?_, fun _ => rfl⟩
  · intro r hr hs r0
    simp only [drvUserCreate, h1 r hr hs]
  · intro r
    constructor
    · rintro ⟨hr, hs⟩
      have e := h1 r hr hs
      cases r <;> first | decide | (exfalso; exact hr rfl) | (exfalso; revert e; decide)
    · intro hmem
      simp only [List.mem_cons, List.mem_singleton, List.not_mem_nil, or_false] at hmem
      rcases hmem with e | e | e | e | e | e | e | e | e | e | e | e | e | e | e | e | e | e
        | e | e | e | e | e | e | e | e | e | e | e | e | e | e | e | e | e <;>
        (refine ⟨?_, ⟨r.name, ?_⟩⟩ <;> (subst e; decide))
  · intro s hs r0
    simp only [drvUserCreate]
    rcases drvUserReason_name s with e | e
    · rw [e]
    · by_cases hn : drvUserReason s = FINS_NULL
      · rw [hn]
      · exact absurd e (hs _ hn ⟨s, rfl⟩)
  · intro r0
    refine ⟨?_, ?_, ?_, ?_⟩ <;> (simp only [drvUserCreate]; decide)


/-- What finsUDP.c makes of four bytes of the reply, on either host: the
big-endian number. -/
theorem UDP_wire_load32 (h : Host) (m : List Nat) (off : Nat) :
    (match h.EPICS_BYTE_ORDER with
      | EPICS_ENDIAN_LITTLE => UDP.BSWAP32 (load32 h m off) % 2 ^ 32
      | EPICS_ENDIAN_BIG => load32 h m off)
      = 16777216 * getByte m off + 65536 * getByte m (off + 1) + 256 * getByte m (off + 2)
        + getByte m (off + 3) := by
  have hw := wire_load32B h m off
  have b0 := getByte_lt m off
  have b1 := getByte_lt m (off + 1)
  have b2 := getByte_lt m (off + 2)
  have b3 := getByte_lt m (off + 3)
  cases hb : h.EPICS_BYTE_ORDER with
  | EPICS_ENDIAN_LITTLE =>
    have e : UDP.BSWAP32 (load32 h m off) = BSWAP32 h (load32 h m off) := by
      simp only [UDP.BSWAP32, BSWAP32, hb]
    simp only [e, hw]
    omega
  | EPICS_ENDIAN_BIG =>
    have e : load32 h m off = BSWAP32 h (load32 h m off) := by
      simp only [BSWAP32, hb]
    simp only []
    rw [e, hw]

/-- The 32-bit memory case of the extraction of `finsUDPread`, element by
element. -/
theorem UDP_extractData_mem32 (h : Host) (m : List Nat) (recvlen : Nat) (r : FINS_COMMANDS)
    (data : List Nat) (n : Nat)
    (hr : r ∈ [FINS_DM_READ_32, FINS_AR_READ_32, FINS_IO_READ_32]) :
    UDP.extractData h m recvlen r data n
      = some (assignLoop (fun i => 16777216 * getByte m (14 + 4 * i)
          + 65536 * getByte m (14 + 4 * i + 1) + 256 * getByte m (14 + 4 * i + 2)
          + getByte m (14 + 4 * i + 3)) n data, (recvlen - 14) / 4) := by
  have hf : ∀ i, (match h.EPICS_BYTE_ORDER with
      | EPICS_ENDIAN_LITTLE => UDP.BSWAP32 (load32 h m (14 + 4 * i)) % 2 ^ 32
      | EPICS_ENDIAN_BIG => load32 h m (14 + 4 * i))
      = 16777216 * getByte m (14 + 4 * i) + 65536 * getByte m (14 + 4 * i + 1)
        + 256 * getByte m (14 + 4 * i + 2) + getByte m (14 + 4 * i + 3) :=
    fun i => UDP_wire_load32 h m (14 + 4 * i)
  simp only [List.mem_cons, List.mem_singleton, List.not_mem_nil, or_false] at hr
  cases hb : h.EPICS_BYTE_ORDER <;> simp only [hb] at hf <;>
    rcases hr with rfl | rfl | rfl <;>
    simp only [UDP.extractData, hb, UDP.RESP, hf]

/-- The value at position `i` of a list made by `List.map` over a range. -/
theorem getD_map_range (f : Nat → Nat) (n i : Nat) (hi : i < n) :
    ((List.range n).map f).getD i 0 = f i := by
  rw [List.getD_eq_getElem?_getD, List.getElem?_map, List.getElem?_range hi]
  rfl

/-- C40 fails: from the payload bytes `11 22 33 44` the 32-bit memory case
of `finsUDPread` makes `0x11223344` and that of `finsRead` in FINS.c
`0x33441122`, on a little-endian and on a big-endian host. -/
theorem udp_and_consolidated_decode_differ :
    UDP.extractData hostLE (replyHeader ++ [0x11, 0x22, 0x33, 0x44]) 18 FINS_DM_READ_32 [0] 1
      = some ([0x11223344], 1) ∧
    extractData hostLE (replyHeader ++ [0x11, 0x22, 0x33, 0x44]) FINS_DM_READ_32 [0] 1 4
      = some [0x33441122] ∧
    UDP.extractData hostBE (replyHeader ++ [0x11, 0x22, 0x33, 0x44]) 18 FINS_DM_READ_32 [0] 1
      = some ([0x11223344], 1) ∧
    extractData hostBE (replyHeader ++ [0x11, 0x22, 0x33, 0x44]) FINS_DM_READ_32 [0] 1 4
      = some [0x33441122] := by
  refine ⟨by decide, by decide, by decide, by decide⟩

/-- C40 as the code has it: for a 32-bit memory read of `n` elements both
drivers make element `i` from the same four bytes `b0 b1 b2 b3` of the
validated reply, those at 14 + 4i to 17 + 4i, on either host; `finsUDPread`
makes the big-endian number `b0 b1 b2 b3` of them and `finsRead` of FINS.c
the number `b2 b3 b0 b1`, which is the other one with its two 16-bit halves
exchanged (`BESWAP32`), so that the two agree exactly when `b0 b1` and
`b2 b3` are the same two bytes. -/
theorem udp_and_consolidated_decode (h : Host) (m data : List Nat) (recvlen n asz i : Nat)
    (r : FINS_COMMANDS) (hr : r ∈ [FINS_DM_READ_32, FINS_AR_READ_32, FINS_IO_READ_32])
    (hd : data.length = n) (hi : i < n) :
    ∃ du tu df, UDP.extractData h m recvlen r data n = some (du, tu) ∧
      extractData h m r data n asz = some df ∧
      du.getD i 0 = 16777216 * getByte m (14 + 4 * i) + 65536 * getByte m (15 + 4 * i)
        + 256 * getByte m (16 + 4 * i) + getByte m (17 + 4 * i) ∧
      df.getD i 0 = 16777216 * getByte m (16 + 4 * i) + 65536 * getByte m (17 + 4 * i)
        + 256 * getByte m (14 + 4 * i) + getByte m (15 + 4 * i) ∧
      df.getD i 0 = BESWAP32 (du.getD i 0) ∧
      (df.getD i 0 = du.getD i 0 ↔
        getByte m (14 + 4 * i) = getByte m (16 + 4 * i) ∧
        getByte m (15 + 4 * i) = getByte m (17 + 4 * i)) := by
  have hr' : r ∈ [FINS_DM_READ_32, FINS_AR_READ_32, FINS_IO_READ_32, FINS_DM_WRITE_32,
      FINS_AR_WRITE_32, FINS_IO_WRITE_32] := by
    simp only [List.mem_cons, List.mem_singleton, List.not_mem_nil, or_false] at hr ⊢
    rcases hr with e | e | e <;> simp [e]
  have b0 := getByte_lt m (14 + 4 * i)
  have b1 := getByte_lt m (15 + 4 * i)
  have b2 := getByte_lt m (16 + 4 * i)
  have b3 := getByte_lt m (17 + 4 * i)
  have eu : (assignLoop (fun i => 16777216 * getByte m (14 + 4 * i)
          + 65536 * getByte m (14 + 4 * i + 1) + 256 * getByte m (14 + 4 * i + 2)
          + getByte m (14 + 4 * i + 3)) n data).getD i 0
      = 16777216 * getByte m (14 + 4 * i) + 65536 * getByte m (15 + 4 * i)
        + 256 * getByte m (16 + 4 * i) + getByte m (17 + 4 * i) := by
    rw [assignLoop_eq_map _ n _ hd, getD_map_range _ n i hi]
    rw [show 14 + 4 * i + 1 = 15 + 4 * i by omega, show 14 + 4 * i + 2 = 16 + 4 * i by omega,
      show 14 + 4 * i + 3 = 17 + 4 * i by omega]
  have ef : (assignLoop (fun i => 16777216 * getByte m (14 + 4 * i + 2)
          + 65536 * getByte m (14 + 4 * i + 3) + 256 * getByte m (14 + 4 * i)
          + getByte m (14 + 4 * i + 1)) n data).getD i 0
      = 16777216 * getByte m (16 + 4 * i) + 65536 * getByte m (17 + 4 * i)
        + 256 * getByte m (14 + 4 * i) + getByte m (15 + 4 * i) := by
    rw [assignLoop_eq_map _ n _ hd, getD_map_range _ n i hi]
    rw [show 14 + 4 * i + 1 = 15 + 4 * i by omega, show 14 + 4 * i + 2 = 16 + 4 * i by omega,
      show 14 + 4 * i + 3 = 17 + 4 * i by omega]
  refine ⟨_, _, _, UDP_extractData_mem32 h m recvlen r data n hr,
    extractData_mem32 h m r data n asz hr', eu, ef, ?_, ?_⟩
  · rw [eu, ef]
    have hs := BESWAP32_bytes (getByte m (17 + 4 * i)) (getByte m (16 + 4 * i))
      (getByte m (15 + 4 * i)) (getByte m (14 + 4 * i)) b3 b2 b1 b0
    rw [show 16777216 * getByte m (14 + 4 * i) + 65536 * getByte m (15 + 4 * i)
        + 256 * getByte m (16 + 4 * i) + getByte m (17 + 4 * i)
      = getByte m (17 + 4 * i) + 256 * (getByte m (16 + 4 * i)
        + 256 * (getByte m (15 + 4 * i) + 256 * (getByte m (14 + 4 * i) + 256 * 0))) by omega,
      hs]
    omega
  · rw [eu, ef]
    constructor
    · intro e
      omega
    · rintro ⟨e1, e2⟩
      rw [e1, e2]

/-- C40 as the code has it, for the second element of a reply with the
payload `11 22 33 44 55 66 55 66`: its bytes are `55 66 55 66`, and both
drivers make `0x55665566` of them. -/
theorem udp_and_consolidated_decode_witness :
    ∃ du tu df,
      UDP.extractData hostLE (replyHeader ++ [0x11, 0x22, 0x33, 0x44, 0x55, 0x66, 0x55, 0x66])
        22 FINS_DM_READ_32 [0, 0] 2 = some (du, tu) ∧
      extractData hostLE (replyHeader ++ [0x11, 0x22, 0x33, 0x44, 0x55, 0x66, 0x55, 0x66])
        FINS_DM_READ_32 [0, 0] 2 4 = some df ∧
      du.getD 1 0 = 0x55665566 ∧ df.getD 1 0 = 0x55665566 := by
  obtain ⟨du, tu, df, h1, h2, h3, h4, -, -⟩ := udp_and_consolidated_decode hostLE
    (replyHeader ++ [0x11, 0x22, 0x33, 0x44, 0x55, 0x66, 0x55, 0x66]) [0, 0] 22 2 4 1
    FINS_DM_READ_32 (by simp) rfl (by decide)
  exact ⟨du, tu, df, h1, h2, by rw [h3]; decide, by rw [h4]; decide⟩


/-- C31 fails: the sample entry has three pairs, so a read of five elements
sends three quadruples (24 bytes) and expects three entries (23 bytes), but
the extraction loop of `finsRead` runs over the five elements asked for and
`*transferred` becomes 5.  Answered with the entries `82 00 2A`, `B0 BE EF`,
`B3 12 34`, the call through `ReadInt16Array` succeeds with the count 5 and
the array `[0x2A, 0xBEEF, 0x1234, 0, 0]`: elements 3 and 4, which held 7,
are overwritten with what the scratch buffer holds behind the reply, bytes
24, 25 and 27, 28, here zeros left from before the request. -/
theorem mm_read_overruns_reply :
    ∃ p' res c,
      BuildReadMessage hostLE [mmSample] (session0 FINS_UDP_type) FINS_MM_READ 0 5
        = BuildResult.ok p' 24 23 ∧
      finsRead hostLE (replyTransport mmReply) [mmSample] (session0 FINS_UDP_type) []
        FINS_MM_READ [7, 7, 7, 7, 7] 5 0 0 2 = some res ∧
      res.ret = 0 ∧ res.transferred = 5 ∧ res.data = [0x2A, 0xBEEF, 0x1234, 0, 0] ∧
      ReadInt16Array hostLE (replyTransport mmReply) [mmSample] (session0 FINS_UDP_type) []
        FINS_MM_READ asynSuccess 0 [7, 7, 7, 7, 7] 5 0 = some c ∧
      c.status = asynSuccess ∧ c.count = 5 ∧ c.data = [0x2A, 0xBEEF, 0x1234, 0, 0] := by
  obtain ⟨m, p', hb, m1, m2, m3, c1, c2, -, -, hlen, -⟩ :=
    BuildReadMessage_mm hostLE (by decide) [mmSample] (session0 FINS_UDP_type) 0 5 0 mmSample
      (session0_length _) rfl rfl rfl rfl (by decide)
  have hm : m = 3 := by
    have hle : m ≤ 3 := by
      by_contra hc
      exact m2 3 (by omega) (by decide)
    have e0 := m3 (by omega)
    interval_cases m
    · exact absurd e0 (by decide)
    · exact absurd e0 (by decide)
    · exact absurd e0 (by decide)
    · rfl
  subst hm
  obtain ⟨m', p'', hb', htail⟩ := BuildReadMessage_mm_tail hostLE [mmSample]
    (session0 FINS_UDP_type) 0 5 mmSample (by decide) (session0_length _) rfl rfl rfl
    (by decide)
  rw [hb] at hb'
  simp only [Nat.zero_add, Nat.add_zero, BuildResult.ok.injEq] at hb'
  obtain ⟨rfl, hm', -⟩ := hb'
  have hm3 : m' = 3 := by omega
  subst hm3
  obtain ⟨g1, -, g3, g4, g5, g6⟩ := BuildReadMessage_udp_fields hostLE [mmSample]
    (session0 FINS_UDP_type) FINS_MM_READ 0 5 p' _ _ (by decide)
    (by rw [session0_length]; decide) hb
  obtain ⟨res, hres, hret, -, -, hpay⟩ := sample_built_read hostLE [mmSample] FINS_MM_READ p'
    24 23 1 4 [0x82, 0x00, 0x2A, 0xB0, 0xBE, 0xEF, 0xB3, 0x12, 0x34] [7, 7, 7, 7, 7] 5 0 0 2
    (by decide) hb (by rw [g1]; rfl) (by rw [g3]; rfl) (by rw [g4]; rfl) (by rw [g5]; rfl)
    c1 c2 hlen (by decide) (by decide) (by decide) (by decide)
  have htl := sample_built_read_tail hostLE [mmSample] FINS_MM_READ p' 24 23 1 4
    [0x82, 0x00, 0x2A, 0xB0, 0xBE, 0xEF, 0xB3, 0x12, 0x34] [7, 7, 7, 7, 7] 5 0 0 2
    (by decide) hb (by rw [g1]; rfl) (by decide) res hres hret
  have hres' : finsRead hostLE (replyTransport mmReply) [mmSample] (session0 FINS_UDP_type) []
      FINS_MM_READ [7, 7, 7, 7, 7] 5 0 0 2 = some res := hres
  obtain ⟨hdat, htr, -⟩ := finsRead_mm_data hostLE _ [mmSample] _ [] [7, 7, 7, 7, 7] 5 0 0 2 res
    (by decide) rfl hres' hret
  have z : ∀ j, 24 ≤ j → getByte res.pvt.message j = 0 := by
    intro j hj
    rw [htl j (by omega), htail j (by omega), getByte_session0]
  have q1 := hpay 1 (by decide)
  have q2 := hpay 2 (by decide)
  have q4 := hpay 4 (by decide)
  have q5 := hpay 5 (by decide)
  have q7 := hpay 7 (by decide)
  have q8 := hpay 8 (by decide)
  simp only [Nat.reduceAdd] at q1 q2 q4 q5 q7 q8
  have hdata : res.data = [0x2A, 0xBEEF, 0x1234, 0, 0] := by
    rw [hdat]
    show [256 * getByte res.pvt.message (15 + 3 * 0) + getByte res.pvt.message (16 + 3 * 0),
      256 * getByte res.pvt.message (15 + 3 * 1) + getByte res.pvt.message (16 + 3 * 1),
      256 * getByte res.pvt.message (15 + 3 * 2) + getByte res.pvt.message (16 + 3 * 2),
      256 * getByte res.pvt.message (15 + 3 * 3) + getByte res.pvt.message (16 + 3 * 3),
      256 * getByte res.pvt.message (15 + 3 * 4) + getByte res.pvt.message (16 + 3 * 4)] = _
    simp only [Nat.reduceMul, Nat.reduceAdd]
    rw [q1, q2, q4, q5, q7, q8, z 24 (by decide), z 25 (by decide), z 27 (by decide),
      z 28 (by decide)]
    rfl
  refine ⟨p', res, ⟨asynSuccess, res.pvt, res.log, res.data, res.transferred⟩, hb, hres', hret,
    htr, hdata, ?_, rfl, htr, hdata⟩
  simp only [ReadInt16Array]
  rw [if_neg (by decide), show ReadInt16ArraySwitch [mmSample] (session0 FINS_UDP_type)
    FINS_MM_READ 0 5 = true by decide]
  have e : toAddress 0 = 0 := by decide
  rw [e, hres']
  simp only [Bool.not_true, Bool.false_eq_true, if_false, readReturn]
  rw [if_neg (by rw [hret]; decide)]


/-- The binary write functions hand the caller's array back as it was. -/
theorem writeReturn_data (value : List Nat) (c0 c1 : Nat) (res : Option WriteResult)
    (c : CallResult) (hc : writeReturn value c0 c1 res = some c) : c.data = value := by
  cases res with
  | none => simp [writeReturn] at hc
  | some r =>
    simp only [writeReturn] at hc
    split_ifs at hc <;> (cases hc; rfl)

/-- The Hostlink write functions that end in `writeReturn value` hand the
array `value` back. -/
theorem Hostlink_writeReturn_data (value : List Nat) (res : Option Hostlink.WriteResult)
    (c : Hostlink.CallResult) (hc : Hostlink.writeReturn value res = some c) :
    c.data = value := by
  cases res with
  | none => simp [Hostlink.writeReturn] at hc
  | some r =>
    simp only [Hostlink.writeReturn] at hc
    split_ifs at hc <;> (cases hc; rfl)

/-- C35 fails for `WriteFloat32Array` of finsHostlink.c, which swaps the
caller's array in place before the message is formed and does not swap it
back: on a little-endian host the array `[0x11223344]` is `[0x22114433]`
after the call, when the write succeeds and when the serial line fails
alike, and `[0x33441122]` on a big-endian host.  The other write functions leave the array as it was: in the binary
driver all three, in the Hostlink driver `WriteInt16Array` and
`WriteInt32Array`; and so does the float function when it rejects the
request. -/
theorem hostlink_float_write_changes_input :
    (Hostlink.WriteFloat32Array hostLE (Hostlink.replyPort Hostlink.writeReply)
        Hostlink.FINS_COMMANDS.FINS_DM_WRITE_32 asynSuccess 100 [0x11223344] 1).map
      (fun c => (c.status, c.data)) = some (asynSuccess, [0x22114433]) ∧
    (Hostlink.WriteFloat32Array hostLE (fun _ => ⟨-1, -1, []⟩)
        Hostlink.FINS_COMMANDS.FINS_DM_WRITE_32 asynSuccess 100 [0x11223344] 1).map
      (fun c => (c.status, c.data)) = some (asynError, [0x22114433]) ∧
    (Hostlink.WriteFloat32Array hostBE (Hostlink.replyPort Hostlink.writeReply)
        Hostlink.FINS_COMMANDS.FINS_DM_WRITE_32 asynSuccess 100 [0x11223344] 1).map
      (fun c => (c.status, c.data)) = some (asynSuccess, [0x33441122]) ∧
    (Hostlink.WriteInt32Array hostLE (Hostlink.replyPort Hostlink.writeReply)
        Hostlink.FINS_COMMANDS.FINS_DM_WRITE_32 asynSuccess 100 [0x11223344] 1).map
      (fun c => (c.status, c.data)) = some (asynSuccess, [0x11223344]) ∧
    (∀ (h : Host) (port : Hostlink.Port) (r : Hostlink.FINS_COMMANDS) (st : Nat) (addr : Int)
        (value : List Nat) (n : Nat) (c : Hostlink.CallResult),
      (Hostlink.WriteInt16Array h port r st addr value n = some c → c.data = value) ∧
      (Hostlink.WriteInt32Array h port r st addr value n = some c → c.data = value) ∧
      (Hostlink.WriteFloat32Array h port r st addr value n = some c →
        c.data = if st = asynSuccess ∧ Hostlink.Write32ArraySwitch h r n = true
          then Hostlink.swapWords h n value else value)) ∧
    (∀ (h : Host) (tr : Transport) (p : drvPvt) (log : List IOEvent) (r : FINS_COMMANDS)
        (st : Nat) (addr : Int) (value : List Nat) (n : Nat) (c : CallResult),
      (WriteInt16Array h tr p log r st addr value n = some c → c.data = value) ∧
      (WriteInt32Array h tr p log r st addr value n = some c → c.data = value) ∧
      (WriteFloat32Array h tr p log r st addr value n = some c → c.data = value)) := by
  refine ⟨rfl, rfl, rfl, rfl, ?_, ?_⟩
  · intro h port r st addr value n c
    refine ⟨?_, ?_, ?_⟩
    · intro hc
      simp only [Hostlink.WriteInt16Array] at hc
      split_ifs at hc
      · cases hc; rfl
      · cases hc; rfl
      · exact Hostlink_writeReturn_data _ _ _ hc
    · intro hc
      simp only [Hostlink.WriteInt32Array] at hc
      split_ifs at hc
      · cases hc; rfl
      · cases hc; rfl
      · exact Hostlink_writeReturn_data _ _ _ hc
    · intro hc
      simp only [Hostlink.WriteFloat32Array] at hc
      split_ifs at hc with h1 h2
      · cases hc
        rw [if_neg (fun hx => h1 hx.1)]
      · cases hc
        rw [if_neg (fun hx => by rw [hx.2] at h2; exact absurd h2 (by decide))]
      · have hs : Hostlink.Write32ArraySwitch h r n = true := by
          cases hb : Hostlink.Write32ArraySwitch h r n
          · rw [hb] at h2; exact absurd rfl h2
          · rfl
        rw [if_pos ⟨not_not.mp h1, hs⟩]
        exact Hostlink_writeReturn_data _ _ _ hc
  · intro h tr p log r st addr value n c
    refine ⟨?_, ?_, ?_⟩
    · intro hc
      simp only [WriteInt16Array] at hc
      split_ifs at hc
      · cases hc; rfl
      · cases hc; rfl
      · exact writeReturn_data _ _ _ _ _ hc
    · intro hc
      simp only [WriteInt32Array] at hc
      split_ifs at hc
      · cases hc; rfl
      · cases hc; rfl
      · exact writeReturn_data _ _ _ _ _ hc
    · intro hc
      simp only [WriteFloat32Array] at hc
      split_ifs at hc
      · cases hc; rfl
      · cases hc; rfl
      · exact writeReturn_data _ _ _ _ _ hc


/-- C34 fails where `char` is a signed type: `interposeWrite` prints the
elements of its `const char` array with `%02X`, and a byte from `0x80` on is
then a negative `int`, printed as eight digits `FFFFFFxx`, of which the next
`sprintf` leaves the first two.  The memory read request
`80 00 02 00 6C 00 00 FE 00 04 01 01 82 00 64 00 00 02` goes out as
`@00FA000000000` `0101` `FF` `0064` `00` `0002` `77*` and carriage return,
the area code `82` replaced by `FF`; with an unsigned `char` it goes out with
`82` and the checksum `7D`.  The request of the comment in the source, whose
bytes from position 10 on are `06 01`, gives `@00FA0000000000601` `70*` on
both.  In general, for a request of `N` bytes, `10 ≤ N ≤ 1000`, on a platform
with an unsigned `char`, or with no byte from `0x80` on behind the header,
the frame is the header, two upper-case hexadecimal digits for each of the
bytes 10 to `N - 1`, the two digits of the exclusive or `k` of all these
characters, `*` and carriage return, and `N` is reported as written. -/
theorem interpose_write_signed_char :
    Interpose.interposeWrite true (fun _ => asynSuccess) Interpose.memoryRequest 18
      = some ⟨asynSuccess, [0x80, 0x00, 0x02, 0x00, 0x6C, 0x00, 0x00, 0xFE, 0x00, 0x04],
          str "@00FA000000000" ++ str "0101" ++ str "FF" ++ str "0064" ++ str "00"
            ++ str "0002" ++ str "77" ++ [42, 13], 18⟩ ∧
    Interpose.interposeWrite false (fun _ => asynSuccess) Interpose.memoryRequest 18
      = some ⟨asynSuccess, [0x80, 0x00, 0x02, 0x00, 0x6C, 0x00, 0x00, 0xFE, 0x00, 0x04],
          str "@00FA000000000" ++ str "0101" ++ str "82" ++ str "0064" ++ str "00"
            ++ str "0002" ++ str "7D" ++ [42, 13], 18⟩ ∧
    Interpose.interposeWrite true (fun _ => asynSuccess) Interpose.sampleRequest 12
      = some ⟨asynSuccess, [0x80, 0x00, 0x02, 0x00, 0x6C, 0x00, 0x00, 0xFE, 0x00, 0x04],
          str "@00FA000000000" ++ str "0601" ++ str "70" ++ [42, 13], 12⟩ ∧
    Interpose.interposeWrite false (fun _ => asynSuccess) Interpose.sampleRequest 12
      = some ⟨asynSuccess, [0x80, 0x00, 0x02, 0x00, 0x6C, 0x00, 0x00, 0xFE, 0x00, 0x04],
          str "@00FA000000000" ++ str "0601" ++ str "70" ++ [42, 13], 12⟩ ∧
    (∀ (charSigned : Bool) (port : List Nat → Nat) (data : List Nat) (N : Nat),
      10 ≤ N → N ≤ 1000 →
      (charSigned = false ∨ ∀ i, i < N - 10 → data.getD (10 + i) 0 % 256 < 128) →
      ∃ body k,
        body = str "@00FA000000000" ++ ((List.range (N - 10)).map (fun i =>
          [digitChar true (data.getD (10 + i) 0 % 256 / 16),
            digitChar true (data.getD (10 + i) 0 % 256 % 16)])).flatten ∧
        k = body.foldl (fun k c => k ^^^ c) 0 ∧ k < 256 ∧
        Interpose.interposeWrite charSigned port data N
          = some ⟨port (body ++ [digitChar true (k / 16), digitChar true (k % 16), 42, 13]),
              data.take 10,
              body ++ [digitChar true (k / 16), digitChar true (k % 16), 42, 13], N⟩) := by
  refine ⟨rfl, rfl, rfl, rfl, ?_⟩
  intro cs port data N h10 hN hok
  obtain ⟨hk, hw⟩ := interposeWrite_spec cs port data N h10 hN hok
  refine ⟨_, _, rfl, rfl, hk, ?_⟩
  rw [hw, fmt_02X _ hk]
  simp only [List.append_assoc, List.cons_append, List.nil_append]


/-- C32 fails for the reads: `ReadInt32` lets the reason `FINS_CT_WRITE`
through (it is among the reasons "called at initialisation by write
methods"), and `BuildReadMessage` has no case for it, so that a read passed
by the entry point takes the `no such command` branch of the builder:
`finsRead` returns -1 and `ReadInt32` `asynError`, the transport not having
been called.  The same holds for `FINS_CT_WRITE_32`. -/
theorem read_filter_passes_unbuilt_reason :
    ReadInt32Switch FINS_CT_WRITE = true ∧ ReadInt32Switch FINS_CT_WRITE_32 = true ∧
    BuildReadMessage hostLE [] (session0 FINS_UDP_type) FINS_CT_WRITE 0 1
      = BuildResult.err (InitHeader (session0 FINS_UDP_type)) ∧
    BuildReadMessage hostLE [] (session0 FINS_UDP_type) FINS_CT_WRITE_32 0 1
      = BuildResult.err (InitHeader (session0 FINS_UDP_type)) ∧
    ReadInt32 hostLE (replyTransport replyHeader) [] (session0 FINS_UDP_type) []
        FINS_CT_WRITE asynSuccess 0 7
      = some ⟨asynError, InitHeader (session0 FINS_UDP_type), [], [7], 0⟩ := by
  have hb : ∀ p : drvPvt, BuildReadMessage hostLE [] p FINS_CT_WRITE 0 1
      = BuildResult.err (InitHeader p) := fun _ => rfl
  have hb32 : ∀ p : drvPvt, BuildReadMessage hostLE [] p FINS_CT_WRITE_32 0 1
      = BuildResult.err (InitHeader p) := fun _ => rfl
  refine ⟨rfl, rfl, hb _, hb32 _, ?_⟩
  have hf := finsRead_unbuilt hostLE (replyTransport replyHeader) [] (session0 FINS_UDP_type) []
    FINS_CT_WRITE [7] 1 (toAddress 0) 0 4 (le_refl _) (by decide) _ (hb _)
  simp only [ReadInt32]
  rw [if_neg (by decide), show ReadInt32Switch FINS_CT_WRITE = true from rfl]
  simp only [Bool.not_true, Bool.false_eq_true, if_false, ONE_ELEMENT, hf]
  rw [if_pos (by decide)]

/-- C32 as the code has it.  Every reason for which `BuildReadMessage`
succeeds has a case in the extraction switch of `finsRead`, whose default
branch is therefore not taken after a validated reply.  Every reason
accepted by a write function (`octetWrite`, `WriteInt32`, `WriteFloat64`,
`WriteInt16Array`, `WriteInt32Array`, `WriteFloat32Array`) is built by
`BuildWriteMessage`, in every state and for every address, count, element
size and data.  Every reason accepted by `octetRead`, `ReadFloat64`,
`ReadInt16Array`, `ReadInt32Array` or `ReadFloat32Array` has a case in
`BuildReadMessage`, which does not return -1 for it.  Of the reasons
accepted by `ReadInt32`, `BuildReadMessage` returns -1 for `FINS_CT_WRITE`
and `FINS_CT_WRITE_32` and for no other; for these two `ReadInt32` returns
`asynError`, on a session that needs no handshake without any call of the
transport. -/
theorem command_switches_sync (h : Host) :
    (∀ (mmList : List MultiMemArea) (p : drvPvt) (r : FINS_COMMANDS) (a n : Nat) (p' : drvPvt)
        (S R : Nat), BuildReadMessage h mmList p r a n = BuildResult.ok p' S R →
      ∀ (m data : List Nat) (asz : Nat), ∃ d, extractData h m r data n asz = some d) ∧
    (∀ r : FINS_COMMANDS,
      (octetWriteSwitch r = true ∨ WriteInt32Switch r = true ∨ WriteFloat64Switch r = true ∨
        (∃ p n, WriteInt16ArraySwitch p r n = true) ∨
        (∃ p n, WriteInt32ArraySwitch h p r n = true) ∨
        (∃ p n, WriteFloat32ArraySwitch h p r n = true)) →
      ∀ (q : drvPvt) (a n asz : Nat) (data : List Nat),
        ∃ p' S R, BuildWriteMessage h q r a n asz data = BuildResult.ok p' S R) ∧
    (∀ r : FINS_COMMANDS,
      ((∃ maxchars, octetReadSwitch r maxchars = true) ∨ ReadFloat64Switch r = true ∨
        (∃ mmList p addr n, ReadInt16ArraySwitch mmList p r addr n = true) ∨
        (∃ p n, ReadInt32ArraySwitch h p r n = true) ∨
        (∃ p n, ReadFloat32ArraySwitch h p r n = true)) →
      ∀ (mmList : List MultiMemArea) (q : drvPvt) (a n : Nat),
        ¬ ∃ q', BuildReadMessage h mmList q r a n = BuildResult.err q') ∧
    (∀ r : FINS_COMMANDS, ReadInt32Switch r = true →
      ∀ (mmList : List MultiMemArea) (q : drvPvt) (a n : Nat),
        ((∃ q', BuildReadMessage h mmList q r a n = BuildResult.err q') ↔
          (r = FINS_CT_WRITE ∨ r = FINS_CT_WRITE_32))) ∧
    (∀ (tr : Transport) (mmList : List MultiMemArea) (p : drvPvt) (log : List IOEvent)
        (r : FINS_COMMANDS) (addr : Int) (value : Nat),
      r = FINS_CT_WRITE ∨ r = FINS_CT_WRITE_32 →
      ¬ (p.type = FINS_TCP_type ∧ p.nodevalid ≠ 1) →
      ReadInt32 h tr mmList p log r asynSuccess addr value
        = some ⟨asynError, InitHeader p, log, [value], 0⟩) := by
  refine ⟨?_, ?_, ?_, ?_, ?_⟩
  · intro mmList p r a n p' S R hb m data asz
    exact BuildReadMessage_extract h mmList p r a n p' S R hb m data asz
  · intro r hacc q a n asz data
    apply BuildWriteMessage_isOk
    by_contra hr
    have hr' : ∀ l : List FINS_COMMANDS, (∀ x ∈ l, x ∈ [FINS_DM_WRITE, FINS_DM_WRITE_NOREAD,
        FINS_AR_WRITE, FINS_AR_WRITE_NOREAD, FINS_IO_WRITE, FINS_IO_WRITE_NOREAD,
        FINS_CYCLE_TIME_RESET, FINS_DM_WRITE_32, FINS_DM_WRITE_32_NOREAD, FINS_AR_WRITE_32,
        FINS_AR_WRITE_32_NOREAD, FINS_IO_WRITE_32, FINS_IO_WRITE_32_NOREAD,
        FINS_SET_RESET_CANCEL]) → r ∉ l := fun l hl hx => hr (hl r hx)
    rcases hacc with e | e | e | ⟨p, n', e⟩ | ⟨p, n', e⟩ | ⟨p, n', e⟩
    · rw [octetWriteSwitch_rejects (hr' _ (by decide))] at e; cases e
    · rw [WriteInt32Switch_rejects (hr' _ (by decide))] at e; cases e
    · rw [WriteFloat64Switch_rejects (hr' _ (by decide))] at e; cases e
    · rw [WriteInt16ArraySwitch_rejects (hr' _ (by decide))] at e; cases e
    · rw [WriteInt32ArraySwitch_rejects (hr' _ (by decide))] at e; cases e
    · rw [WriteFloat32ArraySwitch_rejects (hr' _ (by decide))] at e; cases e
  · intro r hacc mmList q a n
    rw [BuildReadMessage_err_iff, readSwitch_err_iff, not_not]
    by_contra hr
    have hr' : ∀ l : List FINS_COMMANDS, (∀ x ∈ l, x ∈ [FINS_DM_READ, FINS_AR_READ,
        FINS_IO_READ, FINS_WR_READ, FINS_HR_READ, FINS_DM_WRITE, FINS_AR_WRITE, FINS_IO_WRITE,
        FINS_DM_READ_32, FINS_AR_READ_32, FINS_IO_READ_32, FINS_DM_WRITE_32, FINS_AR_WRITE_32,
        FINS_IO_WRITE_32, FINS_MODEL, FINS_CPU_STATUS, FINS_CPU_MODE, FINS_CYCLE_TIME,
        FINS_CYCLE_TIME_MEAN, FINS_CYCLE_TIME_MAX, FINS_CYCLE_TIME_MIN, FINS_CLOCK_READ,
        FINS_MM_READ]) → r ∉ l := fun l hl hx => hr (hl r hx)
    rcases hacc with ⟨mc, e⟩ | e | ⟨ml, p, ad, n', e⟩ | ⟨p, n', e⟩ | ⟨p, n', e⟩
    · rw [octetReadSwitch_rejects (hr' _ (by decide))] at e; cases e
    · rw [ReadFloat64Switch_rejects (hr' _ (by decide))] at e; cases e
    · rw [ReadInt16ArraySwitch_rejects (hr' _ (by decide))] at e; cases e
    · rw [ReadInt32ArraySwitch_rejects (hr' _ (by decide))] at e; cases e
    · rw [ReadFloat32ArraySwitch_rejects (hr' _ (by decide))] at e; cases e
  · intro r hacc mmList q a n
    rw [BuildReadMessage_err_iff, readSwitch_err_iff]
    cases r <;> first | (exfalso; revert hacc; decide) | decide
  · intro tr mmList p log r addr value hr hreg
    have hb : BuildReadMessage h mmList p r (toAddress addr % 65536) 1
        = BuildResult.err (InitHeader p) := by
      rcases hr with rfl | rfl <;> rfl
    have hf := finsRead_unbuilt h tr mmList p log r [value] 1 (toAddress addr) 0 4 (le_refl _)
      hreg _ hb
    have hs : ReadInt32Switch r = true := by rcases hr with rfl | rfl <;> rfl
    simp only [ReadInt32]
    rw [if_neg (by decide), hs]
    simp only [Bool.not_true, Bool.false_eq_true, if_false, ONE_ELEMENT, hf]
    rw [if_pos (by decide)]


/-- The header and the `switch` of `BuildReadMessage` with `rest` behind the
scratch buffer. -/
theorem readStage_behind (h : Host) (mmList : List MultiMemArea) (p : drvPvt)
    (hl : p.message.length = FINS_MAX_MSG) (rest : List Nat) (r : FINS_COMMANDS) (a n : Nat)
    (hr : r ∈ [FINS_DM_READ, FINS_AR_READ, FINS_IO_READ, FINS_WR_READ, FINS_HR_READ,
        FINS_DM_READ_32, FINS_AR_READ_32, FINS_IO_READ_32, FINS_CLOCK_READ, FINS_CYCLE_TIME]
      ∨ (r = FINS_MM_READ ∧ n ≤ 10)) :
    readSwitch h mmList (InitHeader (p.behind rest)) r a n
      = (readSwitch h mmList (InitHeader p) r a n).behind rest := by
  have hl' : p.message.length = 2000 := hl
  obtain ⟨-, -, -, -, -, -, -, i8⟩ := InitHeader_keeps p
  rw [InitHeader_behind p rest (by omega)]
  refine readSwitch_behind h mmList (InitHeader p) rest r a n (by rw [i8]; omega) ?_
  rcases hr with hr | ⟨hr, hn⟩
  · exact Or.inl hr
  · exact Or.inr ⟨hr, by rw [i8]; omega⟩

/-- The header and the `switch` of `BuildWriteMessage` with `rest` behind the
scratch buffer. -/
theorem writeStage_behind (h : Host) (p : drvPvt) (hl : p.message.length = FINS_MAX_MSG)
    (rest : List Nat) (r : FINS_COMMANDS) (a n asz : Nat) (data : List Nat)
    (hr : (r ∈ [FINS_DM_WRITE, FINS_AR_WRITE, FINS_IO_WRITE] ∧ asz = 2 ∧ n ≤ 950)
      ∨ (r ∈ [FINS_DM_WRITE_32, FINS_AR_WRITE_32, FINS_IO_WRITE_32] ∧ 2 * n ≤ 950)) :
    writeSwitch h (InitHeader (p.behind rest)) r a n asz data
      = (writeSwitch h (InitHeader p) r a n asz data).behind rest := by
  have hl' : p.message.length = 2000 := hl
  obtain ⟨-, -, -, -, -, -, -, i8⟩ := InitHeader_keeps p
  rw [InitHeader_behind p rest (by omega)]
  refine writeSwitch_behind h (InitHeader p) rest r a n asz data ?_
  rcases hr with ⟨hr, ha, hn⟩ | ⟨hr, hn⟩
  · exact Or.inl ⟨hr, ha, by rw [i8]; omega⟩
  · exact Or.inr ⟨hr, by rw [i8]; omega⟩

/-- C33: for a request an array function accepts, the send length `S` and
the expected receive length `R` that the builder computes, which on a TCP
session include the `off = 16` bytes of the FINS/TCP header, are at most
`FINS_MAX_MSG = 2000`, the size of the scratch buffer, and the builder and
the decoder stay inside that buffer.  With `n` the number of elements: a
16-bit memory read has `S = 18 + off`, `R = 14 + 2n + off`, a 16-bit memory
write `S = 18 + 2n + off`, `R = 14 + off`, the 32-bit ones the same with
`4n`, the clock read `12 + off` and `21 + off`, the cycle time read
`13 + off` and `26 + off`, and a multiple-area read `S = 12 + 4k + off`,
`R = 14 + 3k + off` for some `k ≤ n ≤ 10`.  The request handed to the
transport, `S` bytes from the start of the buffer, is there in full.  That no
byte behind the buffer is written or read is stated with any bytes `rest`
placed behind it: the header and the `switch` of the builder, which hold every
store whose index depends on the request, leave `rest` as it is (the common
tail stores the command codes, the session id and, on TCP, moves
`sizeof(message) - 16` bytes and stores the 16 header bytes), and the
extraction from a buffer of 2000 bytes does not depend on `rest`.  For the
32-bit functions the array of `n` elements lies in the address space,
`4n < 2 ^ sizeBits` (the size test is made on `2n` reduced to `size_t`).  For
the multiple-area read the entry is found whenever the asyn address is not
negative; when it is not found (a negative address passes the test of
`ReadInt16Array`), `BuildReadMessage` faults on the null entry with no length
computed and nothing stored. -/
theorem array_requests_fit_buffer (h : Host) (hs : 17 ≤ h.sizeBits)
    (mmList : List MultiMemArea) (p : drvPvt) (hl : p.message.length = FINS_MAX_MSG)
    (off : Nat) (hoff : off = if p.type = FINS_TCP_type then FINS_SEND_FRAME_SIZE else 0)
    (r : FINS_COMMANDS) (addr : Int) (a n : Nat) (data rest : List Nat) :
    (ReadInt16ArraySwitch mmList p r addr n = true → r ≠ FINS_MM_READ →
      ∃ p' S R, BuildReadMessage h mmList p r a n = BuildResult.ok p' S R ∧
        S = (if r = FINS_CLOCK_READ then 12 else 18) + off ∧
        R = (if r = FINS_CLOCK_READ then 21 else 14 + 2 * n) + off ∧
        S ≤ FINS_MAX_MSG ∧ R ≤ FINS_MAX_MSG ∧ p'.message.length = FINS_MAX_MSG ∧
        (p'.message.take S).length = S ∧
        readSwitch h mmList (InitHeader (p.behind rest)) r a n
          = (readSwitch h mmList (InitHeader p) r a n).behind rest ∧
        ∀ m, m.length = FINS_MAX_MSG →
          extractData h (m ++ rest) r data n 2 = extractData h m r data n 2) ∧
    (ReadInt16ArraySwitch mmList p FINS_MM_READ addr n = true →
      (0 ≤ addr → ∃ MM, ellNth mmList (sizeT h (toAddress addr % 65536 + 1)) = some MM) ∧
      (1 ≤ n → ellNth mmList (sizeT h (toAddress addr % 65536 + 1)) = none →
        BuildReadMessage h mmList p FINS_MM_READ (toAddress addr % 65536) n
          = BuildResult.fault) ∧
      (∀ MM, ellNth mmList (sizeT h (toAddress addr % 65536 + 1)) = some MM →
        MM.area.length = FINS_MM_MAX_ADDRS → MM.address.length = FINS_MM_MAX_ADDRS →
        ∃ p' S R k, BuildReadMessage h mmList p FINS_MM_READ (toAddress addr % 65536) n
            = BuildResult.ok p' S R ∧
          k ≤ n ∧ n ≤ 10 ∧ S = 12 + 4 * k + off ∧ R = 14 + 3 * k + off ∧
          S ≤ FINS_MAX_MSG ∧ R ≤ FINS_MAX_MSG ∧ p'.message.length = FINS_MAX_MSG ∧
          (p'.message.take S).length = S ∧
          readSwitch h mmList (InitHeader (p.behind rest)) FINS_MM_READ
              (toAddress addr % 65536) n
            = (readSwitch h mmList (InitHeader p) FINS_MM_READ
              (toAddress addr % 65536) n).behind rest ∧
          ∀ m, m.length = FINS_MAX_MSG →
            extractData h (m ++ rest) FINS_MM_READ data n 2
              = extractData h m FINS_MM_READ data n 2)) ∧
    (WriteInt16ArraySwitch p r n = true →
      ∃ p' S R, BuildWriteMessage h p r a n 2 data = BuildResult.ok p' S R ∧
        S = 18 + 2 * n + off ∧ R = 14 + off ∧
        S ≤ FINS_MAX_MSG ∧ R ≤ FINS_MAX_MSG ∧ p'.message.length = FINS_MAX_MSG ∧
        (p'.message.take S).length = S ∧
        writeSwitch h (InitHeader (p.behind rest)) r a n 2 data
          = (writeSwitch h (InitHeader p) r a n 2 data).behind rest) ∧
    (4 * n < 2 ^ h.sizeBits →
      ReadInt32ArraySwitch h p r n = true ∨ ReadFloat32ArraySwitch h p r n = true →
      ∃ p' S R, BuildReadMessage h mmList p r a n = BuildResult.ok p' S R ∧
        S = (if r = FINS_CYCLE_TIME then 13 else 18) + off ∧
        R = (if r = FINS_CYCLE_TIME then 26 else 14 + 4 * n) + off ∧
        S ≤ FINS_MAX_MSG ∧ R ≤ FINS_MAX_MSG ∧ p'.message.length = FINS_MAX_MSG ∧
        (p'.message.take S).length = S ∧
        readSwitch h mmList (InitHeader (p.behind rest)) r a n
          = (readSwitch h mmList (InitHeader p) r a n).behind rest ∧
        ∀ m, m.length = FINS_MAX_MSG →
          extractData h (m ++ rest) r data n 4 = extractData h m r data n 4) ∧
    (4 * n < 2 ^ h.sizeBits →
      WriteInt32ArraySwitch h p r n = true ∨ WriteFloat32ArraySwitch h p r n = true →
      ∃ p' S R, BuildWriteMessage h p r a n 4 data = BuildResult.ok p' S R ∧
        S = 18 + 4 * n + off ∧ R = 14 + off ∧
        S ≤ FINS_MAX_MSG ∧ R ≤ FINS_MAX_MSG ∧ p'.message.length = FINS_MAX_MSG ∧
        (p'.message.take S).length = S ∧
        writeSwitch h (InitHeader (p.behind rest)) r a n 4 data
          = (writeSwitch h (InitHeader p) r a n 4 data).behind rest) := by
  have hs16 : 16 ≤ h.sizeBits := by omega
  have hoff' : off = if p.type = FINS_TCP_type then 16 else 0 := hoff
  have ho : off ≤ 16 := by rw [hoff']; split <;> omega
  have hM : FINS_MAX_MSG = 2000 := rfl
  have htake : ∀ (q : drvPvt) (S : Nat), q.message.length = FINS_MAX_MSG → S ≤ FINS_MAX_MSG →
      (q.message.take S).length = S := by
    intro q S hq hS
    rw [List.length_take, hq]
    omega
  refine ⟨?_, ?_, ?_, ?_, ?_⟩
  · intro hacc hmm
    have hr : r ∈ [FINS_DM_READ, FINS_AR_READ, FINS_IO_READ, FINS_WR_READ, FINS_HR_READ,
        FINS_CLOCK_READ] := by
      by_contra hc
      have hc' : r ∉ [FINS_DM_READ, FINS_AR_READ, FINS_IO_READ, FINS_WR_READ, FINS_HR_READ,
          FINS_CLOCK_READ, FINS_MM_READ] := by
        simp only [List.mem_cons, List.mem_singleton, List.not_mem_nil, or_false] at hc ⊢
        tauto
      rw [ReadInt16ArraySwitch_rejects hc'] at hacc
      cases hacc
    by_cases hck : r = FINS_CLOCK_READ
    · subst hck
      have hn : n = 7 := by
        simp only [ReadInt16ArraySwitch, FINS_CLOCK_READ_LEN] at hacc
        by_contra hc
        simp [hc] at hacc
      obtain ⟨q, hq, -⟩ := readSwitch_fixed h mmList (InitHeader p) FINS_CLOCK_READ a n 12 21
        0x07 0x01 (by simp)
      obtain ⟨p', hb, hlen⟩ := BuildReadMessage_lengths h hs16 mmList p FINS_CLOCK_READ a n q
        12 21 hq hl (by decide) (by decide)
      rw [← hoff'] at hb
      refine ⟨p', _, _, hb, by rw [if_pos rfl], by rw [if_pos rfl], by omega, by omega, hlen,
        htake p' _ hlen (by omega), readStage_behind h mmList p hl rest _ a n (Or.inl (by simp)),
        fun m hm => extractData_behind h m rest _ data n 2 (Or.inr (Or.inr (Or.inl
          ⟨rfl, by rw [hm, hM]; omega⟩)))⟩
    · have hr5 : r ∈ [FINS_DM_READ, FINS_AR_READ, FINS_IO_READ, FINS_WR_READ, FINS_HR_READ] := by
        simp only [List.mem_cons, List.mem_singleton, List.not_mem_nil, or_false] at hr ⊢
        tauto
      have ht : tooBig p n = false := by
        simp only [List.mem_cons, List.mem_singleton, List.not_mem_nil, or_false] at hr5
        rcases hr5 with rfl | rfl | rfl | rfl | rfl <;>
          (simp only [ReadInt16ArraySwitch] at hacc
           cases hb : tooBig p n
           · rfl
           · rw [hb] at hacc; simp at hacc)
      obtain ⟨t1, -⟩ := tooBig_false p n ht
      obtain ⟨p', hb, hlen⟩ := BuildReadMessage_mem16_fit h hs16 mmList p hl r a n t1 hr5
      rw [← hoff'] at hb
      refine ⟨p', _, _, hb, by rw [if_neg hck], by rw [if_neg hck], by omega, by omega, hlen,
        htake p' _ hlen (by omega), readStage_behind h mmList p hl rest r a n (Or.inl (by
          simp only [List.mem_cons, List.mem_singleton, List.not_mem_nil, or_false] at hr5 ⊢
          tauto)),
        fun m hm => extractData_behind h m rest r data n 2 (Or.inl
          ⟨hr5, by rw [hm, hM]; omega⟩)⟩
  · intro hacc
    have hn : n ≤ 10 := by
      simp only [ReadInt16ArraySwitch, FINS_MM_MAX_ADDRS] at hacc
      by_contra hc
      have : n > 10 := by omega
      simp [this] at hacc
    have hlt : addr < (mmList.length : Int) := by
      simp only [ReadInt16ArraySwitch] at hacc
      by_contra hc
      have hge : addr ≥ (mmList.length : Int) := by omega
      simp [hge] at hacc
    refine ⟨fun h0 => ?_, fun h1 hnone => ?_, fun MM hMM hA hD => ?_⟩
    · obtain ⟨MM, hMM, -⟩ := ellNth_in_range h hs mmList addr h0 hlt
      exact ⟨MM, hMM⟩
    · exact BuildReadMessage_mm_fault h mmList p _ n (by omega) hnone
    · obtain ⟨k, p', hb, k1, -, -, -, -, -, -, hlen, -⟩ :=
        BuildReadMessage_mm h hs16 mmList p _ n off MM hl hoff hMM hA hD hn
      refine ⟨p', _, _, k, hb, k1, hn, rfl, rfl, by omega, by omega, hlen,
        htake p' _ hlen (by omega),
        readStage_behind h mmList p hl rest _ _ n (Or.inr ⟨rfl, hn⟩),
        fun m hm => extractData_behind h m rest _ data n 2 (Or.inr (Or.inr (Or.inr
          ⟨rfl, by rw [hm, hM]; omega⟩)))⟩
  · intro hacc
    have hr : r ∈ [FINS_DM_WRITE, FINS_AR_WRITE, FINS_IO_WRITE] := by
      by_contra hc
      rw [WriteInt16ArraySwitch_rejects hc] at hacc
      cases hacc
    have ht : tooBig p n = false := by
      simp only [List.mem_cons, List.mem_singleton, List.not_mem_nil, or_false] at hr
      rcases hr with rfl | rfl | rfl <;>
        (simp only [WriteInt16ArraySwitch] at hacc
         cases hb : tooBig p n
         · rfl
         · rw [hb] at hacc; simp at hacc)
    obtain ⟨t1, -⟩ := tooBig_false p n ht
    obtain ⟨p', hb, hlen⟩ := BuildWriteMessage_mem16_fit h hs16 p hl r a n data t1 hr
    rw [← hoff'] at hb
    exact ⟨p', _, _, hb, rfl, rfl, by omega, by omega, hlen, htake p' _ hlen (by omega),
      writeStage_behind h p hl rest r a n 2 data (Or.inl ⟨hr, rfl, t1⟩)⟩
  · intro hreal hacc
    have e2 := sizeT_words h n hreal
    have hr : r ∈ [FINS_DM_READ_32, FINS_AR_READ_32, FINS_IO_READ_32, FINS_CYCLE_TIME] := by
      by_contra hc
      rcases hacc with e | e
      · rw [ReadInt32ArraySwitch_rejects hc] at e
        cases e
      · have hc' : r ∉ [FINS_DM_READ_32, FINS_AR_READ_32] := by
          simp only [List.mem_cons, List.mem_singleton, List.not_mem_nil, or_false] at hc ⊢
          tauto
        rw [ReadFloat32ArraySwitch_rejects hc'] at e
        cases e
    by_cases hck : r = FINS_CYCLE_TIME
    · subst hck
      have hn : n = 3 := by
        rcases hacc with e | e
        · simp only [ReadInt32ArraySwitch, FINS_CYCLE_TIME_LEN] at e
          by_contra hc
          simp [hc] at e
        · cases e
      obtain ⟨q, hq, -⟩ := readSwitch_fixed h mmList (InitHeader p) FINS_CYCLE_TIME a n 13 26
        0x06 0x20 (by simp)
      obtain ⟨p', hb, hlen⟩ := BuildReadMessage_lengths h hs16 mmList p FINS_CYCLE_TIME a n q
        13 26 hq hl (by decide) (by decide)
      rw [← hoff'] at hb
      refine ⟨p', _, _, hb, by rw [if_pos rfl], by rw [if_pos rfl], by omega, by omega, hlen,
        htake p' _ hlen (by omega), readStage_behind h mmList p hl rest _ a n (Or.inl (by simp)),
        fun m hm => extractData_behind h m rest _ data n 4 (Or.inr (Or.inl
          ⟨by simp, by rw [hm, hM]; omega⟩))⟩
    · have hr3 : r ∈ [FINS_DM_READ_32, FINS_AR_READ_32, FINS_IO_READ_32] := by
        simp only [List.mem_cons, List.mem_singleton, List.not_mem_nil, or_false] at hr ⊢
        tauto
      have ht : tooBig p (2 * n) = false := by
        rw [← e2]
        simp only [List.mem_cons, List.mem_singleton, List.not_mem_nil, or_false] at hr3
        cases hb : tooBig p (sizeT h (n * 2))
        · rfl
        · exfalso
          rcases hacc with e | e <;> rcases hr3 with rfl | rfl | rfl <;>
            simp [ReadInt32ArraySwitch, ReadFloat32ArraySwitch, hb] at e
      obtain ⟨t1, -⟩ := tooBig_false p (2 * n) ht
      obtain ⟨p', hb, hlen⟩ := BuildReadMessage_mem32_fit h hs16 mmList p hl r a n t1 hr3
      rw [← hoff'] at hb
      refine ⟨p', _, _, hb, by rw [if_neg hck], by rw [if_neg hck], by omega, by omega, hlen,
        htake p' _ hlen (by omega), readStage_behind h mmList p hl rest r a n (Or.inl (by
          simp only [List.mem_cons, List.mem_singleton, List.not_mem_nil, or_false] at hr3 ⊢
          tauto)),
        fun m hm => extractData_behind h m rest r data n 4 (Or.inr (Or.inl
          ⟨hr, by rw [hm, hM]; omega⟩))⟩
  · intro hreal hacc
    have e2 := sizeT_words h n hreal
    have hr : r ∈ [FINS_DM_WRITE_32, FINS_AR_WRITE_32, FINS_IO_WRITE_32] := by
      by_contra hc
      rcases hacc with e | e
      · rw [WriteInt32ArraySwitch_rejects hc] at e
        cases e
      · have hc' : r ∉ [FINS_DM_WRITE_32, FINS_AR_WRITE_32] := by
          simp only [List.mem_cons, List.mem_singleton, List.not_mem_nil, or_false] at hc ⊢
          tauto
        rw [WriteFloat32ArraySwitch_rejects hc'] at e
        cases e
    have ht : tooBig p (2 * n) = false := by
      rw [← e2]
      simp only [List.mem_cons, List.mem_singleton, List.not_mem_nil, or_false] at hr
      cases hb : tooBig p (sizeT h (n * 2))
      · rfl
      · exfalso
        rcases hacc with e | e <;> rcases hr with rfl | rfl | rfl <;>
          simp [WriteInt32ArraySwitch, WriteFloat32ArraySwitch, hb] at e
    obtain ⟨t1, -⟩ := tooBig_false p (2 * n) ht
    obtain ⟨p', hb, hlen⟩ := BuildWriteMessage_mem32_fit h hs16 p hl r a n data t1 hr
    rw [← hoff'] at hb
    exact ⟨p', _, _, hb, rfl, rfl, by omega, by omega, hlen, htake p' _ hlen (by omega),
      writeStage_behind h p hl rest r a n 4 data (Or.inr ⟨hr, t1⟩)⟩

/-- Witness for C33 on the sample TCP session, with the bytes `AA BB` behind
the buffer: the largest 16-bit read, 950 words, has the lengths 34 and 1930;
the largest 32-bit write, 475 elements, has the lengths 1934 and 30; both
leave `AA BB` as it is, and the extraction of 950 words does not depend on
it. -/
theorem array_requests_fit_buffer_witness :
    17 ≤ hostLE.sizeBits ∧ 4 * 475 < 2 ^ hostLE.sizeBits ∧
    ReadInt16ArraySwitch [] (session0 FINS_TCP_type) FINS_DM_READ 0 950 = true ∧
    WriteInt32ArraySwitch hostLE (session0 FINS_TCP_type) FINS_DM_WRITE_32 475 = true ∧
    (∃ p', BuildReadMessage hostLE [] (session0 FINS_TCP_type) FINS_DM_READ 100 950
        = BuildResult.ok p' 34 1930 ∧ p'.message.length = FINS_MAX_MSG ∧
      readSwitch hostLE [] (InitHeader ((session0 FINS_TCP_type).behind [0xAA, 0xBB]))
          FINS_DM_READ 100 950
        = (readSwitch hostLE [] (InitHeader (session0 FINS_TCP_type))
          FINS_DM_READ 100 950).behind [0xAA, 0xBB] ∧
      ∀ m, m.length = FINS_MAX_MSG →
        extractData hostLE (m ++ [0xAA, 0xBB]) FINS_DM_READ (List.replicate 950 0) 950 2
          = extractData hostLE m FINS_DM_READ (List.replicate 950 0) 950 2) ∧
    (∃ p', BuildWriteMessage hostLE (session0 FINS_TCP_type) FINS_DM_WRITE_32 100 475 4
          (List.replicate 475 0x11223344)
        = BuildResult.ok p' 1934 30 ∧ p'.message.length = FINS_MAX_MSG ∧
      writeSwitch hostLE (InitHeader ((session0 FINS_TCP_type).behind [0xAA, 0xBB]))
          FINS_DM_WRITE_32 100 475 4 (List.replicate 475 0x11223344)
        = (writeSwitch hostLE (InitHeader (session0 FINS_TCP_type))
          FINS_DM_WRITE_32 100 475 4 (List.replicate 475 0x11223344)).behind [0xAA, 0xBB]) := by
  have hsw1 : ReadInt16ArraySwitch [] (session0 FINS_TCP_type) FINS_DM_READ 0 950 = true := rfl
  have hsw2 : WriteInt32ArraySwitch hostLE (session0 FINS_TCP_type) FINS_DM_WRITE_32 475
      = true := by decide
  refine ⟨by decide, by decide, hsw1, hsw2, ?_, ?_⟩
  · obtain ⟨p', S, R, hb, hS, hR, -, -, hlen, -, hfr, hex⟩ :=
      (array_requests_fit_buffer hostLE (by decide) [] (session0 FINS_TCP_type)
        (session0_length _) 16 rfl FINS_DM_READ 0 100 950 (List.replicate 950 0)
        [0xAA, 0xBB]).1 hsw1 (by decide)
    subst hS hR
    exact ⟨p', hb, hlen, hfr, hex⟩
  · obtain ⟨p', S, R, hb, hS, hR, -, -, hlen, -, hfr⟩ :=
      (array_requests_fit_buffer hostLE (by decide) [] (session0 FINS_TCP_type)
        (session0_length _) 16 rfl FINS_DM_WRITE_32 0 100 475 (List.replicate 475 0x11223344)
        [0xAA, 0xBB]).2.2.2.2 (by decide) (Or.inl hsw2)
    subst hS hR
    exact ⟨p', hb, hlen, hfr⟩

end FINS
